import Mathlib

/-!
# Adrastea-I AT command catalogue (ATProprietary.c, ATSMS.c)

Shallow embedding of the command functions of
`WE_Adrastea_cellular_connectivity/Adrastea/ATCommands/ATProprietary.c` and
`.../ATSMS.c`, and theorems about the request text they compose and the
responses they decode.

A C string is a `List Char`: the characters in front of its terminating NUL.
The shared command buffer `AT_commandBuffer` and the counter
`AdrasteaI_optionalParamsDelimCount` are the two fields of `Globals`; a
composer receives their initial values and returns their final values.
-/

namespace Adrastea

/-! ## Constants of headers that are not part of the sources -/

/-- The timeout classes the two files name (`AdrasteaI_Timeout_t` of AdrasteaI.h). -/
inductive AdrasteaI_Timeout_t where
  | AdrasteaI_Timeout_Proprietary
  | AdrasteaI_Timeout_SMS
deriving DecidableEq, Repr

/-- Values fixed by headers that are not among the sources (ATCommands.h, ATCommon.h,
ATProprietary.h, ATSMS.h, AdrasteaI.h): the size of the shared command buffer, the
`..._Invalid` markers of the optional parameters, the two event states, the durations
of the timeout classes and the scan bound of the integer decoder. Every definition
below takes them as a parameter, so every theorem holds whatever their values are. -/
structure Header where
  /-- Capacity, in bytes, of `AT_commandBuffer`. -/
  commandBufferSize : Nat
  AdrasteaI_ATProprietary_RAT_Storage_Invalid : Nat
  AdrasteaI_ATProprietary_RAT_Source_Invalid : Nat
  AdrasteaI_ATProprietary_IP_Addr_Format_Invalid : Nat
  AdrasteaI_ATProprietary_Ping_Packet_Count_Invalid : Nat
  AdrasteaI_ATProprietary_Ping_Packet_Size_Invalid : Nat
  AdrasteaI_ATProprietary_Ping_Timeout_Invalid : Nat
  AdrasteaI_ATSMS_Storage_Location_Invalid : Nat
  AdrasteaI_ATSMS_Address_Type_Invalid : Nat
  AdrasteaI_ATCommon_Event_State_Enable : Nat
  AdrasteaI_ATCommon_Event_State_Disable : Nat
  /-- Duration, in milliseconds, that `AdrasteaI_GetTimeout` maps a timeout class to. -/
  AdrasteaI_GetTimeout : AdrasteaI_Timeout_t → Nat
  /-- Longest integer token the decoder scans before it gives up (the bounded span of
  spec 4.1). -/
  integerTokenMaxLength : Nat
  /-- Size, in bytes, of the field `addr` of `AdrasteaI_ATProprietary_Domain_Name_Resolve_Result_t`. -/
  sizeof_Domain_Name_Resolve_Result_addr : Nat
  /-- Size, in bytes, of the field `addr` of `AdrasteaI_ATProprietary_Ping_Result_t`. -/
  sizeof_Ping_Result_addr : Nat
  /-- Size, in bytes, of `AdrasteaI_ATProprietary_File_Name_t`. -/
  sizeof_File_Name : Nat
  /-- Size, in bytes, of `AdrasteaI_ATCommon_APN_Name_t`. -/
  sizeof_APN_Name : Nat
  /-- Size, in bytes, of the field `address` of `AdrasteaI_ATSMS_Service_Center_Address_t`. -/
  sizeof_Service_Center_Address_address : Nat
  /-- Size, in bytes, of the field `address` of `AdrasteaI_ATSMS_Message_t`. -/
  sizeof_Message_address : Nat
  /-- Size, in bytes, of the field `payload` of `AdrasteaI_ATSMS_Message_t`. -/
  sizeof_Message_payload : Nat

/-- Modelled from the spec: the argument delimiter of the wire format
("comma-delimited argument tokens"); the macro itself is in ATCommands.h. -/
def ATCOMMAND_ARGUMENT_DELIM : Char := ','

/-- Modelled from the spec: the terminator passed instead of a delimiter when nothing
is to follow the value. The composers store it into the buffer to cut the text short
(`pRequestCommand[...] = ATCOMMAND_STRING_TERMINATE`), so it is the NUL that ends a C
string. -/
def ATCOMMAND_STRING_TERMINATE : Char := Char.ofNat 0

/-- Modelled from the spec: the line end CR LF that terminates a request line. -/
def ATCOMMAND_CRLF : List Char := [Char.ofNat 13, Char.ofNat 10]

/-- Modelled from the spec: the empty field emitted for an omitted parameter. -/
def ATCOMMAND_STRING_EMPTY : List Char := []

/-- Modelled from the spec: the quote character wrapped around a quoted string. -/
def ATCOMMAND_QUOTE : Char := Char.ofNat 34

/-- The two globals the command functions share. The counter is a `Nat`: no composer
raises it above 5, so the width of its C type plays no part. -/
structure Globals where
  AT_commandBuffer : List Char
  AdrasteaI_optionalParamsDelimCount : Nat
deriving DecidableEq, Repr

/-- Why a composer does not reach `AdrasteaI_SendRequest`. -/
inductive Abort where
  /-- A step reported failure and the command function returned `false`. -/
  | returnedFalse
  /-- An index outside the table or the buffer was used: undefined in C. -/
  | outOfBounds
deriving DecidableEq, Repr

deriving instance DecidableEq for Except

/-! ## Tables (ATProprietary.c 37-47, ATSMS.c 37-41) -/

def AdrasteaI_ATProprietary_RAT_Strings : List (List Char) :=
  ["DEFAULT".toList, "CATM".toList, "NBIOT".toList]

def AdrasteaI_ATProprietary_IP_Addr_Format_Strings : List (List Char) :=
  ["IP".toList, "IPV6".toList, "IPV4V6".toList]

def AdrasteaI_ATSMS_Message_State_Strings : List (List Char) :=
  ["REC UNREAD".toList, "REC READ".toList, "STO UNSENT".toList, "STO SENT".toList, "ALL".toList]

def AdrasteaI_ATSMS_Storage_Location_Strings : List (List Char) :=
  ["BM".toList, "ME".toList, "MT".toList, "SM".toList, "TA".toList, "SR".toList]

/-- The C expression `table[index]`; reading outside the array is undefined. -/
def tableEntry (table : List (List Char)) (index : Nat) : Except Abort (List Char) :=
  match table[index]? with
  | some s => .ok s
  | none => .error .outOfBounds

/-! ## Argument codec, encode side -/

/-- What a delimiter argument adds to the text: nothing for the string terminator,
the character itself otherwise. -/
def delimiterText (delimiter : Char) : List Char :=
  if delimiter = ATCOMMAND_STRING_TERMINATE then [] else [delimiter]

/-- Modelled from the spec: `ATCommand_AppendArgumentString` of ATCommands.c, which is
not among the sources. It appends the text and then the delimiter (or nothing for the
terminator) and fails if the result, with its terminating NUL, would overflow the
buffer. -/
def ATCommand_AppendArgumentString (h : Header) (pOutString pInArgument : List Char)
    (delimiter : Char) : Except Abort (List Char) :=
  let text := pOutString ++ pInArgument ++ delimiterText delimiter
  if text.length < h.commandBufferSize then .ok text else .error .returnedFalse

/-- Modelled from the spec: `ATCommand_AppendArgumentStringQuotationMarks` of
ATCommands.c, which is not among the sources. It behaves like
`ATCommand_AppendArgumentString` and additionally wraps the value in quote characters. -/
def ATCommand_AppendArgumentStringQuotationMarks (h : Header)
    (pOutString pInArgument : List Char) (delimiter : Char) : Except Abort (List Char) :=
  let text := pOutString ++ [ATCOMMAND_QUOTE] ++ pInArgument ++ [ATCOMMAND_QUOTE]
    ++ delimiterText delimiter
  if text.length < h.commandBufferSize then .ok text else .error .returnedFalse

/-- Modelled from the spec: `ATCommand_AppendArgumentInt` of ATCommands.c, which is not
among the sources, at the flags `ATCOMMAND_INTFLAGS_UNSIGNED | ATCOMMAND_INTFLAGS_NOTATION_DEC`
that every call in ATProprietary.c and ATSMS.c passes: the unsigned decimal text of the
value, then the delimiter. -/
def ATCommand_AppendArgumentInt (h : Header) (pOutString : List Char) (value : Nat)
    (delimiter : Char) : Except Abort (List Char) :=
  ATCommand_AppendArgumentString h pOutString (Nat.toDigits 10 value) delimiter

/-- The statement
`pRequestCommand[strlen(pRequestCommand) - AdrasteaI_optionalParamsDelimCount] = ATCOMMAND_STRING_TERMINATE`:
the last `count` characters are cut off; an index in front of the buffer is undefined. -/
def truncateAtCount (pRequestCommand : List Char) (count : Nat) : Except Abort (List Char) :=
  if count ≤ pRequestCommand.length then
    .ok (pRequestCommand.take (pRequestCommand.length - count))
  else .error .outOfBounds

/-! ## ATProprietary.c: request composition -/

/-- Request of `AdrasteaI_ATProprietary_ReadNetworkAttachmentState` (ATProprietary.c 63). -/
def AdrasteaI_ATProprietary_ReadNetworkAttachmentState_request : List Char :=
  "AT%CMATT?\r\n".toList

/-- Request composition of `AdrasteaI_ATProprietary_SetNetworkAttachmentState`
(ATProprietary.c 92-106). -/
def AdrasteaI_ATProprietary_SetNetworkAttachmentState_request (h : Header) (g : Globals)
    (state : Nat) : Except Abort Globals := do
  let mut pRequestCommand := g.AT_commandBuffer
  pRequestCommand := "AT%CMATT=".toList
  pRequestCommand ← ATCommand_AppendArgumentInt h pRequestCommand state
    ATCOMMAND_STRING_TERMINATE
  pRequestCommand ← ATCommand_AppendArgumentString h pRequestCommand ATCOMMAND_CRLF
    ATCOMMAND_STRING_TERMINATE
  return { g with AT_commandBuffer := pRequestCommand }

/-- Request of `AdrasteaI_ATProprietary_ReadRemainingPINPUKAttempts` (ATProprietary.c 135). -/
def AdrasteaI_ATProprietary_ReadRemainingPINPUKAttempts_request : List Char :=
  "AT%CPININFO\r\n".toList

/-- Request composition of `AdrasteaI_ATProprietary_SwitchToRATWithoutFullReboot`
(ATProprietary.c 183-227). -/
def AdrasteaI_ATProprietary_SwitchToRATWithoutFullReboot_request (h : Header) (g : Globals)
    (rat storage source : Nat) : Except Abort Globals := do
  let mut count := g.AdrasteaI_optionalParamsDelimCount
  let mut pRequestCommand := g.AT_commandBuffer
  count := 1
  pRequestCommand := "AT%RATACT=".toList
  let s ← tableEntry AdrasteaI_ATProprietary_RAT_Strings rat
  pRequestCommand ← ATCommand_AppendArgumentStringQuotationMarks h pRequestCommand s
    ATCOMMAND_ARGUMENT_DELIM
  if storage ≠ h.AdrasteaI_ATProprietary_RAT_Storage_Invalid then
    pRequestCommand ← ATCommand_AppendArgumentInt h pRequestCommand storage
      ATCOMMAND_ARGUMENT_DELIM
    count := 1
  else
    pRequestCommand ← ATCommand_AppendArgumentString h pRequestCommand ATCOMMAND_STRING_EMPTY
      ATCOMMAND_ARGUMENT_DELIM
    count := count + 1
  if source ≠ h.AdrasteaI_ATProprietary_RAT_Source_Invalid then
    pRequestCommand ← ATCommand_AppendArgumentInt h pRequestCommand source
      ATCOMMAND_STRING_TERMINATE
    count := 0
  pRequestCommand ← truncateAtCount pRequestCommand count
  pRequestCommand ← ATCommand_AppendArgumentString h pRequestCommand ATCOMMAND_CRLF
    ATCOMMAND_STRING_TERMINATE
  return { AT_commandBuffer := pRequestCommand, AdrasteaI_optionalParamsDelimCount := count }

/-- Request of `AdrasteaI_ATProprietary_ReadRATStatus` (ATProprietary.c 256). -/
def AdrasteaI_ATProprietary_ReadRATStatus_request : List Char :=
  "AT%RATACT?\r\n".toList

/-- Request composition of `AdrasteaI_ATProprietary_SetBootDelay` (ATProprietary.c 295-309). -/
def AdrasteaI_ATProprietary_SetBootDelay_request (h : Header) (g : Globals)
    (delay : Nat) : Except Abort Globals := do
  let mut pRequestCommand := g.AT_commandBuffer
  pRequestCommand := "AT%SETBDELAY=".toList
  pRequestCommand ← ATCommand_AppendArgumentInt h pRequestCommand delay
    ATCOMMAND_STRING_TERMINATE
  pRequestCommand ← ATCommand_AppendArgumentString h pRequestCommand ATCOMMAND_CRLF
    ATCOMMAND_STRING_TERMINATE
  return { g with AT_commandBuffer := pRequestCommand }

/-- Request composition of `AdrasteaI_ATProprietary_ResolveDomainName`
(ATProprietary.c 335-367). -/
def AdrasteaI_ATProprietary_ResolveDomainName_request (h : Header) (g : Globals)
    (sessionid : Nat) (domain : List Char) (format : Nat) : Except Abort Globals := do
  let mut count := g.AdrasteaI_optionalParamsDelimCount
  let mut pRequestCommand := g.AT_commandBuffer
  count := 1
  pRequestCommand := "AT%DNSRSLV=".toList
  pRequestCommand ← ATCommand_AppendArgumentInt h pRequestCommand sessionid
    ATCOMMAND_ARGUMENT_DELIM
  pRequestCommand ← ATCommand_AppendArgumentStringQuotationMarks h pRequestCommand domain
    ATCOMMAND_ARGUMENT_DELIM
  if format ≠ h.AdrasteaI_ATProprietary_IP_Addr_Format_Invalid then
    pRequestCommand ← ATCommand_AppendArgumentInt h pRequestCommand format
      ATCOMMAND_STRING_TERMINATE
    count := 0
  pRequestCommand ← truncateAtCount pRequestCommand count
  pRequestCommand ← ATCommand_AppendArgumentString h pRequestCommand ATCOMMAND_CRLF
    ATCOMMAND_STRING_TERMINATE
  return { AT_commandBuffer := pRequestCommand, AdrasteaI_optionalParamsDelimCount := count }

/-- Request composition of `AdrasteaI_ATProprietary_Ping` (ATProprietary.c 427-493). -/
def AdrasteaI_ATProprietary_Ping_request (h : Header) (g : Globals)
    (format : Nat) (destaddr : List Char) (packetcount packetsize timeout : Nat) :
    Except Abort Globals := do
  let mut count := g.AdrasteaI_optionalParamsDelimCount
  let mut pRequestCommand := g.AT_commandBuffer
  count := 1
  pRequestCommand := "AT%PINGCMD=".toList
  pRequestCommand ← ATCommand_AppendArgumentInt h pRequestCommand format
    ATCOMMAND_ARGUMENT_DELIM
  pRequestCommand ← ATCommand_AppendArgumentStringQuotationMarks h pRequestCommand destaddr
    ATCOMMAND_ARGUMENT_DELIM
  if packetcount ≠ h.AdrasteaI_ATProprietary_Ping_Packet_Count_Invalid then
    pRequestCommand ← ATCommand_AppendArgumentInt h pRequestCommand packetcount
      ATCOMMAND_ARGUMENT_DELIM
    count := 1
  else
    pRequestCommand ← ATCommand_AppendArgumentString h pRequestCommand ATCOMMAND_STRING_EMPTY
      ATCOMMAND_ARGUMENT_DELIM
    count := count + 1
  if packetsize ≠ h.AdrasteaI_ATProprietary_Ping_Packet_Size_Invalid then
    pRequestCommand ← ATCommand_AppendArgumentInt h pRequestCommand packetsize
      ATCOMMAND_ARGUMENT_DELIM
    count := 1
  else
    pRequestCommand ← ATCommand_AppendArgumentString h pRequestCommand ATCOMMAND_STRING_EMPTY
      ATCOMMAND_ARGUMENT_DELIM
    count := count + 1
  if timeout ≠ h.AdrasteaI_ATProprietary_Ping_Timeout_Invalid then
    pRequestCommand ← ATCommand_AppendArgumentInt h pRequestCommand timeout
      ATCOMMAND_STRING_TERMINATE
    count := 0
  pRequestCommand ← truncateAtCount pRequestCommand count
  pRequestCommand ← ATCommand_AppendArgumentString h pRequestCommand ATCOMMAND_CRLF
    ATCOMMAND_STRING_TERMINATE
  return { AT_commandBuffer := pRequestCommand, AdrasteaI_optionalParamsDelimCount := count }

/-- Request composition of `AdrasteaI_ATProprietary_ReadCredential`
(ATProprietary.c 566-578), after the check of the output pointer. -/
def AdrasteaI_ATProprietary_ReadCredential_request (h : Header) (g : Globals)
    (filename : List Char) : Except Abort Globals := do
  let mut pRequestCommand := g.AT_commandBuffer
  pRequestCommand := "AT%CERTCMD=\"READ\",".toList
  pRequestCommand ← ATCommand_AppendArgumentStringQuotationMarks h pRequestCommand filename
    ATCOMMAND_STRING_TERMINATE
  pRequestCommand ← ATCommand_AppendArgumentString h pRequestCommand ATCOMMAND_CRLF
    ATCOMMAND_STRING_TERMINATE
  return { g with AT_commandBuffer := pRequestCommand }

/-- Request composition of `AdrasteaI_ATProprietary_WriteCredential`
(ATProprietary.c 611-635). -/
def AdrasteaI_ATProprietary_WriteCredential_request (h : Header) (g : Globals)
    (filename : List Char) (format : Nat) (data : List Char) : Except Abort Globals := do
  let mut pRequestCommand := g.AT_commandBuffer
  pRequestCommand := "AT%CERTCMD=\"WRITE\",".toList
  pRequestCommand ← ATCommand_AppendArgumentStringQuotationMarks h pRequestCommand filename
    ATCOMMAND_ARGUMENT_DELIM
  pRequestCommand ← ATCommand_AppendArgumentInt h pRequestCommand format
    ATCOMMAND_ARGUMENT_DELIM
  pRequestCommand ← ATCommand_AppendArgumentStringQuotationMarks h pRequestCommand data
    ATCOMMAND_STRING_TERMINATE
  pRequestCommand ← ATCommand_AppendArgumentString h pRequestCommand ATCOMMAND_CRLF
    ATCOMMAND_STRING_TERMINATE
  return { g with AT_commandBuffer := pRequestCommand }

/-- Request of `AdrasteaI_ATProprietary_ListCredentials` (ATProprietary.c 666). -/
def AdrasteaI_ATProprietary_ListCredentials_request : List Char :=
  "AT%CERTCMD=\"DIR\"\r\n".toList

/-- Request composition of `AdrasteaI_ATProprietary_DeleteCredential`
(ATProprietary.c 715-729). -/
def AdrasteaI_ATProprietary_DeleteCredential_request (h : Header) (g : Globals)
    (filename : List Char) : Except Abort Globals := do
  let mut pRequestCommand := g.AT_commandBuffer
  pRequestCommand := "AT%CERTCMD=\"DELETE\",".toList
  pRequestCommand ← ATCommand_AppendArgumentStringQuotationMarks h pRequestCommand filename
    ATCOMMAND_STRING_TERMINATE
  pRequestCommand ← ATCommand_AppendArgumentString h pRequestCommand ATCOMMAND_CRLF
    ATCOMMAND_STRING_TERMINATE
  return { g with AT_commandBuffer := pRequestCommand }

/-- Request of `AdrasteaI_ATProprietary_ListTLSProfiles` (ATProprietary.c 758). -/
def AdrasteaI_ATProprietary_ListTLSProfiles_request : List Char :=
  "AT%CERTCFG?\r\n".toList

/-- Request composition of `AdrasteaI_ATProprietary_AddTLSProfile`
(ATProprietary.c 827-934). In the branch for the pre-shared key (914-927) the source
appends `ATCOMMAND_STRING_EMPTY` twice; `pskID` and `pskKey` are only tested for
emptiness. -/
def AdrasteaI_ATProprietary_AddTLSProfile_request (h : Header) (g : Globals)
    (profileID : Nat) (CA CAPath deviceCert deviceKey pskID pskKey : List Char) :
    Except Abort Globals := do
  let mut count := g.AdrasteaI_optionalParamsDelimCount
  let mut pRequestCommand := g.AT_commandBuffer
  count := 1
  pRequestCommand := "AT%CERTCFG=\"ADD\",".toList
  pRequestCommand ← ATCommand_AppendArgumentInt h pRequestCommand profileID
    ATCOMMAND_ARGUMENT_DELIM
  if CA.length ≠ 0 then
    pRequestCommand ← ATCommand_AppendArgumentStringQuotationMarks h pRequestCommand CA
      ATCOMMAND_ARGUMENT_DELIM
    count := 1
    if CAPath.length ≠ 0 then
      pRequestCommand ← ATCommand_AppendArgumentStringQuotationMarks h pRequestCommand CAPath
        ATCOMMAND_ARGUMENT_DELIM
      count := 1
    else
      pRequestCommand ← ATCommand_AppendArgumentString h pRequestCommand
        ATCOMMAND_STRING_EMPTY ATCOMMAND_ARGUMENT_DELIM
      count := count + 1
  else
    pRequestCommand ← ATCommand_AppendArgumentString h pRequestCommand ATCOMMAND_STRING_EMPTY
      ATCOMMAND_ARGUMENT_DELIM
    count := count + 1
    pRequestCommand ← ATCommand_AppendArgumentString h pRequestCommand ATCOMMAND_STRING_EMPTY
      ATCOMMAND_ARGUMENT_DELIM
    count := count + 1
  if deviceCert.length ≠ 0 ∧ deviceKey.length ≠ 0 then
    pRequestCommand ← ATCommand_AppendArgumentStringQuotationMarks h pRequestCommand deviceCert
      ATCOMMAND_ARGUMENT_DELIM
    pRequestCommand ← ATCommand_AppendArgumentStringQuotationMarks h pRequestCommand deviceKey
      ATCOMMAND_ARGUMENT_DELIM
    count := 1
  else
    pRequestCommand ← ATCommand_AppendArgumentString h pRequestCommand ATCOMMAND_STRING_EMPTY
      ATCOMMAND_ARGUMENT_DELIM
    count := count + 1
    pRequestCommand ← ATCommand_AppendArgumentString h pRequestCommand ATCOMMAND_STRING_EMPTY
      ATCOMMAND_ARGUMENT_DELIM
    count := count + 1
  if pskID.length ≠ 0 ∧ pskKey.length ≠ 0 then
    pRequestCommand ← ATCommand_AppendArgumentString h pRequestCommand ATCOMMAND_STRING_EMPTY
      ATCOMMAND_ARGUMENT_DELIM
    pRequestCommand ← ATCommand_AppendArgumentString h pRequestCommand ATCOMMAND_STRING_EMPTY
      ATCOMMAND_STRING_TERMINATE
    count := 0
  pRequestCommand ← truncateAtCount pRequestCommand count
  pRequestCommand ← ATCommand_AppendArgumentString h pRequestCommand ATCOMMAND_CRLF
    ATCOMMAND_STRING_TERMINATE
  return { AT_commandBuffer := pRequestCommand, AdrasteaI_optionalParamsDelimCount := count }

/-- Request composition of `AdrasteaI_ATProprietary_DeleteTLSProfile`
(ATProprietary.c 956-970). -/
def AdrasteaI_ATProprietary_DeleteTLSProfile_request (h : Header) (g : Globals)
    (profileID : Nat) : Except Abort Globals := do
  let mut pRequestCommand := g.AT_commandBuffer
  pRequestCommand := "AT%CERTCFG=\"DELETE\",".toList
  pRequestCommand ← ATCommand_AppendArgumentInt h pRequestCommand profileID
    ATCOMMAND_STRING_TERMINATE
  pRequestCommand ← ATCommand_AppendArgumentString h pRequestCommand ATCOMMAND_CRLF
    ATCOMMAND_STRING_TERMINATE
  return { g with AT_commandBuffer := pRequestCommand }

/-- The argument of `AdrasteaI_ATProprietary_SetPDNParameters`: the fields of
`AdrasteaI_ATProprietary_PDN_Parameters_t` the function reads. -/
structure AdrasteaI_ATProprietary_PDN_Parameters_t where
  sessionID : Nat
  apnName : List Char
  ipFormat : Nat
deriving DecidableEq, Repr

/-- Request composition of `AdrasteaI_ATProprietary_SetPDNParameters`
(ATProprietary.c 992-1036). -/
def AdrasteaI_ATProprietary_SetPDNParameters_request (h : Header) (g : Globals)
    (parameters : AdrasteaI_ATProprietary_PDN_Parameters_t) : Except Abort Globals := do
  let mut count := g.AdrasteaI_optionalParamsDelimCount
  let mut pRequestCommand := g.AT_commandBuffer
  count := 1
  pRequestCommand := "AT%PDNSET=".toList
  pRequestCommand ← ATCommand_AppendArgumentInt h pRequestCommand parameters.sessionID
    ATCOMMAND_ARGUMENT_DELIM
  if parameters.apnName.length ≠ 0 then
    pRequestCommand ← ATCommand_AppendArgumentStringQuotationMarks h pRequestCommand
      parameters.apnName ATCOMMAND_ARGUMENT_DELIM
    count := 1
  else
    pRequestCommand ← ATCommand_AppendArgumentString h pRequestCommand ATCOMMAND_STRING_EMPTY
      ATCOMMAND_ARGUMENT_DELIM
    count := count + 1
  if parameters.ipFormat ≠ h.AdrasteaI_ATProprietary_IP_Addr_Format_Invalid then
    let s ← tableEntry AdrasteaI_ATProprietary_IP_Addr_Format_Strings parameters.ipFormat
    pRequestCommand ← ATCommand_AppendArgumentStringQuotationMarks h pRequestCommand s
      ATCOMMAND_STRING_TERMINATE
    count := 0
  pRequestCommand ← truncateAtCount pRequestCommand count
  pRequestCommand ← ATCommand_AppendArgumentString h pRequestCommand ATCOMMAND_CRLF
    ATCOMMAND_STRING_TERMINATE
  return { AT_commandBuffer := pRequestCommand, AdrasteaI_optionalParamsDelimCount := count }

/-- Request of `AdrasteaI_ATProprietary_ReadPDNParameters` (ATProprietary.c 1065). -/
def AdrasteaI_ATProprietary_ReadPDNParameters_request : List Char :=
  "AT%PDNSET?\r\n".toList

/-! ## ATSMS.c: request composition -/

/-- Request composition of `AdrasteaI_ATSMS_DeleteMessage` (ATSMS.c 50-64). -/
def AdrasteaI_ATSMS_DeleteMessage_request (h : Header) (g : Globals)
    (index : Nat) : Except Abort Globals := do
  let mut pRequestCommand := g.AT_commandBuffer
  pRequestCommand := "AT+CMGD=".toList
  pRequestCommand ← ATCommand_AppendArgumentInt h pRequestCommand index
    ATCOMMAND_STRING_TERMINATE
  pRequestCommand ← ATCommand_AppendArgumentString h pRequestCommand ATCOMMAND_CRLF
    ATCOMMAND_STRING_TERMINATE
  return { g with AT_commandBuffer := pRequestCommand }

/-- Request of `AdrasteaI_ATSMS_DeleteAllMessages` (ATSMS.c 86). -/
def AdrasteaI_ATSMS_DeleteAllMessages_request : List Char :=
  "AT+CMGD=0,4\r\n".toList

/-- Request composition of `AdrasteaI_ATSMS_ListMessages` (ATSMS.c 106-120). -/
def AdrasteaI_ATSMS_ListMessages_request (h : Header) (g : Globals)
    (listType : Nat) : Except Abort Globals := do
  let mut pRequestCommand := g.AT_commandBuffer
  pRequestCommand := "AT+CMGL=".toList
  let s ← tableEntry AdrasteaI_ATSMS_Message_State_Strings listType
  pRequestCommand ← ATCommand_AppendArgumentStringQuotationMarks h pRequestCommand s
    ATCOMMAND_STRING_TERMINATE
  pRequestCommand ← ATCommand_AppendArgumentString h pRequestCommand ATCOMMAND_CRLF
    ATCOMMAND_STRING_TERMINATE
  return { g with AT_commandBuffer := pRequestCommand }

/-- Request composition of `AdrasteaI_ATSMS_ReadMessage` (ATSMS.c 142-156). -/
def AdrasteaI_ATSMS_ReadMessage_request (h : Header) (g : Globals)
    (index : Nat) : Except Abort Globals := do
  let mut pRequestCommand := g.AT_commandBuffer
  pRequestCommand := "AT+CMGR=".toList
  pRequestCommand ← ATCommand_AppendArgumentInt h pRequestCommand index
    ATCOMMAND_STRING_TERMINATE
  pRequestCommand ← ATCommand_AppendArgumentString h pRequestCommand ATCOMMAND_CRLF
    ATCOMMAND_STRING_TERMINATE
  return { g with AT_commandBuffer := pRequestCommand }

/-- Request composition of `AdrasteaI_ATSMS_SetMessageStorageLocations`
(ATSMS.c 182-226): the globals at the call of `AdrasteaI_SendRequest`. -/
def AdrasteaI_ATSMS_SetMessageStorageLocations_request (h : Header) (g : Globals)
    (readDeleteStorage writeSendStorage receiveStorage : Nat) : Except Abort Globals := do
  let mut count := g.AdrasteaI_optionalParamsDelimCount
  let mut pRequestCommand := g.AT_commandBuffer
  count := 1
  pRequestCommand := "AT+CPMS=".toList
  let s ← tableEntry AdrasteaI_ATSMS_Storage_Location_Strings readDeleteStorage
  pRequestCommand ← ATCommand_AppendArgumentStringQuotationMarks h pRequestCommand s
    ATCOMMAND_ARGUMENT_DELIM
  if writeSendStorage ≠ h.AdrasteaI_ATSMS_Storage_Location_Invalid then
    let s ← tableEntry AdrasteaI_ATSMS_Storage_Location_Strings writeSendStorage
    pRequestCommand ← ATCommand_AppendArgumentStringQuotationMarks h pRequestCommand s
      ATCOMMAND_ARGUMENT_DELIM
    count := 1
  else
    pRequestCommand ← ATCommand_AppendArgumentString h pRequestCommand ATCOMMAND_STRING_EMPTY
      ATCOMMAND_ARGUMENT_DELIM
    count := count + 1
  if receiveStorage ≠ h.AdrasteaI_ATSMS_Storage_Location_Invalid then
    let s ← tableEntry AdrasteaI_ATSMS_Storage_Location_Strings receiveStorage
    pRequestCommand ← ATCommand_AppendArgumentStringQuotationMarks h pRequestCommand s
      ATCOMMAND_STRING_TERMINATE
    count := 0
  pRequestCommand ← truncateAtCount pRequestCommand count
  pRequestCommand ← ATCommand_AppendArgumentString h pRequestCommand ATCOMMAND_CRLF
    ATCOMMAND_STRING_TERMINATE
  return { AT_commandBuffer := pRequestCommand, AdrasteaI_optionalParamsDelimCount := count }

/-- Request of `AdrasteaI_ATSMS_ReadMessageStorageUsage` (ATSMS.c 255). -/
def AdrasteaI_ATSMS_ReadMessageStorageUsage_request : List Char :=
  "AT+CPMS?\r\n".toList

/-- The argument of `AdrasteaI_ATSMS_SetServiceCenterAddress`
(`AdrasteaI_ATSMS_Service_Center_Address_t`). -/
structure AdrasteaI_ATSMS_Service_Center_Address_t where
  address : List Char
  addressType : Nat
deriving DecidableEq, Repr

/-- Request composition of `AdrasteaI_ATSMS_SetServiceCenterAddress` (ATSMS.c 324-351). -/
def AdrasteaI_ATSMS_SetServiceCenterAddress_request (h : Header) (g : Globals)
    (serviceCenterAddress : AdrasteaI_ATSMS_Service_Center_Address_t) :
    Except Abort Globals := do
  let mut count := g.AdrasteaI_optionalParamsDelimCount
  let mut pRequestCommand := g.AT_commandBuffer
  count := 1
  pRequestCommand := "AT+CSCA=".toList
  pRequestCommand ← ATCommand_AppendArgumentStringQuotationMarks h pRequestCommand
    serviceCenterAddress.address ATCOMMAND_ARGUMENT_DELIM
  if serviceCenterAddress.addressType ≠ h.AdrasteaI_ATSMS_Address_Type_Invalid then
    pRequestCommand ← ATCommand_AppendArgumentInt h pRequestCommand
      serviceCenterAddress.addressType ATCOMMAND_STRING_TERMINATE
    count := 0
  pRequestCommand ← truncateAtCount pRequestCommand count
  pRequestCommand ← ATCommand_AppendArgumentString h pRequestCommand ATCOMMAND_CRLF
    ATCOMMAND_STRING_TERMINATE
  return { AT_commandBuffer := pRequestCommand, AdrasteaI_optionalParamsDelimCount := count }

/-- Request of `AdrasteaI_ATSMS_ReadServiceCenterAddress` (ATSMS.c 380). -/
def AdrasteaI_ATSMS_ReadServiceCenterAddress_request : List Char :=
  "AT+CSCA?\r\n".toList

/-- Request composition of `AdrasteaI_ATSMS_SendMessage` (ATSMS.c 427-462), after the
check of the output pointer. -/
def AdrasteaI_ATSMS_SendMessage_request (h : Header) (g : Globals)
    (address : List Char) (addressType : Nat) (message : List Char) :
    Except Abort Globals := do
  let mut count := g.AdrasteaI_optionalParamsDelimCount
  let mut pRequestCommand := g.AT_commandBuffer
  count := 1
  pRequestCommand := "AT+CMGS=".toList
  pRequestCommand ← ATCommand_AppendArgumentStringQuotationMarks h pRequestCommand address
    ATCOMMAND_ARGUMENT_DELIM
  if addressType ≠ h.AdrasteaI_ATSMS_Address_Type_Invalid then
    pRequestCommand ← ATCommand_AppendArgumentInt h pRequestCommand addressType
      ATCOMMAND_STRING_TERMINATE
    count := 0
  pRequestCommand ← truncateAtCount pRequestCommand count
  pRequestCommand ← ATCommand_AppendArgumentString h pRequestCommand "\r".toList
    ATCOMMAND_STRING_TERMINATE
  pRequestCommand ← ATCommand_AppendArgumentString h pRequestCommand message
    ATCOMMAND_STRING_TERMINATE
  pRequestCommand ← ATCommand_AppendArgumentString h pRequestCommand "\x1A".toList
    ATCOMMAND_STRING_TERMINATE
  return { AT_commandBuffer := pRequestCommand, AdrasteaI_optionalParamsDelimCount := count }

/-- Request composition of `AdrasteaI_ATSMS_SendLargeMessage` (ATSMS.c 511-546), after
the check of the output pointer. -/
def AdrasteaI_ATSMS_SendLargeMessage_request (h : Header) (g : Globals)
    (address : List Char) (addressType : Nat) (message : List Char) :
    Except Abort Globals := do
  let mut count := g.AdrasteaI_optionalParamsDelimCount
  let mut pRequestCommand := g.AT_commandBuffer
  count := 1
  pRequestCommand := "AT%CMGSC=".toList
  pRequestCommand ← ATCommand_AppendArgumentStringQuotationMarks h pRequestCommand address
    ATCOMMAND_ARGUMENT_DELIM
  if addressType ≠ h.AdrasteaI_ATSMS_Address_Type_Invalid then
    pRequestCommand ← ATCommand_AppendArgumentInt h pRequestCommand addressType
      ATCOMMAND_STRING_TERMINATE
    count := 0
  pRequestCommand ← truncateAtCount pRequestCommand count
  pRequestCommand ← ATCommand_AppendArgumentString h pRequestCommand "\r".toList
    ATCOMMAND_STRING_TERMINATE
  pRequestCommand ← ATCommand_AppendArgumentString h pRequestCommand message
    ATCOMMAND_STRING_TERMINATE
  pRequestCommand ← ATCommand_AppendArgumentString h pRequestCommand "\x1A".toList
    ATCOMMAND_STRING_TERMINATE
  return { AT_commandBuffer := pRequestCommand, AdrasteaI_optionalParamsDelimCount := count }

/-- Request composition of `AdrasteaI_ATSMS_WriteMessageToStorage` (ATSMS.c 595-630),
after the check of the output pointer. -/
def AdrasteaI_ATSMS_WriteMessageToStorage_request (h : Header) (g : Globals)
    (address : List Char) (addressType : Nat) (message : List Char) :
    Except Abort Globals := do
  let mut count := g.AdrasteaI_optionalParamsDelimCount
  let mut pRequestCommand := g.AT_commandBuffer
  count := 1
  pRequestCommand := "AT+CMGW=".toList
  pRequestCommand ← ATCommand_AppendArgumentStringQuotationMarks h pRequestCommand address
    ATCOMMAND_ARGUMENT_DELIM
  if addressType ≠ h.AdrasteaI_ATSMS_Address_Type_Invalid then
    pRequestCommand ← ATCommand_AppendArgumentInt h pRequestCommand addressType
      ATCOMMAND_STRING_TERMINATE
    count := 0
  pRequestCommand ← truncateAtCount pRequestCommand count
  pRequestCommand ← ATCommand_AppendArgumentString h pRequestCommand "\r".toList
    ATCOMMAND_STRING_TERMINATE
  pRequestCommand ← ATCommand_AppendArgumentString h pRequestCommand message
    ATCOMMAND_STRING_TERMINATE
  pRequestCommand ← ATCommand_AppendArgumentString h pRequestCommand "\x1A".toList
    ATCOMMAND_STRING_TERMINATE
  return { AT_commandBuffer := pRequestCommand, AdrasteaI_optionalParamsDelimCount := count }

/-- Request composition of `AdrasteaI_ATSMS_SendMessageFromStorage` (ATSMS.c 675-687),
after the check of the output pointer. -/
def AdrasteaI_ATSMS_SendMessageFromStorage_request (h : Header) (g : Globals)
    (index : Nat) : Except Abort Globals := do
  let mut pRequestCommand := g.AT_commandBuffer
  pRequestCommand := "AT+CMSS=".toList
  pRequestCommand ← ATCommand_AppendArgumentInt h pRequestCommand index
    ATCOMMAND_STRING_TERMINATE
  pRequestCommand ← ATCommand_AppendArgumentString h pRequestCommand ATCOMMAND_CRLF
    ATCOMMAND_STRING_TERMINATE
  return { g with AT_commandBuffer := pRequestCommand }

/-- Request of `AdrasteaI_ATSMS_SetSMSUnsolicitedNotificationEvents` (ATSMS.c 718-740):
the `switch` over the event state; the default case returns `false`. -/
def AdrasteaI_ATSMS_SetSMSUnsolicitedNotificationEvents_request (h : Header)
    (eventState : Nat) : Except Abort (List Char) :=
  if eventState = h.AdrasteaI_ATCommon_Event_State_Enable then
    .ok "AT+CNMI=2,1\r\n".toList
  else if eventState = h.AdrasteaI_ATCommon_Event_State_Disable then
    .ok "AT+CNMI=1,0\r\n".toList
  else .error .returnedFalse

/-! ## Argument codec, decode side -/

/-- The token that starts at the cursor: the characters from the cursor up to the next
occurrence of the delimiter, or up to the end of the text when there is none (for the
string terminator there never is one). -/
def tokenAt (text : List Char) (cursor : Nat) (delimiter : Char) : List Char :=
  (text.drop cursor).takeWhile (fun c => c ≠ delimiter)

/-- The cursor after a token: past the delimiter that ended it, or at the end of the
text when the token ran to the end. -/
def cursorAfter (text : List Char) (cursor : Nat) (delimiter : Char) : Nat :=
  let next := cursor + (tokenAt text cursor delimiter).length
  if next < text.length then next + 1 else next

/-- The value of a decimal digit character. -/
def digitValue (c : Char) : Nat := c.toNat - 48

/-- The value of an unsigned decimal token; a token that is empty or has a character
that is not a decimal digit is not a valid integer. -/
def decimalValue (token : List Char) : Option Nat :=
  if token ≠ [] ∧ token.all Char.isDigit = true then
    some (token.foldl (fun acc c => 10 * acc + digitValue c) 0)
  else none

/-- Modelled from the spec: `ATCommand_GetNextArgumentInt` of ATCommands.c, which is not
among the sources, at the flags `ATCOMMAND_INTFLAGS_UNSIGNED` with a size flag of `bits`
bits, the only flags the two files pass on decode. It scans the token at the cursor,
fails if the scan exceeds the bounded span, if the token is not a valid unsigned decimal
integer or if the value overflows the target width, and otherwise returns the value and
the advanced cursor. -/
def ATCommand_GetNextArgumentInt (h : Header) (text : List Char) (cursor : Nat) (bits : Nat)
    (delimiter : Char) : Option (Nat × Nat) :=
  let token := tokenAt text cursor delimiter
  if token.length ≤ h.integerTokenMaxLength then
    match decimalValue token with
    | some value =>
      if value < 2 ^ bits then some (value, cursorAfter text cursor delimiter) else none
    | none => none
  else none

/-- Modelled from the spec: `ATCommand_GetNextArgumentString` of ATCommands.c, which is
not among the sources. It scans the token at the cursor, fails if the token with its
terminating NUL does not fit in a destination of `maxLength` bytes, and otherwise
returns the token and the advanced cursor. -/
def ATCommand_GetNextArgumentString (text : List Char) (cursor : Nat) (delimiter : Char)
    (maxLength : Nat) : Option (List Char × Nat) :=
  let token := tokenAt text cursor delimiter
  if token.length < maxLength then some (token, cursorAfter text cursor delimiter) else none

/-- A token without the quote characters that wrap it; a token that is not wrapped in
quote characters is left as it is (strings are optionally quoted on the wire). -/
def stripQuotationMarks (token : List Char) : List Char :=
  if 2 ≤ token.length ∧ token.head? = some ATCOMMAND_QUOTE
      ∧ token.getLast? = some ATCOMMAND_QUOTE then
    (token.drop 1).dropLast
  else token

/-- Modelled from the spec: `ATCommand_GetNextArgumentStringWithoutQuotationMarks` of
ATCommands.c, which is not among the sources: `ATCommand_GetNextArgumentString` with the
quote characters stripped from the token. -/
def ATCommand_GetNextArgumentStringWithoutQuotationMarks (text : List Char) (cursor : Nat)
    (delimiter : Char) (maxLength : Nat) : Option (List Char × Nat) :=
  match ATCommand_GetNextArgumentString text cursor delimiter maxLength with
  | some (token, next) => some (stripQuotationMarks token, next)
  | none => none

/-- Modelled from the spec: the linear scan through a string table for a token, matched
exactly and case-sensitively; the index of the first entry equal to the token. -/
def ATCommand_FindString (stringList : List (List Char)) (token : List Char) : Option Nat :=
  stringList.indexOf? token

/-- Modelled from the spec: `ATCommand_GetNextArgumentEnum` of ATCommands.c, which is not
among the sources. It scans the token at the cursor within the bounded length
`maxStringLength` and fails if the token equals none of the strings of the table;
otherwise it returns the index of the string and the advanced cursor. The table is passed
with all its entries (`numOfStrings` is its length). -/
def ATCommand_GetNextArgumentEnum (text : List Char) (cursor : Nat)
    (stringList : List (List Char)) (maxStringLength : Nat) (delimiter : Char) :
    Option (Nat × Nat) :=
  match ATCommand_GetNextArgumentString text cursor delimiter maxStringLength with
  | some (token, next) =>
    match ATCommand_FindString stringList token with
    | some index => some (index, next)
    | none => none
  | none => none

/-- Modelled from the spec: `ATCommand_GetNextArgumentEnumWithoutQuotationMarks` of
ATCommands.c, which is not among the sources: `ATCommand_GetNextArgumentEnum` with the
quote characters stripped from the token before it is matched. -/
def ATCommand_GetNextArgumentEnumWithoutQuotationMarks (text : List Char) (cursor : Nat)
    (stringList : List (List Char)) (maxStringLength : Nat) (delimiter : Char) :
    Option (Nat × Nat) :=
  match ATCommand_GetNextArgumentStringWithoutQuotationMarks text cursor delimiter
      maxStringLength with
  | some (token, next) =>
    match ATCommand_FindString stringList token with
    | some index => some (index, next)
    | none => none
  | none => none

/-- Modelled from the spec: `ATCommand_CountArgs` of ATCommands.c, which is not among the
sources: the number of delimiter-separated tokens from the cursor to the end of the
text, none when nothing is left. -/
def ATCommand_CountArgs (text : List Char) (cursor : Nat) : Nat :=
  let rest := text.drop cursor
  if rest = [] then 0 else rest.count ATCOMMAND_ARGUMENT_DELIM + 1

/-! ## Event parsers -/

/-- What a call of an event parser leaves behind: the value returned and the object
behind the output pointer. -/
structure Parsed (α : Type) where
  returned : Bool
  output : α
deriving DecidableEq, Repr

/-- The fields of `AdrasteaI_ATProprietary_Domain_Name_Resolve_Result_t`. -/
structure AdrasteaI_ATProprietary_Domain_Name_Resolve_Result_t where
  format : Nat
  addr : List Char
deriving DecidableEq, Repr

/-- The function `AdrasteaI_ATProprietary_ParseResolveDomainNameEvent`
(ATProprietary.c 390-410). A `NULL` pointer is `none`. -/
def AdrasteaI_ATProprietary_ParseResolveDomainNameEvent (h : Header)
    (pEventArguments : Option (List Char))
    (dataP : Option AdrasteaI_ATProprietary_Domain_Name_Resolve_Result_t) :
    Parsed (Option AdrasteaI_ATProprietary_Domain_Name_Resolve_Result_t) :=
  match dataP, pEventArguments with
  | none, _ => ⟨false, none⟩
  | some data, none => ⟨false, some data⟩
  | some data, some text =>
    let argumentsP := 0
    match ATCommand_GetNextArgumentInt h text argumentsP 8 ATCOMMAND_ARGUMENT_DELIM with
    | none => ⟨false, some data⟩
    | some (value, argumentsP) =>
    let data := { data with format := value }
    match ATCommand_GetNextArgumentStringWithoutQuotationMarks text argumentsP
        ATCOMMAND_STRING_TERMINATE h.sizeof_Domain_Name_Resolve_Result_addr with
    | none => ⟨false, some data⟩
    | some (value, _) =>
    let data := { data with addr := value }
    ⟨true, some data⟩

/-- The fields of `AdrasteaI_ATProprietary_Ping_Result_t`. -/
structure AdrasteaI_ATProprietary_Ping_Result_t where
  id : Nat
  addr : List Char
  rtt : Nat
  ttl : Nat
deriving DecidableEq, Repr

/-- The function `AdrasteaI_ATProprietary_ParsePingResultEvent` (ATProprietary.c 516-546).
A `NULL` pointer is `none`. -/
def AdrasteaI_ATProprietary_ParsePingResultEvent (h : Header)
    (pEventArguments : Option (List Char))
    (dataP : Option AdrasteaI_ATProprietary_Ping_Result_t) :
    Parsed (Option AdrasteaI_ATProprietary_Ping_Result_t) :=
  match dataP, pEventArguments with
  | none, _ => ⟨false, none⟩
  | some data, none => ⟨false, some data⟩
  | some data, some text =>
    let argumentsP := 0
    match ATCommand_GetNextArgumentInt h text argumentsP 8 ATCOMMAND_ARGUMENT_DELIM with
    | none => ⟨false, some data⟩
    | some (value, argumentsP) =>
    let data := { data with id := value }
    match ATCommand_GetNextArgumentStringWithoutQuotationMarks text argumentsP
        ATCOMMAND_ARGUMENT_DELIM h.sizeof_Ping_Result_addr with
    | none => ⟨false, some data⟩
    | some (value, argumentsP) =>
    let data := { data with addr := value }
    match ATCommand_GetNextArgumentInt h text argumentsP 16 ATCOMMAND_ARGUMENT_DELIM with
    | none => ⟨false, some data⟩
    | some (value, argumentsP) =>
    let data := { data with rtt := value }
    match ATCommand_GetNextArgumentInt h text argumentsP 16 ATCOMMAND_STRING_TERMINATE with
    | none => ⟨false, some data⟩
    | some (value, _) =>
    let data := { data with ttl := value }
    ⟨true, some data⟩

/-- What the decoders read once the local cursor of an SMS event parser has been moved
one character forward (`argumentsP += 1`) without a look at that character. In a
non-empty argument string the cursor stays inside the string, and the decoders read the
string. In the empty argument string the skipped character is the terminator itself: the
cursor stands at offset 1, behind the terminator, and the decoders read the bytes `behind`
that follow the terminator in memory, up to the next NUL. The result is the text whose
offset 1 is the first character read. -/
def readableAfterSkip (text behind : List Char) : List Char :=
  if text = [] then ATCOMMAND_STRING_TERMINATE :: behind else text

/-- The fields of `AdrasteaI_ATSMS_Message_t`. -/
structure AdrasteaI_ATSMS_Message_t where
  messageIndex : Nat
  messageState : Nat
  address : List Char
  payload : List Char
deriving DecidableEq, Repr

/-- The function `AdrasteaI_ATSMS_ParseReadMessageEvent` (ATSMS.c 758-802). A `NULL`
pointer is `none`; `behind` is what follows the terminator of the argument string in
memory (see `readableAfterSkip`). `payload` is the last step (796-801), reached with or
without the two extra fields skipped; `extraData` is a local buffer of 40 bytes. -/
def AdrasteaI_ATSMS_ParseReadMessageEvent (h : Header) (pEventArguments : Option (List Char))
    (behind : List Char) (dataP : Option AdrasteaI_ATSMS_Message_t) :
    Parsed (Option AdrasteaI_ATSMS_Message_t) :=
  match dataP, pEventArguments with
  | none, _ => ⟨false, none⟩
  | some data, none => ⟨false, some data⟩
  | some data, some text =>
    let argumentsP := 0
    let argumentsP := argumentsP + 1
    let text := readableAfterSkip text behind
    let data := { data with messageIndex := 0 }
    match ATCommand_GetNextArgumentEnumWithoutQuotationMarks text argumentsP
        AdrasteaI_ATSMS_Message_State_Strings 30 ATCOMMAND_ARGUMENT_DELIM with
    | none => ⟨false, some data⟩
    | some (value, argumentsP) =>
    let data := { data with messageState := value }
    match ATCommand_GetNextArgumentStringWithoutQuotationMarks text argumentsP
        ATCOMMAND_ARGUMENT_DELIM h.sizeof_Message_address with
    | none => ⟨false, some data⟩
    | some (value, argumentsP) =>
    let data := { data with address := value }
    let payload := fun (argumentsP : Nat) =>
      match ATCommand_GetNextArgumentString text argumentsP ATCOMMAND_STRING_TERMINATE
          h.sizeof_Message_payload with
      | none => (⟨false, some data⟩ : Parsed (Option AdrasteaI_ATSMS_Message_t))
      | some (value, _) => ⟨true, some { data with payload := value }⟩
    if ATCommand_CountArgs text argumentsP = 3 then
      match ATCommand_GetNextArgumentString text argumentsP ATCOMMAND_ARGUMENT_DELIM 40 with
      | none => ⟨false, some data⟩
      | some (_, argumentsP) =>
      match ATCommand_GetNextArgumentStringWithoutQuotationMarks text argumentsP
          ATCOMMAND_ARGUMENT_DELIM 40 with
      | none => ⟨false, some data⟩
      | some (_, argumentsP) => payload argumentsP
    else payload argumentsP

/-- The function `AdrasteaI_ATSMS_ParseListMessagesEvent` (ATSMS.c 812-859). A `NULL`
pointer is `none`; `behind` is what follows the terminator of the argument string in
memory (see `readableAfterSkip`). `payload` is the last step (853-858), reached with or
without the two extra fields skipped; `extraData` is a local buffer of 40 bytes. -/
def AdrasteaI_ATSMS_ParseListMessagesEvent (h : Header) (pEventArguments : Option (List Char))
    (behind : List Char) (dataP : Option AdrasteaI_ATSMS_Message_t) :
    Parsed (Option AdrasteaI_ATSMS_Message_t) :=
  match dataP, pEventArguments with
  | none, _ => ⟨false, none⟩
  | some data, none => ⟨false, some data⟩
  | some data, some text =>
    let argumentsP := 0
    let argumentsP := argumentsP + 1
    let text := readableAfterSkip text behind
    match ATCommand_GetNextArgumentInt h text argumentsP 8 ATCOMMAND_ARGUMENT_DELIM with
    | none => ⟨false, some data⟩
    | some (value, argumentsP) =>
    let data := { data with messageIndex := value }
    match ATCommand_GetNextArgumentEnumWithoutQuotationMarks text argumentsP
        AdrasteaI_ATSMS_Message_State_Strings 30 ATCOMMAND_ARGUMENT_DELIM with
    | none => ⟨false, some data⟩
    | some (value, argumentsP) =>
    let data := { data with messageState := value }
    match ATCommand_GetNextArgumentStringWithoutQuotationMarks text argumentsP
        ATCOMMAND_ARGUMENT_DELIM h.sizeof_Message_address with
    | none => ⟨false, some data⟩
    | some (value, argumentsP) =>
    let data := { data with address := value }
    let payload := fun (argumentsP : Nat) =>
      match ATCommand_GetNextArgumentString text argumentsP ATCOMMAND_STRING_TERMINATE
          h.sizeof_Message_payload with
      | none => (⟨false, some data⟩ : Parsed (Option AdrasteaI_ATSMS_Message_t))
      | some (value, _) => ⟨true, some { data with payload := value }⟩
    if ATCommand_CountArgs text argumentsP = 3 then
      match ATCommand_GetNextArgumentString text argumentsP ATCOMMAND_ARGUMENT_DELIM 40 with
      | none => ⟨false, some data⟩
      | some (_, argumentsP) =>
      match ATCommand_GetNextArgumentStringWithoutQuotationMarks text argumentsP
          ATCOMMAND_ARGUMENT_DELIM 40 with
      | none => ⟨false, some data⟩
      | some (_, argumentsP) => payload argumentsP
    else payload argumentsP

/-- The fields of `AdrasteaI_ATSMS_Message_Received_Result_t`. -/
structure AdrasteaI_ATSMS_Message_Received_Result_t where
  storageLocation : Nat
  messageIndex : Nat
deriving DecidableEq, Repr

/-- The function `AdrasteaI_ATSMS_ParseMessageReceivedEvent` (ATSMS.c 869-891). A `NULL`
pointer is `none`; `behind` is what follows the terminator of the argument string in
memory (see `readableAfterSkip`). -/
def AdrasteaI_ATSMS_ParseMessageReceivedEvent (h : Header)
    (pEventArguments : Option (List Char)) (behind : List Char)
    (dataP : Option AdrasteaI_ATSMS_Message_Received_Result_t) :
    Parsed (Option AdrasteaI_ATSMS_Message_Received_Result_t) :=
  match dataP, pEventArguments with
  | none, _ => ⟨false, none⟩
  | some data, none => ⟨false, some data⟩
  | some data, some text =>
    let argumentsP := 0
    let argumentsP := argumentsP + 1
    let text := readableAfterSkip text behind
    match ATCommand_GetNextArgumentEnumWithoutQuotationMarks text argumentsP
        AdrasteaI_ATSMS_Storage_Location_Strings 30 ATCOMMAND_ARGUMENT_DELIM with
    | none => ⟨false, some data⟩
    | some (value, argumentsP) =>
    let data := { data with storageLocation := value }
    match ATCommand_GetNextArgumentInt h text argumentsP 8 ATCOMMAND_STRING_TERMINATE with
    | none => ⟨false, some data⟩
    | some (value, _) =>
    let data := { data with messageIndex := value }
    ⟨true, some data⟩

/-- The function `AdrasteaI_ATSMS_ParseSMSErrorEvent` (ATSMS.c 901-918);
`AdrasteaI_ATSMS_Error_t` is an integer. A `NULL` pointer is `none`; `behind` is what
follows the terminator of the argument string in memory (see `readableAfterSkip`). -/
def AdrasteaI_ATSMS_ParseSMSErrorEvent (h : Header) (pEventArguments : Option (List Char))
    (behind : List Char) (dataP : Option Nat) : Parsed (Option Nat) :=
  match dataP, pEventArguments with
  | none, _ => ⟨false, none⟩
  | some data, none => ⟨false, some data⟩
  | some data, some text =>
    let argumentsP := 0
    let argumentsP := argumentsP + 1
    let text := readableAfterSkip text behind
    match ATCommand_GetNextArgumentInt h text argumentsP 16 ATCOMMAND_STRING_TERMINATE with
    | none => ⟨false, some data⟩
    | some (value, _) => ⟨true, some value⟩

/-! ## Transaction engine -/

/-- Modelled from the spec: the confirmation status of a request (success, generic
failure, or a device-specific structured error); only `AdrasteaI_CNFStatus_Success` is
named in the sources. -/
inductive AdrasteaI_CNFStatus_t where
  | AdrasteaI_CNFStatus_Success
  | AdrasteaI_CNFStatus_Failed
  | AdrasteaI_CNFStatus_Error (code : Nat)
deriving DecidableEq, Repr

/-- Modelled from the spec: what the transport and the device do with one request.
`transmitted` is the result of handing the request to the transport; `confirmation t`
is the confirmation status that arrives within `t` milliseconds together with the
response payload received in front of it, or `none` when the wait times out. -/
structure Exchange where
  transmitted : Bool
  confirmation : Nat → Option (AdrasteaI_CNFStatus_t × List Char)

/-- A call a command function makes to the transaction engine. -/
inductive Call where
  | SendRequest (data : List Char)
  | WaitForConfirm (maxTimeMs : Nat) (expectedStatus : AdrasteaI_CNFStatus_t)
      (capture : Bool)
deriving DecidableEq, Repr

/-- Modelled from the spec: `AdrasteaI_SendRequest` of AdrasteaI.c, which is not among the
sources: it hands the request to the transport and reports whether that succeeded. -/
def AdrasteaI_SendRequest (x : Exchange) (_data : List Char) : Bool :=
  x.transmitted

/-- Modelled from the spec: `AdrasteaI_WaitForConfirm` of AdrasteaI.c, which is not among
the sources. It waits at most `maxTimeMs` for the confirmation; on a timeout it fails and
changes nothing; otherwise it copies the response payload into the capture buffer, if
one was supplied (the command functions only ever supply `AT_commandBuffer`), and
succeeds only if the received status equals `expectedStatus`. -/
def AdrasteaI_WaitForConfirm (x : Exchange) (g : Globals) (maxTimeMs : Nat)
    (expectedStatus : AdrasteaI_CNFStatus_t) (capture : Bool) : Bool × Globals :=
  match x.confirmation maxTimeMs with
  | none => (false, g)
  | some (status, payload) =>
    (decide (status = expectedStatus),
      if capture then { g with AT_commandBuffer := payload } else g)

/-- What a call of a command function leaves behind: the value returned, the object
behind the output pointer, the globals, and the calls made to the transaction engine in
the order they were made. -/
structure Outcome (α : Type) where
  returned : Bool
  output : α
  globals : Globals
  calls : List Call

/-! ## ATProprietary.c: command functions with a decoded response -/

/-- The fields of `AdrasteaI_ATProprietary_PIN_PUK_Attempts_t`. -/
structure AdrasteaI_ATProprietary_PIN_PUK_Attempts_t where
  pinAttempts : Nat
  pukAttempts : Nat
  pin2Attempts : Nat
  puk2Attempts : Nat
deriving DecidableEq, Repr

/-- The function `AdrasteaI_ATProprietary_ReadRemainingPINPUKAttempts`
(ATProprietary.c 128-170). `attemptsP` is `none` for a `NULL` pointer. -/
def AdrasteaI_ATProprietary_ReadRemainingPINPUKAttempts (h : Header) (x : Exchange)
    (g : Globals) (attemptsP : Option AdrasteaI_ATProprietary_PIN_PUK_Attempts_t) :
    Outcome (Option AdrasteaI_ATProprietary_PIN_PUK_Attempts_t) :=
  match attemptsP with
  | none => ⟨false, none, g, []⟩
  | some attempts =>
    let request := AdrasteaI_ATProprietary_ReadRemainingPINPUKAttempts_request
    let calls := [Call.SendRequest request]
    if ¬ AdrasteaI_SendRequest x request then ⟨false, some attempts, g, calls⟩ else
    let maxTimeMs := h.AdrasteaI_GetTimeout .AdrasteaI_Timeout_Proprietary
    let calls := calls ++ [Call.WaitForConfirm maxTimeMs .AdrasteaI_CNFStatus_Success true]
    let (confirmed, g) :=
      AdrasteaI_WaitForConfirm x g maxTimeMs .AdrasteaI_CNFStatus_Success true
    if ¬ confirmed then ⟨false, some attempts, g, calls⟩ else
    let pResponseCommand := 0
    let pResponseCommand := pResponseCommand + 1
    match ATCommand_GetNextArgumentInt h g.AT_commandBuffer pResponseCommand 8
        ATCOMMAND_ARGUMENT_DELIM with
    | none => ⟨false, some attempts, g, calls⟩
    | some (value, pResponseCommand) =>
    let attempts := { attempts with pinAttempts := value }
    match ATCommand_GetNextArgumentInt h g.AT_commandBuffer pResponseCommand 8
        ATCOMMAND_ARGUMENT_DELIM with
    | none => ⟨false, some attempts, g, calls⟩
    | some (value, pResponseCommand) =>
    let attempts := { attempts with pukAttempts := value }
    match ATCommand_GetNextArgumentInt h g.AT_commandBuffer pResponseCommand 8
        ATCOMMAND_ARGUMENT_DELIM with
    | none => ⟨false, some attempts, g, calls⟩
    | some (value, pResponseCommand) =>
    let attempts := { attempts with pin2Attempts := value }
    match ATCommand_GetNextArgumentInt h g.AT_commandBuffer pResponseCommand 8
        ATCOMMAND_STRING_TERMINATE with
    | none => ⟨false, some attempts, g, calls⟩
    | some (value, _) =>
    let attempts := { attempts with puk2Attempts := value }
    ⟨true, some attempts, g, calls⟩

/-! ## The catalogue of command functions -/

/-- A call of one of the command functions of ATProprietary.c and ATSMS.c, with the
arguments its request depends on. For a function that first checks its output pointer
against `NULL`, `isNull` says whether the pointer is `NULL`. -/
inductive Command where
  | AdrasteaI_ATProprietary_ReadNetworkAttachmentState (isNull : Bool)
  | AdrasteaI_ATProprietary_SetNetworkAttachmentState (state : Nat)
  | AdrasteaI_ATProprietary_ReadRemainingPINPUKAttempts (isNull : Bool)
  | AdrasteaI_ATProprietary_SwitchToRATWithoutFullReboot (rat storage source : Nat)
  | AdrasteaI_ATProprietary_ReadRATStatus (isNull : Bool)
  | AdrasteaI_ATProprietary_SetBootDelay (delay : Nat)
  | AdrasteaI_ATProprietary_ResolveDomainName (sessionid : Nat) (domain : List Char)
      (format : Nat)
  | AdrasteaI_ATProprietary_Ping (format : Nat) (destaddr : List Char)
      (packetcount packetsize timeout : Nat)
  | AdrasteaI_ATProprietary_ReadCredential (filename : List Char) (isNull : Bool)
  | AdrasteaI_ATProprietary_WriteCredential (filename : List Char) (format : Nat)
      (data : List Char)
  | AdrasteaI_ATProprietary_ListCredentials (isNull : Bool)
  | AdrasteaI_ATProprietary_DeleteCredential (filename : List Char)
  | AdrasteaI_ATProprietary_ListTLSProfiles (isNull : Bool)
  | AdrasteaI_ATProprietary_AddTLSProfile (profileID : Nat)
      (CA CAPath deviceCert deviceKey pskID pskKey : List Char)
  | AdrasteaI_ATProprietary_DeleteTLSProfile (profileID : Nat)
  | AdrasteaI_ATProprietary_SetPDNParameters
      (parameters : AdrasteaI_ATProprietary_PDN_Parameters_t)
  | AdrasteaI_ATProprietary_ReadPDNParameters (isNull : Bool)
  | AdrasteaI_ATSMS_DeleteMessage (index : Nat)
  | AdrasteaI_ATSMS_DeleteAllMessages
  | AdrasteaI_ATSMS_ListMessages (listType : Nat)
  | AdrasteaI_ATSMS_ReadMessage (index : Nat)
  | AdrasteaI_ATSMS_SetMessageStorageLocations
      (readDeleteStorage writeSendStorage receiveStorage : Nat)
  | AdrasteaI_ATSMS_ReadMessageStorageUsage (isNull : Bool)
  | AdrasteaI_ATSMS_SetServiceCenterAddress
      (serviceCenterAddress : AdrasteaI_ATSMS_Service_Center_Address_t)
  | AdrasteaI_ATSMS_ReadServiceCenterAddress (isNull : Bool)
  | AdrasteaI_ATSMS_SendMessage (address : List Char) (addressType : Nat)
      (message : List Char) (isNull : Bool)
  | AdrasteaI_ATSMS_SendLargeMessage (address : List Char) (addressType : Nat)
      (message : List Char) (isNull : Bool)
  | AdrasteaI_ATSMS_WriteMessageToStorage (address : List Char) (addressType : Nat)
      (message : List Char) (isNull : Bool)
  | AdrasteaI_ATSMS_SendMessageFromStorage (index : Nat) (isNull : Bool)
  | AdrasteaI_ATSMS_SetSMSUnsolicitedNotificationEvents (eventState : Nat)

/-- A request that is a string literal of the source, sent after the `NULL` check of the
output pointer. -/
def literalRequest (isNull : Bool) (text : List Char) : Except Abort (List Char) :=
  if isNull then .error .returnedFalse else .ok text

/-- A request composed in `AT_commandBuffer`, sent after the `NULL` check of the output
pointer: the buffer content at the call of `AdrasteaI_SendRequest`. -/
def composedRequest (isNull : Bool) (composed : Except Abort Globals) :
    Except Abort (List Char) :=
  if isNull then .error .returnedFalse else Except.map Globals.AT_commandBuffer composed

/-- The text a command function passes to `AdrasteaI_SendRequest`, if it reaches that
call; every command function has at most one path to it. -/
def sentRequest (h : Header) (g : Globals) : Command → Except Abort (List Char)
  | .AdrasteaI_ATProprietary_ReadNetworkAttachmentState isNull =>
    literalRequest isNull AdrasteaI_ATProprietary_ReadNetworkAttachmentState_request
  | .AdrasteaI_ATProprietary_SetNetworkAttachmentState state =>
    composedRequest false (AdrasteaI_ATProprietary_SetNetworkAttachmentState_request h g state)
  | .AdrasteaI_ATProprietary_ReadRemainingPINPUKAttempts isNull =>
    literalRequest isNull AdrasteaI_ATProprietary_ReadRemainingPINPUKAttempts_request
  | .AdrasteaI_ATProprietary_SwitchToRATWithoutFullReboot rat storage source =>
    composedRequest false
      (AdrasteaI_ATProprietary_SwitchToRATWithoutFullReboot_request h g rat storage source)
  | .AdrasteaI_ATProprietary_ReadRATStatus isNull =>
    literalRequest isNull AdrasteaI_ATProprietary_ReadRATStatus_request
  | .AdrasteaI_ATProprietary_SetBootDelay delay =>
    composedRequest false (AdrasteaI_ATProprietary_SetBootDelay_request h g delay)
  | .AdrasteaI_ATProprietary_ResolveDomainName sessionid domain format =>
    composedRequest false
      (AdrasteaI_ATProprietary_ResolveDomainName_request h g sessionid domain format)
  | .AdrasteaI_ATProprietary_Ping format destaddr packetcount packetsize timeout =>
    composedRequest false
      (AdrasteaI_ATProprietary_Ping_request h g format destaddr packetcount packetsize timeout)
  | .AdrasteaI_ATProprietary_ReadCredential filename isNull =>
    composedRequest isNull (AdrasteaI_ATProprietary_ReadCredential_request h g filename)
  | .AdrasteaI_ATProprietary_WriteCredential filename format data =>
    composedRequest false
      (AdrasteaI_ATProprietary_WriteCredential_request h g filename format data)
  | .AdrasteaI_ATProprietary_ListCredentials isNull =>
    literalRequest isNull AdrasteaI_ATProprietary_ListCredentials_request
  | .AdrasteaI_ATProprietary_DeleteCredential filename =>
    composedRequest false (AdrasteaI_ATProprietary_DeleteCredential_request h g filename)
  | .AdrasteaI_ATProprietary_ListTLSProfiles isNull =>
    literalRequest isNull AdrasteaI_ATProprietary_ListTLSProfiles_request
  | .AdrasteaI_ATProprietary_AddTLSProfile profileID CA CAPath deviceCert deviceKey pskID
      pskKey =>
    composedRequest false
      (AdrasteaI_ATProprietary_AddTLSProfile_request h g profileID CA CAPath deviceCert
        deviceKey pskID pskKey)
  | .AdrasteaI_ATProprietary_DeleteTLSProfile profileID =>
    composedRequest false (AdrasteaI_ATProprietary_DeleteTLSProfile_request h g profileID)
  | .AdrasteaI_ATProprietary_SetPDNParameters parameters =>
    composedRequest false (AdrasteaI_ATProprietary_SetPDNParameters_request h g parameters)
  | .AdrasteaI_ATProprietary_ReadPDNParameters isNull =>
    literalRequest isNull AdrasteaI_ATProprietary_ReadPDNParameters_request
  | .AdrasteaI_ATSMS_DeleteMessage index =>
    composedRequest false (AdrasteaI_ATSMS_DeleteMessage_request h g index)
  | .AdrasteaI_ATSMS_DeleteAllMessages =>
    literalRequest false AdrasteaI_ATSMS_DeleteAllMessages_request
  | .AdrasteaI_ATSMS_ListMessages listType =>
    composedRequest false (AdrasteaI_ATSMS_ListMessages_request h g listType)
  | .AdrasteaI_ATSMS_ReadMessage index =>
    composedRequest false (AdrasteaI_ATSMS_ReadMessage_request h g index)
  | .AdrasteaI_ATSMS_SetMessageStorageLocations readDeleteStorage writeSendStorage
      receiveStorage =>
    composedRequest false
      (AdrasteaI_ATSMS_SetMessageStorageLocations_request h g readDeleteStorage
        writeSendStorage receiveStorage)
  | .AdrasteaI_ATSMS_ReadMessageStorageUsage isNull =>
    literalRequest isNull AdrasteaI_ATSMS_ReadMessageStorageUsage_request
  | .AdrasteaI_ATSMS_SetServiceCenterAddress serviceCenterAddress =>
    composedRequest false
      (AdrasteaI_ATSMS_SetServiceCenterAddress_request h g serviceCenterAddress)
  | .AdrasteaI_ATSMS_ReadServiceCenterAddress isNull =>
    literalRequest isNull AdrasteaI_ATSMS_ReadServiceCenterAddress_request
  | .AdrasteaI_ATSMS_SendMessage address addressType message isNull =>
    composedRequest isNull
      (AdrasteaI_ATSMS_SendMessage_request h g address addressType message)
  | .AdrasteaI_ATSMS_SendLargeMessage address addressType message isNull =>
    composedRequest isNull
      (AdrasteaI_ATSMS_SendLargeMessage_request h g address addressType message)
  | .AdrasteaI_ATSMS_WriteMessageToStorage address addressType message isNull =>
    composedRequest isNull
      (AdrasteaI_ATSMS_WriteMessageToStorage_request h g address addressType message)
  | .AdrasteaI_ATSMS_SendMessageFromStorage index isNull =>
    composedRequest isNull (AdrasteaI_ATSMS_SendMessageFromStorage_request h g index)
  | .AdrasteaI_ATSMS_SetSMSUnsolicitedNotificationEvents eventState =>
    AdrasteaI_ATSMS_SetSMSUnsolicitedNotificationEvents_request h eventState

/-- The three command functions whose request carries a raw payload. -/
def payloadBearing : Command → Bool
  | .AdrasteaI_ATSMS_SendMessage _ _ _ _ => true
  | .AdrasteaI_ATSMS_SendLargeMessage _ _ _ _ => true
  | .AdrasteaI_ATSMS_WriteMessageToStorage _ _ _ _ => true
  | _ => false

/-- A value wrapped in quote characters. -/
def quoted (s : List Char) : List Char := [ATCOMMAND_QUOTE] ++ s ++ [ATCOMMAND_QUOTE]

/-- The string of a storage location (ATSMS.c 39-41). -/
def storageLocationString (i : Nat) : List Char :=
  AdrasteaI_ATSMS_Storage_Location_Strings.getD i []

/-- The text of a run of trailing optional positions as the wire format wants it: for
each position up to and including the last present one, the delimiter and the value
(nothing for an omitted position); the positions after the last present one contribute
no characters. -/
def optionalPositionsText : List (Option (List Char)) → List Char
  | [] => []
  | p :: ps =>
    if (p :: ps).all Option.isNone then []
    else ATCOMMAND_ARGUMENT_DELIM :: (p.getD [] ++ optionalPositionsText ps)

/-- The text of a run of positions none of which is trimmed: for each position the
delimiter and the value (nothing for an omitted position). -/
def allPositionsText : List (Option (List Char)) → List Char
  | [] => []
  | p :: ps => ATCOMMAND_ARGUMENT_DELIM :: (p.getD [] ++ allPositionsText ps)

/-- The positions CA, CAPath, deviceCert, deviceKey of the `AT%CERTCFG="ADD"` request as
`AdrasteaI_ATProprietary_AddTLSProfile` decides them (ATProprietary.c 840-912): CA is
present when it is non-empty, CAPath when CA and CAPath are both non-empty, deviceCert
and deviceKey when both are non-empty. -/
def certcfgPositions (CA CAPath deviceCert deviceKey : List Char) :
    List (Option (List Char)) :=
  [ if CA ≠ [] then some (quoted CA) else none,
    if CA ≠ [] ∧ CAPath ≠ [] then some (quoted CAPath) else none,
    if deviceCert ≠ [] ∧ deviceKey ≠ [] then some (quoted deviceCert) else none,
    if deviceCert ≠ [] ∧ deviceKey ≠ [] then some (quoted deviceKey) else none ]

/-- An optional integer position: omitted when the value is the `Invalid` marker,
otherwise its unsigned decimal text. -/
def optionalInt (invalid value : Nat) : Option (List Char) :=
  if value = invalid then none else some (Nat.toDigits 10 value)

/-- The string of a RAT value (ATProprietary.c 37-41). -/
def ratString (i : Nat) : List Char :=
  AdrasteaI_ATProprietary_RAT_Strings.getD i []

/-- The string of an IP address format (ATProprietary.c 43-47). -/
def ipAddrFormatString (i : Nat) : List Char :=
  AdrasteaI_ATProprietary_IP_Addr_Format_Strings.getD i []

/-- A header for evaluating the definitions on concrete inputs. -/
def sampleHeader : Header where
  commandBufferSize := 256
  AdrasteaI_ATProprietary_RAT_Storage_Invalid := 255
  AdrasteaI_ATProprietary_RAT_Source_Invalid := 255
  AdrasteaI_ATProprietary_IP_Addr_Format_Invalid := 255
  AdrasteaI_ATProprietary_Ping_Packet_Count_Invalid := 0
  AdrasteaI_ATProprietary_Ping_Packet_Size_Invalid := 0
  AdrasteaI_ATProprietary_Ping_Timeout_Invalid := 0
  AdrasteaI_ATSMS_Storage_Location_Invalid := 255
  AdrasteaI_ATSMS_Address_Type_Invalid := 0
  AdrasteaI_ATCommon_Event_State_Enable := 1
  AdrasteaI_ATCommon_Event_State_Disable := 0
  AdrasteaI_GetTimeout := fun _ => 1000
  integerTokenMaxLength := 11
  sizeof_Domain_Name_Resolve_Result_addr := 64
  sizeof_Ping_Result_addr := 64
  sizeof_File_Name := 64
  sizeof_APN_Name := 64
  sizeof_Service_Center_Address_address := 64
  sizeof_Message_address := 64
  sizeof_Message_payload := 128



/-! ## The command functions -/

/-- What the caller observes of one call of a command function: the value returned, the
object behind the output pointer (`none` for a `NULL` pointer, `Unit` when the function
has no output argument), and the calls made to the transaction engine in the order they
were made. -/
structure Observed (α : Type) where
  returned : Bool
  output : α
  calls : List Call

/-- The two statements that follow the composition in every command function:
`if (!AdrasteaI_SendRequest(pRequestCommand)) return false;` and
`if (!AdrasteaI_WaitForConfirm(AdrasteaI_GetTimeout(class), AdrasteaI_CNFStatus_Success,
buffer)) return false;`. The result says whether both succeeded, and gives the globals
and the calls made. -/
def sendAndWait (h : Header) (x : Exchange) (g : Globals) (pRequestCommand : List Char)
    (timeoutClass : AdrasteaI_Timeout_t) (capture : Bool) : Bool × Globals × List Call :=
  if ¬ AdrasteaI_SendRequest x pRequestCommand then
    (false, g, [Call.SendRequest pRequestCommand])
  else
    let maxTimeMs := h.AdrasteaI_GetTimeout timeoutClass
    let (confirmed, g) :=
      AdrasteaI_WaitForConfirm x g maxTimeMs .AdrasteaI_CNFStatus_Success capture
    (confirmed, g, [Call.SendRequest pRequestCommand,
      Call.WaitForConfirm maxTimeMs .AdrasteaI_CNFStatus_Success capture])

/-- The body shared by the command functions without an output argument that compose
their request in `AT_commandBuffer`: the composition, then `sendAndWait` on the buffer,
then `return true`. The result is `none` when the composition is undefined in C. -/
def commandWithoutOutput (h : Header) (x : Exchange) (composed : Except Abort Globals)
    (timeoutClass : AdrasteaI_Timeout_t) (capture : Bool) : Option (Observed Unit) :=
  match composed with
  | .error .outOfBounds => none
  | .error .returnedFalse => some ⟨false, (), []⟩
  | .ok g =>
    let (confirmed, _, calls) :=
      sendAndWait h x g g.AT_commandBuffer timeoutClass capture
    some ⟨confirmed, (), calls⟩

/-- The function `AdrasteaI_ATProprietary_ReadNetworkAttachmentState`
(ATProprietary.c 56-83). -/
def AdrasteaI_ATProprietary_ReadNetworkAttachmentState (h : Header) (x : Exchange)
    (g : Globals) (stateP : Option Nat) : Observed (Option Nat) :=
  match stateP with
  | none => ⟨false, none, []⟩
  | some state =>
    let (confirmed, g, calls) := sendAndWait h x g
      AdrasteaI_ATProprietary_ReadNetworkAttachmentState_request
      .AdrasteaI_Timeout_Proprietary true
    if ¬ confirmed then ⟨false, some state, calls⟩ else
    let pResponseCommand := 0
    let pResponseCommand := pResponseCommand + 1
    match ATCommand_GetNextArgumentInt h g.AT_commandBuffer pResponseCommand 8
        ATCOMMAND_STRING_TERMINATE with
    | none => ⟨false, some state, calls⟩
    | some (value, _) => ⟨true, some value, calls⟩

/-- The function `AdrasteaI_ATProprietary_SetNetworkAttachmentState`
(ATProprietary.c 92-119). -/
def AdrasteaI_ATProprietary_SetNetworkAttachmentState (h : Header) (x : Exchange)
    (g : Globals) (state : Nat) : Option (Observed Unit) :=
  commandWithoutOutput h x (AdrasteaI_ATProprietary_SetNetworkAttachmentState_request h g state)
    .AdrasteaI_Timeout_Proprietary false

/-- The function `AdrasteaI_ATProprietary_SwitchToRATWithoutFullReboot`
(ATProprietary.c 183-240). -/
def AdrasteaI_ATProprietary_SwitchToRATWithoutFullReboot (h : Header) (x : Exchange)
    (g : Globals) (rat storage source : Nat) : Option (Observed Unit) :=
  commandWithoutOutput h x
    (AdrasteaI_ATProprietary_SwitchToRATWithoutFullReboot_request h g rat storage source)
    .AdrasteaI_Timeout_Proprietary false

/-- The fields of `AdrasteaI_ATProprietary_RAT_Status_t`. -/
structure AdrasteaI_ATProprietary_RAT_Status_t where
  rat : Nat
  mode : Nat
  source : Nat
deriving DecidableEq, Repr

/-- The function `AdrasteaI_ATProprietary_ReadRATStatus` (ATProprietary.c 249-286). -/
def AdrasteaI_ATProprietary_ReadRATStatus (h : Header) (x : Exchange) (g : Globals)
    (ratstatusP : Option AdrasteaI_ATProprietary_RAT_Status_t) :
    Observed (Option AdrasteaI_ATProprietary_RAT_Status_t) :=
  match ratstatusP with
  | none => ⟨false, none, []⟩
  | some ratstatus =>
    let (confirmed, g, calls) := sendAndWait h x g
      AdrasteaI_ATProprietary_ReadRATStatus_request .AdrasteaI_Timeout_Proprietary true
    if ¬ confirmed then ⟨false, some ratstatus, calls⟩ else
    let pResponseCommand := 0
    let pResponseCommand := pResponseCommand + 1
    match ATCommand_GetNextArgumentEnumWithoutQuotationMarks g.AT_commandBuffer
        pResponseCommand AdrasteaI_ATProprietary_RAT_Strings 30 ATCOMMAND_ARGUMENT_DELIM with
    | none => ⟨false, some ratstatus, calls⟩
    | some (value, pResponseCommand) =>
    let ratstatus := { ratstatus with rat := value }
    match ATCommand_GetNextArgumentInt h g.AT_commandBuffer pResponseCommand 8
        ATCOMMAND_ARGUMENT_DELIM with
    | none => ⟨false, some ratstatus, calls⟩
    | some (value, pResponseCommand) =>
    let ratstatus := { ratstatus with mode := value }
    match ATCommand_GetNextArgumentInt h g.AT_commandBuffer pResponseCommand 8
        ATCOMMAND_STRING_TERMINATE with
    | none => ⟨false, some ratstatus, calls⟩
    | some (value, _) =>
    let ratstatus := { ratstatus with source := value }
    ⟨true, some ratstatus, calls⟩

/-- The function `AdrasteaI_ATProprietary_SetBootDelay` (ATProprietary.c 295-322). -/
def AdrasteaI_ATProprietary_SetBootDelay (h : Header) (x : Exchange) (g : Globals)
    (delay : Nat) : Option (Observed Unit) :=
  commandWithoutOutput h x (AdrasteaI_ATProprietary_SetBootDelay_request h g delay)
    .AdrasteaI_Timeout_Proprietary false

/-- The function `AdrasteaI_ATProprietary_ResolveDomainName` (ATProprietary.c 335-380). -/
def AdrasteaI_ATProprietary_ResolveDomainName (h : Header) (x : Exchange) (g : Globals)
    (sessionid : Nat) (domain : List Char) (format : Nat) : Option (Observed Unit) :=
  commandWithoutOutput h x
    (AdrasteaI_ATProprietary_ResolveDomainName_request h g sessionid domain format)
    .AdrasteaI_Timeout_Proprietary false

/-- The function `AdrasteaI_ATProprietary_Ping` (ATProprietary.c 427-506). -/
def AdrasteaI_ATProprietary_Ping (h : Header) (x : Exchange) (g : Globals) (format : Nat)
    (destaddr : List Char) (packetcount packetsize timeout : Nat) :
    Option (Observed Unit) :=
  commandWithoutOutput h x
    (AdrasteaI_ATProprietary_Ping_request h g format destaddr packetcount packetsize timeout)
    .AdrasteaI_Timeout_Proprietary false

/-- The function `AdrasteaI_ATProprietary_ReadCredential` (ATProprietary.c 559-598).
`dataP` is the content of the destination buffer of `dataMaxBufferSize` bytes. -/
def AdrasteaI_ATProprietary_ReadCredential (h : Header) (x : Exchange) (g : Globals)
    (filename : List Char) (dataP : Option (List Char)) (dataMaxBufferSize : Nat) :
    Option (Observed (Option (List Char))) :=
  match dataP with
  | none => some ⟨false, none, []⟩
  | some data =>
    match AdrasteaI_ATProprietary_ReadCredential_request h g filename with
    | .error .outOfBounds => none
    | .error .returnedFalse => some ⟨false, some data, []⟩
    | .ok g =>
      let (confirmed, g, calls) := sendAndWait h x g g.AT_commandBuffer
        .AdrasteaI_Timeout_Proprietary true
      if ¬ confirmed then some ⟨false, some data, calls⟩ else
      let pResponseCommand := 0
      match ATCommand_GetNextArgumentStringWithoutQuotationMarks g.AT_commandBuffer
          pResponseCommand ATCOMMAND_STRING_TERMINATE dataMaxBufferSize with
      | none => some ⟨false, some data, calls⟩
      | some (value, _) => some ⟨true, some value, calls⟩

/-- The function `AdrasteaI_ATProprietary_WriteCredential` (ATProprietary.c 611-650): the
response is captured into `AT_commandBuffer` and not decoded. -/
def AdrasteaI_ATProprietary_WriteCredential (h : Header) (x : Exchange) (g : Globals)
    (filename : List Char) (format : Nat) (data : List Char) : Option (Observed Unit) :=
  commandWithoutOutput h x
    (AdrasteaI_ATProprietary_WriteCredential_request h g filename format data)
    .AdrasteaI_Timeout_Proprietary true

/-- The fields of `AdrasteaI_ATProprietary_File_Names_List_t`. `filenames` is `none` for
`NULL`; for an allocated array it holds the entries written so far, in index order (the
entries not yet written have no defined value). -/
structure AdrasteaI_ATProprietary_File_Names_List_t where
  filenames : Option (List (List Char))
  count : Nat
deriving DecidableEq, Repr

/-- The `for` loop of `AdrasteaI_ATProprietary_ListCredentials` (ATProprietary.c 691-697)
with `n` iterations left: each iteration decodes one file name up to the argument
delimiter into the next entry; a failed decode ends the function. The result says
whether all iterations succeeded, and gives the cursor and the entries written. -/
def AdrasteaI_ATProprietary_ListCredentials_loop (h : Header) (text : List Char) :
    Nat → Nat → List (List Char) → Bool × Nat × List (List Char)
  | 0, pResponseCommand, filenames => (true, pResponseCommand, filenames)
  | n + 1, pResponseCommand, filenames =>
    match ATCommand_GetNextArgumentString text pResponseCommand ATCOMMAND_ARGUMENT_DELIM
        h.sizeof_File_Name with
    | none => (false, pResponseCommand, filenames)
    | some (value, pResponseCommand) =>
      AdrasteaI_ATProprietary_ListCredentials_loop h text n pResponseCommand
        (filenames ++ [value])

/-- The function `AdrasteaI_ATProprietary_ListCredentials` (ATProprietary.c 659-706).
`allocated` says whether `malloc` returns a block. The loop variable is a `uint8_t` and
the type of `count` is in a header that is not among the sources: a count above 255 is
outside the model (`none`). -/
def AdrasteaI_ATProprietary_ListCredentials (h : Header) (x : Exchange) (g : Globals)
    (filenamesList : Option AdrasteaI_ATProprietary_File_Names_List_t) (allocated : Bool) :
    Option (Observed (Option AdrasteaI_ATProprietary_File_Names_List_t)) :=
  match filenamesList with
  | none => some ⟨false, none, []⟩
  | some list =>
    let (confirmed, g, calls) := sendAndWait h x g
      AdrasteaI_ATProprietary_ListCredentials_request .AdrasteaI_Timeout_Proprietary true
    if ¬ confirmed then some ⟨false, some list, calls⟩ else
    let pResponseCommand := 0
    let list := { list with filenames := none }
    let list := { list with count := ATCommand_CountArgs g.AT_commandBuffer pResponseCommand }
    if list.count ≠ 0 then
      if ¬ allocated then some ⟨false, some list, calls⟩ else
      if 255 < list.count then none else
      let list := { list with filenames := some [] }
      match AdrasteaI_ATProprietary_ListCredentials_loop h g.AT_commandBuffer
          (list.count - 1) pResponseCommand [] with
      | (false, _, filenames) =>
        some ⟨false, some { list with filenames := some filenames }, calls⟩
      | (true, pResponseCommand, filenames) =>
        match ATCommand_GetNextArgumentString g.AT_commandBuffer pResponseCommand
            ATCOMMAND_STRING_TERMINATE h.sizeof_File_Name with
        | none => some ⟨false, some { list with filenames := some filenames }, calls⟩
        | some (value, _) =>
          some ⟨true, some { list with filenames := some (filenames ++ [value]) }, calls⟩
    else some ⟨true, some list, calls⟩

/-- The function `AdrasteaI_ATProprietary_DeleteCredential` (ATProprietary.c 715-742). -/
def AdrasteaI_ATProprietary_DeleteCredential (h : Header) (x : Exchange) (g : Globals)
    (filename : List Char) : Option (Observed Unit) :=
  commandWithoutOutput h x (AdrasteaI_ATProprietary_DeleteCredential_request h g filename)
    .AdrasteaI_Timeout_Proprietary false

/-- The fields of `AdrasteaI_ATProprietary_TLS_Profile_ID_List_t`. `profileIDs` is `none`
for `NULL`; for an allocated array it holds the entries written so far, in index order. -/
structure AdrasteaI_ATProprietary_TLS_Profile_ID_List_t where
  profileIDs : Option (List Nat)
  count : Nat
deriving DecidableEq, Repr

/-- The `for` loop of `AdrasteaI_ATProprietary_ListTLSProfiles` (ATProprietary.c 787-793)
with `n` iterations left: each iteration decodes one 8-bit profile ID up to the argument
delimiter into the next entry; a failed decode ends the function. -/
def AdrasteaI_ATProprietary_ListTLSProfiles_loop (h : Header) (text : List Char) :
    Nat → Nat → List Nat → Bool × Nat × List Nat
  | 0, pResponseCommand, profileIDs => (true, pResponseCommand, profileIDs)
  | n + 1, pResponseCommand, profileIDs =>
    match ATCommand_GetNextArgumentInt h text pResponseCommand 8 ATCOMMAND_ARGUMENT_DELIM with
    | none => (false, pResponseCommand, profileIDs)
    | some (value, pResponseCommand) =>
      AdrasteaI_ATProprietary_ListTLSProfiles_loop h text n pResponseCommand
        (profileIDs ++ [value])

/-- The function `AdrasteaI_ATProprietary_ListTLSProfiles` (ATProprietary.c 751-806). The
first character of `AT_commandBuffer` is set to the terminator between the send and the
wait (765). `allocated` says whether `malloc` returns a block; a count above 255 is
outside the model (`none`), as for `AdrasteaI_ATProprietary_ListCredentials`. -/
def AdrasteaI_ATProprietary_ListTLSProfiles (h : Header) (x : Exchange) (g : Globals)
    (profileIDsList : Option AdrasteaI_ATProprietary_TLS_Profile_ID_List_t)
    (allocated : Bool) :
    Option (Observed (Option AdrasteaI_ATProprietary_TLS_Profile_ID_List_t)) :=
  match profileIDsList with
  | none => some ⟨false, none, []⟩
  | some list =>
    let request := AdrasteaI_ATProprietary_ListTLSProfiles_request
    let calls := [Call.SendRequest request]
    if ¬ AdrasteaI_SendRequest x request then some ⟨false, some list, calls⟩ else
    let g := { g with AT_commandBuffer := [] }
    let maxTimeMs := h.AdrasteaI_GetTimeout .AdrasteaI_Timeout_Proprietary
    let calls := calls ++ [Call.WaitForConfirm maxTimeMs .AdrasteaI_CNFStatus_Success true]
    let (confirmed, g) :=
      AdrasteaI_WaitForConfirm x g maxTimeMs .AdrasteaI_CNFStatus_Success true
    if ¬ confirmed then some ⟨false, some list, calls⟩ else
    let pResponseCommand := 0
    let list := { list with profileIDs := none }
    if ATCommand_CountArgs g.AT_commandBuffer pResponseCommand ≠ 0 then
      let pResponseCommand := pResponseCommand + 1
      let list := { list with count := ATCommand_CountArgs g.AT_commandBuffer pResponseCommand }
      if ¬ allocated then some ⟨false, some list, calls⟩ else
      if 255 < list.count then none else
      let list := { list with profileIDs := some [] }
      match AdrasteaI_ATProprietary_ListTLSProfiles_loop h g.AT_commandBuffer
          (list.count - 1) pResponseCommand [] with
      | (false, _, profileIDs) =>
        some ⟨false, some { list with profileIDs := some profileIDs }, calls⟩
      | (true, pResponseCommand, profileIDs) =>
        match ATCommand_GetNextArgumentInt h g.AT_commandBuffer pResponseCommand 8
            ATCOMMAND_STRING_TERMINATE with
        | none => some ⟨false, some { list with profileIDs := some profileIDs }, calls⟩
        | some (value, _) =>
          some ⟨true, some { list with profileIDs := some (profileIDs ++ [value]) }, calls⟩
    else some ⟨true, some { list with count := 0 }, calls⟩

/-- The function `AdrasteaI_ATProprietary_AddTLSProfile` (ATProprietary.c 827-947). -/
def AdrasteaI_ATProprietary_AddTLSProfile (h : Header) (x : Exchange) (g : Globals)
    (profileID : Nat) (CA CAPath deviceCert deviceKey pskID pskKey : List Char) :
    Option (Observed Unit) :=
  commandWithoutOutput h x
    (AdrasteaI_ATProprietary_AddTLSProfile_request h g profileID CA CAPath deviceCert
      deviceKey pskID pskKey)
    .AdrasteaI_Timeout_Proprietary false

/-- The function `AdrasteaI_ATProprietary_DeleteTLSProfile` (ATProprietary.c 956-983). -/
def AdrasteaI_ATProprietary_DeleteTLSProfile (h : Header) (x : Exchange) (g : Globals)
    (profileID : Nat) : Option (Observed Unit) :=
  commandWithoutOutput h x (AdrasteaI_ATProprietary_DeleteTLSProfile_request h g profileID)
    .AdrasteaI_Timeout_Proprietary false

/-- The function `AdrasteaI_ATProprietary_SetPDNParameters` (ATProprietary.c 992-1049). -/
def AdrasteaI_ATProprietary_SetPDNParameters (h : Header) (x : Exchange) (g : Globals)
    (parameters : AdrasteaI_ATProprietary_PDN_Parameters_t) : Option (Observed Unit) :=
  commandWithoutOutput h x (AdrasteaI_ATProprietary_SetPDNParameters_request h g parameters)
    .AdrasteaI_Timeout_Proprietary false

/-- The function `AdrasteaI_ATProprietary_ReadPDNParameters` (ATProprietary.c 1058-1095). -/
def AdrasteaI_ATProprietary_ReadPDNParameters (h : Header) (x : Exchange) (g : Globals)
    (parametersP : Option AdrasteaI_ATProprietary_PDN_Parameters_t) :
    Observed (Option AdrasteaI_ATProprietary_PDN_Parameters_t) :=
  match parametersP with
  | none => ⟨false, none, []⟩
  | some parameters =>
    let (confirmed, g, calls) := sendAndWait h x g
      AdrasteaI_ATProprietary_ReadPDNParameters_request .AdrasteaI_Timeout_Proprietary true
    if ¬ confirmed then ⟨false, some parameters, calls⟩ else
    let pResponseCommand := 0
    let pResponseCommand := pResponseCommand + 1
    match ATCommand_GetNextArgumentInt h g.AT_commandBuffer pResponseCommand 8
        ATCOMMAND_ARGUMENT_DELIM with
    | none => ⟨false, some parameters, calls⟩
    | some (value, pResponseCommand) =>
    let parameters := { parameters with sessionID := value }
    match ATCommand_GetNextArgumentString g.AT_commandBuffer pResponseCommand
        ATCOMMAND_ARGUMENT_DELIM h.sizeof_APN_Name with
    | none => ⟨false, some parameters, calls⟩
    | some (value, pResponseCommand) =>
    let parameters := { parameters with apnName := value }
    match ATCommand_GetNextArgumentEnum g.AT_commandBuffer pResponseCommand
        AdrasteaI_ATProprietary_IP_Addr_Format_Strings 30 ATCOMMAND_ARGUMENT_DELIM with
    | none => ⟨false, some parameters, calls⟩
    | some (value, _) =>
    let parameters := { parameters with ipFormat := value }
    ⟨true, some parameters, calls⟩

/-- The function `AdrasteaI_ATSMS_DeleteMessage` (ATSMS.c 50-77). -/
def AdrasteaI_ATSMS_DeleteMessage (h : Header) (x : Exchange) (g : Globals) (index : Nat) :
    Option (Observed Unit) :=
  commandWithoutOutput h x (AdrasteaI_ATSMS_DeleteMessage_request h g index)
    .AdrasteaI_Timeout_SMS false

/-- The function `AdrasteaI_ATSMS_DeleteAllMessages` (ATSMS.c 84-97). -/
def AdrasteaI_ATSMS_DeleteAllMessages (h : Header) (x : Exchange) (g : Globals) :
    Observed Unit :=
  let (confirmed, _, calls) := sendAndWait h x g AdrasteaI_ATSMS_DeleteAllMessages_request
    .AdrasteaI_Timeout_SMS false
  ⟨confirmed, (), calls⟩

/-- The function `AdrasteaI_ATSMS_ListMessages` (ATSMS.c 106-133). -/
def AdrasteaI_ATSMS_ListMessages (h : Header) (x : Exchange) (g : Globals) (listType : Nat) :
    Option (Observed Unit) :=
  commandWithoutOutput h x (AdrasteaI_ATSMS_ListMessages_request h g listType)
    .AdrasteaI_Timeout_SMS false

/-- The function `AdrasteaI_ATSMS_ReadMessage` (ATSMS.c 142-169). -/
def AdrasteaI_ATSMS_ReadMessage (h : Header) (x : Exchange) (g : Globals) (index : Nat) :
    Option (Observed Unit) :=
  commandWithoutOutput h x (AdrasteaI_ATSMS_ReadMessage_request h g index)
    .AdrasteaI_Timeout_SMS false

/-- The function `AdrasteaI_ATSMS_SetMessageStorageLocations` (ATSMS.c 182-239). -/
def AdrasteaI_ATSMS_SetMessageStorageLocations (h : Header) (x : Exchange) (g : Globals)
    (readDeleteStorage writeSendStorage receiveStorage : Nat) : Option (Observed Unit) :=
  commandWithoutOutput h x
    (AdrasteaI_ATSMS_SetMessageStorageLocations_request h g readDeleteStorage
      writeSendStorage receiveStorage)
    .AdrasteaI_Timeout_SMS false

/-- The fields of one of the three members of `AdrasteaI_ATSMS_Message_Storage_Usage_t`;
the name of their type is in a header that is not among the sources. -/
structure AdrasteaI_ATSMS_Storage_Usage_t where
  storageLocation : Nat
  usedMessages : Nat
  maxMessages : Nat
deriving DecidableEq, Repr

/-- The fields of `AdrasteaI_ATSMS_Message_Storage_Usage_t`. -/
structure AdrasteaI_ATSMS_Message_Storage_Usage_t where
  readDeleteStorageUsage : AdrasteaI_ATSMS_Storage_Usage_t
  writeSendStorageUsage : AdrasteaI_ATSMS_Storage_Usage_t
  receiveStorageUsage : AdrasteaI_ATSMS_Storage_Usage_t
deriving DecidableEq, Repr

/-- The function `AdrasteaI_ATSMS_ReadMessageStorageUsage` (ATSMS.c 248-315). -/
def AdrasteaI_ATSMS_ReadMessageStorageUsage (h : Header) (x : Exchange) (g : Globals)
    (storageUsageP : Option AdrasteaI_ATSMS_Message_Storage_Usage_t) :
    Observed (Option AdrasteaI_ATSMS_Message_Storage_Usage_t) :=
  match storageUsageP with
  | none => ⟨false, none, []⟩
  | some storageUsage =>
    let (confirmed, g, calls) := sendAndWait h x g
      AdrasteaI_ATSMS_ReadMessageStorageUsage_request .AdrasteaI_Timeout_SMS true
    if ¬ confirmed then ⟨false, some storageUsage, calls⟩ else
    let pResponseCommand := 0
    let pResponseCommand := pResponseCommand + 1
    match ATCommand_GetNextArgumentEnumWithoutQuotationMarks g.AT_commandBuffer
        pResponseCommand AdrasteaI_ATSMS_Storage_Location_Strings 30
        ATCOMMAND_ARGUMENT_DELIM with
    | none => ⟨false, some storageUsage, calls⟩
    | some (value, pResponseCommand) =>
    let storageUsage := { storageUsage with
      readDeleteStorageUsage := { storageUsage.readDeleteStorageUsage with
        storageLocation := value } }
    match ATCommand_GetNextArgumentInt h g.AT_commandBuffer pResponseCommand 8
        ATCOMMAND_ARGUMENT_DELIM with
    | none => ⟨false, some storageUsage, calls⟩
    | some (value, pResponseCommand) =>
    let storageUsage := { storageUsage with
      readDeleteStorageUsage := { storageUsage.readDeleteStorageUsage with
        usedMessages := value } }
    match ATCommand_GetNextArgumentInt h g.AT_commandBuffer pResponseCommand 8
        ATCOMMAND_ARGUMENT_DELIM with
    | none => ⟨false, some storageUsage, calls⟩
    | some (value, pResponseCommand) =>
    let storageUsage := { storageUsage with
      readDeleteStorageUsage := { storageUsage.readDeleteStorageUsage with
        maxMessages := value } }
    match ATCommand_GetNextArgumentEnumWithoutQuotationMarks g.AT_commandBuffer
        pResponseCommand AdrasteaI_ATSMS_Storage_Location_Strings 30
        ATCOMMAND_ARGUMENT_DELIM with
    | none => ⟨false, some storageUsage, calls⟩
    | some (value, pResponseCommand) =>
    let storageUsage := { storageUsage with
      writeSendStorageUsage := { storageUsage.writeSendStorageUsage with
        storageLocation := value } }
    match ATCommand_GetNextArgumentInt h g.AT_commandBuffer pResponseCommand 8
        ATCOMMAND_ARGUMENT_DELIM with
    | none => ⟨false, some storageUsage, calls⟩
    | some (value, pResponseCommand) =>
    let storageUsage := { storageUsage with
      writeSendStorageUsage := { storageUsage.writeSendStorageUsage with
        usedMessages := value } }
    match ATCommand_GetNextArgumentInt h g.AT_commandBuffer pResponseCommand 8
        ATCOMMAND_ARGUMENT_DELIM with
    | none => ⟨false, some storageUsage, calls⟩
    | some (value, pResponseCommand) =>
    let storageUsage := { storageUsage with
      writeSendStorageUsage := { storageUsage.writeSendStorageUsage with
        maxMessages := value } }
    match ATCommand_GetNextArgumentEnumWithoutQuotationMarks g.AT_commandBuffer
        pResponseCommand AdrasteaI_ATSMS_Storage_Location_Strings 30
        ATCOMMAND_ARGUMENT_DELIM with
    | none => ⟨false, some storageUsage, calls⟩
    | some (value, pResponseCommand) =>
    let storageUsage := { storageUsage with
      receiveStorageUsage := { storageUsage.receiveStorageUsage with
        storageLocation := value } }
    match ATCommand_GetNextArgumentInt h g.AT_commandBuffer pResponseCommand 8
        ATCOMMAND_ARGUMENT_DELIM with
    | none => ⟨false, some storageUsage, calls⟩
    | some (value, pResponseCommand) =>
    let storageUsage := { storageUsage with
      receiveStorageUsage := { storageUsage.receiveStorageUsage with
        usedMessages := value } }
    match ATCommand_GetNextArgumentInt h g.AT_commandBuffer pResponseCommand 8
        ATCOMMAND_STRING_TERMINATE with
    | none => ⟨false, some storageUsage, calls⟩
    | some (value, _) =>
    let storageUsage := { storageUsage with
      receiveStorageUsage := { storageUsage.receiveStorageUsage with
        maxMessages := value } }
    ⟨true, some storageUsage, calls⟩

/-- The function `AdrasteaI_ATSMS_SetServiceCenterAddress` (ATSMS.c 324-364). -/
def AdrasteaI_ATSMS_SetServiceCenterAddress (h : Header) (x : Exchange) (g : Globals)
    (serviceCenterAddress : AdrasteaI_ATSMS_Service_Center_Address_t) :
    Option (Observed Unit) :=
  commandWithoutOutput h x
    (AdrasteaI_ATSMS_SetServiceCenterAddress_request h g serviceCenterAddress)
    .AdrasteaI_Timeout_SMS false

/-- The function `AdrasteaI_ATSMS_ReadServiceCenterAddress` (ATSMS.c 373-405). -/
def AdrasteaI_ATSMS_ReadServiceCenterAddress (h : Header) (x : Exchange) (g : Globals)
    (serviceCenterAddressP : Option AdrasteaI_ATSMS_Service_Center_Address_t) :
    Observed (Option AdrasteaI_ATSMS_Service_Center_Address_t) :=
  match serviceCenterAddressP with
  | none => ⟨false, none, []⟩
  | some serviceCenterAddress =>
    let (confirmed, g, calls) := sendAndWait h x g
      AdrasteaI_ATSMS_ReadServiceCenterAddress_request .AdrasteaI_Timeout_SMS true
    if ¬ confirmed then ⟨false, some serviceCenterAddress, calls⟩ else
    let pResponseCommand := 0
    let pResponseCommand := pResponseCommand + 1
    match ATCommand_GetNextArgumentStringWithoutQuotationMarks g.AT_commandBuffer
        pResponseCommand ATCOMMAND_ARGUMENT_DELIM
        h.sizeof_Service_Center_Address_address with
    | none => ⟨false, some serviceCenterAddress, calls⟩
    | some (value, pResponseCommand) =>
    let serviceCenterAddress := { serviceCenterAddress with address := value }
    match ATCommand_GetNextArgumentInt h g.AT_commandBuffer pResponseCommand 16
        ATCOMMAND_STRING_TERMINATE with
    | none => ⟨false, some serviceCenterAddress, calls⟩
    | some (value, _) =>
    let serviceCenterAddress := { serviceCenterAddress with addressType := value }
    ⟨true, some serviceCenterAddress, calls⟩

/-- The loop `while (*pResponseCommand != '\0' && *(pResponseCommand + 1) != '+')
pResponseCommand += 1;` of the three sending functions (ATSMS.c 476-479, 560-563,
644-647): the number of characters the cursor moves. It stops at the character in front
of the first `+` that is not the first character, or at the terminator. -/
def scanForPlus : List Char → Nat
  | [] => 0
  | c :: rest =>
    if c = ATCOMMAND_STRING_TERMINATE then 0
    else if rest.head? = some '+' then 0
    else scanForPlus rest + 1

/-- The function `AdrasteaI_ATSMS_SendMessage` (ATSMS.c 420-489). -/
def AdrasteaI_ATSMS_SendMessage (h : Header) (x : Exchange) (g : Globals)
    (address : List Char) (addressType : Nat) (message : List Char)
    (messageReferenceP : Option Nat) : Option (Observed (Option Nat)) :=
  match messageReferenceP with
  | none => some ⟨false, none, []⟩
  | some messageReference =>
    match AdrasteaI_ATSMS_SendMessage_request h g address addressType message with
    | .error .outOfBounds => none
    | .error .returnedFalse => some ⟨false, some messageReference, []⟩
    | .ok g =>
      let (confirmed, g, calls) := sendAndWait h x g g.AT_commandBuffer
        .AdrasteaI_Timeout_SMS true
      if ¬ confirmed then some ⟨false, some messageReference, calls⟩ else
      let pResponseCommand := 0
      let pResponseCommand := pResponseCommand + scanForPlus g.AT_commandBuffer
      let pResponseCommand := pResponseCommand + 8
      match ATCommand_GetNextArgumentInt h g.AT_commandBuffer pResponseCommand 8
          ATCOMMAND_STRING_TERMINATE with
      | none => some ⟨false, some messageReference, calls⟩
      | some (value, _) => some ⟨true, some value, calls⟩

/-- The function `AdrasteaI_ATSMS_SendLargeMessage` (ATSMS.c 504-573). -/
def AdrasteaI_ATSMS_SendLargeMessage (h : Header) (x : Exchange) (g : Globals)
    (address : List Char) (addressType : Nat) (message : List Char)
    (messageReferenceP : Option Nat) : Option (Observed (Option Nat)) :=
  match messageReferenceP with
  | none => some ⟨false, none, []⟩
  | some messageReference =>
    match AdrasteaI_ATSMS_SendLargeMessage_request h g address addressType message with
    | .error .outOfBounds => none
    | .error .returnedFalse => some ⟨false, some messageReference, []⟩
    | .ok g =>
      let (confirmed, g, calls) := sendAndWait h x g g.AT_commandBuffer
        .AdrasteaI_Timeout_SMS true
      if ¬ confirmed then some ⟨false, some messageReference, calls⟩ else
      let pResponseCommand := 0
      let pResponseCommand := pResponseCommand + scanForPlus g.AT_commandBuffer
      let pResponseCommand := pResponseCommand + 8
      match ATCommand_GetNextArgumentInt h g.AT_commandBuffer pResponseCommand 8
          ATCOMMAND_STRING_TERMINATE with
      | none => some ⟨false, some messageReference, calls⟩
      | some (value, _) => some ⟨true, some value, calls⟩

/-- The function `AdrasteaI_ATSMS_WriteMessageToStorage` (ATSMS.c 588-657). -/
def AdrasteaI_ATSMS_WriteMessageToStorage (h : Header) (x : Exchange) (g : Globals)
    (address : List Char) (addressType : Nat) (message : List Char)
    (messageIndexP : Option Nat) : Option (Observed (Option Nat)) :=
  match messageIndexP with
  | none => some ⟨false, none, []⟩
  | some messageIndex =>
    match AdrasteaI_ATSMS_WriteMessageToStorage_request h g address addressType message with
    | .error .outOfBounds => none
    | .error .returnedFalse => some ⟨false, some messageIndex, []⟩
    | .ok g =>
      let (confirmed, g, calls) := sendAndWait h x g g.AT_commandBuffer
        .AdrasteaI_Timeout_SMS true
      if ¬ confirmed then some ⟨false, some messageIndex, calls⟩ else
      let pResponseCommand := 0
      let pResponseCommand := pResponseCommand + scanForPlus g.AT_commandBuffer
      let pResponseCommand := pResponseCommand + 8
      match ATCommand_GetNextArgumentInt h g.AT_commandBuffer pResponseCommand 8
          ATCOMMAND_STRING_TERMINATE with
      | none => some ⟨false, some messageIndex, calls⟩
      | some (value, _) => some ⟨true, some value, calls⟩

/-- The function `AdrasteaI_ATSMS_SendMessageFromStorage` (ATSMS.c 668-709). -/
def AdrasteaI_ATSMS_SendMessageFromStorage (h : Header) (x : Exchange) (g : Globals)
    (index : Nat) (messageReferenceP : Option Nat) : Option (Observed (Option Nat)) :=
  match messageReferenceP with
  | none => some ⟨false, none, []⟩
  | some messageReference =>
    match AdrasteaI_ATSMS_SendMessageFromStorage_request h g index with
    | .error .outOfBounds => none
    | .error .returnedFalse => some ⟨false, some messageReference, []⟩
    | .ok g =>
      let (confirmed, g, calls) := sendAndWait h x g g.AT_commandBuffer
        .AdrasteaI_Timeout_SMS true
      if ¬ confirmed then some ⟨false, some messageReference, calls⟩ else
      let pResponseCommand := 0
      let pResponseCommand := pResponseCommand + 1
      match ATCommand_GetNextArgumentInt h g.AT_commandBuffer pResponseCommand 8
          ATCOMMAND_STRING_TERMINATE with
      | none => some ⟨false, some messageReference, calls⟩
      | some (value, _) => some ⟨true, some value, calls⟩

/-- The function `AdrasteaI_ATSMS_SetSMSUnsolicitedNotificationEvents`
(ATSMS.c 718-748): each case of the `switch` sends its literal request, the default case
returns `false`; the wait follows the `switch`. -/
def AdrasteaI_ATSMS_SetSMSUnsolicitedNotificationEvents (h : Header) (x : Exchange)
    (g : Globals) (eventState : Nat) : Observed Unit :=
  match AdrasteaI_ATSMS_SetSMSUnsolicitedNotificationEvents_request h eventState with
  | .error _ => ⟨false, (), []⟩
  | .ok request =>
    let (confirmed, _, calls) := sendAndWait h x g request .AdrasteaI_Timeout_SMS false
    ⟨confirmed, (), calls⟩

/-! ## Calls of the command functions, uniformly -/

/-- A call of one of the thirty command functions with all its arguments. An output
pointer is `none` for `NULL` and otherwise holds the object it points to; `allocated`
says whether `malloc` returns a block in that call. -/
inductive Invocation where
  | AdrasteaI_ATProprietary_ReadNetworkAttachmentState (stateP : Option Nat)
  | AdrasteaI_ATProprietary_SetNetworkAttachmentState (state : Nat)
  | AdrasteaI_ATProprietary_ReadRemainingPINPUKAttempts
      (attemptsP : Option AdrasteaI_ATProprietary_PIN_PUK_Attempts_t)
  | AdrasteaI_ATProprietary_SwitchToRATWithoutFullReboot (rat storage source : Nat)
  | AdrasteaI_ATProprietary_ReadRATStatus
      (ratstatusP : Option AdrasteaI_ATProprietary_RAT_Status_t)
  | AdrasteaI_ATProprietary_SetBootDelay (delay : Nat)
  | AdrasteaI_ATProprietary_ResolveDomainName (sessionid : Nat) (domain : List Char)
      (format : Nat)
  | AdrasteaI_ATProprietary_Ping (format : Nat) (destaddr : List Char)
      (packetcount packetsize timeout : Nat)
  | AdrasteaI_ATProprietary_ReadCredential (filename : List Char)
      (dataP : Option (List Char)) (dataMaxBufferSize : Nat)
  | AdrasteaI_ATProprietary_WriteCredential (filename : List Char) (format : Nat)
      (data : List Char)
  | AdrasteaI_ATProprietary_ListCredentials
      (filenamesList : Option AdrasteaI_ATProprietary_File_Names_List_t) (allocated : Bool)
  | AdrasteaI_ATProprietary_DeleteCredential (filename : List Char)
  | AdrasteaI_ATProprietary_ListTLSProfiles
      (profileIDsList : Option AdrasteaI_ATProprietary_TLS_Profile_ID_List_t)
      (allocated : Bool)
  | AdrasteaI_ATProprietary_AddTLSProfile (profileID : Nat)
      (CA CAPath deviceCert deviceKey pskID pskKey : List Char)
  | AdrasteaI_ATProprietary_DeleteTLSProfile (profileID : Nat)
  | AdrasteaI_ATProprietary_SetPDNParameters
      (parameters : AdrasteaI_ATProprietary_PDN_Parameters_t)
  | AdrasteaI_ATProprietary_ReadPDNParameters
      (parametersP : Option AdrasteaI_ATProprietary_PDN_Parameters_t)
  | AdrasteaI_ATSMS_DeleteMessage (index : Nat)
  | AdrasteaI_ATSMS_DeleteAllMessages
  | AdrasteaI_ATSMS_ListMessages (listType : Nat)
  | AdrasteaI_ATSMS_ReadMessage (index : Nat)
  | AdrasteaI_ATSMS_SetMessageStorageLocations
      (readDeleteStorage writeSendStorage receiveStorage : Nat)
  | AdrasteaI_ATSMS_ReadMessageStorageUsage
      (storageUsageP : Option AdrasteaI_ATSMS_Message_Storage_Usage_t)
  | AdrasteaI_ATSMS_SetServiceCenterAddress
      (serviceCenterAddress : AdrasteaI_ATSMS_Service_Center_Address_t)
  | AdrasteaI_ATSMS_ReadServiceCenterAddress
      (serviceCenterAddressP : Option AdrasteaI_ATSMS_Service_Center_Address_t)
  | AdrasteaI_ATSMS_SendMessage (address : List Char) (addressType : Nat)
      (message : List Char) (messageReferenceP : Option Nat)
  | AdrasteaI_ATSMS_SendLargeMessage (address : List Char) (addressType : Nat)
      (message : List Char) (messageReferenceP : Option Nat)
  | AdrasteaI_ATSMS_WriteMessageToStorage (address : List Char) (addressType : Nat)
      (message : List Char) (messageIndexP : Option Nat)
  | AdrasteaI_ATSMS_SendMessageFromStorage (index : Nat) (messageReferenceP : Option Nat)
  | AdrasteaI_ATSMS_SetSMSUnsolicitedNotificationEvents (eventState : Nat)
deriving DecidableEq, Repr

/-- The entry of the catalogue that a call belongs to: the arguments its request depends
on, and whether its output pointer is `NULL`. -/
def Invocation.command : Invocation → Command
  | .AdrasteaI_ATProprietary_ReadNetworkAttachmentState stateP =>
    .AdrasteaI_ATProprietary_ReadNetworkAttachmentState stateP.isNone
  | .AdrasteaI_ATProprietary_SetNetworkAttachmentState state =>
    .AdrasteaI_ATProprietary_SetNetworkAttachmentState state
  | .AdrasteaI_ATProprietary_ReadRemainingPINPUKAttempts attemptsP =>
    .AdrasteaI_ATProprietary_ReadRemainingPINPUKAttempts attemptsP.isNone
  | .AdrasteaI_ATProprietary_SwitchToRATWithoutFullReboot rat storage source =>
    .AdrasteaI_ATProprietary_SwitchToRATWithoutFullReboot rat storage source
  | .AdrasteaI_ATProprietary_ReadRATStatus ratstatusP =>
    .AdrasteaI_ATProprietary_ReadRATStatus ratstatusP.isNone
  | .AdrasteaI_ATProprietary_SetBootDelay delay =>
    .AdrasteaI_ATProprietary_SetBootDelay delay
  | .AdrasteaI_ATProprietary_ResolveDomainName sessionid domain format =>
    .AdrasteaI_ATProprietary_ResolveDomainName sessionid domain format
  | .AdrasteaI_ATProprietary_Ping format destaddr packetcount packetsize timeout =>
    .AdrasteaI_ATProprietary_Ping format destaddr packetcount packetsize timeout
  | .AdrasteaI_ATProprietary_ReadCredential filename dataP _ =>
    .AdrasteaI_ATProprietary_ReadCredential filename dataP.isNone
  | .AdrasteaI_ATProprietary_WriteCredential filename format data =>
    .AdrasteaI_ATProprietary_WriteCredential filename format data
  | .AdrasteaI_ATProprietary_ListCredentials filenamesList _ =>
    .AdrasteaI_ATProprietary_ListCredentials filenamesList.isNone
  | .AdrasteaI_ATProprietary_DeleteCredential filename =>
    .AdrasteaI_ATProprietary_DeleteCredential filename
  | .AdrasteaI_ATProprietary_ListTLSProfiles profileIDsList _ =>
    .AdrasteaI_ATProprietary_ListTLSProfiles profileIDsList.isNone
  | .AdrasteaI_ATProprietary_AddTLSProfile profileID CA CAPath deviceCert deviceKey pskID
      pskKey =>
    .AdrasteaI_ATProprietary_AddTLSProfile profileID CA CAPath deviceCert deviceKey pskID
      pskKey
  | .AdrasteaI_ATProprietary_DeleteTLSProfile profileID =>
    .AdrasteaI_ATProprietary_DeleteTLSProfile profileID
  | .AdrasteaI_ATProprietary_SetPDNParameters parameters =>
    .AdrasteaI_ATProprietary_SetPDNParameters parameters
  | .AdrasteaI_ATProprietary_ReadPDNParameters parametersP =>
    .AdrasteaI_ATProprietary_ReadPDNParameters parametersP.isNone
  | .AdrasteaI_ATSMS_DeleteMessage index => .AdrasteaI_ATSMS_DeleteMessage index
  | .AdrasteaI_ATSMS_DeleteAllMessages => .AdrasteaI_ATSMS_DeleteAllMessages
  | .AdrasteaI_ATSMS_ListMessages listType => .AdrasteaI_ATSMS_ListMessages listType
  | .AdrasteaI_ATSMS_ReadMessage index => .AdrasteaI_ATSMS_ReadMessage index
  | .AdrasteaI_ATSMS_SetMessageStorageLocations readDeleteStorage writeSendStorage
      receiveStorage =>
    .AdrasteaI_ATSMS_SetMessageStorageLocations readDeleteStorage writeSendStorage
      receiveStorage
  | .AdrasteaI_ATSMS_ReadMessageStorageUsage storageUsageP =>
    .AdrasteaI_ATSMS_ReadMessageStorageUsage storageUsageP.isNone
  | .AdrasteaI_ATSMS_SetServiceCenterAddress serviceCenterAddress =>
    .AdrasteaI_ATSMS_SetServiceCenterAddress serviceCenterAddress
  | .AdrasteaI_ATSMS_ReadServiceCenterAddress serviceCenterAddressP =>
    .AdrasteaI_ATSMS_ReadServiceCenterAddress serviceCenterAddressP.isNone
  | .AdrasteaI_ATSMS_SendMessage address addressType message messageReferenceP =>
    .AdrasteaI_ATSMS_SendMessage address addressType message messageReferenceP.isNone
  | .AdrasteaI_ATSMS_SendLargeMessage address addressType message messageReferenceP =>
    .AdrasteaI_ATSMS_SendLargeMessage address addressType message messageReferenceP.isNone
  | .AdrasteaI_ATSMS_WriteMessageToStorage address addressType message messageIndexP =>
    .AdrasteaI_ATSMS_WriteMessageToStorage address addressType message messageIndexP.isNone
  | .AdrasteaI_ATSMS_SendMessageFromStorage index messageReferenceP =>
    .AdrasteaI_ATSMS_SendMessageFromStorage index messageReferenceP.isNone
  | .AdrasteaI_ATSMS_SetSMSUnsolicitedNotificationEvents eventState =>
    .AdrasteaI_ATSMS_SetSMSUnsolicitedNotificationEvents eventState

/-- What one call leaves behind, for any of the command functions: the value returned,
the call with the objects behind its output pointers as the function left them, and the
calls made to the transaction engine in the order they were made. -/
structure Trace where
  returned : Bool
  after : Invocation
  calls : List Call
deriving DecidableEq, Repr

/-- One call of a command function, from the initial globals `g` against the exchange
`x`. The result is `none` when the call is undefined in C or outside the model. -/
def execute (h : Header) (x : Exchange) (g : Globals) : Invocation → Option Trace
  | .AdrasteaI_ATProprietary_ReadNetworkAttachmentState stateP =>
    let r := AdrasteaI_ATProprietary_ReadNetworkAttachmentState h x g stateP
    some ⟨r.returned, .AdrasteaI_ATProprietary_ReadNetworkAttachmentState r.output, r.calls⟩
  | .AdrasteaI_ATProprietary_SetNetworkAttachmentState state =>
    (AdrasteaI_ATProprietary_SetNetworkAttachmentState h x g state).map fun r =>
      ⟨r.returned, .AdrasteaI_ATProprietary_SetNetworkAttachmentState state, r.calls⟩
  | .AdrasteaI_ATProprietary_ReadRemainingPINPUKAttempts attemptsP =>
    let r := AdrasteaI_ATProprietary_ReadRemainingPINPUKAttempts h x g attemptsP
    some ⟨r.returned, .AdrasteaI_ATProprietary_ReadRemainingPINPUKAttempts r.output, r.calls⟩
  | .AdrasteaI_ATProprietary_SwitchToRATWithoutFullReboot rat storage source =>
    (AdrasteaI_ATProprietary_SwitchToRATWithoutFullReboot h x g rat storage source).map
      fun r => ⟨r.returned,
        .AdrasteaI_ATProprietary_SwitchToRATWithoutFullReboot rat storage source, r.calls⟩
  | .AdrasteaI_ATProprietary_ReadRATStatus ratstatusP =>
    let r := AdrasteaI_ATProprietary_ReadRATStatus h x g ratstatusP
    some ⟨r.returned, .AdrasteaI_ATProprietary_ReadRATStatus r.output, r.calls⟩
  | .AdrasteaI_ATProprietary_SetBootDelay delay =>
    (AdrasteaI_ATProprietary_SetBootDelay h x g delay).map fun r =>
      ⟨r.returned, .AdrasteaI_ATProprietary_SetBootDelay delay, r.calls⟩
  | .AdrasteaI_ATProprietary_ResolveDomainName sessionid domain format =>
    (AdrasteaI_ATProprietary_ResolveDomainName h x g sessionid domain format).map fun r =>
      ⟨r.returned, .AdrasteaI_ATProprietary_ResolveDomainName sessionid domain format,
        r.calls⟩
  | .AdrasteaI_ATProprietary_Ping format destaddr packetcount packetsize timeout =>
    (AdrasteaI_ATProprietary_Ping h x g format destaddr packetcount packetsize timeout).map
      fun r => ⟨r.returned,
        .AdrasteaI_ATProprietary_Ping format destaddr packetcount packetsize timeout, r.calls⟩
  | .AdrasteaI_ATProprietary_ReadCredential filename dataP dataMaxBufferSize =>
    (AdrasteaI_ATProprietary_ReadCredential h x g filename dataP dataMaxBufferSize).map
      fun r => ⟨r.returned,
        .AdrasteaI_ATProprietary_ReadCredential filename r.output dataMaxBufferSize, r.calls⟩
  | .AdrasteaI_ATProprietary_WriteCredential filename format data =>
    (AdrasteaI_ATProprietary_WriteCredential h x g filename format data).map fun r =>
      ⟨r.returned, .AdrasteaI_ATProprietary_WriteCredential filename format data, r.calls⟩
  | .AdrasteaI_ATProprietary_ListCredentials filenamesList allocated =>
    (AdrasteaI_ATProprietary_ListCredentials h x g filenamesList allocated).map fun r =>
      ⟨r.returned, .AdrasteaI_ATProprietary_ListCredentials r.output allocated, r.calls⟩
  | .AdrasteaI_ATProprietary_DeleteCredential filename =>
    (AdrasteaI_ATProprietary_DeleteCredential h x g filename).map fun r =>
      ⟨r.returned, .AdrasteaI_ATProprietary_DeleteCredential filename, r.calls⟩
  | .AdrasteaI_ATProprietary_ListTLSProfiles profileIDsList allocated =>
    (AdrasteaI_ATProprietary_ListTLSProfiles h x g profileIDsList allocated).map fun r =>
      ⟨r.returned, .AdrasteaI_ATProprietary_ListTLSProfiles r.output allocated, r.calls⟩
  | .AdrasteaI_ATProprietary_AddTLSProfile profileID CA CAPath deviceCert deviceKey pskID
      pskKey =>
    (AdrasteaI_ATProprietary_AddTLSProfile h x g profileID CA CAPath deviceCert deviceKey
      pskID pskKey).map fun r =>
      ⟨r.returned, .AdrasteaI_ATProprietary_AddTLSProfile profileID CA CAPath deviceCert
        deviceKey pskID pskKey, r.calls⟩
  | .AdrasteaI_ATProprietary_DeleteTLSProfile profileID =>
    (AdrasteaI_ATProprietary_DeleteTLSProfile h x g profileID).map fun r =>
      ⟨r.returned, .AdrasteaI_ATProprietary_DeleteTLSProfile profileID, r.calls⟩
  | .AdrasteaI_ATProprietary_SetPDNParameters parameters =>
    (AdrasteaI_ATProprietary_SetPDNParameters h x g parameters).map fun r =>
      ⟨r.returned, .AdrasteaI_ATProprietary_SetPDNParameters parameters, r.calls⟩
  | .AdrasteaI_ATProprietary_ReadPDNParameters parametersP =>
    let r := AdrasteaI_ATProprietary_ReadPDNParameters h x g parametersP
    some ⟨r.returned, .AdrasteaI_ATProprietary_ReadPDNParameters r.output, r.calls⟩
  | .AdrasteaI_ATSMS_DeleteMessage index =>
    (AdrasteaI_ATSMS_DeleteMessage h x g index).map fun r =>
      ⟨r.returned, .AdrasteaI_ATSMS_DeleteMessage index, r.calls⟩
  | .AdrasteaI_ATSMS_DeleteAllMessages =>
    let r := AdrasteaI_ATSMS_DeleteAllMessages h x g
    some ⟨r.returned, .AdrasteaI_ATSMS_DeleteAllMessages, r.calls⟩
  | .AdrasteaI_ATSMS_ListMessages listType =>
    (AdrasteaI_ATSMS_ListMessages h x g listType).map fun r =>
      ⟨r.returned, .AdrasteaI_ATSMS_ListMessages listType, r.calls⟩
  | .AdrasteaI_ATSMS_ReadMessage index =>
    (AdrasteaI_ATSMS_ReadMessage h x g index).map fun r =>
      ⟨r.returned, .AdrasteaI_ATSMS_ReadMessage index, r.calls⟩
  | .AdrasteaI_ATSMS_SetMessageStorageLocations readDeleteStorage writeSendStorage
      receiveStorage =>
    (AdrasteaI_ATSMS_SetMessageStorageLocations h x g readDeleteStorage writeSendStorage
      receiveStorage).map fun r =>
      ⟨r.returned, .AdrasteaI_ATSMS_SetMessageStorageLocations readDeleteStorage
        writeSendStorage receiveStorage, r.calls⟩
  | .AdrasteaI_ATSMS_ReadMessageStorageUsage storageUsageP =>
    let r := AdrasteaI_ATSMS_ReadMessageStorageUsage h x g storageUsageP
    some ⟨r.returned, .AdrasteaI_ATSMS_ReadMessageStorageUsage r.output, r.calls⟩
  | .AdrasteaI_ATSMS_SetServiceCenterAddress serviceCenterAddress =>
    (AdrasteaI_ATSMS_SetServiceCenterAddress h x g serviceCenterAddress).map fun r =>
      ⟨r.returned, .AdrasteaI_ATSMS_SetServiceCenterAddress serviceCenterAddress, r.calls⟩
  | .AdrasteaI_ATSMS_ReadServiceCenterAddress serviceCenterAddressP =>
    let r := AdrasteaI_ATSMS_ReadServiceCenterAddress h x g serviceCenterAddressP
    some ⟨r.returned, .AdrasteaI_ATSMS_ReadServiceCenterAddress r.output, r.calls⟩
  | .AdrasteaI_ATSMS_SendMessage address addressType message messageReferenceP =>
    (AdrasteaI_ATSMS_SendMessage h x g address addressType message messageReferenceP).map
      fun r => ⟨r.returned,
        .AdrasteaI_ATSMS_SendMessage address addressType message r.output, r.calls⟩
  | .AdrasteaI_ATSMS_SendLargeMessage address addressType message messageReferenceP =>
    (AdrasteaI_ATSMS_SendLargeMessage h x g address addressType message
      messageReferenceP).map
      fun r => ⟨r.returned,
        .AdrasteaI_ATSMS_SendLargeMessage address addressType message r.output, r.calls⟩
  | .AdrasteaI_ATSMS_WriteMessageToStorage address addressType message messageIndexP =>
    (AdrasteaI_ATSMS_WriteMessageToStorage h x g address addressType message
      messageIndexP).map
      fun r => ⟨r.returned,
        .AdrasteaI_ATSMS_WriteMessageToStorage address addressType message r.output, r.calls⟩
  | .AdrasteaI_ATSMS_SendMessageFromStorage index messageReferenceP =>
    (AdrasteaI_ATSMS_SendMessageFromStorage h x g index messageReferenceP).map fun r =>
      ⟨r.returned, .AdrasteaI_ATSMS_SendMessageFromStorage index r.output, r.calls⟩
  | .AdrasteaI_ATSMS_SetSMSUnsolicitedNotificationEvents eventState =>
    let r := AdrasteaI_ATSMS_SetSMSUnsolicitedNotificationEvents h x g eventState
    some ⟨r.returned, .AdrasteaI_ATSMS_SetSMSUnsolicitedNotificationEvents eventState,
      r.calls⟩

/-- The two source files of the command functions. -/
inductive SourceFile where
  | ATProprietary_c
  | ATSMS_c
deriving DecidableEq, Repr

/-- The file a command function is defined in. -/
def Command.sourceFile : Command → SourceFile
  | .AdrasteaI_ATProprietary_ReadNetworkAttachmentState _ => .ATProprietary_c
  | .AdrasteaI_ATProprietary_SetNetworkAttachmentState _ => .ATProprietary_c
  | .AdrasteaI_ATProprietary_ReadRemainingPINPUKAttempts _ => .ATProprietary_c
  | .AdrasteaI_ATProprietary_SwitchToRATWithoutFullReboot _ _ _ => .ATProprietary_c
  | .AdrasteaI_ATProprietary_ReadRATStatus _ => .ATProprietary_c
  | .AdrasteaI_ATProprietary_SetBootDelay _ => .ATProprietary_c
  | .AdrasteaI_ATProprietary_ResolveDomainName _ _ _ => .ATProprietary_c
  | .AdrasteaI_ATProprietary_Ping _ _ _ _ _ => .ATProprietary_c
  | .AdrasteaI_ATProprietary_ReadCredential _ _ => .ATProprietary_c
  | .AdrasteaI_ATProprietary_WriteCredential _ _ _ => .ATProprietary_c
  | .AdrasteaI_ATProprietary_ListCredentials _ => .ATProprietary_c
  | .AdrasteaI_ATProprietary_DeleteCredential _ => .ATProprietary_c
  | .AdrasteaI_ATProprietary_ListTLSProfiles _ => .ATProprietary_c
  | .AdrasteaI_ATProprietary_AddTLSProfile _ _ _ _ _ _ _ => .ATProprietary_c
  | .AdrasteaI_ATProprietary_DeleteTLSProfile _ => .ATProprietary_c
  | .AdrasteaI_ATProprietary_SetPDNParameters _ => .ATProprietary_c
  | .AdrasteaI_ATProprietary_ReadPDNParameters _ => .ATProprietary_c
  | .AdrasteaI_ATSMS_DeleteMessage _ => .ATSMS_c
  | .AdrasteaI_ATSMS_DeleteAllMessages => .ATSMS_c
  | .AdrasteaI_ATSMS_ListMessages _ => .ATSMS_c
  | .AdrasteaI_ATSMS_ReadMessage _ => .ATSMS_c
  | .AdrasteaI_ATSMS_SetMessageStorageLocations _ _ _ => .ATSMS_c
  | .AdrasteaI_ATSMS_ReadMessageStorageUsage _ => .ATSMS_c
  | .AdrasteaI_ATSMS_SetServiceCenterAddress _ => .ATSMS_c
  | .AdrasteaI_ATSMS_ReadServiceCenterAddress _ => .ATSMS_c
  | .AdrasteaI_ATSMS_SendMessage _ _ _ _ => .ATSMS_c
  | .AdrasteaI_ATSMS_SendLargeMessage _ _ _ _ => .ATSMS_c
  | .AdrasteaI_ATSMS_WriteMessageToStorage _ _ _ _ => .ATSMS_c
  | .AdrasteaI_ATSMS_SendMessageFromStorage _ _ => .ATSMS_c
  | .AdrasteaI_ATSMS_SetSMSUnsolicitedNotificationEvents _ => .ATSMS_c

/-- The timeout class that goes with a source file: `AdrasteaI_Timeout_Proprietary` for
ATProprietary.c and `AdrasteaI_Timeout_SMS` for ATSMS.c. -/
def SourceFile.timeoutClass : SourceFile → AdrasteaI_Timeout_t
  | .ATProprietary_c => .AdrasteaI_Timeout_Proprietary
  | .ATSMS_c => .AdrasteaI_Timeout_SMS

/-- Whether the wait of a call captures the response: the third argument of
`AdrasteaI_WaitForConfirm` is `AT_commandBuffer` (`true`) or `NULL` (`false`). -/
def Invocation.captures : Invocation → Bool
  | .AdrasteaI_ATProprietary_ReadNetworkAttachmentState _ => true
  | .AdrasteaI_ATProprietary_ReadRemainingPINPUKAttempts _ => true
  | .AdrasteaI_ATProprietary_ReadRATStatus _ => true
  | .AdrasteaI_ATProprietary_ReadCredential _ _ _ => true
  | .AdrasteaI_ATProprietary_WriteCredential _ _ _ => true
  | .AdrasteaI_ATProprietary_ListCredentials _ _ => true
  | .AdrasteaI_ATProprietary_ListTLSProfiles _ _ => true
  | .AdrasteaI_ATProprietary_ReadPDNParameters _ => true
  | .AdrasteaI_ATSMS_ReadMessageStorageUsage _ => true
  | .AdrasteaI_ATSMS_ReadServiceCenterAddress _ => true
  | .AdrasteaI_ATSMS_SendMessage _ _ _ _ => true
  | .AdrasteaI_ATSMS_SendLargeMessage _ _ _ _ => true
  | .AdrasteaI_ATSMS_WriteMessageToStorage _ _ _ _ => true
  | .AdrasteaI_ATSMS_SendMessageFromStorage _ _ => true
  | _ => false

/-- Whether every step that follows a successful wait succeeds: for each function the
decode calls of its source, in source order, each from the cursor the previous one left
(in the two list functions also the allocation), reduced to their success. A function
that decodes nothing has no such step. -/
def responseStepsSucceed (h : Header) : Invocation → List Char → Bool
  | .AdrasteaI_ATProprietary_ReadNetworkAttachmentState _, response =>
    (ATCommand_GetNextArgumentInt h response 1 8 ATCOMMAND_STRING_TERMINATE).isSome
  | .AdrasteaI_ATProprietary_ReadRemainingPINPUKAttempts _, response =>
    ((ATCommand_GetNextArgumentInt h response 1 8 ATCOMMAND_ARGUMENT_DELIM).bind fun a =>
      (ATCommand_GetNextArgumentInt h response a.2 8 ATCOMMAND_ARGUMENT_DELIM).bind fun b =>
      (ATCommand_GetNextArgumentInt h response b.2 8 ATCOMMAND_ARGUMENT_DELIM).bind fun c =>
      ATCommand_GetNextArgumentInt h response c.2 8 ATCOMMAND_STRING_TERMINATE).isSome
  | .AdrasteaI_ATProprietary_ReadRATStatus _, response =>
    ((ATCommand_GetNextArgumentEnumWithoutQuotationMarks response 1
        AdrasteaI_ATProprietary_RAT_Strings 30 ATCOMMAND_ARGUMENT_DELIM).bind fun a =>
      (ATCommand_GetNextArgumentInt h response a.2 8 ATCOMMAND_ARGUMENT_DELIM).bind fun b =>
      ATCommand_GetNextArgumentInt h response b.2 8 ATCOMMAND_STRING_TERMINATE).isSome
  | .AdrasteaI_ATProprietary_ReadCredential _ _ dataMaxBufferSize, response =>
    (ATCommand_GetNextArgumentStringWithoutQuotationMarks response 0
      ATCOMMAND_STRING_TERMINATE dataMaxBufferSize).isSome
  | .AdrasteaI_ATProprietary_ListCredentials _ allocated, response =>
    if ATCommand_CountArgs response 0 ≠ 0 then
      allocated &&
        (let loop := AdrasteaI_ATProprietary_ListCredentials_loop h response
          (ATCommand_CountArgs response 0 - 1) 0 []
        loop.1 && (ATCommand_GetNextArgumentString response loop.2.1
          ATCOMMAND_STRING_TERMINATE h.sizeof_File_Name).isSome)
    else true
  | .AdrasteaI_ATProprietary_ListTLSProfiles _ allocated, response =>
    if ATCommand_CountArgs response 0 ≠ 0 then
      allocated &&
        (let loop := AdrasteaI_ATProprietary_ListTLSProfiles_loop h response
          (ATCommand_CountArgs response 1 - 1) 1 []
        loop.1 && (ATCommand_GetNextArgumentInt h response loop.2.1 8
          ATCOMMAND_STRING_TERMINATE).isSome)
    else true
  | .AdrasteaI_ATProprietary_ReadPDNParameters _, response =>
    ((ATCommand_GetNextArgumentInt h response 1 8 ATCOMMAND_ARGUMENT_DELIM).bind fun a =>
      (ATCommand_GetNextArgumentString response a.2 ATCOMMAND_ARGUMENT_DELIM
        h.sizeof_APN_Name).bind fun b =>
      ATCommand_GetNextArgumentEnum response b.2
        AdrasteaI_ATProprietary_IP_Addr_Format_Strings 30 ATCOMMAND_ARGUMENT_DELIM).isSome
  | .AdrasteaI_ATSMS_ReadMessageStorageUsage _, response =>
    ((ATCommand_GetNextArgumentEnumWithoutQuotationMarks response 1
        AdrasteaI_ATSMS_Storage_Location_Strings 30 ATCOMMAND_ARGUMENT_DELIM).bind fun a =>
      (ATCommand_GetNextArgumentInt h response a.2 8 ATCOMMAND_ARGUMENT_DELIM).bind fun b =>
      (ATCommand_GetNextArgumentInt h response b.2 8 ATCOMMAND_ARGUMENT_DELIM).bind fun c =>
      (ATCommand_GetNextArgumentEnumWithoutQuotationMarks response c.2
        AdrasteaI_ATSMS_Storage_Location_Strings 30 ATCOMMAND_ARGUMENT_DELIM).bind fun d =>
      (ATCommand_GetNextArgumentInt h response d.2 8 ATCOMMAND_ARGUMENT_DELIM).bind fun e =>
      (ATCommand_GetNextArgumentInt h response e.2 8 ATCOMMAND_ARGUMENT_DELIM).bind fun f =>
      (ATCommand_GetNextArgumentEnumWithoutQuotationMarks response f.2
        AdrasteaI_ATSMS_Storage_Location_Strings 30 ATCOMMAND_ARGUMENT_DELIM).bind fun k =>
      (ATCommand_GetNextArgumentInt h response k.2 8 ATCOMMAND_ARGUMENT_DELIM).bind fun l =>
      ATCommand_GetNextArgumentInt h response l.2 8 ATCOMMAND_STRING_TERMINATE).isSome
  | .AdrasteaI_ATSMS_ReadServiceCenterAddress _, response =>
    ((ATCommand_GetNextArgumentStringWithoutQuotationMarks response 1
        ATCOMMAND_ARGUMENT_DELIM h.sizeof_Service_Center_Address_address).bind fun a =>
      ATCommand_GetNextArgumentInt h response a.2 16 ATCOMMAND_STRING_TERMINATE).isSome
  | .AdrasteaI_ATSMS_SendMessage _ _ _ _, response =>
    (ATCommand_GetNextArgumentInt h response (scanForPlus response + 8) 8
      ATCOMMAND_STRING_TERMINATE).isSome
  | .AdrasteaI_ATSMS_SendLargeMessage _ _ _ _, response =>
    (ATCommand_GetNextArgumentInt h response (scanForPlus response + 8) 8
      ATCOMMAND_STRING_TERMINATE).isSome
  | .AdrasteaI_ATSMS_WriteMessageToStorage _ _ _ _, response =>
    (ATCommand_GetNextArgumentInt h response (scanForPlus response + 8) 8
      ATCOMMAND_STRING_TERMINATE).isSome
  | .AdrasteaI_ATSMS_SendMessageFromStorage _ _, response =>
    (ATCommand_GetNextArgumentInt h response 1 8 ATCOMMAND_STRING_TERMINATE).isSome
  | _, _ => true

/-- The normal form of a call: what `execute` gives in terms of the request, the
exchange and the steps after the wait. -/
def NormalForm (h : Header) (x : Exchange) (g : Globals) (inv : Invocation) (t : Trace) :
    Prop :=
  (sentRequest h g inv.command = .error .returnedFalse → t = ⟨false, inv, []⟩)
  ∧ sentRequest h g inv.command ≠ .error .outOfBounds
  ∧ ∀ request, sentRequest h g inv.command = .ok request →
      (x.transmitted = false → t = ⟨false, inv, [Call.SendRequest request]⟩)
      ∧ (x.transmitted = true →
          t.calls = [Call.SendRequest request,
            Call.WaitForConfirm (h.AdrasteaI_GetTimeout inv.command.sourceFile.timeoutClass)
              .AdrasteaI_CNFStatus_Success inv.captures]
          ∧ (∀ payload, x.confirmation
                (h.AdrasteaI_GetTimeout inv.command.sourceFile.timeoutClass)
                = some (.AdrasteaI_CNFStatus_Success, payload) →
              t.returned = responseStepsSucceed h inv payload)
          ∧ ((∀ payload, x.confirmation
                (h.AdrasteaI_GetTimeout inv.command.sourceFile.timeoutClass)
                ≠ some (.AdrasteaI_CNFStatus_Success, payload)) →
              t.returned = false ∧ t.after = inv))

/-! ## The composed text at the truncation statement -/

/-- The composition of `AdrasteaI_ATProprietary_SwitchToRATWithoutFullReboot` up to the
truncation statement (ATProprietary.c 183-222): the text in `pRequestCommand` and the value of
`AdrasteaI_optionalParamsDelimCount` when
`pRequestCommand[strlen(pRequestCommand) - AdrasteaI_optionalParamsDelimCount]` is
assigned. -/
def AdrasteaI_ATProprietary_SwitchToRATWithoutFullReboot_beforeTruncation (h : Header) (g : Globals)
    (rat storage source : Nat) : Except Abort (List Char × Nat) := do
  let mut count := g.AdrasteaI_optionalParamsDelimCount
  let mut pRequestCommand := g.AT_commandBuffer
  count := 1
  pRequestCommand := "AT%RATACT=".toList
  let s ← tableEntry AdrasteaI_ATProprietary_RAT_Strings rat
  pRequestCommand ← ATCommand_AppendArgumentStringQuotationMarks h pRequestCommand s
    ATCOMMAND_ARGUMENT_DELIM
  if storage ≠ h.AdrasteaI_ATProprietary_RAT_Storage_Invalid then
    pRequestCommand ← ATCommand_AppendArgumentInt h pRequestCommand storage
      ATCOMMAND_ARGUMENT_DELIM
    count := 1
  else
    pRequestCommand ← ATCommand_AppendArgumentString h pRequestCommand ATCOMMAND_STRING_EMPTY
      ATCOMMAND_ARGUMENT_DELIM
    count := count + 1
  if source ≠ h.AdrasteaI_ATProprietary_RAT_Source_Invalid then
    pRequestCommand ← ATCommand_AppendArgumentInt h pRequestCommand source
      ATCOMMAND_STRING_TERMINATE
    count := 0
  return (pRequestCommand, count)

/-- The composition of `AdrasteaI_ATProprietary_ResolveDomainName` up to the truncation
statement (ATProprietary.c 335-362): the text in `pRequestCommand` and the value of
`AdrasteaI_optionalParamsDelimCount` when
`pRequestCommand[strlen(pRequestCommand) - AdrasteaI_optionalParamsDelimCount]` is
assigned. -/
def AdrasteaI_ATProprietary_ResolveDomainName_beforeTruncation (h : Header) (g : Globals)
    (sessionid : Nat) (domain : List Char) (format : Nat) : Except Abort (List Char × Nat) := do
  let mut count := g.AdrasteaI_optionalParamsDelimCount
  let mut pRequestCommand := g.AT_commandBuffer
  count := 1
  pRequestCommand := "AT%DNSRSLV=".toList
  pRequestCommand ← ATCommand_AppendArgumentInt h pRequestCommand sessionid
    ATCOMMAND_ARGUMENT_DELIM
  pRequestCommand ← ATCommand_AppendArgumentStringQuotationMarks h pRequestCommand domain
    ATCOMMAND_ARGUMENT_DELIM
  if format ≠ h.AdrasteaI_ATProprietary_IP_Addr_Format_Invalid then
    pRequestCommand ← ATCommand_AppendArgumentInt h pRequestCommand format
      ATCOMMAND_STRING_TERMINATE
    count := 0
  return (pRequestCommand, count)

/-- The composition of `AdrasteaI_ATProprietary_Ping` up to the truncation
statement (ATProprietary.c 427-488): the text in `pRequestCommand` and the value of
`AdrasteaI_optionalParamsDelimCount` when
`pRequestCommand[strlen(pRequestCommand) - AdrasteaI_optionalParamsDelimCount]` is
assigned. -/
def AdrasteaI_ATProprietary_Ping_beforeTruncation (h : Header) (g : Globals)
    (format : Nat) (destaddr : List Char) (packetcount packetsize timeout : Nat) :
    Except Abort (List Char × Nat) := do
  let mut count := g.AdrasteaI_optionalParamsDelimCount
  let mut pRequestCommand := g.AT_commandBuffer
  count := 1
  pRequestCommand := "AT%PINGCMD=".toList
  pRequestCommand ← ATCommand_AppendArgumentInt h pRequestCommand format
    ATCOMMAND_ARGUMENT_DELIM
  pRequestCommand ← ATCommand_AppendArgumentStringQuotationMarks h pRequestCommand destaddr
    ATCOMMAND_ARGUMENT_DELIM
  if packetcount ≠ h.AdrasteaI_ATProprietary_Ping_Packet_Count_Invalid then
    pRequestCommand ← ATCommand_AppendArgumentInt h pRequestCommand packetcount
      ATCOMMAND_ARGUMENT_DELIM
    count := 1
  else
    pRequestCommand ← ATCommand_AppendArgumentString h pRequestCommand ATCOMMAND_STRING_EMPTY
      ATCOMMAND_ARGUMENT_DELIM
    count := count + 1
  if packetsize ≠ h.AdrasteaI_ATProprietary_Ping_Packet_Size_Invalid then
    pRequestCommand ← ATCommand_AppendArgumentInt h pRequestCommand packetsize
      ATCOMMAND_ARGUMENT_DELIM
    count := 1
  else
    pRequestCommand ← ATCommand_AppendArgumentString h pRequestCommand ATCOMMAND_STRING_EMPTY
      ATCOMMAND_ARGUMENT_DELIM
    count := count + 1
  if timeout ≠ h.AdrasteaI_ATProprietary_Ping_Timeout_Invalid then
    pRequestCommand ← ATCommand_AppendArgumentInt h pRequestCommand timeout
      ATCOMMAND_STRING_TERMINATE
    count := 0
  return (pRequestCommand, count)

/-- The composition of `AdrasteaI_ATProprietary_AddTLSProfile` up to the truncation
statement (ATProprietary.c 827-929): the text in `pRequestCommand` and the value of
`AdrasteaI_optionalParamsDelimCount` when
`pRequestCommand[strlen(pRequestCommand) - AdrasteaI_optionalParamsDelimCount]` is
assigned. -/
def AdrasteaI_ATProprietary_AddTLSProfile_beforeTruncation (h : Header) (g : Globals)
    (profileID : Nat) (CA CAPath deviceCert deviceKey pskID pskKey : List Char) :
    Except Abort (List Char × Nat) := do
  let mut count := g.AdrasteaI_optionalParamsDelimCount
  let mut pRequestCommand := g.AT_commandBuffer
  count := 1
  pRequestCommand := "AT%CERTCFG=\"ADD\",".toList
  pRequestCommand ← ATCommand_AppendArgumentInt h pRequestCommand profileID
    ATCOMMAND_ARGUMENT_DELIM
  if CA.length ≠ 0 then
    pRequestCommand ← ATCommand_AppendArgumentStringQuotationMarks h pRequestCommand CA
      ATCOMMAND_ARGUMENT_DELIM
    count := 1
    if CAPath.length ≠ 0 then
      pRequestCommand ← ATCommand_AppendArgumentStringQuotationMarks h pRequestCommand CAPath
        ATCOMMAND_ARGUMENT_DELIM
      count := 1
    else
      pRequestCommand ← ATCommand_AppendArgumentString h pRequestCommand
        ATCOMMAND_STRING_EMPTY ATCOMMAND_ARGUMENT_DELIM
      count := count + 1
  else
    pRequestCommand ← ATCommand_AppendArgumentString h pRequestCommand ATCOMMAND_STRING_EMPTY
      ATCOMMAND_ARGUMENT_DELIM
    count := count + 1
    pRequestCommand ← ATCommand_AppendArgumentString h pRequestCommand ATCOMMAND_STRING_EMPTY
      ATCOMMAND_ARGUMENT_DELIM
    count := count + 1
  if deviceCert.length ≠ 0 ∧ deviceKey.length ≠ 0 then
    pRequestCommand ← ATCommand_AppendArgumentStringQuotationMarks h pRequestCommand deviceCert
      ATCOMMAND_ARGUMENT_DELIM
    pRequestCommand ← ATCommand_AppendArgumentStringQuotationMarks h pRequestCommand deviceKey
      ATCOMMAND_ARGUMENT_DELIM
    count := 1
  else
    pRequestCommand ← ATCommand_AppendArgumentString h pRequestCommand ATCOMMAND_STRING_EMPTY
      ATCOMMAND_ARGUMENT_DELIM
    count := count + 1
    pRequestCommand ← ATCommand_AppendArgumentString h pRequestCommand ATCOMMAND_STRING_EMPTY
      ATCOMMAND_ARGUMENT_DELIM
    count := count + 1
  if pskID.length ≠ 0 ∧ pskKey.length ≠ 0 then
    pRequestCommand ← ATCommand_AppendArgumentString h pRequestCommand ATCOMMAND_STRING_EMPTY
      ATCOMMAND_ARGUMENT_DELIM
    pRequestCommand ← ATCommand_AppendArgumentString h pRequestCommand ATCOMMAND_STRING_EMPTY
      ATCOMMAND_STRING_TERMINATE
    count := 0
  return (pRequestCommand, count)

/-- The composition of `AdrasteaI_ATProprietary_SetPDNParameters` up to the truncation
statement (ATProprietary.c 992-1031): the text in `pRequestCommand` and the value of
`AdrasteaI_optionalParamsDelimCount` when
`pRequestCommand[strlen(pRequestCommand) - AdrasteaI_optionalParamsDelimCount]` is
assigned. -/
def AdrasteaI_ATProprietary_SetPDNParameters_beforeTruncation (h : Header) (g : Globals)
    (parameters : AdrasteaI_ATProprietary_PDN_Parameters_t) : Except Abort (List Char × Nat) := do
  let mut count := g.AdrasteaI_optionalParamsDelimCount
  let mut pRequestCommand := g.AT_commandBuffer
  count := 1
  pRequestCommand := "AT%PDNSET=".toList
  pRequestCommand ← ATCommand_AppendArgumentInt h pRequestCommand parameters.sessionID
    ATCOMMAND_ARGUMENT_DELIM
  if parameters.apnName.length ≠ 0 then
    pRequestCommand ← ATCommand_AppendArgumentStringQuotationMarks h pRequestCommand
      parameters.apnName ATCOMMAND_ARGUMENT_DELIM
    count := 1
  else
    pRequestCommand ← ATCommand_AppendArgumentString h pRequestCommand ATCOMMAND_STRING_EMPTY
      ATCOMMAND_ARGUMENT_DELIM
    count := count + 1
  if parameters.ipFormat ≠ h.AdrasteaI_ATProprietary_IP_Addr_Format_Invalid then
    let s ← tableEntry AdrasteaI_ATProprietary_IP_Addr_Format_Strings parameters.ipFormat
    pRequestCommand ← ATCommand_AppendArgumentStringQuotationMarks h pRequestCommand s
      ATCOMMAND_STRING_TERMINATE
    count := 0
  return (pRequestCommand, count)

/-- The composition of `AdrasteaI_ATSMS_SetMessageStorageLocations` up to the truncation
statement (ATSMS.c 182-221): the text in `pRequestCommand` and the value of
`AdrasteaI_optionalParamsDelimCount` when
`pRequestCommand[strlen(pRequestCommand) - AdrasteaI_optionalParamsDelimCount]` is
assigned. -/
def AdrasteaI_ATSMS_SetMessageStorageLocations_beforeTruncation (h : Header) (g : Globals)
    (readDeleteStorage writeSendStorage receiveStorage : Nat) : Except Abort (List Char × Nat) := do
  let mut count := g.AdrasteaI_optionalParamsDelimCount
  let mut pRequestCommand := g.AT_commandBuffer
  count := 1
  pRequestCommand := "AT+CPMS=".toList
  let s ← tableEntry AdrasteaI_ATSMS_Storage_Location_Strings readDeleteStorage
  pRequestCommand ← ATCommand_AppendArgumentStringQuotationMarks h pRequestCommand s
    ATCOMMAND_ARGUMENT_DELIM
  if writeSendStorage ≠ h.AdrasteaI_ATSMS_Storage_Location_Invalid then
    let s ← tableEntry AdrasteaI_ATSMS_Storage_Location_Strings writeSendStorage
    pRequestCommand ← ATCommand_AppendArgumentStringQuotationMarks h pRequestCommand s
      ATCOMMAND_ARGUMENT_DELIM
    count := 1
  else
    pRequestCommand ← ATCommand_AppendArgumentString h pRequestCommand ATCOMMAND_STRING_EMPTY
      ATCOMMAND_ARGUMENT_DELIM
    count := count + 1
  if receiveStorage ≠ h.AdrasteaI_ATSMS_Storage_Location_Invalid then
    let s ← tableEntry AdrasteaI_ATSMS_Storage_Location_Strings receiveStorage
    pRequestCommand ← ATCommand_AppendArgumentStringQuotationMarks h pRequestCommand s
      ATCOMMAND_STRING_TERMINATE
    count := 0
  return (pRequestCommand, count)

/-- The composition of `AdrasteaI_ATSMS_SetServiceCenterAddress` up to the truncation
statement (ATSMS.c 324-346): the text in `pRequestCommand` and the value of
`AdrasteaI_optionalParamsDelimCount` when
`pRequestCommand[strlen(pRequestCommand) - AdrasteaI_optionalParamsDelimCount]` is
assigned. -/
def AdrasteaI_ATSMS_SetServiceCenterAddress_beforeTruncation (h : Header) (g : Globals)
    (serviceCenterAddress : AdrasteaI_ATSMS_Service_Center_Address_t) :
    Except Abort (List Char × Nat) := do
  let mut count := g.AdrasteaI_optionalParamsDelimCount
  let mut pRequestCommand := g.AT_commandBuffer
  count := 1
  pRequestCommand := "AT+CSCA=".toList
  pRequestCommand ← ATCommand_AppendArgumentStringQuotationMarks h pRequestCommand
    serviceCenterAddress.address ATCOMMAND_ARGUMENT_DELIM
  if serviceCenterAddress.addressType ≠ h.AdrasteaI_ATSMS_Address_Type_Invalid then
    pRequestCommand ← ATCommand_AppendArgumentInt h pRequestCommand
      serviceCenterAddress.addressType ATCOMMAND_STRING_TERMINATE
    count := 0
  return (pRequestCommand, count)

/-- The composition of `AdrasteaI_ATSMS_SendMessage` up to the truncation
statement (ATSMS.c 427-447): the text in `pRequestCommand` and the value of
`AdrasteaI_optionalParamsDelimCount` when
`pRequestCommand[strlen(pRequestCommand) - AdrasteaI_optionalParamsDelimCount]` is
assigned. -/
def AdrasteaI_ATSMS_SendMessage_beforeTruncation (h : Header) (g : Globals)
    (address : List Char) (addressType : Nat) :
    Except Abort (List Char × Nat) := do
  let mut count := g.AdrasteaI_optionalParamsDelimCount
  let mut pRequestCommand := g.AT_commandBuffer
  count := 1
  pRequestCommand := "AT+CMGS=".toList
  pRequestCommand ← ATCommand_AppendArgumentStringQuotationMarks h pRequestCommand address
    ATCOMMAND_ARGUMENT_DELIM
  if addressType ≠ h.AdrasteaI_ATSMS_Address_Type_Invalid then
    pRequestCommand ← ATCommand_AppendArgumentInt h pRequestCommand addressType
      ATCOMMAND_STRING_TERMINATE
    count := 0
  return (pRequestCommand, count)

/-- The composition of `AdrasteaI_ATSMS_SendLargeMessage` up to the truncation
statement (ATSMS.c 511-531): the text in `pRequestCommand` and the value of
`AdrasteaI_optionalParamsDelimCount` when
`pRequestCommand[strlen(pRequestCommand) - AdrasteaI_optionalParamsDelimCount]` is
assigned. -/
def AdrasteaI_ATSMS_SendLargeMessage_beforeTruncation (h : Header) (g : Globals)
    (address : List Char) (addressType : Nat) :
    Except Abort (List Char × Nat) := do
  let mut count := g.AdrasteaI_optionalParamsDelimCount
  let mut pRequestCommand := g.AT_commandBuffer
  count := 1
  pRequestCommand := "AT%CMGSC=".toList
  pRequestCommand ← ATCommand_AppendArgumentStringQuotationMarks h pRequestCommand address
    ATCOMMAND_ARGUMENT_DELIM
  if addressType ≠ h.AdrasteaI_ATSMS_Address_Type_Invalid then
    pRequestCommand ← ATCommand_AppendArgumentInt h pRequestCommand addressType
      ATCOMMAND_STRING_TERMINATE
    count := 0
  return (pRequestCommand, count)

/-- The composition of `AdrasteaI_ATSMS_WriteMessageToStorage` up to the truncation
statement (ATSMS.c 595-615): the text in `pRequestCommand` and the value of
`AdrasteaI_optionalParamsDelimCount` when
`pRequestCommand[strlen(pRequestCommand) - AdrasteaI_optionalParamsDelimCount]` is
assigned. -/
def AdrasteaI_ATSMS_WriteMessageToStorage_beforeTruncation (h : Header) (g : Globals)
    (address : List Char) (addressType : Nat) :
    Except Abort (List Char × Nat) := do
  let mut count := g.AdrasteaI_optionalParamsDelimCount
  let mut pRequestCommand := g.AT_commandBuffer
  count := 1
  pRequestCommand := "AT+CMGW=".toList
  pRequestCommand ← ATCommand_AppendArgumentStringQuotationMarks h pRequestCommand address
    ATCOMMAND_ARGUMENT_DELIM
  if addressType ≠ h.AdrasteaI_ATSMS_Address_Type_Invalid then
    pRequestCommand ← ATCommand_AppendArgumentInt h pRequestCommand addressType
      ATCOMMAND_STRING_TERMINATE
    count := 0
  return (pRequestCommand, count)

/-! ## Cursors of the SMS event parsers

`behind` is what follows the terminator of the argument string in memory, as in the
parsers (see `readableAfterSkip`). -/

/-- The values that the local pointer `argumentsP` of `AdrasteaI_ATSMS_ParseReadMessageEvent`
(ATSMS.c 765-801) takes, as offsets from `pEventArguments`, in the order it takes them:
after the unconditional `argumentsP += 1` (766), and after each decode that succeeds. -/
def AdrasteaI_ATSMS_ParseReadMessageEvent_cursors (h : Header) (text behind : List Char) :
    List Nat :=
  let argumentsP := 0
  let argumentsP := argumentsP + 1
  let text := readableAfterSkip text behind
  let visited := [argumentsP]
  match ATCommand_GetNextArgumentEnumWithoutQuotationMarks text argumentsP
      AdrasteaI_ATSMS_Message_State_Strings 30 ATCOMMAND_ARGUMENT_DELIM with
  | none => visited
  | some (_, argumentsP) =>
  let visited := visited ++ [argumentsP]
  match ATCommand_GetNextArgumentStringWithoutQuotationMarks text argumentsP
      ATCOMMAND_ARGUMENT_DELIM h.sizeof_Message_address with
  | none => visited
  | some (_, argumentsP) =>
  let visited := visited ++ [argumentsP]
  let payload := fun (argumentsP : Nat) (visited : List Nat) =>
    match ATCommand_GetNextArgumentString text argumentsP ATCOMMAND_STRING_TERMINATE
        h.sizeof_Message_payload with
    | none => visited
    | some (_, argumentsP) => visited ++ [argumentsP]
  if ATCommand_CountArgs text argumentsP = 3 then
    match ATCommand_GetNextArgumentString text argumentsP ATCOMMAND_ARGUMENT_DELIM 40 with
    | none => visited
    | some (_, argumentsP) =>
    let visited := visited ++ [argumentsP]
    match ATCommand_GetNextArgumentStringWithoutQuotationMarks text argumentsP
        ATCOMMAND_ARGUMENT_DELIM 40 with
    | none => visited
    | some (_, argumentsP) => payload argumentsP (visited ++ [argumentsP])
  else payload argumentsP visited

/-- The values that the local pointer `argumentsP` of `AdrasteaI_ATSMS_ParseListMessagesEvent`
(ATSMS.c 819-858) takes, as offsets from `pEventArguments`, in the order it takes them:
after the unconditional `argumentsP += 1`, and after each decode that succeeds. -/
def AdrasteaI_ATSMS_ParseListMessagesEvent_cursors (h : Header) (text behind : List Char) :
    List Nat :=
  let argumentsP := 0
  let argumentsP := argumentsP + 1
  let text := readableAfterSkip text behind
  let visited := [argumentsP]
  match ATCommand_GetNextArgumentInt h text argumentsP 8 ATCOMMAND_ARGUMENT_DELIM with
  | none => visited
  | some (_, argumentsP) =>
  let visited := visited ++ [argumentsP]
  match ATCommand_GetNextArgumentEnumWithoutQuotationMarks text argumentsP
      AdrasteaI_ATSMS_Message_State_Strings 30 ATCOMMAND_ARGUMENT_DELIM with
  | none => visited
  | some (_, argumentsP) =>
  let visited := visited ++ [argumentsP]
  match ATCommand_GetNextArgumentStringWithoutQuotationMarks text argumentsP
      ATCOMMAND_ARGUMENT_DELIM h.sizeof_Message_address with
  | none => visited
  | some (_, argumentsP) =>
  let visited := visited ++ [argumentsP]
  let payload := fun (argumentsP : Nat) (visited : List Nat) =>
    match ATCommand_GetNextArgumentString text argumentsP ATCOMMAND_STRING_TERMINATE
        h.sizeof_Message_payload with
    | none => visited
    | some (_, argumentsP) => visited ++ [argumentsP]
  if ATCommand_CountArgs text argumentsP = 3 then
    match ATCommand_GetNextArgumentString text argumentsP ATCOMMAND_ARGUMENT_DELIM 40 with
    | none => visited
    | some (_, argumentsP) =>
    let visited := visited ++ [argumentsP]
    match ATCommand_GetNextArgumentStringWithoutQuotationMarks text argumentsP
        ATCOMMAND_ARGUMENT_DELIM 40 with
    | none => visited
    | some (_, argumentsP) => payload argumentsP (visited ++ [argumentsP])
  else payload argumentsP visited

/-- The values that the local pointer `argumentsP` of
`AdrasteaI_ATSMS_ParseMessageReceivedEvent` (ATSMS.c 876-888) takes, as offsets from
`pEventArguments`, in the order it takes them. -/
def AdrasteaI_ATSMS_ParseMessageReceivedEvent_cursors (h : Header) (text behind : List Char) :
    List Nat :=
  let argumentsP := 0
  let argumentsP := argumentsP + 1
  let text := readableAfterSkip text behind
  let visited := [argumentsP]
  match ATCommand_GetNextArgumentEnumWithoutQuotationMarks text argumentsP
      AdrasteaI_ATSMS_Storage_Location_Strings 30 ATCOMMAND_ARGUMENT_DELIM with
  | none => visited
  | some (_, argumentsP) =>
  let visited := visited ++ [argumentsP]
  match ATCommand_GetNextArgumentInt h text argumentsP 8 ATCOMMAND_STRING_TERMINATE with
  | none => visited
  | some (_, argumentsP) => visited ++ [argumentsP]

/-- The values that the local pointer `argumentsP` of `AdrasteaI_ATSMS_ParseSMSErrorEvent`
(ATSMS.c 908-915) takes, as offsets from `pEventArguments`, in the order it takes them. -/
def AdrasteaI_ATSMS_ParseSMSErrorEvent_cursors (h : Header) (text behind : List Char) :
    List Nat :=
  let argumentsP := 0
  let argumentsP := argumentsP + 1
  let text := readableAfterSkip text behind
  let visited := [argumentsP]
  match ATCommand_GetNextArgumentInt h text argumentsP 16 ATCOMMAND_STRING_TERMINATE with
  | none => visited
  | some (_, argumentsP) => visited ++ [argumentsP]

/-! ## Responses made of comma-separated tokens -/

/-- The text made of the given tokens with the argument delimiter between them. -/
def commaSeparated : List (List Char) → List Char
  | [] => []
  | [token] => token
  | token :: rest => token ++ ATCOMMAND_ARGUMENT_DELIM :: commaSeparated rest

/-! ## Exchanges that differ in the first character of the response -/

/-- The exchange `x` with the character `c` put in front of every response payload. Two
such exchanges of the same `x` deliver captured responses of length at least 1 that differ
only in their first character; everything else about them is the same. -/
def Exchange.withLeadingCharacter (x : Exchange) (c : Char) : Exchange :=
  { x with confirmation := fun maxTimeMs =>
      (x.confirmation maxTimeMs).map fun r => (r.1, c :: r.2) }

/-! ## The request of the three sending functions -/

@[simp] theorem delimiterText_delim : delimiterText ATCOMMAND_ARGUMENT_DELIM = [','] := by decide

@[simp] theorem delimiterText_comma : delimiterText ',' = [','] := by decide

@[simp] theorem delimiterText_terminate : delimiterText ATCOMMAND_STRING_TERMINATE = [] := by decide

theorem digitChar_isDigit (d : Nat) (hd : d < 10) : (Nat.digitChar d).isDigit = true := by
  interval_cases d <;> decide

theorem toDigitsCore_isDigit (fuel : Nat) :
    ∀ (n : Nat) (acc : List Char), (∀ c ∈ acc, c.isDigit = true) →
      ∀ c ∈ Nat.toDigitsCore 10 fuel n acc, c.isDigit = true := by
  induction fuel with
  | zero => intro n acc hacc c hc; simpa [Nat.toDigitsCore] using hacc c (by simpa [Nat.toDigitsCore] using hc)
  | succ fuel ih =>
    intro n acc hacc c hc
    have hd : (Nat.digitChar (n % 10)).isDigit = true := digitChar_isDigit _ (Nat.mod_lt _ (by decide))
    have hacc2 : ∀ c ∈ Nat.digitChar (n % 10) :: acc, c.isDigit = true := by
      intro c hc
      rcases List.mem_cons.mp hc with rfl | hc
      · exact hd
      · exact hacc c hc
    simp only [Nat.toDigitsCore] at hc
    split at hc
    · exact hacc2 c hc
    · exact ih _ _ hacc2 c hc

theorem toDigits_isDigit (n : Nat) : ∀ c ∈ Nat.toDigits 10 n, c.isDigit = true :=
  toDigitsCore_isDigit (n + 1) n [] (by simp)

theorem toDigitsCore_ne_nil (fuel : Nat) :
    ∀ (n : Nat) (acc : List Char), acc ≠ [] → Nat.toDigitsCore 10 fuel n acc ≠ [] := by
  induction fuel with
  | zero => intro n acc hacc; simpa [Nat.toDigitsCore] using hacc
  | succ fuel ih =>
    intro n acc _
    simp only [Nat.toDigitsCore]
    split
    · simp
    · exact ih _ _ (by simp)

theorem toDigits_ne_nil (n : Nat) : Nat.toDigits 10 n ≠ [] := by
  unfold Nat.toDigits
  simp only [Nat.toDigitsCore]
  split
  · simp
  · exact toDigitsCore_ne_nil _ _ _ (by simp)

theorem toDigits_getLast? (n : Nat) :
    ∃ c, (Nat.toDigits 10 n).getLast? = some c ∧ c.isDigit = true := by
  cases hl : (Nat.toDigits 10 n).getLast? with
  | none => exact absurd (List.getLast?_eq_none_iff.mp hl) (toDigits_ne_nil n)
  | some c => exact ⟨c, rfl, toDigits_isDigit n c (List.mem_of_getLast?_eq_some hl)⟩

theorem isDigit_ne_delim (c : Char) (hc : c.isDigit = true) : c ≠ ',' := by
  rintro rfl
  exact absurd hc (by decide)

theorem toDigits_getLast?_ne (n : Nat) (o : Option Char) :
    ((Nat.toDigits 10 n).getLast?.or o) ≠ some ',' := by
  obtain ⟨c, hc, hd⟩ := toDigits_getLast? n
  rw [hc]
  simpa using isDigit_ne_delim c hd

theorem toDigits_getLast?_getD_ne (n : Nat) (d : Char) :
    ¬ ((Nat.toDigits 10 n).getLast?.getD d = ',') := by
  obtain ⟨c, hc, hd⟩ := toDigits_getLast? n
  rw [hc]
  simpa using isDigit_ne_delim c hd

theorem tableEntry_storage (i : Nat) (hi : i < 6) :
    tableEntry AdrasteaI_ATSMS_Storage_Location_Strings i = .ok (storageLocationString i)
      ∧ (storageLocationString i).length = 2 := by
  interval_cases i <;> exact ⟨rfl, rfl⟩

theorem crlf_suffix_of_getLast (body : List Char) (hb : body.getLast? ≠ some ',') :
    ¬ ((',' :: ATCOMMAND_CRLF) <:+ (body ++ ATCOMMAND_CRLF)) := by
  rintro ⟨pre, hpre⟩
  have h1 : (pre ++ [',']) ++ ATCOMMAND_CRLF = body ++ ATCOMMAND_CRLF := by
    simpa using hpre
  have h2 : pre ++ [','] = body := List.append_cancel_right h1
  exact hb (by simp [← h2])

/-! ## Request texts -/

theorem SetMessageStorageLocations_text_eq (h : Header) (g : Globals) (R W V : Nat)
    (hR : R < 6)
    (hW : W = h.AdrasteaI_ATSMS_Storage_Location_Invalid ∨ W < 6)
    (hV : V = h.AdrasteaI_ATSMS_Storage_Location_Invalid ∨ V < 6)
    (hcap : 24 < h.commandBufferSize) :
    Except.map Globals.AT_commandBuffer
        (AdrasteaI_ATSMS_SetMessageStorageLocations_request h g R W V)
      = .ok ("AT+CPMS=".toList ++ quoted (storageLocationString R)
          ++ (if W = h.AdrasteaI_ATSMS_Storage_Location_Invalid then
                (if V = h.AdrasteaI_ATSMS_Storage_Location_Invalid then []
                 else [',', ','] ++ quoted (storageLocationString V))
              else
                [','] ++ quoted (storageLocationString W)
                  ++ (if V = h.AdrasteaI_ATSMS_Storage_Location_Invalid then []
                      else [','] ++ quoted (storageLocationString V)))
          ++ ATCOMMAND_CRLF) := by
  obtain ⟨hr, hrl⟩ := tableEntry_storage R hR
  by_cases hWi : W = h.AdrasteaI_ATSMS_Storage_Location_Invalid
  · by_cases hVi : V = h.AdrasteaI_ATSMS_Storage_Location_Invalid
    · simp (disch := omega) [AdrasteaI_ATSMS_SetMessageStorageLocations_request, hWi, hVi, hr,
        bind, Except.bind, ATCommand_AppendArgumentStringQuotationMarks,
        ATCommand_AppendArgumentString, if_pos, hrl, ATCOMMAND_STRING_EMPTY, ATCOMMAND_CRLF,
        truncateAtCount, pure, Except.pure, Except.map, quoted,
        List.take_append_eq_append_take, List.take_of_length_le]
    · obtain ⟨hv, hvl⟩ := tableEntry_storage V (by omega)
      simp (disch := omega) [AdrasteaI_ATSMS_SetMessageStorageLocations_request, hWi, hVi, hr, hv,
        bind, Except.bind, ATCommand_AppendArgumentStringQuotationMarks,
        ATCommand_AppendArgumentString, if_pos, hrl, hvl, ATCOMMAND_STRING_EMPTY, ATCOMMAND_CRLF,
        truncateAtCount, pure, Except.pure, Except.map, quoted,
        List.take_append_eq_append_take, List.take_of_length_le]
  · obtain ⟨hw, hwl⟩ := tableEntry_storage W (by omega)
    by_cases hVi : V = h.AdrasteaI_ATSMS_Storage_Location_Invalid
    · simp (disch := omega) [AdrasteaI_ATSMS_SetMessageStorageLocations_request, hWi, hVi, hr, hw,
        bind, Except.bind, ATCommand_AppendArgumentStringQuotationMarks,
        ATCommand_AppendArgumentString, if_pos, hrl, hwl, ATCOMMAND_STRING_EMPTY, ATCOMMAND_CRLF,
        truncateAtCount, pure, Except.pure, Except.map, quoted,
        List.take_append_eq_append_take, List.take_of_length_le]
    · obtain ⟨hv, hvl⟩ := tableEntry_storage V (by omega)
      simp (disch := omega) [AdrasteaI_ATSMS_SetMessageStorageLocations_request, hWi, hVi, hr, hw,
        hv, bind, Except.bind, ATCommand_AppendArgumentStringQuotationMarks,
        ATCommand_AppendArgumentString, if_pos, hrl, hwl, hvl, ATCOMMAND_STRING_EMPTY,
        ATCOMMAND_CRLF, truncateAtCount, pure, Except.pure, Except.map, quoted,
        List.take_append_eq_append_take, List.take_of_length_le]


/-- C1: for R in the storage-location table and W, V each a table member or Invalid,
`AdrasteaI_ATSMS_SetMessageStorageLocations` composes `AT+CPMS="R"`, then nothing /
`,"W"` / `,,"V"` / `,"W","V"` according to which of W and V are present, then CR LF
(the buffer being large enough for the text); and the text the composer produces never
has the delimiter `,` immediately before CR LF. -/
theorem SetMessageStorageLocations_text (h : Header) (g : Globals) (R W V : Nat)
    (hR : R < 6)
    (hW : W = h.AdrasteaI_ATSMS_Storage_Location_Invalid ∨ W < 6)
    (hV : V = h.AdrasteaI_ATSMS_Storage_Location_Invalid ∨ V < 6)
    (hcap : 24 < h.commandBufferSize) :
    Except.map Globals.AT_commandBuffer
        (AdrasteaI_ATSMS_SetMessageStorageLocations_request h g R W V)
      = .ok ("AT+CPMS=".toList ++ quoted (storageLocationString R)
          ++ (if W = h.AdrasteaI_ATSMS_Storage_Location_Invalid then
                (if V = h.AdrasteaI_ATSMS_Storage_Location_Invalid then []
                 else [',', ','] ++ quoted (storageLocationString V))
              else
                [','] ++ quoted (storageLocationString W)
                  ++ (if V = h.AdrasteaI_ATSMS_Storage_Location_Invalid then []
                      else [','] ++ quoted (storageLocationString V)))
          ++ ATCOMMAND_CRLF)
    ∧ ∀ text, Except.map Globals.AT_commandBuffer
        (AdrasteaI_ATSMS_SetMessageStorageLocations_request h g R W V) = .ok text →
        ¬ ((',' :: ATCOMMAND_CRLF) <:+ text) := by
  refine ⟨SetMessageStorageLocations_text_eq h g R W V hR hW hV hcap, ?_⟩
  intro text ht
  rw [SetMessageStorageLocations_text_eq h g R W V hR hW hV hcap] at ht
  injection ht with ht
  subst ht
  apply crlf_suffix_of_getLast
  split_ifs <;> simp [quoted, List.getLast?_cons] <;> decide

/-- Witness of `SetMessageStorageLocations_text`: read/delete storage SM, write/send
storage omitted, receive storage SM gives `AT+CPMS="SM",,"SM"` CR LF. -/
theorem SetMessageStorageLocations_text_witness :
    Except.map Globals.AT_commandBuffer
        (AdrasteaI_ATSMS_SetMessageStorageLocations_request sampleHeader ⟨[], 0⟩ 3 255 3)
      = .ok ("AT+CPMS=\"SM\",,\"SM\"\r\n".toList) :=
  (SetMessageStorageLocations_text sampleHeader ⟨[], 0⟩ 3 255 3 (by decide) (by decide)
    (by decide) (by decide)).1.trans (by decide)


theorem truncateAtCount_eq (l : List Char) (n : Nat) :
    truncateAtCount l n
      = if n ≤ l.length then .ok ((l.reverse.drop n).reverse) else .error .outOfBounds := by
  unfold truncateAtCount
  split
  · rw [List.drop_reverse, List.reverse_reverse]
  · rfl

theorem Ping_text_eq (h : Header) (g : Globals) (format : Nat) (destaddr : List Char)
    (packetcount packetsize timeout : Nat)
    (hcap : (Nat.toDigits 10 format).length + destaddr.length
        + (Nat.toDigits 10 packetcount).length + (Nat.toDigits 10 packetsize).length
        + (Nat.toDigits 10 timeout).length + 20 < h.commandBufferSize) :
    Except.map Globals.AT_commandBuffer
        (AdrasteaI_ATProprietary_Ping_request h g format destaddr packetcount packetsize timeout)
      = .ok ("AT%PINGCMD=".toList ++ Nat.toDigits 10 format ++ [','] ++ quoted destaddr
          ++ optionalPositionsText
              [optionalInt h.AdrasteaI_ATProprietary_Ping_Packet_Count_Invalid packetcount,
               optionalInt h.AdrasteaI_ATProprietary_Ping_Packet_Size_Invalid packetsize,
               optionalInt h.AdrasteaI_ATProprietary_Ping_Timeout_Invalid timeout]
          ++ ATCOMMAND_CRLF) := by
  by_cases hc : packetcount = h.AdrasteaI_ATProprietary_Ping_Packet_Count_Invalid <;>
  by_cases hs : packetsize = h.AdrasteaI_ATProprietary_Ping_Packet_Size_Invalid <;>
  by_cases ht : timeout = h.AdrasteaI_ATProprietary_Ping_Timeout_Invalid <;>
  simp (disch := omega) [AdrasteaI_ATProprietary_Ping_request, hc, hs, ht,
    bind, Except.bind, ATCommand_AppendArgumentStringQuotationMarks, ATCommand_AppendArgumentInt,
    ATCommand_AppendArgumentString, if_pos, ATCOMMAND_STRING_EMPTY, ATCOMMAND_CRLF,
    truncateAtCount_eq, pure, Except.pure, Except.map, quoted, optionalPositionsText,
    optionalInt, ATCOMMAND_ARGUMENT_DELIM]


/-- C2: for all eight present/absent combinations of packetcount, packetsize and timeout,
`AdrasteaI_ATProprietary_Ping` composes `AT%PINGCMD=<format>,"<destaddr>"`, then for each
optional position up to and including the last present one `,` and the decimal text of
the parameter (nothing for an omitted position), then CR LF (the buffer being large
enough); the composed text never has `,` immediately before CR LF. -/
theorem Ping_text (h : Header) (g : Globals) (format : Nat) (destaddr : List Char)
    (packetcount packetsize timeout : Nat)
    (hcap : (Nat.toDigits 10 format).length + destaddr.length
        + (Nat.toDigits 10 packetcount).length + (Nat.toDigits 10 packetsize).length
        + (Nat.toDigits 10 timeout).length + 20 < h.commandBufferSize) :
    Except.map Globals.AT_commandBuffer
        (AdrasteaI_ATProprietary_Ping_request h g format destaddr packetcount packetsize timeout)
      = .ok ("AT%PINGCMD=".toList ++ Nat.toDigits 10 format ++ [','] ++ quoted destaddr
          ++ optionalPositionsText
              [optionalInt h.AdrasteaI_ATProprietary_Ping_Packet_Count_Invalid packetcount,
               optionalInt h.AdrasteaI_ATProprietary_Ping_Packet_Size_Invalid packetsize,
               optionalInt h.AdrasteaI_ATProprietary_Ping_Timeout_Invalid timeout]
          ++ ATCOMMAND_CRLF)
    ∧ ∀ text, Except.map Globals.AT_commandBuffer
        (AdrasteaI_ATProprietary_Ping_request h g format destaddr packetcount packetsize timeout)
          = .ok text →
        ¬ ((',' :: ATCOMMAND_CRLF) <:+ text) := by
  have heq := Ping_text_eq h g format destaddr packetcount packetsize timeout hcap
  refine ⟨heq, ?_⟩
  intro text ht
  rw [heq] at ht
  injection ht with ht
  subst ht
  apply crlf_suffix_of_getLast
  by_cases hc : packetcount = h.AdrasteaI_ATProprietary_Ping_Packet_Count_Invalid <;>
  by_cases hs : packetsize = h.AdrasteaI_ATProprietary_Ping_Packet_Size_Invalid <;>
  by_cases ht : timeout = h.AdrasteaI_ATProprietary_Ping_Timeout_Invalid <;>
  simp [optionalPositionsText, optionalInt, hc, hs, ht, quoted, List.getLast?_cons,
    ATCOMMAND_ARGUMENT_DELIM, toDigits_getLast?_ne, toDigits_getLast?_getD_ne]
  decide

/-- Witness of `Ping_text`: packet count and packet size omitted, timeout 5. -/
theorem Ping_text_witness :
    Except.map Globals.AT_commandBuffer
        (AdrasteaI_ATProprietary_Ping_request sampleHeader ⟨[], 0⟩ 1 "8.8.8.8".toList 0 0 5)
      = .ok "AT%PINGCMD=1,\"8.8.8.8\",,,5\r\n".toList :=
  (Ping_text sampleHeader ⟨[], 0⟩ 1 "8.8.8.8".toList 0 0 5 (by decide)).1.trans (by decide)


theorem tableEntry_rat (i : Nat) (hi : i < 3) :
    tableEntry AdrasteaI_ATProprietary_RAT_Strings i = .ok (ratString i)
      ∧ (ratString i).length ≤ 7 := by
  interval_cases i <;> exact ⟨rfl, by decide⟩

theorem tableEntry_ipAddrFormat (i : Nat) (hi : i < 3) :
    tableEntry AdrasteaI_ATProprietary_IP_Addr_Format_Strings i = .ok (ipAddrFormatString i)
      ∧ (ipAddrFormatString i).length ≤ 6 := by
  interval_cases i <;> exact ⟨rfl, by decide⟩

/-- C6: for every RAT of the table and every storage and source,
`AdrasteaI_ATProprietary_SwitchToRATWithoutFullReboot` composes `AT%RATACT="<RAT string>"`,
then nothing / `,<storage>` / `,,<source>` / `,<storage>,<source>` according to which of
storage and source differ from their Invalid markers (both in unsigned decimal), then
CR LF, the buffer being large enough. -/
theorem SwitchToRATWithoutFullReboot_text (h : Header) (g : Globals) (rat storage source : Nat)
    (hrat : rat < 3)
    (hcap : (Nat.toDigits 10 storage).length + (Nat.toDigits 10 source).length + 23
        < h.commandBufferSize) :
    Except.map Globals.AT_commandBuffer
        (AdrasteaI_ATProprietary_SwitchToRATWithoutFullReboot_request h g rat storage source)
      = .ok ("AT%RATACT=".toList ++ quoted (ratString rat)
          ++ (if storage = h.AdrasteaI_ATProprietary_RAT_Storage_Invalid then
                (if source = h.AdrasteaI_ATProprietary_RAT_Source_Invalid then []
                 else [',', ','] ++ Nat.toDigits 10 source)
              else
                [','] ++ Nat.toDigits 10 storage
                  ++ (if source = h.AdrasteaI_ATProprietary_RAT_Source_Invalid then []
                      else [','] ++ Nat.toDigits 10 source))
          ++ ATCOMMAND_CRLF) := by
  obtain ⟨hr, hrl⟩ := tableEntry_rat rat hrat
  by_cases hst : storage = h.AdrasteaI_ATProprietary_RAT_Storage_Invalid <;>
  by_cases hso : source = h.AdrasteaI_ATProprietary_RAT_Source_Invalid <;>
  simp (disch := omega) [AdrasteaI_ATProprietary_SwitchToRATWithoutFullReboot_request, hst, hso,
    hr, bind, Except.bind, ATCommand_AppendArgumentStringQuotationMarks,
    ATCommand_AppendArgumentInt, ATCommand_AppendArgumentString, if_pos, ATCOMMAND_STRING_EMPTY,
    ATCOMMAND_CRLF, truncateAtCount_eq, pure, Except.pure, Except.map, quoted]

/-- Witness of `SwitchToRATWithoutFullReboot_text`: RAT NBIOT, storage omitted, source 1. -/
theorem SwitchToRATWithoutFullReboot_text_witness :
    Except.map Globals.AT_commandBuffer
        (AdrasteaI_ATProprietary_SwitchToRATWithoutFullReboot_request sampleHeader ⟨[], 0⟩
          2 255 1)
      = .ok "AT%RATACT=\"NBIOT\",,1\r\n".toList :=
  (SwitchToRATWithoutFullReboot_text sampleHeader ⟨[], 0⟩ 2 255 1 (by decide)
    (by decide)).trans (by decide)

/-- C7: for every sessionID, apnName and ipFormat (a table index or Invalid),
`AdrasteaI_ATProprietary_SetPDNParameters` composes `AT%PDNSET=<sessionID>`, then nothing /
`,"<apnName>"` / `,,"<format string>"` / `,"<apnName>","<format string>"` according to
whether apnName is non-empty and ipFormat is not Invalid, then CR LF, the format string
being the entry of IP, IPV6, IPV4V6 at index ipFormat (the buffer being large enough). -/
theorem SetPDNParameters_text (h : Header) (g : Globals)
    (parameters : AdrasteaI_ATProprietary_PDN_Parameters_t)
    (hfmt : parameters.ipFormat = h.AdrasteaI_ATProprietary_IP_Addr_Format_Invalid
      ∨ parameters.ipFormat < 3)
    (hcap : (Nat.toDigits 10 parameters.sessionID).length + parameters.apnName.length + 25
        < h.commandBufferSize) :
    Except.map Globals.AT_commandBuffer
        (AdrasteaI_ATProprietary_SetPDNParameters_request h g parameters)
      = .ok ("AT%PDNSET=".toList ++ Nat.toDigits 10 parameters.sessionID
          ++ (if parameters.apnName = [] then
                (if parameters.ipFormat = h.AdrasteaI_ATProprietary_IP_Addr_Format_Invalid
                 then []
                 else [',', ','] ++ quoted (ipAddrFormatString parameters.ipFormat))
              else
                [','] ++ quoted parameters.apnName
                  ++ (if parameters.ipFormat
                        = h.AdrasteaI_ATProprietary_IP_Addr_Format_Invalid then []
                      else [','] ++ quoted (ipAddrFormatString parameters.ipFormat)))
          ++ ATCOMMAND_CRLF) := by
  by_cases hf : parameters.ipFormat = h.AdrasteaI_ATProprietary_IP_Addr_Format_Invalid
  · by_cases ha : parameters.apnName = [] <;>
    simp (disch := omega) [AdrasteaI_ATProprietary_SetPDNParameters_request, hf, ha,
      bind, Except.bind, ATCommand_AppendArgumentStringQuotationMarks,
      ATCommand_AppendArgumentInt, ATCommand_AppendArgumentString, if_pos,
      ATCOMMAND_STRING_EMPTY, ATCOMMAND_CRLF, truncateAtCount_eq, pure, Except.pure,
      Except.map, quoted]
  · obtain ⟨hr, hrl⟩ := tableEntry_ipAddrFormat parameters.ipFormat (by omega)
    by_cases ha : parameters.apnName = [] <;>
    simp (disch := omega) [AdrasteaI_ATProprietary_SetPDNParameters_request, hf, ha, hr,
      bind, Except.bind, ATCommand_AppendArgumentStringQuotationMarks,
      ATCommand_AppendArgumentInt, ATCommand_AppendArgumentString, if_pos,
      ATCOMMAND_STRING_EMPTY, ATCOMMAND_CRLF, truncateAtCount_eq, pure, Except.pure,
      Except.map, quoted]

/-- Witness of `SetPDNParameters_text`: session 1, no APN name, format IPV4V6. -/
theorem SetPDNParameters_text_witness :
    Except.map Globals.AT_commandBuffer
        (AdrasteaI_ATProprietary_SetPDNParameters_request sampleHeader ⟨[], 0⟩ ⟨1, [], 2⟩)
      = .ok "AT%PDNSET=1,,\"IPV4V6\"\r\n".toList :=
  (SetPDNParameters_text sampleHeader ⟨[], 0⟩ ⟨1, [], 2⟩ (by decide)
    (by decide)).trans (by decide)

/-- C8: for every address, message and addressType, `AdrasteaI_ATSMS_SendMessage` composes
`AT+CMGS="<address>"`, then `,<addressType>` in unsigned decimal when addressType is not
Invalid (nothing, in particular no `,`, when it is), then a single CR, then the raw
message, then the byte 0x1A (the buffer being large enough); the composed text does
not end in CR LF. -/
theorem SendMessage_text (h : Header) (g : Globals) (address : List Char) (addressType : Nat)
    (message : List Char)
    (hcap : address.length + (Nat.toDigits 10 addressType).length + message.length + 13
        < h.commandBufferSize) :
    Except.map Globals.AT_commandBuffer
        (AdrasteaI_ATSMS_SendMessage_request h g address addressType message)
      = .ok ("AT+CMGS=".toList ++ quoted address
          ++ (if addressType = h.AdrasteaI_ATSMS_Address_Type_Invalid then []
              else [','] ++ Nat.toDigits 10 addressType)
          ++ [Char.ofNat 13] ++ message ++ [Char.ofNat 26])
    ∧ ∀ text, Except.map Globals.AT_commandBuffer
        (AdrasteaI_ATSMS_SendMessage_request h g address addressType message) = .ok text →
        ¬ (ATCOMMAND_CRLF <:+ text) := by
  have heq : Except.map Globals.AT_commandBuffer
        (AdrasteaI_ATSMS_SendMessage_request h g address addressType message)
      = .ok ("AT+CMGS=".toList ++ quoted address
          ++ (if addressType = h.AdrasteaI_ATSMS_Address_Type_Invalid then []
              else [','] ++ Nat.toDigits 10 addressType)
          ++ [Char.ofNat 13] ++ message ++ [Char.ofNat 26]) := by
    by_cases ht : addressType = h.AdrasteaI_ATSMS_Address_Type_Invalid <;>
    simp (disch := omega) [AdrasteaI_ATSMS_SendMessage_request, ht,
      bind, Except.bind, ATCommand_AppendArgumentStringQuotationMarks,
      ATCommand_AppendArgumentInt, ATCommand_AppendArgumentString, if_pos,
      truncateAtCount_eq, pure, Except.pure, Except.map, quoted]
  refine ⟨heq, ?_⟩
  intro text ht
  rw [heq] at ht
  injection ht with ht
  subst ht
  rintro ⟨pre, hpre⟩
  have hlast := congrArg List.getLast? hpre
  simp [ATCOMMAND_CRLF, List.getLast?_cons] at hlast

/-- Witness of `SendMessage_text`: address type 145 present. -/
theorem SendMessage_text_witness :
    Except.map Globals.AT_commandBuffer
        (AdrasteaI_ATSMS_SendMessage_request sampleHeader ⟨[], 0⟩ "+4915".toList 145
          "Hi".toList)
      = .ok "AT+CMGS=\"+4915\",145\rHi\x1A".toList :=
  (SendMessage_text sampleHeader ⟨[], 0⟩ "+4915".toList 145 "Hi".toList
    (by decide)).1.trans (by decide)


/-! ## AT%CERTCFG="ADD" -/

set_option maxHeartbeats 2000000 in
theorem AddTLSProfile_text_eq (h : Header) (g : Globals) (profileID : Nat)
    (CA CAPath deviceCert deviceKey pskID pskKey : List Char)
    (hcap : (Nat.toDigits 10 profileID).length + CA.length + CAPath.length
        + deviceCert.length + deviceKey.length + 33 < h.commandBufferSize) :
    Except.map Globals.AT_commandBuffer
        (AdrasteaI_ATProprietary_AddTLSProfile_request h g profileID CA CAPath deviceCert
          deviceKey pskID pskKey)
      = .ok ("AT%CERTCFG=\"ADD\",".toList ++ Nat.toDigits 10 profileID
          ++ (if pskID ≠ [] ∧ pskKey ≠ [] then
                allPositionsText (certcfgPositions CA CAPath deviceCert deviceKey) ++ [',', ',']
              else optionalPositionsText (certcfgPositions CA CAPath deviceCert deviceKey))
          ++ ATCOMMAND_CRLF) := by
  by_cases h1 : CA = [] <;> by_cases h2 : CAPath = [] <;>
  by_cases h3 : ¬deviceCert = [] ∧ ¬deviceKey = [] <;>
  by_cases h5 : ¬pskID = [] ∧ ¬pskKey = [] <;>
  simp (disch := omega) [AdrasteaI_ATProprietary_AddTLSProfile_request, h1, h2, h3, h5,
    bind, Except.bind, ATCommand_AppendArgumentStringQuotationMarks,
    ATCommand_AppendArgumentInt, ATCommand_AppendArgumentString, if_pos, ATCOMMAND_STRING_EMPTY,
    ATCOMMAND_CRLF, truncateAtCount_eq, pure, Except.pure, Except.map, quoted,
    optionalPositionsText, allPositionsText, certcfgPositions, ATCOMMAND_ARGUMENT_DELIM]

theorem infix_optionalPositionsText (fields : List (Option (List Char))) (v : List Char)
    (hv : some v ∈ fields) : v <:+: optionalPositionsText fields := by
  induction fields with
  | nil => simp at hv
  | cons p ps ih =>
    have hall : ((p :: ps).all Option.isNone) = false := by
      rw [Bool.eq_false_iff]
      intro hall
      have := List.all_eq_true.mp hall (some v) hv
      simp at this
    rw [optionalPositionsText, if_neg (by simp [hall])]
    rcases List.mem_cons.mp hv with hp | hps
    · subst hp
      exact ⟨[ATCOMMAND_ARGUMENT_DELIM], optionalPositionsText ps, by simp⟩
    · obtain ⟨s, t, hst⟩ := ih hps
      exact ⟨ATCOMMAND_ARGUMENT_DELIM :: (p.getD [] ++ s), t, by simp [← hst]⟩

theorem infix_allPositionsText (fields : List (Option (List Char))) (v : List Char)
    (hv : some v ∈ fields) : v <:+: allPositionsText fields := by
  induction fields with
  | nil => simp at hv
  | cons p ps ih =>
    rw [allPositionsText]
    rcases List.mem_cons.mp hv with hp | hps
    · subst hp
      exact ⟨[ATCOMMAND_ARGUMENT_DELIM], allPositionsText ps, by simp⟩
    · obtain ⟨s, t, hst⟩ := ih hps
      exact ⟨ATCOMMAND_ARGUMENT_DELIM :: (p.getD [] ++ s), t, by simp [← hst]⟩

theorem infix_certcfg_text (profileID : Nat) (fields : List (Option (List Char)))
    (p : Prop) [Decidable p] (v : List Char) (hv : some v ∈ fields) :
    v <:+: "AT%CERTCFG=\"ADD\",".toList ++ Nat.toDigits 10 profileID
          ++ (if p then allPositionsText fields ++ [',', ',']
              else optionalPositionsText fields)
          ++ ATCOMMAND_CRLF := by
  split_ifs
  · obtain ⟨s, t, hst⟩ := infix_allPositionsText fields v hv
    exact ⟨"AT%CERTCFG=\"ADD\",".toList ++ Nat.toDigits 10 profileID ++ s,
      t ++ [',', ','] ++ ATCOMMAND_CRLF, by simp [← hst]⟩
  · obtain ⟨s, t, hst⟩ := infix_optionalPositionsText fields v hv
    exact ⟨"AT%CERTCFG=\"ADD\",".toList ++ Nat.toDigits 10 profileID ++ s,
      t ++ ATCOMMAND_CRLF, by simp [← hst]⟩

/-- C3 (evaluation at the failing input): with pskID and pskKey both non-empty the text
composed by `AdrasteaI_ATProprietary_AddTLSProfile` has the delimiter `,` immediately
before CR LF. -/
theorem AddTLSProfile_psk_trailing_delimiter :
    Except.map Globals.AT_commandBuffer
        (AdrasteaI_ATProprietary_AddTLSProfile_request sampleHeader ⟨[], 0⟩ 1 "ca.pem".toList
          [] [] [] "id".toList "key".toList)
      = .ok "AT%CERTCFG=\"ADD\",1,\"ca.pem\",,,,,\r\n".toList
    ∧ (',' :: ATCOMMAND_CRLF) <:+ "AT%CERTCFG=\"ADD\",1,\"ca.pem\",,,,,\r\n".toList := by
  decide

/-- C4 (evaluation at the failing input): with all six names non-empty the text composed
by `AdrasteaI_ATProprietary_AddTLSProfile` ends in two empty fields; neither pskID nor
pskKey occurs in it. -/
theorem AddTLSProfile_psk_values_not_sent :
    Except.map Globals.AT_commandBuffer
        (AdrasteaI_ATProprietary_AddTLSProfile_request sampleHeader ⟨[], 0⟩ 1 "ca".toList
          "path".toList "cert".toList "key".toList "pskid".toList "pskkey".toList)
      = .ok "AT%CERTCFG=\"ADD\",1,\"ca\",\"path\",\"cert\",\"key\",,\r\n".toList
    ∧ ¬ ("pskid".toList
          <:+: "AT%CERTCFG=\"ADD\",1,\"ca\",\"path\",\"cert\",\"key\",,\r\n".toList)
    ∧ ¬ ("pskkey".toList
          <:+: "AT%CERTCFG=\"ADD\",1,\"ca\",\"path\",\"cert\",\"key\",,\r\n".toList) := by
  decide

/-- C5 (counterexample): a non-empty CAPath is skipped when CA is empty, and a non-empty
deviceCert is skipped when deviceKey is empty; in both calls the request is
`AT%CERTCFG="ADD",1` CR LF and does not contain the quoted value. -/
theorem AddTLSProfile_skips_unpaired_values :
    (Except.map Globals.AT_commandBuffer
        (AdrasteaI_ATProprietary_AddTLSProfile_request sampleHeader ⟨[], 0⟩ 1 []
          "certs".toList [] [] [] [])
      = .ok "AT%CERTCFG=\"ADD\",1\r\n".toList
      ∧ ¬ (quoted "certs".toList <:+: "AT%CERTCFG=\"ADD\",1\r\n".toList))
    ∧ (Except.map Globals.AT_commandBuffer
        (AdrasteaI_ATProprietary_AddTLSProfile_request sampleHeader ⟨[], 0⟩ 1 [] []
          "dev.crt".toList [] [] [])
      = .ok "AT%CERTCFG=\"ADD\",1\r\n".toList
      ∧ ¬ (quoted "dev.crt".toList <:+: "AT%CERTCFG=\"ADD\",1\r\n".toList)) := by
  decide

/-- C5 (amended): when the buffer is large enough `AdrasteaI_ATProprietary_AddTLSProfile`
composes a request that contains `"<CA>"` whenever CA is non-empty, `"<CAPath>"` whenever
CA and CAPath are both non-empty, and `"<deviceCert>"` and `"<deviceKey>"` whenever
deviceCert and deviceKey are both non-empty; CAPath is skipped when CA is empty, and
deviceCert and deviceKey are skipped when one of them is empty (the request is then the
one composed for the empty string in their place). -/
theorem AddTLSProfile_contains_present_values (h : Header) (g : Globals) (profileID : Nat)
    (CA CAPath deviceCert deviceKey pskID pskKey : List Char)
    (hcap : (Nat.toDigits 10 profileID).length + CA.length + CAPath.length
        + deviceCert.length + deviceKey.length + 33 < h.commandBufferSize) :
    ∃ text, Except.map Globals.AT_commandBuffer
        (AdrasteaI_ATProprietary_AddTLSProfile_request h g profileID CA CAPath deviceCert
          deviceKey pskID pskKey) = .ok text
      ∧ (CA ≠ [] → quoted CA <:+: text)
      ∧ (CA ≠ [] ∧ CAPath ≠ [] → quoted CAPath <:+: text)
      ∧ (deviceCert ≠ [] ∧ deviceKey ≠ [] →
          quoted deviceCert <:+: text ∧ quoted deviceKey <:+: text)
      ∧ (CA = [] → Except.map Globals.AT_commandBuffer
          (AdrasteaI_ATProprietary_AddTLSProfile_request h g profileID CA [] deviceCert
            deviceKey pskID pskKey) = .ok text)
      ∧ (deviceCert = [] ∨ deviceKey = [] → Except.map Globals.AT_commandBuffer
          (AdrasteaI_ATProprietary_AddTLSProfile_request h g profileID CA CAPath [] []
            pskID pskKey) = .ok text) := by
  refine ⟨_, AddTLSProfile_text_eq h g profileID CA CAPath deviceCert deviceKey pskID pskKey
    hcap, ?_, ?_, ?_, ?_, ?_⟩
  · intro h1
    exact infix_certcfg_text _ _ _ _ (by simp [certcfgPositions, h1])
  · intro h2
    exact infix_certcfg_text _ _ _ _ (by simp [certcfgPositions, h2])
  · intro h3
    exact ⟨infix_certcfg_text _ _ _ _ (by simp [certcfgPositions, h3]),
      infix_certcfg_text _ _ _ _ (by simp [certcfgPositions, h3])⟩
  · intro h4
    rw [AddTLSProfile_text_eq h g profileID CA [] deviceCert deviceKey pskID pskKey
      (by simp only [List.length_nil]; omega)]
    simp [certcfgPositions, h4]
  · intro h5
    rw [AddTLSProfile_text_eq h g profileID CA CAPath [] [] pskID pskKey
      (by simp only [List.length_nil]; omega)]
    rcases h5 with h5 | h5 <;> simp [certcfgPositions, h5]

/-- Witness of `AddTLSProfile_contains_present_values`: CA and CAPath present, device
certificate without key, no pre-shared key; the request is
`AT%CERTCFG="ADD",1,"ca","path"` CR LF and contains both quoted values. -/
theorem AddTLSProfile_contains_present_values_witness :
    quoted "ca".toList <:+: "AT%CERTCFG=\"ADD\",1,\"ca\",\"path\"\r\n".toList
      ∧ quoted "path".toList <:+: "AT%CERTCFG=\"ADD\",1,\"ca\",\"path\"\r\n".toList := by
  obtain ⟨text, h1, h2, h3, -⟩ := AddTLSProfile_contains_present_values sampleHeader
    ⟨[], 0⟩ 1 "ca".toList "path".toList "cert".toList [] [] [] (by decide)
  have he : Except.map Globals.AT_commandBuffer
      (AdrasteaI_ATProprietary_AddTLSProfile_request sampleHeader ⟨[], 0⟩ 1 "ca".toList
        "path".toList "cert".toList [] [] [])
      = .ok "AT%CERTCFG=\"ADD\",1,\"ca\",\"path\"\r\n".toList := by decide
  rw [he] at h1
  injection h1 with h1
  subst h1
  exact ⟨h2 (by decide), h3 (by decide)⟩

/-! ## The terminator of every request -/

theorem appendString_terminate_suffix (h : Header) (out arg r : List Char)
    (hr : ATCommand_AppendArgumentString h out arg ATCOMMAND_STRING_TERMINATE = .ok r) :
    arg <:+ r := by
  unfold ATCommand_AppendArgumentString at hr
  simp only [delimiterText_terminate, List.append_nil] at hr
  split at hr
  · injection hr with hr
    exact ⟨out, hr⟩
  · cases hr

theorem composedRequest_ok (isNull : Bool) (composed : Except Abort Globals) (text : List Char)
    (ht : composedRequest isNull composed = .ok text) :
    ∃ g', composed = .ok g' ∧ g'.AT_commandBuffer = text := by
  unfold composedRequest at ht
  split at ht
  · cases ht
  · cases composed with
    | error e => cases ht
    | ok g' => exact ⟨g', rfl, by simpa [Except.map] using ht⟩

theorem literalRequest_ok (isNull : Bool) (lit text : List Char)
    (ht : literalRequest isNull lit = .ok text) : text = lit := by
  unfold literalRequest at ht
  split at ht
  · cases ht
  · injection ht with ht
    exact ht.symm

/-- C9: whenever a command function of ATProprietary.c or ATSMS.c reaches
`AdrasteaI_SendRequest`, the text it passes ends with the byte 0x1A for the three
payload-bearing functions (SendMessage, SendLargeMessage, WriteMessageToStorage) and with
CR LF for every other one. -/
theorem sentRequest_terminator (h : Header) (g : Globals) (cmd : Command) (text : List Char)
    (ht : sentRequest h g cmd = .ok text) :
    if payloadBearing cmd = true then [Char.ofNat 26] <:+ text else ATCOMMAND_CRLF <:+ text := by
  cases cmd <;> simp only [sentRequest, payloadBearing, Bool.false_eq_true, if_false, if_true] at ht ⊢
  case AdrasteaI_ATSMS_SetSMSUnsolicitedNotificationEvents eventState =>
    unfold AdrasteaI_ATSMS_SetSMSUnsolicitedNotificationEvents_request at ht
    split at ht
    · injection ht with ht; subst ht; decide
    · split at ht
      · injection ht with ht; subst ht; decide
      · cases ht
  all_goals first
    | (have hl := literalRequest_ok _ _ _ ht
       subst hl
       decide)
    | (obtain ⟨g', hg, rfl⟩ := composedRequest_ok _ _ _ ht
       clear ht
       simp only [AdrasteaI_ATProprietary_SetNetworkAttachmentState_request,
         AdrasteaI_ATProprietary_SwitchToRATWithoutFullReboot_request,
         AdrasteaI_ATProprietary_SetBootDelay_request,
         AdrasteaI_ATProprietary_ResolveDomainName_request,
         AdrasteaI_ATProprietary_Ping_request,
         AdrasteaI_ATProprietary_ReadCredential_request,
         AdrasteaI_ATProprietary_WriteCredential_request,
         AdrasteaI_ATProprietary_DeleteCredential_request,
         AdrasteaI_ATProprietary_AddTLSProfile_request,
         AdrasteaI_ATProprietary_DeleteTLSProfile_request,
         AdrasteaI_ATProprietary_SetPDNParameters_request,
         AdrasteaI_ATSMS_DeleteMessage_request,
         AdrasteaI_ATSMS_ListMessages_request,
         AdrasteaI_ATSMS_ReadMessage_request,
         AdrasteaI_ATSMS_SetMessageStorageLocations_request,
         AdrasteaI_ATSMS_SetServiceCenterAddress_request,
         AdrasteaI_ATSMS_SendMessage_request,
         AdrasteaI_ATSMS_SendLargeMessage_request,
         AdrasteaI_ATSMS_WriteMessageToStorage_request,
         AdrasteaI_ATSMS_SendMessageFromStorage_request,
         bind, Except.bind, pure, Except.pure] at hg
       repeat' split at hg
       all_goals first
         | contradiction
         | (injection hg with hg
            subst hg
            exact appendString_terminate_suffix _ _ _ _ (by assumption)))


/-- Witness of `sentRequest_terminator`: the literal request of DeleteAllMessages ends in
CR LF and the request composed by SendMessage ends in 0x1A. -/
theorem sentRequest_terminator_witness :
    ATCOMMAND_CRLF <:+ "AT+CMGD=0,4\r\n".toList
      ∧ [Char.ofNat 26] <:+ "AT+CMGS=\"+4915\"\rHi\x1A".toList :=
  ⟨sentRequest_terminator sampleHeader ⟨[], 0⟩ .AdrasteaI_ATSMS_DeleteAllMessages
      "AT+CMGD=0,4\r\n".toList (by decide),
    sentRequest_terminator sampleHeader ⟨[], 0⟩
      (.AdrasteaI_ATSMS_SendMessage "+4915".toList 0 "Hi".toList false)
      "AT+CMGS=\"+4915\"\rHi\x1A".toList (by decide)⟩

/-! ## Decoding of AT%CPININFO -/

theorem decimalValue_isDigit (token : List Char) (v : Nat) (hv : decimalValue token = some v) :
    ∀ c ∈ token, c.isDigit = true := by
  unfold decimalValue at hv
  split at hv
  · rename_i hc
    exact fun c hcm => List.all_eq_true.mp hc.2 c hcm
  · cases hv

theorem takeWhile_append_cons (tok rest : List Char) (d : Char) (hd : d ∉ tok) :
    (tok ++ d :: rest).takeWhile (fun c => c ≠ d) = tok := by
  induction tok with
  | nil => simp [List.takeWhile]
  | cons a tok ih =>
    have ha : a ≠ d := fun h => hd (by simp [h])
    have hd2 : d ∉ tok := fun h => hd (List.mem_cons_of_mem _ h)
    simpa [List.takeWhile, ha] using ih hd2

theorem takeWhile_all (tok : List Char) (d : Char) (hd : d ∉ tok) :
    tok.takeWhile (fun c => c ≠ d) = tok := by
  induction tok with
  | nil => simp
  | cons a tok ih =>
    have ha : a ≠ d := fun h => hd (by simp [h])
    have hd2 : d ∉ tok := fun h => hd (List.mem_cons_of_mem _ h)
    simpa [List.takeWhile, ha] using ih hd2

theorem tokenAt_delimited (text pre tok rest : List Char) (cursor : Nat) (d : Char)
    (htext : text = pre ++ tok ++ d :: rest) (hc : cursor = pre.length) (hd : d ∉ tok) :
    tokenAt text cursor d = tok
      ∧ cursorAfter text cursor d = cursor + tok.length + 1 := by
  have ht : tokenAt text cursor d = tok := by
    subst htext hc
    have h := takeWhile_append_cons tok rest d hd
    simpa [tokenAt, List.append_assoc] using h
  refine ⟨ht, ?_⟩
  unfold cursorAfter
  simp only [ht]
  subst htext hc
  simp

theorem tokenAt_last (text pre tok : List Char) (cursor : Nat) (d : Char)
    (htext : text = pre ++ tok) (hc : cursor = pre.length) (hd : d ∉ tok) :
    tokenAt text cursor d = tok := by
  subst htext hc
  have h := takeWhile_all tok d hd
  simpa [tokenAt] using h

theorem getNextArgumentInt_delimited (h : Header) (text pre tok rest : List Char)
    (cursor value bits : Nat)
    (htext : text = pre ++ tok ++ ATCOMMAND_ARGUMENT_DELIM :: rest) (hc : cursor = pre.length)
    (hv : decimalValue tok = some value) (hlen : tok.length ≤ h.integerTokenMaxLength)
    (hb : value < 2 ^ bits) :
    ATCommand_GetNextArgumentInt h text cursor bits ATCOMMAND_ARGUMENT_DELIM
      = some (value, cursor + tok.length + 1) := by
  have hd : ATCOMMAND_ARGUMENT_DELIM ∉ tok := fun hm =>
    absurd (decimalValue_isDigit tok value hv _ hm) (by decide)
  obtain ⟨ht, hca⟩ := tokenAt_delimited text pre tok rest cursor _ htext hc hd
  simp [ATCommand_GetNextArgumentInt, ht, hca, hv, hlen, hb]

theorem getNextArgumentInt_last (h : Header) (text pre tok : List Char)
    (cursor value bits : Nat)
    (htext : text = pre ++ tok) (hc : cursor = pre.length)
    (hv : decimalValue tok = some value) (hlen : tok.length ≤ h.integerTokenMaxLength)
    (hb : value < 2 ^ bits) :
    ∃ next, ATCommand_GetNextArgumentInt h text cursor bits ATCOMMAND_STRING_TERMINATE
      = some (value, next) := by
  have hd : ATCOMMAND_STRING_TERMINATE ∉ tok := fun hm =>
    absurd (decimalValue_isDigit tok value hv _ hm) (by decide)
  have ht := tokenAt_last text pre tok cursor _ htext hc hd
  exact ⟨cursorAfter text cursor ATCOMMAND_STRING_TERMINATE,
    by simp [ATCommand_GetNextArgumentInt, ht, hv, hlen, hb]⟩

/-- C10 (counterexample): on the captured response `5,10,3,2` the function returns
false, and on `15,10,3,2` it returns pinAttempts = 5, not 15: the first character of the
captured response is skipped before the first decode. -/
theorem ReadRemainingPINPUKAttempts_skips_first_character :
    (AdrasteaI_ATProprietary_ReadRemainingPINPUKAttempts sampleHeader
        ⟨true, fun _ => some (.AdrasteaI_CNFStatus_Success, "5,10,3,2".toList)⟩ ⟨[], 0⟩
        (some ⟨0, 0, 0, 0⟩)).returned = false
    ∧ (AdrasteaI_ATProprietary_ReadRemainingPINPUKAttempts sampleHeader
        ⟨true, fun _ => some (.AdrasteaI_CNFStatus_Success, "15,10,3,2".toList)⟩ ⟨[], 0⟩
        (some ⟨0, 0, 0, 0⟩)).output = some ⟨5, 10, 3, 2⟩ := by
  decide

/-- C10 (amended): when the request is sent and confirmed with status success and the
captured response is one leading character followed by four comma-separated decimal
tokens of values a, b, c, d, each at most 255 and no longer than the decoder scans,
`AdrasteaI_ATProprietary_ReadRemainingPINPUKAttempts` returns true with pinAttempts = a,
pukAttempts = b, pin2Attempts = c, puk2Attempts = d, the first three tokens ending at the
delimiter and the last at the end of the response. -/
theorem ReadRemainingPINPUKAttempts_decodes (h : Header) (x : Exchange) (g : Globals)
    (attempts : AdrasteaI_ATProprietary_PIN_PUK_Attempts_t)
    (lead : Char) (ta tb tc td : List Char) (a b c d : Nat)
    (hsend : x.transmitted = true)
    (hconfirm : x.confirmation (h.AdrasteaI_GetTimeout .AdrasteaI_Timeout_Proprietary)
      = some (.AdrasteaI_CNFStatus_Success,
          lead :: (ta ++ ',' :: (tb ++ ',' :: (tc ++ ',' :: td)))))
    (ha : decimalValue ta = some a) (hb : decimalValue tb = some b)
    (hc : decimalValue tc = some c) (hd : decimalValue td = some d)
    (ha255 : a ≤ 255) (hb255 : b ≤ 255) (hc255 : c ≤ 255) (hd255 : d ≤ 255)
    (hla : ta.length ≤ h.integerTokenMaxLength) (hlb : tb.length ≤ h.integerTokenMaxLength)
    (hlc : tc.length ≤ h.integerTokenMaxLength) (hld : td.length ≤ h.integerTokenMaxLength) :
    (AdrasteaI_ATProprietary_ReadRemainingPINPUKAttempts h x g (some attempts)).returned = true
      ∧ (AdrasteaI_ATProprietary_ReadRemainingPINPUKAttempts h x g (some attempts)).output
        = some ⟨a, b, c, d⟩ := by
  have h1 := getNextArgumentInt_delimited h
    (lead :: (ta ++ ',' :: (tb ++ ',' :: (tc ++ ',' :: td)))) [lead] ta
    (tb ++ ',' :: (tc ++ ',' :: td)) (0 + 1) a 8 (by simp [ATCOMMAND_ARGUMENT_DELIM]) (by simp) ha hla
    (by norm_num; omega)
  have h2 := getNextArgumentInt_delimited h
    (lead :: (ta ++ ',' :: (tb ++ ',' :: (tc ++ ',' :: td)))) (lead :: (ta ++ [','])) tb
    (tc ++ ',' :: td) (0 + 1 + ta.length + 1) b 8 (by simp [ATCOMMAND_ARGUMENT_DELIM])
    (by simp; omega) hb hlb (by norm_num; omega)
  have h3 := getNextArgumentInt_delimited h
    (lead :: (ta ++ ',' :: (tb ++ ',' :: (tc ++ ',' :: td))))
    (lead :: (ta ++ ',' :: (tb ++ [',']))) tc td (0 + 1 + ta.length + 1 + tb.length + 1) c 8
    (by simp [ATCOMMAND_ARGUMENT_DELIM]) (by simp; omega) hc hlc (by norm_num; omega)
  obtain ⟨next, h4⟩ := getNextArgumentInt_last h
    (lead :: (ta ++ ',' :: (tb ++ ',' :: (tc ++ ',' :: td))))
    (lead :: (ta ++ ',' :: (tb ++ ',' :: (tc ++ [','])))) td
    (0 + 1 + ta.length + 1 + tb.length + 1 + tc.length + 1) d 8
    (by simp) (by simp; omega) hd hld (by norm_num; omega)
  simp [AdrasteaI_ATProprietary_ReadRemainingPINPUKAttempts, AdrasteaI_SendRequest,
    AdrasteaI_WaitForConfirm, hsend, hconfirm, h1, h2, h3, h4]


/-- Witness of `ReadRemainingPINPUKAttempts_decodes`: the captured response is a blank
followed by `5,10,3,2`. -/
theorem ReadRemainingPINPUKAttempts_decodes_witness :
    (AdrasteaI_ATProprietary_ReadRemainingPINPUKAttempts sampleHeader
        ⟨true, fun _ => some (.AdrasteaI_CNFStatus_Success, " 5,10,3,2".toList)⟩ ⟨[], 0⟩
        (some ⟨0, 0, 0, 0⟩)).returned = true
    ∧ (AdrasteaI_ATProprietary_ReadRemainingPINPUKAttempts sampleHeader
        ⟨true, fun _ => some (.AdrasteaI_CNFStatus_Success, " 5,10,3,2".toList)⟩ ⟨[], 0⟩
        (some ⟨0, 0, 0, 0⟩)).output = some ⟨5, 10, 3, 2⟩ :=
  ReadRemainingPINPUKAttempts_decodes sampleHeader
    ⟨true, fun _ => some (.AdrasteaI_CNFStatus_Success, " 5,10,3,2".toList)⟩ ⟨[], 0⟩
    ⟨0, 0, 0, 0⟩ ' ' "5".toList "10".toList "3".toList "2".toList 5 10 3 2 rfl (by decide)
    (by decide) (by decide) (by decide) (by decide) (by decide) (by decide) (by decide)
    (by decide) (by decide) (by decide) (by decide) (by decide)

/-! ## Enum and string decoding -/

theorem stripQuotationMarks_quoted (s : List Char) : stripQuotationMarks (quoted s) = s := by
  have h1 : 2 ≤ (quoted s).length := by simp [quoted]
  have h2 : (quoted s).head? = some ATCOMMAND_QUOTE := by simp [quoted]
  have h3 : (quoted s).getLast? = some ATCOMMAND_QUOTE := by
    simp [quoted, List.getLast?_cons]
  rw [stripQuotationMarks, if_pos ⟨h1, h2, h3⟩]
  simp [quoted]

theorem getNextArgumentString_delimited (text pre tok rest : List Char) (cursor : Nat)
    (d : Char) (maxLength : Nat)
    (htext : text = pre ++ tok ++ d :: rest) (hc : cursor = pre.length) (hd : d ∉ tok) :
    ATCommand_GetNextArgumentString text cursor d maxLength
      = if tok.length < maxLength then some (tok, cursor + tok.length + 1) else none := by
  obtain ⟨ht, hca⟩ := tokenAt_delimited text pre tok rest cursor d htext hc hd
  simp [ATCommand_GetNextArgumentString, ht, hca]

theorem cursorAfter_last (text pre tok : List Char) (cursor : Nat) (d : Char)
    (htext : text = pre ++ tok) (hc : cursor = pre.length) (hd : d ∉ tok) :
    cursorAfter text cursor d = cursor + tok.length := by
  have ht := tokenAt_last text pre tok cursor d htext hc hd
  unfold cursorAfter
  simp only [ht]
  subst htext hc
  simp

theorem getNextArgumentString_last (text pre tok : List Char) (cursor : Nat)
    (d : Char) (maxLength : Nat)
    (htext : text = pre ++ tok) (hc : cursor = pre.length) (hd : d ∉ tok) :
    ATCommand_GetNextArgumentString text cursor d maxLength
      = if tok.length < maxLength then some (tok, cursor + tok.length) else none := by
  have ht := tokenAt_last text pre tok cursor d htext hc hd
  have hca := cursorAfter_last text pre tok cursor d htext hc hd
  simp [ATCommand_GetNextArgumentString, ht, hca]

/-- The four string tables of the two files. -/
theorem enum_tables_nodup :
    AdrasteaI_ATProprietary_RAT_Strings.Nodup
      ∧ AdrasteaI_ATProprietary_IP_Addr_Format_Strings.Nodup
      ∧ AdrasteaI_ATSMS_Message_State_Strings.Nodup
      ∧ AdrasteaI_ATSMS_Storage_Location_Strings.Nodup := by
  decide

theorem enum_entry_facts (table : List (List Char))
    (htable : table ∈ [AdrasteaI_ATProprietary_RAT_Strings,
      AdrasteaI_ATProprietary_IP_Addr_Format_Strings, AdrasteaI_ATSMS_Message_State_Strings,
      AdrasteaI_ATSMS_Storage_Location_Strings])
    (e : Nat) (he : e < table.length) :
    ATCommand_FindString table (table.getD e []) = some e
      ∧ (table.getD e []).length + 2 < 30
      ∧ ATCOMMAND_ARGUMENT_DELIM ∉ quoted (table.getD e [])
      ∧ ATCOMMAND_STRING_TERMINATE ∉ quoted (table.getD e [])
      ∧ stripQuotationMarks (table.getD e []) = table.getD e [] := by
  simp only [List.mem_cons, List.mem_singleton, List.not_mem_nil, or_false] at htable
  rcases htable with rfl | rfl | rfl | rfl
  · have : e < 3 := he
    interval_cases e <;> decide
  · have : e < 3 := he
    interval_cases e <;> decide
  · have : e < 5 := he
    interval_cases e <;> decide
  · have : e < 6 := he
    interval_cases e <;> decide


/-- C11: for each of the four enum string tables and every index e of the table, the
table string of e is decoded back to e: in quotation marks by the decoder that strips
them (followed by the delimiter, or at the end of the text), and without quotation marks
by either decoder; the entries of each table are pairwise distinct. In particular the
quoted storage string that SetMessageStorageLocations emits for e is decoded to e by the
enum decode of ReadMessageStorageUsage. -/
theorem enum_decode_encode (table : List (List Char))
    (htable : table ∈ [AdrasteaI_ATProprietary_RAT_Strings,
      AdrasteaI_ATProprietary_IP_Addr_Format_Strings, AdrasteaI_ATSMS_Message_State_Strings,
      AdrasteaI_ATSMS_Storage_Location_Strings])
    (e : Nat) (he : e < table.length) (pre rest : List Char) :
    table.Nodup
      ∧ ATCommand_GetNextArgumentEnumWithoutQuotationMarks
          (pre ++ quoted (table.getD e []) ++ ATCOMMAND_ARGUMENT_DELIM :: rest) pre.length
          table 30 ATCOMMAND_ARGUMENT_DELIM
        = some (e, pre.length + (quoted (table.getD e [])).length + 1)
      ∧ ATCommand_GetNextArgumentEnumWithoutQuotationMarks
          (pre ++ quoted (table.getD e [])) pre.length table 30 ATCOMMAND_STRING_TERMINATE
        = some (e, pre.length + (quoted (table.getD e [])).length)
      ∧ ATCommand_GetNextArgumentEnumWithoutQuotationMarks
          (pre ++ table.getD e [] ++ ATCOMMAND_ARGUMENT_DELIM :: rest) pre.length
          table 30 ATCOMMAND_ARGUMENT_DELIM
        = some (e, pre.length + (table.getD e []).length + 1)
      ∧ ATCommand_GetNextArgumentEnum
          (pre ++ table.getD e [] ++ ATCOMMAND_ARGUMENT_DELIM :: rest) pre.length
          table 30 ATCOMMAND_ARGUMENT_DELIM
        = some (e, pre.length + (table.getD e []).length + 1) := by
  obtain ⟨hfind, hlen, hdelim, hterm, hstrip⟩ := enum_entry_facts table htable e he
  have hnodup : table.Nodup := by
    obtain ⟨h1, h2, h3, h4⟩ := enum_tables_nodup
    simp only [List.mem_cons, List.mem_singleton, List.not_mem_nil, or_false] at htable
    rcases htable with rfl | rfl | rfl | rfl <;> assumption
  generalize table.getD e [] = s at *
  have hqlen : (quoted s).length < 30 := by
    simp [quoted]; omega
  have hslen : s.length < 30 := by omega
  have hdelim2 : ATCOMMAND_ARGUMENT_DELIM ∉ s := fun hm =>
    hdelim (by simp [quoted, hm])
  have h1 := getNextArgumentString_delimited
    (pre ++ quoted s ++ ATCOMMAND_ARGUMENT_DELIM :: rest) pre (quoted s) rest pre.length
    ATCOMMAND_ARGUMENT_DELIM 30 rfl rfl hdelim
  have h2 := getNextArgumentString_last (pre ++ quoted s) pre (quoted s) pre.length
    ATCOMMAND_STRING_TERMINATE 30 rfl rfl hterm
  have h3 := getNextArgumentString_delimited
    (pre ++ s ++ ATCOMMAND_ARGUMENT_DELIM :: rest) pre s rest pre.length
    ATCOMMAND_ARGUMENT_DELIM 30 rfl rfl hdelim2
  rw [if_pos hqlen] at h1 h2
  rw [if_pos hslen] at h3
  refine ⟨hnodup, ?_, ?_, ?_, ?_⟩
  · simp only [ATCommand_GetNextArgumentEnumWithoutQuotationMarks,
      ATCommand_GetNextArgumentStringWithoutQuotationMarks, h1, stripQuotationMarks_quoted,
      hfind]
  · simp only [ATCommand_GetNextArgumentEnumWithoutQuotationMarks,
      ATCommand_GetNextArgumentStringWithoutQuotationMarks, h2, stripQuotationMarks_quoted,
      hfind]
  · simp only [ATCommand_GetNextArgumentEnumWithoutQuotationMarks,
      ATCommand_GetNextArgumentStringWithoutQuotationMarks, h3, hstrip, hfind]
  · simp only [ATCommand_GetNextArgumentEnum, h3, hfind]

/-- Witness of `enum_decode_encode`: the storage location SM (index 3) after one
skipped character, as in the response of `AT+CPMS?`. -/
theorem enum_decode_encode_witness :
    ATCommand_GetNextArgumentEnumWithoutQuotationMarks " \"SM\",1,20".toList 1
        AdrasteaI_ATSMS_Storage_Location_Strings 30 ATCOMMAND_ARGUMENT_DELIM
      = some (3, 6) :=
  (enum_decode_encode AdrasteaI_ATSMS_Storage_Location_Strings (by decide) 3 (by decide)
    " ".toList "1,20".toList).2.1

theorem readableAfterSkip_cons (c : Char) (rest behind : List Char) :
    readableAfterSkip (c :: rest) behind = c :: rest := rfl

theorem readableAfterSkip_of_ne_nil (text behind : List Char) (hne : text ≠ []) :
    readableAfterSkip text behind = text := by
  simp [readableAfterSkip, hne]

/-- C12: for every event argument string with a leading character to skip (a non-empty
string), whatever follows the string in memory: when the first token of the string after
that character, up to the first `,` and with its quotation marks stripped, equals none of
the six storage-location strings, `AdrasteaI_ATSMS_ParseMessageReceivedEvent` returns
false. -/
theorem ParseMessageReceivedEvent_unknown_storage (h : Header) (text behind : List Char)
    (dataP : Option AdrasteaI_ATSMS_Message_Received_Result_t)
    (hne : text ≠ [])
    (hnone : stripQuotationMarks (tokenAt text 1 ATCOMMAND_ARGUMENT_DELIM)
      ∉ AdrasteaI_ATSMS_Storage_Location_Strings) :
    (AdrasteaI_ATSMS_ParseMessageReceivedEvent h (some text) behind dataP).returned
      = false := by
  have hfind : ATCommand_FindString AdrasteaI_ATSMS_Storage_Location_Strings
      (stripQuotationMarks (tokenAt text 1 ATCOMMAND_ARGUMENT_DELIM)) = none := by
    rw [ATCommand_FindString, List.indexOf?_eq_none_iff]
    intro x hx hxe
    exact hnone (by rw [← eq_of_beq hxe]; exact hx)
  cases dataP with
  | none => rfl
  | some data =>
    simp only [AdrasteaI_ATSMS_ParseMessageReceivedEvent,
      readableAfterSkip_of_ne_nil text behind hne,
      ATCommand_GetNextArgumentEnumWithoutQuotationMarks,
      ATCommand_GetNextArgumentStringWithoutQuotationMarks, ATCommand_GetNextArgumentString]
    split_ifs <;> simp [hfind]

/-- Witness of `ParseMessageReceivedEvent_unknown_storage`: the lower-case token `sm` is
none of the table strings. -/
theorem ParseMessageReceivedEvent_unknown_storage_witness :
    (AdrasteaI_ATSMS_ParseMessageReceivedEvent sampleHeader (some " \"sm\",3".toList)
      "\"SM\",3".toList (some ⟨0, 0⟩)).returned = false :=
  ParseMessageReceivedEvent_unknown_storage sampleHeader " \"sm\",3".toList
    "\"SM\",3".toList (some ⟨0, 0⟩) (by decide) (by decide)

theorem getNextArgumentInt_delimited_eq (h : Header) (text pre tok rest : List Char)
    (cursor value bits : Nat)
    (htext : text = pre ++ tok ++ ATCOMMAND_ARGUMENT_DELIM :: rest) (hc : cursor = pre.length)
    (hv : decimalValue tok = some value) :
    ATCommand_GetNextArgumentInt h text cursor bits ATCOMMAND_ARGUMENT_DELIM
      = if tok.length ≤ h.integerTokenMaxLength ∧ value < 2 ^ bits then
          some (value, cursor + tok.length + 1) else none := by
  have hd : ATCOMMAND_ARGUMENT_DELIM ∉ tok := fun hm =>
    absurd (decimalValue_isDigit tok value hv _ hm) (by decide)
  obtain ⟨ht, hca⟩ := tokenAt_delimited text pre tok rest cursor _ htext hc hd
  simp only [ATCommand_GetNextArgumentInt, ht, hca, hv]
  split_ifs <;> simp_all

theorem getNextArgumentInt_last_eq (h : Header) (text pre tok : List Char)
    (cursor value bits : Nat)
    (htext : text = pre ++ tok) (hc : cursor = pre.length)
    (hv : decimalValue tok = some value) :
    ATCommand_GetNextArgumentInt h text cursor bits ATCOMMAND_STRING_TERMINATE
      = if tok.length ≤ h.integerTokenMaxLength ∧ value < 2 ^ bits then
          some (value, cursor + tok.length) else none := by
  have hd : ATCOMMAND_STRING_TERMINATE ∉ tok := fun hm =>
    absurd (decimalValue_isDigit tok value hv _ hm) (by decide)
  have ht := tokenAt_last text pre tok cursor _ htext hc hd
  have hca := cursorAfter_last text pre tok cursor _ htext hc hd
  simp only [ATCommand_GetNextArgumentInt, ht, hca, hv]
  split_ifs <;> simp_all

/-! ## Ping result event -/

/-- C14, the claim as written fails: with an address buffer of 64 bytes an event
`1,aaa...a,20,64` whose address token has 64 characters is refused by the length guard
`sizeof(dataP->addr)` of the address decode (ATProprietary.c 530), although id, rtt and
ttl are all within their widths. -/
theorem ParsePingResultEvent_in_range_still_false :
    (AdrasteaI_ATProprietary_ParsePingResultEvent sampleHeader
        (some ("1,".toList ++ List.replicate 64 'a' ++ ",20,64".toList))
        (some ⟨0, [], 0, 0⟩)).returned = false := by
  decide

/-- C14, amended: for event arguments `id,addr,rtt,ttl` with decimal tokens id, rtt, ttl
and an address token without `,`, `AdrasteaI_ATProprietary_ParsePingResultEvent` returns
false whenever id exceeds 255 or rtt or ttl exceeds 65535; when the three values are in
range, the three integer tokens are within the integer token bound and the address token
fits the address buffer, it returns true with id, rtt, ttl set to the values and addr to
the address token without its quotation marks. -/
theorem ParsePingResultEvent_widths (h : Header) (tid taddr trtt tttl : List Char)
    (id rtt ttl : Nat) (dataP : Option AdrasteaI_ATProprietary_Ping_Result_t)
    (hid : decimalValue tid = some id) (hrtt : decimalValue trtt = some rtt)
    (httl : decimalValue tttl = some ttl) (haddr : ATCOMMAND_ARGUMENT_DELIM ∉ taddr) :
    ((255 < id ∨ 65535 < rtt ∨ 65535 < ttl) →
      (AdrasteaI_ATProprietary_ParsePingResultEvent h
        (some (tid ++ ',' :: (taddr ++ ',' :: (trtt ++ ',' :: tttl)))) dataP).returned = false)
    ∧ (∀ data, dataP = some data → id ≤ 255 → rtt ≤ 65535 → ttl ≤ 65535 →
        tid.length ≤ h.integerTokenMaxLength → trtt.length ≤ h.integerTokenMaxLength →
        tttl.length ≤ h.integerTokenMaxLength → taddr.length < h.sizeof_Ping_Result_addr →
        AdrasteaI_ATProprietary_ParsePingResultEvent h
          (some (tid ++ ',' :: (taddr ++ ',' :: (trtt ++ ',' :: tttl)))) dataP
          = ⟨true, some ⟨id, stripQuotationMarks taddr, rtt, ttl⟩⟩) := by
  have h1 := getNextArgumentInt_delimited_eq h
    (tid ++ ',' :: (taddr ++ ',' :: (trtt ++ ',' :: tttl))) [] tid
    (taddr ++ ',' :: (trtt ++ ',' :: tttl)) 0 id 8 (by simp [ATCOMMAND_ARGUMENT_DELIM]) rfl hid
  have h2 := getNextArgumentString_delimited
    (tid ++ ',' :: (taddr ++ ',' :: (trtt ++ ',' :: tttl))) (tid ++ [',']) taddr
    (trtt ++ ',' :: tttl) (0 + tid.length + 1) ATCOMMAND_ARGUMENT_DELIM
    h.sizeof_Ping_Result_addr (by simp [ATCOMMAND_ARGUMENT_DELIM]) (by simp) haddr
  have h3 := getNextArgumentInt_delimited_eq h
    (tid ++ ',' :: (taddr ++ ',' :: (trtt ++ ',' :: tttl))) (tid ++ ',' :: (taddr ++ [','])) trtt
    tttl (0 + tid.length + 1 + taddr.length + 1) rtt 16 (by simp [ATCOMMAND_ARGUMENT_DELIM])
    (by simp; omega) hrtt
  have h4 := getNextArgumentInt_last_eq h
    (tid ++ ',' :: (taddr ++ ',' :: (trtt ++ ',' :: tttl)))
    (tid ++ ',' :: (taddr ++ ',' :: (trtt ++ [',']))) tttl
    (0 + tid.length + 1 + taddr.length + 1 + trtt.length + 1) ttl 16 (by simp)
    (by simp; omega) httl
  constructor
  · intro hover
    cases dataP with
    | none => rfl
    | some data =>
      by_cases c1 : tid.length ≤ h.integerTokenMaxLength ∧ id < 2 ^ 8
      · by_cases c2 : taddr.length < h.sizeof_Ping_Result_addr
        · by_cases c3 : trtt.length ≤ h.integerTokenMaxLength ∧ rtt < 2 ^ 16
          · by_cases c4 : tttl.length ≤ h.integerTokenMaxLength ∧ ttl < 2 ^ 16
            · omega
            · rw [if_pos c1] at h1
              rw [if_pos c2] at h2
              rw [if_pos c3] at h3
              rw [if_neg c4] at h4
              simp only [AdrasteaI_ATProprietary_ParsePingResultEvent,
                ATCommand_GetNextArgumentStringWithoutQuotationMarks, h1, h2, h3, h4]
          · rw [if_pos c1] at h1
            rw [if_pos c2] at h2
            rw [if_neg c3] at h3
            simp only [AdrasteaI_ATProprietary_ParsePingResultEvent,
              ATCommand_GetNextArgumentStringWithoutQuotationMarks, h1, h2, h3]
        · rw [if_pos c1] at h1
          rw [if_neg c2] at h2
          simp only [AdrasteaI_ATProprietary_ParsePingResultEvent,
            ATCommand_GetNextArgumentStringWithoutQuotationMarks, h1, h2]
      · rw [if_neg c1] at h1
        simp only [AdrasteaI_ATProprietary_ParsePingResultEvent, h1]
  · intro data hdata hid2 hrtt2 httl2 hl1 hl3 hl4 hl2
    subst hdata
    have hi1 : tid.length ≤ h.integerTokenMaxLength ∧ id < 2 ^ 8 := ⟨hl1, by omega⟩
    have hi3 : trtt.length ≤ h.integerTokenMaxLength ∧ rtt < 2 ^ 16 := ⟨hl3, by omega⟩
    have hi4 : tttl.length ≤ h.integerTokenMaxLength ∧ ttl < 2 ^ 16 := ⟨hl4, by omega⟩
    rw [if_pos hi1] at h1
    rw [if_pos hl2] at h2
    rw [if_pos hi3] at h3
    rw [if_pos hi4] at h4
    simp only [AdrasteaI_ATProprietary_ParsePingResultEvent,
      ATCommand_GetNextArgumentStringWithoutQuotationMarks, h1, h2, h3, h4]

theorem ParsePingResultEvent_widths_witness :
    (AdrasteaI_ATProprietary_ParsePingResultEvent sampleHeader
        (some "256,\"8.8.8.8\",20,64".toList) (some ⟨0, [], 0, 0⟩)).returned = false
      ∧ AdrasteaI_ATProprietary_ParsePingResultEvent sampleHeader
          (some "1,\"8.8.8.8\",20,64".toList) (some ⟨0, [], 0, 0⟩)
        = ⟨true, some ⟨1, "8.8.8.8".toList, 20, 64⟩⟩ :=
  ⟨(ParsePingResultEvent_widths sampleHeader "256".toList "\"8.8.8.8\"".toList "20".toList
      "64".toList 256 20 64 (some ⟨0, [], 0, 0⟩) (by decide) (by decide) (by decide)
      (by decide)).1 (Or.inl (by decide)),
    (ParsePingResultEvent_widths sampleHeader "1".toList "\"8.8.8.8\"".toList "20".toList
      "64".toList 1 20 64 (some ⟨0, [], 0, 0⟩) (by decide) (by decide) (by decide)
      (by decide)).2 ⟨0, [], 0, 0⟩ rfl (by decide) (by decide) (by decide) (by decide)
      (by decide) (by decide) (by decide)⟩

/-! ## Read message event -/

theorem countArgs_suffix (pre rest : List Char) :
    ATCommand_CountArgs (pre ++ rest) pre.length
      = if rest = [] then 0 else rest.count ATCOMMAND_ARGUMENT_DELIM + 1 := by
  simp [ATCommand_CountArgs]

theorem messageState_decode (e : Nat) (he : e < AdrasteaI_ATSMS_Message_State_Strings.length)
    (pre rest : List Char) :
    ATCommand_GetNextArgumentEnumWithoutQuotationMarks
        (pre ++ quoted (AdrasteaI_ATSMS_Message_State_Strings.getD e [])
          ++ ATCOMMAND_ARGUMENT_DELIM :: rest) pre.length
        AdrasteaI_ATSMS_Message_State_Strings 30 ATCOMMAND_ARGUMENT_DELIM
      = some (e, pre.length
          + (quoted (AdrasteaI_ATSMS_Message_State_Strings.getD e [])).length + 1) := by
  obtain ⟨hfind, hlen, hdelim, -, -⟩ :=
    enum_entry_facts AdrasteaI_ATSMS_Message_State_Strings (by simp) e he
  generalize AdrasteaI_ATSMS_Message_State_Strings.getD e [] = s at *
  have h1 := getNextArgumentString_delimited _ pre (quoted s) rest pre.length
    ATCOMMAND_ARGUMENT_DELIM 30 rfl rfl hdelim
  rw [if_pos (by simp [quoted]; omega)] at h1
  simp only [ATCommand_GetNextArgumentEnumWithoutQuotationMarks,
    ATCommand_GetNextArgumentStringWithoutQuotationMarks, h1, stripQuotationMarks_quoted, hfind]

theorem count_succ_split (d : Char) (n : Nat) (l : List Char) (hl : l.count d = n + 1) :
    ∃ a r, l = a ++ d :: r ∧ d ∉ a ∧ r.count d = n := by
  induction l with
  | nil => simp at hl
  | cons x xs ih =>
    by_cases hx : x = d
    · subst hx
      exact ⟨[], xs, by simp, by simp, by simpa using hl⟩
    · have hc : xs.count d = n + 1 := by
        rw [List.count_cons] at hl
        have : (x == d) = false := by simpa using hx
        simpa [this] using hl
      obtain ⟨a, r, h1, h2, h3⟩ := ih hc
      refine ⟨x :: a, r, by simp [h1], ?_, h3⟩
      simp only [List.mem_cons, not_or]
      exact ⟨fun hh => hx hh.symm, h2⟩

theorem countArgs_three_split (pre rest : List Char)
    (h3 : ATCommand_CountArgs (pre ++ rest) pre.length = 3) :
    ∃ a b c, rest = a ++ ATCOMMAND_ARGUMENT_DELIM :: (b ++ ATCOMMAND_ARGUMENT_DELIM :: c)
      ∧ ATCOMMAND_ARGUMENT_DELIM ∉ a ∧ ATCOMMAND_ARGUMENT_DELIM ∉ b
      ∧ ATCOMMAND_ARGUMENT_DELIM ∉ c := by
  rw [countArgs_suffix] at h3
  split at h3
  · omega
  · obtain ⟨a, r, h1, h2, hr⟩ := count_succ_split ATCOMMAND_ARGUMENT_DELIM 1 rest (by omega)
    obtain ⟨b, c, h4, h5, hc⟩ := count_succ_split ATCOMMAND_ARGUMENT_DELIM 0 r hr
    exact ⟨a, b, c, by rw [h1, h4], h2, h5, List.count_eq_zero.mp hc⟩


/-- C20: in `AdrasteaI_ATSMS_ParseReadMessageEvent`, for event arguments made of one
leading character, a quoted message state, a quoted address and a remainder `rest` (the
address fits its buffer, the remainder fits the payload buffer): when the number of
tokens counted at the cursor after the address is not 3, nothing is skipped and the
payload is the whole remainder, commas included; when the remainder is
`name,timestamp,payload` the count is 3, the two extra fields are consumed (each shorter
than the 40 bytes of `extraData`) and the payload is the last token; a count of 3 always
has this shape. In both cases the function returns true and `messageIndex` is 0. -/
theorem ParseReadMessageEvent_extra_fields (h : Header) (lead : Char) (e : Nat)
    (he : e < AdrasteaI_ATSMS_Message_State_Strings.length) (address rest : List Char)
    (behind : List Char) (data : AdrasteaI_ATSMS_Message_t)
    (haddress : ATCOMMAND_ARGUMENT_DELIM ∉ address)
    (hfits : (quoted address).length < h.sizeof_Message_address)
    (hrest : ATCOMMAND_STRING_TERMINATE ∉ rest)
    (hpayload : rest.length < h.sizeof_Message_payload) :
    (ATCommand_CountArgs
        (lead :: (quoted (AdrasteaI_ATSMS_Message_State_Strings.getD e []) ++ ',' ::
          (quoted address ++ ',' :: rest)))
        (1 + (quoted (AdrasteaI_ATSMS_Message_State_Strings.getD e [])).length + 1
          + (quoted address).length + 1) ≠ 3 →
      AdrasteaI_ATSMS_ParseReadMessageEvent h
        (some (lead :: (quoted (AdrasteaI_ATSMS_Message_State_Strings.getD e []) ++ ',' ::
          (quoted address ++ ',' :: rest)))) behind (some data)
        = ⟨true, some ⟨0, e, address, rest⟩⟩)
    ∧ (∀ name timestamp payload : List Char,
        rest = name ++ ',' :: (timestamp ++ ',' :: payload) →
        ATCOMMAND_ARGUMENT_DELIM ∉ name → ATCOMMAND_ARGUMENT_DELIM ∉ timestamp →
        ATCOMMAND_ARGUMENT_DELIM ∉ payload →
        name.length < 40 → (timestamp).length < 40 →
        ATCommand_CountArgs
            (lead :: (quoted (AdrasteaI_ATSMS_Message_State_Strings.getD e []) ++ ',' ::
              (quoted address ++ ',' :: rest)))
            (1 + (quoted (AdrasteaI_ATSMS_Message_State_Strings.getD e [])).length + 1
              + (quoted address).length + 1) = 3
          ∧ AdrasteaI_ATSMS_ParseReadMessageEvent h
              (some (lead :: (quoted (AdrasteaI_ATSMS_Message_State_Strings.getD e []) ++ ',' ::
                (quoted address ++ ',' :: rest)))) behind (some data)
            = ⟨true, some ⟨0, e, address, payload⟩⟩)
    ∧ (ATCommand_CountArgs
          (lead :: (quoted (AdrasteaI_ATSMS_Message_State_Strings.getD e []) ++ ',' ::
            (quoted address ++ ',' :: rest)))
          (1 + (quoted (AdrasteaI_ATSMS_Message_State_Strings.getD e [])).length + 1
            + (quoted address).length + 1) = 3 →
        ∃ name timestamp payload : List Char,
          rest = name ++ ',' :: (timestamp ++ ',' :: payload)
            ∧ ATCOMMAND_ARGUMENT_DELIM ∉ name ∧ ATCOMMAND_ARGUMENT_DELIM ∉ timestamp
            ∧ ATCOMMAND_ARGUMENT_DELIM ∉ payload) := by
  have hq : ATCOMMAND_ARGUMENT_DELIM ∉ quoted address := by
    simpa [quoted, ATCOMMAND_ARGUMENT_DELIM, ATCOMMAND_QUOTE] using haddress
  generalize hs : AdrasteaI_ATSMS_Message_State_Strings.getD e [] = s
  have h1 := messageState_decode e he [lead] (quoted address ++ ',' :: rest)
  rw [hs] at h1
  have h2 := getNextArgumentString_delimited
    (lead :: (quoted s ++ ',' :: (quoted address ++ ',' :: rest)))
    (lead :: (quoted s ++ [','])) (quoted address) rest
    (1 + (quoted s).length + 1) ATCOMMAND_ARGUMENT_DELIM h.sizeof_Message_address
    (by simp [ATCOMMAND_ARGUMENT_DELIM]) (by simp; omega) hq
  rw [if_pos hfits] at h2
  have hcount := countArgs_suffix (lead :: (quoted s ++ ',' :: (quoted address ++ [',']))) rest
  have hcur : (lead :: (quoted s ++ ',' :: (quoted address ++ [',']))).length
      = 1 + (quoted s).length + 1 + (quoted address).length + 1 := by
    simp; omega
  have htxt : lead :: (quoted s ++ ',' :: (quoted address ++ [','])) ++ rest
      = lead :: (quoted s ++ ',' :: (quoted address ++ ',' :: rest)) := by simp
  rw [hcur, htxt] at hcount
  have h1b : ATCommand_GetNextArgumentEnumWithoutQuotationMarks
      (lead :: (quoted s ++ ',' :: (quoted address ++ ',' :: rest))) (0 + 1)
      AdrasteaI_ATSMS_Message_State_Strings 30 ATCOMMAND_ARGUMENT_DELIM
      = some (e, 1 + (quoted s).length + 1) := by
    simpa [ATCOMMAND_ARGUMENT_DELIM] using h1
  refine ⟨?_, ?_, ?_⟩
  · intro hne
    have h3 := getNextArgumentString_last
      (lead :: (quoted s ++ ',' :: (quoted address ++ ',' :: rest)))
      (lead :: (quoted s ++ ',' :: (quoted address ++ [',']))) rest
      (1 + (quoted s).length + 1 + (quoted address).length + 1) ATCOMMAND_STRING_TERMINATE
      h.sizeof_Message_payload (by simp) hcur.symm hrest
    rw [if_pos hpayload] at h3
    simp only [AdrasteaI_ATSMS_ParseReadMessageEvent, readableAfterSkip_cons, h1b,
      ATCommand_GetNextArgumentStringWithoutQuotationMarks, h2, stripQuotationMarks_quoted,
      if_neg hne, h3]
  · intro name timestamp payload hdecomp hn ht hp hnl htl
    have htq := ht
    have hc3 : ATCommand_CountArgs
        (lead :: (quoted s ++ ',' :: (quoted address ++ ',' :: rest)))
        (1 + (quoted s).length + 1 + (quoted address).length + 1) = 3 := by
      rw [hcount, hdecomp]
      have e1 : List.count ATCOMMAND_ARGUMENT_DELIM name = 0 := List.count_eq_zero.mpr hn
      have e2 : List.count ATCOMMAND_ARGUMENT_DELIM (timestamp) = 0 :=
        List.count_eq_zero.mpr htq
      have e3 : List.count ATCOMMAND_ARGUMENT_DELIM payload = 0 := List.count_eq_zero.mpr hp
      simp [List.count_append, List.count_cons, e1, e2, e3, ATCOMMAND_ARGUMENT_DELIM] at *
    refine ⟨hc3, ?_⟩
    have h3 := getNextArgumentString_delimited
      (lead :: (quoted s ++ ',' :: (quoted address ++ ',' :: rest)))
      (lead :: (quoted s ++ ',' :: (quoted address ++ [',']))) name
      (timestamp ++ ',' :: payload)
      (1 + (quoted s).length + 1 + (quoted address).length + 1) ATCOMMAND_ARGUMENT_DELIM 40
      (by simp [hdecomp, ATCOMMAND_ARGUMENT_DELIM]) hcur.symm hn
    rw [if_pos hnl] at h3
    have h4 := getNextArgumentString_delimited
      (lead :: (quoted s ++ ',' :: (quoted address ++ ',' :: rest)))
      (lead :: (quoted s ++ ',' :: (quoted address ++ ',' :: (name ++ [','])))) (timestamp)
      payload
      (1 + (quoted s).length + 1 + (quoted address).length + 1 + name.length + 1)
      ATCOMMAND_ARGUMENT_DELIM 40
      (by simp [hdecomp, ATCOMMAND_ARGUMENT_DELIM]) (by simp; omega) htq
    rw [if_pos htl] at h4
    have hpt : ATCOMMAND_STRING_TERMINATE ∉ payload := by
      intro hm; apply hrest; rw [hdecomp]; simp [hm]
    have h5 := getNextArgumentString_last
      (lead :: (quoted s ++ ',' :: (quoted address ++ ',' :: rest)))
      (lead :: (quoted s ++ ',' :: (quoted address ++ ',' :: (name ++ ',' ::
        (timestamp ++ [','])))))
      payload
      (1 + (quoted s).length + 1 + (quoted address).length + 1 + name.length + 1
        + (timestamp).length + 1)
      ATCOMMAND_STRING_TERMINATE h.sizeof_Message_payload
      (by simp [hdecomp]) (by simp; omega) hpt
    have hpl : payload.length < h.sizeof_Message_payload := by
      have : payload.length ≤ rest.length := by rw [hdecomp]; simp; omega
      omega
    rw [if_pos hpl] at h5
    simp only [AdrasteaI_ATSMS_ParseReadMessageEvent, readableAfterSkip_cons, h1b,
      ATCommand_GetNextArgumentStringWithoutQuotationMarks, h2, stripQuotationMarks_quoted,
      if_pos hc3, h3, h4, h5]
  · intro hc3
    have hsplit := countArgs_three_split
      (lead :: (quoted s ++ ',' :: (quoted address ++ [',']))) rest
    rw [hcur, htxt] at hsplit
    exact hsplit hc3

theorem ParseReadMessageEvent_extra_fields_witness :
    AdrasteaI_ATSMS_ParseReadMessageEvent sampleHeader
        (some " \"REC READ\",\"+4912345\",hello, world".toList) [] (some ⟨7, 0, [], []⟩)
      = ⟨true, some ⟨0, 1, "+4912345".toList, "hello, world".toList⟩⟩
    ∧ AdrasteaI_ATSMS_ParseReadMessageEvent sampleHeader
        (some " \"REC READ\",\"+4912345\",,\"24/01/01\",hello".toList) []
        (some ⟨7, 0, [], []⟩)
      = ⟨true, some ⟨0, 1, "+4912345".toList, "hello".toList⟩⟩ :=
  ⟨(ParseReadMessageEvent_extra_fields sampleHeader ' ' 1 (by decide) "+4912345".toList
      "hello, world".toList [] ⟨7, 0, [], []⟩ (by decide) (by decide) (by decide)
      (by decide)).1 (by decide),
    ((ParseReadMessageEvent_extra_fields sampleHeader ' ' 1 (by decide) "+4912345".toList
      ",\"24/01/01\",hello".toList [] ⟨7, 0, [], []⟩ (by decide) (by decide) (by decide)
      (by decide)).2.1 [] "\"24/01/01\"".toList "hello".toList rfl (by decide) (by decide)
      (by decide) (by decide) (by decide)).2⟩

/-! ## The command functions: normal form of a call -/

theorem sendAndWait_eq (h : Header) (x : Exchange) (g : Globals) (request : List Char)
    (timeoutClass : AdrasteaI_Timeout_t) (capture : Bool) :
    sendAndWait h x g request timeoutClass capture
      = if x.transmitted = true then
          match x.confirmation (h.AdrasteaI_GetTimeout timeoutClass) with
          | none => (false, g, [Call.SendRequest request,
              Call.WaitForConfirm (h.AdrasteaI_GetTimeout timeoutClass)
                .AdrasteaI_CNFStatus_Success capture])
          | some (status, payload) =>
            (decide (status = .AdrasteaI_CNFStatus_Success),
              (if capture then { g with AT_commandBuffer := payload } else g),
              [Call.SendRequest request,
                Call.WaitForConfirm (h.AdrasteaI_GetTimeout timeoutClass)
                  .AdrasteaI_CNFStatus_Success capture])
        else (false, g, [Call.SendRequest request]) := by
  unfold sendAndWait AdrasteaI_SendRequest AdrasteaI_WaitForConfirm
  by_cases ht : x.transmitted = true
  · simp only [ht, not_true_eq_false, if_false, if_true]
    cases hc : x.confirmation (h.AdrasteaI_GetTimeout timeoutClass) with
    | none => rfl
    | some p => rfl
  · simp [ht]

theorem normalForm_ReadNetworkAttachmentState (h : Header) (x : Exchange) (g : Globals)
    (p : Option Nat) (t : Trace)
    (ht : execute h x g (.AdrasteaI_ATProprietary_ReadNetworkAttachmentState p) = some t) :
    NormalForm h x g (.AdrasteaI_ATProprietary_ReadNetworkAttachmentState p) t := by
  simp only [execute, Option.some.injEq] at ht
  subst ht
  cases p with
  | none =>
    simp [NormalForm, AdrasteaI_ATProprietary_ReadNetworkAttachmentState, sentRequest, Invocation.command,
      literalRequest]
  | some v =>
    simp only [NormalForm, AdrasteaI_ATProprietary_ReadNetworkAttachmentState, sentRequest,
      Invocation.command, literalRequest, sendAndWait_eq, Command.sourceFile,
      SourceFile.timeoutClass, Invocation.captures, responseStepsSucceed, Option.isNone]
    refine ⟨by simp, by simp, ?_⟩
    intro request hreq
    simp only [Bool.false_eq_true, if_false, Except.ok.injEq] at hreq
    subst hreq
    refine ⟨fun hx => by simp [hx], fun hx => ?_⟩
    simp only [hx, if_true]
    cases hc : x.confirmation (h.AdrasteaI_GetTimeout .AdrasteaI_Timeout_Proprietary) with
    | none => simp
    | some sp =>
      obtain ⟨st, payload⟩ := sp
      by_cases hst : st = .AdrasteaI_CNFStatus_Success
      · subst hst
        simp only [decide_True, not_true_eq_false, if_false, if_true]
        refine ⟨?_, ?_, ?_⟩
        · repeat' split
          all_goals rfl
        · intro payload2 hp
          simp only [Option.some.injEq, Prod.mk.injEq, true_and] at hp
          subst hp
          repeat' split
          all_goals simp_all [Option.bind]
        · intro hall
          exact absurd rfl (hall payload)
      · simp [hst]

theorem normalForm_ReadRATStatus (h : Header) (x : Exchange) (g : Globals)
    (p : Option AdrasteaI_ATProprietary_RAT_Status_t) (t : Trace)
    (ht : execute h x g (.AdrasteaI_ATProprietary_ReadRATStatus p) = some t) :
    NormalForm h x g (.AdrasteaI_ATProprietary_ReadRATStatus p) t := by
  simp only [execute, Option.some.injEq] at ht
  subst ht
  cases p with
  | none =>
    simp [NormalForm, AdrasteaI_ATProprietary_ReadRATStatus, sentRequest, Invocation.command,
      literalRequest]
  | some v =>
    simp only [NormalForm, AdrasteaI_ATProprietary_ReadRATStatus, sentRequest,
      Invocation.command, literalRequest, sendAndWait_eq, Command.sourceFile,
      SourceFile.timeoutClass, Invocation.captures, responseStepsSucceed, Option.isNone]
    refine ⟨by simp, by simp, ?_⟩
    intro request hreq
    simp only [Bool.false_eq_true, if_false, Except.ok.injEq] at hreq
    subst hreq
    refine ⟨fun hx => by simp [hx], fun hx => ?_⟩
    simp only [hx, if_true]
    cases hc : x.confirmation (h.AdrasteaI_GetTimeout .AdrasteaI_Timeout_Proprietary) with
    | none => simp
    | some sp =>
      obtain ⟨st, payload⟩ := sp
      by_cases hst : st = .AdrasteaI_CNFStatus_Success
      · subst hst
        simp only [decide_True, not_true_eq_false, if_false, if_true]
        refine ⟨?_, ?_, ?_⟩
        · repeat' split
          all_goals rfl
        · intro payload2 hp
          simp only [Option.some.injEq, Prod.mk.injEq, true_and] at hp
          subst hp
          repeat' split
          all_goals simp_all [Option.bind]
        · intro hall
          exact absurd rfl (hall payload)
      · simp [hst]

theorem normalForm_ReadPDNParameters (h : Header) (x : Exchange) (g : Globals)
    (p : Option AdrasteaI_ATProprietary_PDN_Parameters_t) (t : Trace)
    (ht : execute h x g (.AdrasteaI_ATProprietary_ReadPDNParameters p) = some t) :
    NormalForm h x g (.AdrasteaI_ATProprietary_ReadPDNParameters p) t := by
  simp only [execute, Option.some.injEq] at ht
  subst ht
  cases p with
  | none =>
    simp [NormalForm, AdrasteaI_ATProprietary_ReadPDNParameters, sentRequest, Invocation.command,
      literalRequest]
  | some v =>
    simp only [NormalForm, AdrasteaI_ATProprietary_ReadPDNParameters, sentRequest,
      Invocation.command, literalRequest, sendAndWait_eq, Command.sourceFile,
      SourceFile.timeoutClass, Invocation.captures, responseStepsSucceed, Option.isNone]
    refine ⟨by simp, by simp, ?_⟩
    intro request hreq
    simp only [Bool.false_eq_true, if_false, Except.ok.injEq] at hreq
    subst hreq
    refine ⟨fun hx => by simp [hx], fun hx => ?_⟩
    simp only [hx, if_true]
    cases hc : x.confirmation (h.AdrasteaI_GetTimeout .AdrasteaI_Timeout_Proprietary) with
    | none => simp
    | some sp =>
      obtain ⟨st, payload⟩ := sp
      by_cases hst : st = .AdrasteaI_CNFStatus_Success
      · subst hst
        simp only [decide_True, not_true_eq_false, if_false, if_true]
        refine ⟨?_, ?_, ?_⟩
        · repeat' split
          all_goals rfl
        · intro payload2 hp
          simp only [Option.some.injEq, Prod.mk.injEq, true_and] at hp
          subst hp
          repeat' split
          all_goals simp_all [Option.bind]
        · intro hall
          exact absurd rfl (hall payload)
      · simp [hst]

theorem normalForm_ReadMessageStorageUsage (h : Header) (x : Exchange) (g : Globals)
    (p : Option AdrasteaI_ATSMS_Message_Storage_Usage_t) (t : Trace)
    (ht : execute h x g (.AdrasteaI_ATSMS_ReadMessageStorageUsage p) = some t) :
    NormalForm h x g (.AdrasteaI_ATSMS_ReadMessageStorageUsage p) t := by
  simp only [execute, Option.some.injEq] at ht
  subst ht
  cases p with
  | none =>
    simp [NormalForm, AdrasteaI_ATSMS_ReadMessageStorageUsage, sentRequest, Invocation.command,
      literalRequest]
  | some v =>
    simp only [NormalForm, AdrasteaI_ATSMS_ReadMessageStorageUsage, sentRequest,
      Invocation.command, literalRequest, sendAndWait_eq, Command.sourceFile,
      SourceFile.timeoutClass, Invocation.captures, responseStepsSucceed, Option.isNone]
    refine ⟨by simp, by simp, ?_⟩
    intro request hreq
    simp only [Bool.false_eq_true, if_false, Except.ok.injEq] at hreq
    subst hreq
    refine ⟨fun hx => by simp [hx], fun hx => ?_⟩
    simp only [hx, if_true]
    cases hc : x.confirmation (h.AdrasteaI_GetTimeout .AdrasteaI_Timeout_SMS) with
    | none => simp
    | some sp =>
      obtain ⟨st, payload⟩ := sp
      by_cases hst : st = .AdrasteaI_CNFStatus_Success
      · subst hst
        simp only [decide_True, not_true_eq_false, if_false, if_true]
        refine ⟨?_, ?_, ?_⟩
        · repeat' split
          all_goals rfl
        · intro payload2 hp
          simp only [Option.some.injEq, Prod.mk.injEq, true_and] at hp
          subst hp
          repeat' split
          all_goals simp_all [Option.bind]
        · intro hall
          exact absurd rfl (hall payload)
      · simp [hst]

theorem normalForm_ReadServiceCenterAddress (h : Header) (x : Exchange) (g : Globals)
    (p : Option AdrasteaI_ATSMS_Service_Center_Address_t) (t : Trace)
    (ht : execute h x g (.AdrasteaI_ATSMS_ReadServiceCenterAddress p) = some t) :
    NormalForm h x g (.AdrasteaI_ATSMS_ReadServiceCenterAddress p) t := by
  simp only [execute, Option.some.injEq] at ht
  subst ht
  cases p with
  | none =>
    simp [NormalForm, AdrasteaI_ATSMS_ReadServiceCenterAddress, sentRequest, Invocation.command,
      literalRequest]
  | some v =>
    simp only [NormalForm, AdrasteaI_ATSMS_ReadServiceCenterAddress, sentRequest,
      Invocation.command, literalRequest, sendAndWait_eq, Command.sourceFile,
      SourceFile.timeoutClass, Invocation.captures, responseStepsSucceed, Option.isNone]
    refine ⟨by simp, by simp, ?_⟩
    intro request hreq
    simp only [Bool.false_eq_true, if_false, Except.ok.injEq] at hreq
    subst hreq
    refine ⟨fun hx => by simp [hx], fun hx => ?_⟩
    simp only [hx, if_true]
    cases hc : x.confirmation (h.AdrasteaI_GetTimeout .AdrasteaI_Timeout_SMS) with
    | none => simp
    | some sp =>
      obtain ⟨st, payload⟩ := sp
      by_cases hst : st = .AdrasteaI_CNFStatus_Success
      · subst hst
        simp only [decide_True, not_true_eq_false, if_false, if_true]
        refine ⟨?_, ?_, ?_⟩
        · repeat' split
          all_goals rfl
        · intro payload2 hp
          simp only [Option.some.injEq, Prod.mk.injEq, true_and] at hp
          subst hp
          repeat' split
          all_goals simp_all [Option.bind]
        · intro hall
          exact absurd rfl (hall payload)
      · simp [hst]

theorem normalForm_ReadCredential (h : Header) (x : Exchange) (g : Globals)
    (filename : List Char) (p : Option (List Char)) (size : Nat) (t : Trace)
    (ht : execute h x g (.AdrasteaI_ATProprietary_ReadCredential filename p size) = some t) :
    NormalForm h x g (.AdrasteaI_ATProprietary_ReadCredential filename p size) t := by
  revert t
  simp only [execute, AdrasteaI_ATProprietary_ReadCredential, sendAndWait_eq, NormalForm, sentRequest,
    Invocation.command, composedRequest, Command.sourceFile, SourceFile.timeoutClass,
    Invocation.captures, responseStepsSucceed]
  cases p with
  | none => simp
  | some v =>
    cases hcomp : AdrasteaI_ATProprietary_ReadCredential_request h g filename with
    | error e => cases e <;> simp [Except.map]
    | ok g2 =>
      simp only [Option.isNone, Bool.false_eq_true, if_false, Except.map, Except.ok.injEq,
        reduceCtorEq, false_implies, ne_eq, not_false_eq_true, true_and]
      by_cases hx : x.transmitted = true
      · simp only [hx, if_true]
        cases hc : x.confirmation (h.AdrasteaI_GetTimeout .AdrasteaI_Timeout_Proprietary) with
        | none => simp
        | some sp =>
          obtain ⟨st, payload⟩ := sp
          by_cases hst : st = .AdrasteaI_CNFStatus_Success
          · subst hst
            simp only [decide_True, not_true_eq_false, if_false, if_true]
            intro t ht request hreq
            subst hreq
            refine ⟨by simp, fun _ => ?_⟩
            repeat' split at ht
            all_goals
              simp only [Option.map_some', Option.some.injEq] at ht
              subst ht
              simp_all
          · simp [hst]
      · simp [hx]

theorem normalForm_SendMessage (h : Header) (x : Exchange) (g : Globals)
    (address : List Char) (addressType : Nat) (message : List Char) (p : Option Nat) (t : Trace)
    (ht : execute h x g (.AdrasteaI_ATSMS_SendMessage address addressType message p) = some t) :
    NormalForm h x g (.AdrasteaI_ATSMS_SendMessage address addressType message p) t := by
  revert t
  simp only [execute, AdrasteaI_ATSMS_SendMessage, sendAndWait_eq, NormalForm, sentRequest,
    Invocation.command, composedRequest, Command.sourceFile, SourceFile.timeoutClass,
    Invocation.captures, responseStepsSucceed]
  cases p with
  | none => simp
  | some v =>
    cases hcomp : AdrasteaI_ATSMS_SendMessage_request h g address addressType message with
    | error e => cases e <;> simp [Except.map]
    | ok g2 =>
      simp only [Option.isNone, Bool.false_eq_true, if_false, Except.map, Except.ok.injEq,
        reduceCtorEq, false_implies, ne_eq, not_false_eq_true, true_and]
      by_cases hx : x.transmitted = true
      · simp only [hx, if_true]
        cases hc : x.confirmation (h.AdrasteaI_GetTimeout .AdrasteaI_Timeout_SMS) with
        | none => simp
        | some sp =>
          obtain ⟨st, payload⟩ := sp
          by_cases hst : st = .AdrasteaI_CNFStatus_Success
          · subst hst
            simp only [decide_True, not_true_eq_false, if_false, if_true]
            intro t ht request hreq
            subst hreq
            refine ⟨by simp, fun _ => ?_⟩
            repeat' split at ht
            all_goals
              simp only [Option.map_some', Option.some.injEq] at ht
              subst ht
              simp_all
          · simp [hst]
      · simp [hx]

theorem normalForm_SendLargeMessage (h : Header) (x : Exchange) (g : Globals)
    (address : List Char) (addressType : Nat) (message : List Char) (p : Option Nat) (t : Trace)
    (ht : execute h x g (.AdrasteaI_ATSMS_SendLargeMessage address addressType message p) = some t) :
    NormalForm h x g (.AdrasteaI_ATSMS_SendLargeMessage address addressType message p) t := by
  revert t
  simp only [execute, AdrasteaI_ATSMS_SendLargeMessage, sendAndWait_eq, NormalForm, sentRequest,
    Invocation.command, composedRequest, Command.sourceFile, SourceFile.timeoutClass,
    Invocation.captures, responseStepsSucceed]
  cases p with
  | none => simp
  | some v =>
    cases hcomp : AdrasteaI_ATSMS_SendLargeMessage_request h g address addressType message with
    | error e => cases e <;> simp [Except.map]
    | ok g2 =>
      simp only [Option.isNone, Bool.false_eq_true, if_false, Except.map, Except.ok.injEq,
        reduceCtorEq, false_implies, ne_eq, not_false_eq_true, true_and]
      by_cases hx : x.transmitted = true
      · simp only [hx, if_true]
        cases hc : x.confirmation (h.AdrasteaI_GetTimeout .AdrasteaI_Timeout_SMS) with
        | none => simp
        | some sp =>
          obtain ⟨st, payload⟩ := sp
          by_cases hst : st = .AdrasteaI_CNFStatus_Success
          · subst hst
            simp only [decide_True, not_true_eq_false, if_false, if_true]
            intro t ht request hreq
            subst hreq
            refine ⟨by simp, fun _ => ?_⟩
            repeat' split at ht
            all_goals
              simp only [Option.map_some', Option.some.injEq] at ht
              subst ht
              simp_all
          · simp [hst]
      · simp [hx]

theorem normalForm_WriteMessageToStorage (h : Header) (x : Exchange) (g : Globals)
    (address : List Char) (addressType : Nat) (message : List Char) (p : Option Nat) (t : Trace)
    (ht : execute h x g (.AdrasteaI_ATSMS_WriteMessageToStorage address addressType message p) = some t) :
    NormalForm h x g (.AdrasteaI_ATSMS_WriteMessageToStorage address addressType message p) t := by
  revert t
  simp only [execute, AdrasteaI_ATSMS_WriteMessageToStorage, sendAndWait_eq, NormalForm, sentRequest,
    Invocation.command, composedRequest, Command.sourceFile, SourceFile.timeoutClass,
    Invocation.captures, responseStepsSucceed]
  cases p with
  | none => simp
  | some v =>
    cases hcomp : AdrasteaI_ATSMS_WriteMessageToStorage_request h g address addressType message with
    | error e => cases e <;> simp [Except.map]
    | ok g2 =>
      simp only [Option.isNone, Bool.false_eq_true, if_false, Except.map, Except.ok.injEq,
        reduceCtorEq, false_implies, ne_eq, not_false_eq_true, true_and]
      by_cases hx : x.transmitted = true
      · simp only [hx, if_true]
        cases hc : x.confirmation (h.AdrasteaI_GetTimeout .AdrasteaI_Timeout_SMS) with
        | none => simp
        | some sp =>
          obtain ⟨st, payload⟩ := sp
          by_cases hst : st = .AdrasteaI_CNFStatus_Success
          · subst hst
            simp only [decide_True, not_true_eq_false, if_false, if_true]
            intro t ht request hreq
            subst hreq
            refine ⟨by simp, fun _ => ?_⟩
            repeat' split at ht
            all_goals
              simp only [Option.map_some', Option.some.injEq] at ht
              subst ht
              simp_all
          · simp [hst]
      · simp [hx]

theorem normalForm_SendMessageFromStorage (h : Header) (x : Exchange) (g : Globals)
    (index : Nat) (p : Option Nat) (t : Trace)
    (ht : execute h x g (.AdrasteaI_ATSMS_SendMessageFromStorage index p) = some t) :
    NormalForm h x g (.AdrasteaI_ATSMS_SendMessageFromStorage index p) t := by
  revert t
  simp only [execute, AdrasteaI_ATSMS_SendMessageFromStorage, sendAndWait_eq, NormalForm, sentRequest,
    Invocation.command, composedRequest, Command.sourceFile, SourceFile.timeoutClass,
    Invocation.captures, responseStepsSucceed]
  cases p with
  | none => simp
  | some v =>
    cases hcomp : AdrasteaI_ATSMS_SendMessageFromStorage_request h g index with
    | error e => cases e <;> simp [Except.map]
    | ok g2 =>
      simp only [Option.isNone, Bool.false_eq_true, if_false, Except.map, Except.ok.injEq,
        reduceCtorEq, false_implies, ne_eq, not_false_eq_true, true_and]
      by_cases hx : x.transmitted = true
      · simp only [hx, if_true]
        cases hc : x.confirmation (h.AdrasteaI_GetTimeout .AdrasteaI_Timeout_SMS) with
        | none => simp
        | some sp =>
          obtain ⟨st, payload⟩ := sp
          by_cases hst : st = .AdrasteaI_CNFStatus_Success
          · subst hst
            simp only [decide_True, not_true_eq_false, if_false, if_true]
            intro t ht request hreq
            subst hreq
            refine ⟨by simp, fun _ => ?_⟩
            repeat' split at ht
            all_goals
              simp only [Option.map_some', Option.some.injEq] at ht
              subst ht
              simp_all
          · simp [hst]
      · simp [hx]

theorem normalForm_ReadRemainingPINPUKAttempts (h : Header) (x : Exchange) (g : Globals)
    (p : Option AdrasteaI_ATProprietary_PIN_PUK_Attempts_t) (t : Trace)
    (ht : execute h x g (.AdrasteaI_ATProprietary_ReadRemainingPINPUKAttempts p) = some t) :
    NormalForm h x g (.AdrasteaI_ATProprietary_ReadRemainingPINPUKAttempts p) t := by
  simp only [execute, Option.some.injEq] at ht
  subst ht
  cases p with
  | none =>
    simp [NormalForm, AdrasteaI_ATProprietary_ReadRemainingPINPUKAttempts, sentRequest,
      Invocation.command, literalRequest]
  | some v =>
    simp only [NormalForm, AdrasteaI_ATProprietary_ReadRemainingPINPUKAttempts, sentRequest,
      Invocation.command, literalRequest, AdrasteaI_SendRequest, AdrasteaI_WaitForConfirm,
      Command.sourceFile, SourceFile.timeoutClass, Invocation.captures, responseStepsSucceed,
      Option.isNone]
    refine ⟨by simp, by simp, ?_⟩
    intro request hreq
    simp only [Bool.false_eq_true, if_false, Except.ok.injEq] at hreq
    subst hreq
    refine ⟨fun hx => by simp [hx], fun hx => ?_⟩
    simp only [hx, not_true_eq_false, if_false]
    cases hc : x.confirmation (h.AdrasteaI_GetTimeout .AdrasteaI_Timeout_Proprietary) with
    | none => simp
    | some sp =>
      obtain ⟨st, payload⟩ := sp
      by_cases hst : st = .AdrasteaI_CNFStatus_Success
      · subst hst
        simp only [decide_True, not_true_eq_false, if_false, if_true]
        refine ⟨?_, ?_, ?_⟩
        · repeat' split
          all_goals rfl
        · intro payload2 hp
          simp only [Option.some.injEq, Prod.mk.injEq, true_and] at hp
          subst hp
          repeat' split
          all_goals simp_all [Option.bind]
        · intro hall
          exact absurd rfl (hall payload)
      · simp [hst]

theorem normalForm_ListCredentials (h : Header) (x : Exchange) (g : Globals)
    (p : Option AdrasteaI_ATProprietary_File_Names_List_t) (allocated : Bool) (t : Trace)
    (ht : execute h x g (.AdrasteaI_ATProprietary_ListCredentials p allocated) = some t) :
    NormalForm h x g (.AdrasteaI_ATProprietary_ListCredentials p allocated) t := by
  revert t
  simp only [execute, AdrasteaI_ATProprietary_ListCredentials, sendAndWait_eq, NormalForm,
    sentRequest, Invocation.command, literalRequest, Command.sourceFile,
    SourceFile.timeoutClass, Invocation.captures, responseStepsSucceed]
  cases p with
  | none => simp
  | some v =>
    simp only [Option.isNone, Bool.false_eq_true, if_false, Except.ok.injEq,
      reduceCtorEq, false_implies, ne_eq, not_false_eq_true, true_and]
    by_cases hx : x.transmitted = true
    · simp only [hx, if_true]
      cases hc : x.confirmation (h.AdrasteaI_GetTimeout .AdrasteaI_Timeout_Proprietary) with
      | none => simp
      | some sp =>
        obtain ⟨st, payload⟩ := sp
        by_cases hst : st = .AdrasteaI_CNFStatus_Success
        · subst hst
          simp only [decide_True, not_true_eq_false, if_false, if_true]
          intro t ht request hreq
          subst hreq
          refine ⟨by simp, fun _ => ?_⟩
          repeat' split at ht
          all_goals
            simp only [Option.map_some', Option.some.injEq, Option.map_none'] at ht
          all_goals
            try subst ht
          all_goals
            simp_all
        · simp [hst]
    · simp [hx]

theorem normalForm_ListTLSProfiles (h : Header) (x : Exchange) (g : Globals)
    (p : Option AdrasteaI_ATProprietary_TLS_Profile_ID_List_t) (allocated : Bool) (t : Trace)
    (ht : execute h x g (.AdrasteaI_ATProprietary_ListTLSProfiles p allocated) = some t) :
    NormalForm h x g (.AdrasteaI_ATProprietary_ListTLSProfiles p allocated) t := by
  revert t
  simp only [execute, AdrasteaI_ATProprietary_ListTLSProfiles, AdrasteaI_SendRequest,
    AdrasteaI_WaitForConfirm, NormalForm,
    sentRequest, Invocation.command, literalRequest, Command.sourceFile,
    SourceFile.timeoutClass, Invocation.captures, responseStepsSucceed]
  cases p with
  | none => simp
  | some v =>
    simp only [Option.isNone, Bool.false_eq_true, if_false, Except.ok.injEq,
      reduceCtorEq, false_implies, ne_eq, not_false_eq_true, true_and]
    by_cases hx : x.transmitted = true
    · simp only [hx, not_true_eq_false, if_false]
      cases hc : x.confirmation (h.AdrasteaI_GetTimeout .AdrasteaI_Timeout_Proprietary) with
      | none => simp
      | some sp =>
        obtain ⟨st, payload⟩ := sp
        by_cases hst : st = .AdrasteaI_CNFStatus_Success
        · subst hst
          simp only [decide_True, not_true_eq_false, if_false, if_true]
          intro t ht request hreq
          subst hreq
          refine ⟨by simp, fun _ => ?_⟩
          repeat' split at ht
          all_goals
            simp only [Option.map_some', Option.some.injEq, Option.map_none'] at ht
          all_goals
            try subst ht
          all_goals
            simp_all
        · simp [hst]
    · simp [hx]

theorem normalForm_DeleteAllMessages (h : Header) (x : Exchange) (g : Globals) (t : Trace)
    (ht : execute h x g .AdrasteaI_ATSMS_DeleteAllMessages = some t) :
    NormalForm h x g .AdrasteaI_ATSMS_DeleteAllMessages t := by
  simp only [execute, Option.some.injEq] at ht
  subst ht
  simp only [NormalForm, AdrasteaI_ATSMS_DeleteAllMessages, sentRequest,
    Invocation.command, literalRequest, sendAndWait_eq, Command.sourceFile,
    SourceFile.timeoutClass, Invocation.captures, responseStepsSucceed]
  refine ⟨by simp, by simp, ?_⟩
  intro request hreq
  simp only [Bool.false_eq_true, if_false, Except.ok.injEq] at hreq
  subst hreq
  refine ⟨fun hx => by simp [hx], fun hx => ?_⟩
  simp only [hx, if_true]
  cases hc : x.confirmation (h.AdrasteaI_GetTimeout .AdrasteaI_Timeout_SMS) with
  | none => simp
  | some sp =>
    obtain ⟨st, payload⟩ := sp
    by_cases hst : st = .AdrasteaI_CNFStatus_Success
    · subst hst
      simp
    · simp [hst]

theorem normalForm_SetSMSUnsolicitedNotificationEvents (h : Header) (x : Exchange)
    (g : Globals) (eventState : Nat) (t : Trace)
    (ht : execute h x g (.AdrasteaI_ATSMS_SetSMSUnsolicitedNotificationEvents eventState)
      = some t) :
    NormalForm h x g (.AdrasteaI_ATSMS_SetSMSUnsolicitedNotificationEvents eventState) t := by
  simp only [execute, Option.some.injEq] at ht
  subst ht
  simp only [NormalForm, AdrasteaI_ATSMS_SetSMSUnsolicitedNotificationEvents, sentRequest,
    Invocation.command, sendAndWait_eq, Command.sourceFile,
    SourceFile.timeoutClass, Invocation.captures, responseStepsSucceed]
  cases hreq0 : AdrasteaI_ATSMS_SetSMSUnsolicitedNotificationEvents_request h eventState with
  | error e =>
    have he : e = .returnedFalse := by
      simp only [AdrasteaI_ATSMS_SetSMSUnsolicitedNotificationEvents_request] at hreq0
      repeat' split at hreq0
      all_goals simp_all
    subst he
    simp
  | ok request0 =>
    refine ⟨by simp, by simp, ?_⟩
    intro request hreq
    simp only [Except.ok.injEq] at hreq
    subst hreq
    refine ⟨fun hx => by simp [hx], fun hx => ?_⟩
    simp only [hx, if_true]
    cases hc : x.confirmation (h.AdrasteaI_GetTimeout .AdrasteaI_Timeout_SMS) with
    | none => simp
    | some sp =>
      obtain ⟨st, payload⟩ := sp
      by_cases hst : st = .AdrasteaI_CNFStatus_Success
      · subst hst
        simp
      · simp [hst]

theorem normalForm_withoutOutput (h : Header) (x : Exchange) (g : Globals) (inv : Invocation)
    (composed : Except Abort Globals) (timeoutClass : AdrasteaI_Timeout_t) (capture : Bool)
    (t : Trace)
    (hsent : sentRequest h g inv.command = Except.map Globals.AT_commandBuffer composed)
    (hclass : inv.command.sourceFile.timeoutClass = timeoutClass)
    (hcapture : inv.captures = capture)
    (hsteps : ∀ payload, responseStepsSucceed h inv payload = true)
    (hexec : execute h x g inv
      = (commandWithoutOutput h x composed timeoutClass capture).map
          fun r => ⟨r.returned, inv, r.calls⟩)
    (ht : execute h x g inv = some t) : NormalForm h x g inv t := by
  rw [hexec] at ht
  simp only [NormalForm, hsent, hclass, hcapture, hsteps]
  cases composed with
  | error e =>
    cases e with
    | returnedFalse =>
      simp only [commandWithoutOutput, Option.map_some', Option.some.injEq] at ht
      subst ht
      simp [Except.map]
    | outOfBounds => simp [commandWithoutOutput] at ht
  | ok g2 =>
    simp only [commandWithoutOutput, sendAndWait_eq, Option.map_some', Option.some.injEq] at ht
    subst ht
    refine ⟨by simp [Except.map], by simp [Except.map], ?_⟩
    intro request hreq
    simp only [Except.map, Except.ok.injEq] at hreq
    subst hreq
    refine ⟨fun hx => by simp [hx], fun hx => ?_⟩
    simp only [hx, if_true]
    cases hc : x.confirmation (h.AdrasteaI_GetTimeout timeoutClass) with
    | none => simp
    | some sp =>
      obtain ⟨st, payload⟩ := sp
      by_cases hst : st = .AdrasteaI_CNFStatus_Success
      · subst hst
        simp
      · simp [hst]

/-- Every defined call has the normal form. -/
theorem execute_normalForm (h : Header) (x : Exchange) (g : Globals) (inv : Invocation)
    (t : Trace) (ht : execute h x g inv = some t) : NormalForm h x g inv t := by
  cases inv with
  | AdrasteaI_ATProprietary_SetNetworkAttachmentState state =>
    exact normalForm_withoutOutput h x g _ _ _ _ t rfl rfl rfl (fun _ => rfl) rfl ht
  | AdrasteaI_ATProprietary_SwitchToRATWithoutFullReboot rat storage source =>
    exact normalForm_withoutOutput h x g _ _ _ _ t rfl rfl rfl (fun _ => rfl) rfl ht
  | AdrasteaI_ATProprietary_SetBootDelay delay =>
    exact normalForm_withoutOutput h x g _ _ _ _ t rfl rfl rfl (fun _ => rfl) rfl ht
  | AdrasteaI_ATProprietary_ResolveDomainName sessionid domain format =>
    exact normalForm_withoutOutput h x g _ _ _ _ t rfl rfl rfl (fun _ => rfl) rfl ht
  | AdrasteaI_ATProprietary_Ping format destaddr packetcount packetsize timeout =>
    exact normalForm_withoutOutput h x g _ _ _ _ t rfl rfl rfl (fun _ => rfl) rfl ht
  | AdrasteaI_ATProprietary_WriteCredential filename format data =>
    exact normalForm_withoutOutput h x g _ _ _ _ t rfl rfl rfl (fun _ => rfl) rfl ht
  | AdrasteaI_ATProprietary_DeleteCredential filename =>
    exact normalForm_withoutOutput h x g _ _ _ _ t rfl rfl rfl (fun _ => rfl) rfl ht
  | AdrasteaI_ATProprietary_AddTLSProfile profileID CA CAPath deviceCert deviceKey pskID pskKey =>
    exact normalForm_withoutOutput h x g _ _ _ _ t rfl rfl rfl (fun _ => rfl) rfl ht
  | AdrasteaI_ATProprietary_DeleteTLSProfile profileID =>
    exact normalForm_withoutOutput h x g _ _ _ _ t rfl rfl rfl (fun _ => rfl) rfl ht
  | AdrasteaI_ATProprietary_SetPDNParameters parameters =>
    exact normalForm_withoutOutput h x g _ _ _ _ t rfl rfl rfl (fun _ => rfl) rfl ht
  | AdrasteaI_ATSMS_DeleteMessage index =>
    exact normalForm_withoutOutput h x g _ _ _ _ t rfl rfl rfl (fun _ => rfl) rfl ht
  | AdrasteaI_ATSMS_ListMessages listType =>
    exact normalForm_withoutOutput h x g _ _ _ _ t rfl rfl rfl (fun _ => rfl) rfl ht
  | AdrasteaI_ATSMS_ReadMessage index =>
    exact normalForm_withoutOutput h x g _ _ _ _ t rfl rfl rfl (fun _ => rfl) rfl ht
  | AdrasteaI_ATSMS_SetMessageStorageLocations readDeleteStorage writeSendStorage receiveStorage =>
    exact normalForm_withoutOutput h x g _ _ _ _ t rfl rfl rfl (fun _ => rfl) rfl ht
  | AdrasteaI_ATSMS_SetServiceCenterAddress serviceCenterAddress =>
    exact normalForm_withoutOutput h x g _ _ _ _ t rfl rfl rfl (fun _ => rfl) rfl ht
  | AdrasteaI_ATProprietary_ReadNetworkAttachmentState p =>
    exact normalForm_ReadNetworkAttachmentState h x g p t ht
  | AdrasteaI_ATProprietary_ReadRemainingPINPUKAttempts p =>
    exact normalForm_ReadRemainingPINPUKAttempts h x g p t ht
  | AdrasteaI_ATProprietary_ReadRATStatus p =>
    exact normalForm_ReadRATStatus h x g p t ht
  | AdrasteaI_ATProprietary_ReadCredential filename p size =>
    exact normalForm_ReadCredential h x g filename p size t ht
  | AdrasteaI_ATProprietary_ListCredentials p allocated =>
    exact normalForm_ListCredentials h x g p allocated t ht
  | AdrasteaI_ATProprietary_ListTLSProfiles p allocated =>
    exact normalForm_ListTLSProfiles h x g p allocated t ht
  | AdrasteaI_ATProprietary_ReadPDNParameters p =>
    exact normalForm_ReadPDNParameters h x g p t ht
  | AdrasteaI_ATSMS_DeleteAllMessages  =>
    exact normalForm_DeleteAllMessages h x g t ht
  | AdrasteaI_ATSMS_ReadMessageStorageUsage p =>
    exact normalForm_ReadMessageStorageUsage h x g p t ht
  | AdrasteaI_ATSMS_ReadServiceCenterAddress p =>
    exact normalForm_ReadServiceCenterAddress h x g p t ht
  | AdrasteaI_ATSMS_SendMessage address addressType message p =>
    exact normalForm_SendMessage h x g address addressType message p t ht
  | AdrasteaI_ATSMS_SendLargeMessage address addressType message p =>
    exact normalForm_SendLargeMessage h x g address addressType message p t ht
  | AdrasteaI_ATSMS_WriteMessageToStorage address addressType message p =>
    exact normalForm_WriteMessageToStorage h x g address addressType message p t ht
  | AdrasteaI_ATSMS_SendMessageFromStorage index p =>
    exact normalForm_SendMessageFromStorage h x g index p t ht
  | AdrasteaI_ATSMS_SetSMSUnsolicitedNotificationEvents eventState =>
    exact normalForm_SetSMSUnsolicitedNotificationEvents h x g eventState t ht

/-- A call whose request is not sent because a step in front of the send reported
failure is defined. -/
theorem execute_defined_of_returnedFalse (h : Header) (x : Exchange) (g : Globals)
    (inv : Invocation) (hfail : sentRequest h g inv.command = .error .returnedFalse) :
    (execute h x g inv).isSome = true := by
  cases inv with
  | AdrasteaI_ATProprietary_SetNetworkAttachmentState state =>
    simp only [sentRequest, Invocation.command, composedRequest, Bool.false_eq_true,
      if_false] at hfail
    cases hc : AdrasteaI_ATProprietary_SetNetworkAttachmentState_request h g state with
    | error e =>
      cases e with
      | returnedFalse =>
        simp only [execute, AdrasteaI_ATProprietary_SetNetworkAttachmentState, commandWithoutOutput, hc, Option.map_some',
          Option.isSome_some]
      | outOfBounds => simp [hc, Except.map] at hfail
    | ok g2 => simp [hc, Except.map] at hfail
  | AdrasteaI_ATProprietary_SwitchToRATWithoutFullReboot rat storage source =>
    simp only [sentRequest, Invocation.command, composedRequest, Bool.false_eq_true,
      if_false] at hfail
    cases hc : AdrasteaI_ATProprietary_SwitchToRATWithoutFullReboot_request h g rat storage source with
    | error e =>
      cases e with
      | returnedFalse =>
        simp only [execute, AdrasteaI_ATProprietary_SwitchToRATWithoutFullReboot, commandWithoutOutput, hc, Option.map_some',
          Option.isSome_some]
      | outOfBounds => simp [hc, Except.map] at hfail
    | ok g2 => simp [hc, Except.map] at hfail
  | AdrasteaI_ATProprietary_SetBootDelay delay =>
    simp only [sentRequest, Invocation.command, composedRequest, Bool.false_eq_true,
      if_false] at hfail
    cases hc : AdrasteaI_ATProprietary_SetBootDelay_request h g delay with
    | error e =>
      cases e with
      | returnedFalse =>
        simp only [execute, AdrasteaI_ATProprietary_SetBootDelay, commandWithoutOutput, hc, Option.map_some',
          Option.isSome_some]
      | outOfBounds => simp [hc, Except.map] at hfail
    | ok g2 => simp [hc, Except.map] at hfail
  | AdrasteaI_ATProprietary_ResolveDomainName sessionid domain format =>
    simp only [sentRequest, Invocation.command, composedRequest, Bool.false_eq_true,
      if_false] at hfail
    cases hc : AdrasteaI_ATProprietary_ResolveDomainName_request h g sessionid domain format with
    | error e =>
      cases e with
      | returnedFalse =>
        simp only [execute, AdrasteaI_ATProprietary_ResolveDomainName, commandWithoutOutput, hc, Option.map_some',
          Option.isSome_some]
      | outOfBounds => simp [hc, Except.map] at hfail
    | ok g2 => simp [hc, Except.map] at hfail
  | AdrasteaI_ATProprietary_Ping format destaddr packetcount packetsize timeout =>
    simp only [sentRequest, Invocation.command, composedRequest, Bool.false_eq_true,
      if_false] at hfail
    cases hc : AdrasteaI_ATProprietary_Ping_request h g format destaddr packetcount packetsize timeout with
    | error e =>
      cases e with
      | returnedFalse =>
        simp only [execute, AdrasteaI_ATProprietary_Ping, commandWithoutOutput, hc, Option.map_some',
          Option.isSome_some]
      | outOfBounds => simp [hc, Except.map] at hfail
    | ok g2 => simp [hc, Except.map] at hfail
  | AdrasteaI_ATProprietary_WriteCredential filename format data =>
    simp only [sentRequest, Invocation.command, composedRequest, Bool.false_eq_true,
      if_false] at hfail
    cases hc : AdrasteaI_ATProprietary_WriteCredential_request h g filename format data with
    | error e =>
      cases e with
      | returnedFalse =>
        simp only [execute, AdrasteaI_ATProprietary_WriteCredential, commandWithoutOutput, hc, Option.map_some',
          Option.isSome_some]
      | outOfBounds => simp [hc, Except.map] at hfail
    | ok g2 => simp [hc, Except.map] at hfail
  | AdrasteaI_ATProprietary_DeleteCredential filename =>
    simp only [sentRequest, Invocation.command, composedRequest, Bool.false_eq_true,
      if_false] at hfail
    cases hc : AdrasteaI_ATProprietary_DeleteCredential_request h g filename with
    | error e =>
      cases e with
      | returnedFalse =>
        simp only [execute, AdrasteaI_ATProprietary_DeleteCredential, commandWithoutOutput, hc, Option.map_some',
          Option.isSome_some]
      | outOfBounds => simp [hc, Except.map] at hfail
    | ok g2 => simp [hc, Except.map] at hfail
  | AdrasteaI_ATProprietary_AddTLSProfile profileID CA CAPath deviceCert deviceKey pskID pskKey =>
    simp only [sentRequest, Invocation.command, composedRequest, Bool.false_eq_true,
      if_false] at hfail
    cases hc : AdrasteaI_ATProprietary_AddTLSProfile_request h g profileID CA CAPath deviceCert deviceKey pskID pskKey with
    | error e =>
      cases e with
      | returnedFalse =>
        simp only [execute, AdrasteaI_ATProprietary_AddTLSProfile, commandWithoutOutput, hc, Option.map_some',
          Option.isSome_some]
      | outOfBounds => simp [hc, Except.map] at hfail
    | ok g2 => simp [hc, Except.map] at hfail
  | AdrasteaI_ATProprietary_DeleteTLSProfile profileID =>
    simp only [sentRequest, Invocation.command, composedRequest, Bool.false_eq_true,
      if_false] at hfail
    cases hc : AdrasteaI_ATProprietary_DeleteTLSProfile_request h g profileID with
    | error e =>
      cases e with
      | returnedFalse =>
        simp only [execute, AdrasteaI_ATProprietary_DeleteTLSProfile, commandWithoutOutput, hc, Option.map_some',
          Option.isSome_some]
      | outOfBounds => simp [hc, Except.map] at hfail
    | ok g2 => simp [hc, Except.map] at hfail
  | AdrasteaI_ATProprietary_SetPDNParameters parameters =>
    simp only [sentRequest, Invocation.command, composedRequest, Bool.false_eq_true,
      if_false] at hfail
    cases hc : AdrasteaI_ATProprietary_SetPDNParameters_request h g parameters with
    | error e =>
      cases e with
      | returnedFalse =>
        simp only [execute, AdrasteaI_ATProprietary_SetPDNParameters, commandWithoutOutput, hc, Option.map_some',
          Option.isSome_some]
      | outOfBounds => simp [hc, Except.map] at hfail
    | ok g2 => simp [hc, Except.map] at hfail
  | AdrasteaI_ATSMS_DeleteMessage index =>
    simp only [sentRequest, Invocation.command, composedRequest, Bool.false_eq_true,
      if_false] at hfail
    cases hc : AdrasteaI_ATSMS_DeleteMessage_request h g index with
    | error e =>
      cases e with
      | returnedFalse =>
        simp only [execute, AdrasteaI_ATSMS_DeleteMessage, commandWithoutOutput, hc, Option.map_some',
          Option.isSome_some]
      | outOfBounds => simp [hc, Except.map] at hfail
    | ok g2 => simp [hc, Except.map] at hfail
  | AdrasteaI_ATSMS_ListMessages listType =>
    simp only [sentRequest, Invocation.command, composedRequest, Bool.false_eq_true,
      if_false] at hfail
    cases hc : AdrasteaI_ATSMS_ListMessages_request h g listType with
    | error e =>
      cases e with
      | returnedFalse =>
        simp only [execute, AdrasteaI_ATSMS_ListMessages, commandWithoutOutput, hc, Option.map_some',
          Option.isSome_some]
      | outOfBounds => simp [hc, Except.map] at hfail
    | ok g2 => simp [hc, Except.map] at hfail
  | AdrasteaI_ATSMS_ReadMessage index =>
    simp only [sentRequest, Invocation.command, composedRequest, Bool.false_eq_true,
      if_false] at hfail
    cases hc : AdrasteaI_ATSMS_ReadMessage_request h g index with
    | error e =>
      cases e with
      | returnedFalse =>
        simp only [execute, AdrasteaI_ATSMS_ReadMessage, commandWithoutOutput, hc, Option.map_some',
          Option.isSome_some]
      | outOfBounds => simp [hc, Except.map] at hfail
    | ok g2 => simp [hc, Except.map] at hfail
  | AdrasteaI_ATSMS_SetMessageStorageLocations readDeleteStorage writeSendStorage receiveStorage =>
    simp only [sentRequest, Invocation.command, composedRequest, Bool.false_eq_true,
      if_false] at hfail
    cases hc : AdrasteaI_ATSMS_SetMessageStorageLocations_request h g readDeleteStorage writeSendStorage receiveStorage with
    | error e =>
      cases e with
      | returnedFalse =>
        simp only [execute, AdrasteaI_ATSMS_SetMessageStorageLocations, commandWithoutOutput, hc, Option.map_some',
          Option.isSome_some]
      | outOfBounds => simp [hc, Except.map] at hfail
    | ok g2 => simp [hc, Except.map] at hfail
  | AdrasteaI_ATSMS_SetServiceCenterAddress serviceCenterAddress =>
    simp only [sentRequest, Invocation.command, composedRequest, Bool.false_eq_true,
      if_false] at hfail
    cases hc : AdrasteaI_ATSMS_SetServiceCenterAddress_request h g serviceCenterAddress with
    | error e =>
      cases e with
      | returnedFalse =>
        simp only [execute, AdrasteaI_ATSMS_SetServiceCenterAddress, commandWithoutOutput, hc, Option.map_some',
          Option.isSome_some]
      | outOfBounds => simp [hc, Except.map] at hfail
    | ok g2 => simp [hc, Except.map] at hfail
  | AdrasteaI_ATProprietary_ReadNetworkAttachmentState p => rfl
  | AdrasteaI_ATProprietary_ReadRemainingPINPUKAttempts p => rfl
  | AdrasteaI_ATProprietary_ReadRATStatus p => rfl
  | AdrasteaI_ATProprietary_ReadPDNParameters p => rfl
  | AdrasteaI_ATSMS_DeleteAllMessages => rfl
  | AdrasteaI_ATSMS_ReadMessageStorageUsage p => rfl
  | AdrasteaI_ATSMS_ReadServiceCenterAddress p => rfl
  | AdrasteaI_ATSMS_SetSMSUnsolicitedNotificationEvents eventState => rfl
  | AdrasteaI_ATProprietary_ListCredentials p allocated =>
    cases p with
    | none => simp only [execute, AdrasteaI_ATProprietary_ListCredentials, Option.map_some', Option.isSome_some]
    | some v => simp [sentRequest, Invocation.command, literalRequest] at hfail
  | AdrasteaI_ATProprietary_ListTLSProfiles p allocated =>
    cases p with
    | none => simp only [execute, AdrasteaI_ATProprietary_ListTLSProfiles, Option.map_some', Option.isSome_some]
    | some v => simp [sentRequest, Invocation.command, literalRequest] at hfail
  | AdrasteaI_ATProprietary_ReadCredential filename p size =>
    cases p with
    | none => simp only [execute, AdrasteaI_ATProprietary_ReadCredential, Option.map_some', Option.isSome_some]
    | some v =>
      simp only [sentRequest, Invocation.command, composedRequest, Option.isNone,
        Bool.false_eq_true, if_false] at hfail
      cases hc : AdrasteaI_ATProprietary_ReadCredential_request h g filename with
      | error e =>
        cases e with
        | returnedFalse =>
          simp only [execute, AdrasteaI_ATProprietary_ReadCredential, hc, Option.map_some',
            Option.isSome_some]
        | outOfBounds => simp [hc, Except.map] at hfail
      | ok g2 => simp [hc, Except.map] at hfail
  | AdrasteaI_ATSMS_SendMessage address addressType message p =>
    cases p with
    | none => simp only [execute, AdrasteaI_ATSMS_SendMessage, Option.map_some', Option.isSome_some]
    | some v =>
      simp only [sentRequest, Invocation.command, composedRequest, Option.isNone,
        Bool.false_eq_true, if_false] at hfail
      cases hc : AdrasteaI_ATSMS_SendMessage_request h g address addressType message with
      | error e =>
        cases e with
        | returnedFalse =>
          simp only [execute, AdrasteaI_ATSMS_SendMessage, hc, Option.map_some',
            Option.isSome_some]
        | outOfBounds => simp [hc, Except.map] at hfail
      | ok g2 => simp [hc, Except.map] at hfail
  | AdrasteaI_ATSMS_SendLargeMessage address addressType message p =>
    cases p with
    | none => simp only [execute, AdrasteaI_ATSMS_SendLargeMessage, Option.map_some', Option.isSome_some]
    | some v =>
      simp only [sentRequest, Invocation.command, composedRequest, Option.isNone,
        Bool.false_eq_true, if_false] at hfail
      cases hc : AdrasteaI_ATSMS_SendLargeMessage_request h g address addressType message with
      | error e =>
        cases e with
        | returnedFalse =>
          simp only [execute, AdrasteaI_ATSMS_SendLargeMessage, hc, Option.map_some',
            Option.isSome_some]
        | outOfBounds => simp [hc, Except.map] at hfail
      | ok g2 => simp [hc, Except.map] at hfail
  | AdrasteaI_ATSMS_WriteMessageToStorage address addressType message p =>
    cases p with
    | none => simp only [execute, AdrasteaI_ATSMS_WriteMessageToStorage, Option.map_some', Option.isSome_some]
    | some v =>
      simp only [sentRequest, Invocation.command, composedRequest, Option.isNone,
        Bool.false_eq_true, if_false] at hfail
      cases hc : AdrasteaI_ATSMS_WriteMessageToStorage_request h g address addressType message with
      | error e =>
        cases e with
        | returnedFalse =>
          simp only [execute, AdrasteaI_ATSMS_WriteMessageToStorage, hc, Option.map_some',
            Option.isSome_some]
        | outOfBounds => simp [hc, Except.map] at hfail
      | ok g2 => simp [hc, Except.map] at hfail
  | AdrasteaI_ATSMS_SendMessageFromStorage index p =>
    cases p with
    | none => simp only [execute, AdrasteaI_ATSMS_SendMessageFromStorage, Option.map_some', Option.isSome_some]
    | some v =>
      simp only [sentRequest, Invocation.command, composedRequest, Option.isNone,
        Bool.false_eq_true, if_false] at hfail
      cases hc : AdrasteaI_ATSMS_SendMessageFromStorage_request h g index with
      | error e =>
        cases e with
        | returnedFalse =>
          simp only [execute, AdrasteaI_ATSMS_SendMessageFromStorage, hc, Option.map_some',
            Option.isSome_some]
        | outOfBounds => simp [hc, Except.map] at hfail
      | ok g2 => simp [hc, Except.map] at hfail

/-! ## The command functions: return value, calls, frame, timeouts -/

theorem waitForConfirm_false_iff (x : Exchange) (g : Globals) (maxTimeMs : Nat)
    (capture : Bool) :
    (AdrasteaI_WaitForConfirm x g maxTimeMs .AdrasteaI_CNFStatus_Success capture).1 = false
      ↔ ∀ payload, x.confirmation maxTimeMs
          ≠ some (.AdrasteaI_CNFStatus_Success, payload) := by
  unfold AdrasteaI_WaitForConfirm
  cases hc : x.confirmation maxTimeMs with
  | none => simp
  | some sp =>
    obtain ⟨st, payload⟩ := sp
    by_cases hst : st = .AdrasteaI_CNFStatus_Success
    · subst hst
      simp
    · simp [hst]

/-- C16: in every defined call of a command function the calls to the transaction engine
are none at all, or one `AdrasteaI_SendRequest` (of the composed request) that returned
false, or one `AdrasteaI_SendRequest` that returned true followed by one
`AdrasteaI_WaitForConfirm` with expected status success: each is invoked at most once,
the wait only after a successful send, and nothing is retried. -/
theorem send_and_wait_at_most_once (h : Header) (x : Exchange) (g : Globals)
    (inv : Invocation) (t : Trace) (ht : execute h x g inv = some t) :
    t.calls = []
      ∨ ∃ request, sentRequest h g inv.command = .ok request
          ∧ ((AdrasteaI_SendRequest x request = false
                ∧ t.calls = [Call.SendRequest request])
            ∨ (AdrasteaI_SendRequest x request = true
                ∧ ∃ maxTimeMs capture, t.calls = [Call.SendRequest request,
                    Call.WaitForConfirm maxTimeMs .AdrasteaI_CNFStatus_Success capture])) := by
  obtain ⟨h1, h2, h3⟩ := execute_normalForm h x g inv t ht
  cases hs : sentRequest h g inv.command with
  | error e =>
    cases e with
    | returnedFalse =>
      rw [h1 hs]
      exact Or.inl rfl
    | outOfBounds => exact absurd hs h2
  | ok request =>
    obtain ⟨ha, hb⟩ := h3 request hs
    refine Or.inr ⟨request, rfl, ?_⟩
    by_cases hx : x.transmitted = true
    · exact Or.inr ⟨hx, _, _, (hb hx).1⟩
    · have hx2 : x.transmitted = false := by simpa using hx
      rw [ha hx2]
      exact Or.inl ⟨hx2, rfl⟩

theorem send_and_wait_at_most_once_witness :
    [Call.SendRequest "AT%CERTCMD=\"READ\",\"key.pem\"\r\n".toList] = []
      ∨ ∃ request, sentRequest sampleHeader ⟨[], 0⟩
            (Invocation.AdrasteaI_ATProprietary_ReadCredential "key.pem".toList
              (some "old".toList) 64).command = .ok request
          ∧ ((AdrasteaI_SendRequest ⟨false, fun _ => none⟩ request = false
                ∧ [Call.SendRequest "AT%CERTCMD=\"READ\",\"key.pem\"\r\n".toList]
                  = [Call.SendRequest request])
            ∨ (AdrasteaI_SendRequest ⟨false, fun _ => none⟩ request = true
                ∧ ∃ maxTimeMs capture,
                  [Call.SendRequest "AT%CERTCMD=\"READ\",\"key.pem\"\r\n".toList]
                    = [Call.SendRequest request,
                      Call.WaitForConfirm maxTimeMs .AdrasteaI_CNFStatus_Success capture])) :=
  send_and_wait_at_most_once sampleHeader ⟨false, fun _ => none⟩ ⟨[], 0⟩
    (.AdrasteaI_ATProprietary_ReadCredential "key.pem".toList (some "old".toList) 64)
    ⟨false, .AdrasteaI_ATProprietary_ReadCredential "key.pem".toList (some "old".toList) 64,
      [Call.SendRequest "AT%CERTCMD=\"READ\",\"key.pem\"\r\n".toList]⟩ (by decide)

/-- C17: in every defined call of a command function (among them the thirteen read
commands with an output argument), if `AdrasteaI_SendRequest` returns false or the
`AdrasteaI_WaitForConfirm` with the timeout of the class and expected status success
returns false (for instance on a timeout), the function returns false and the objects
behind its output pointers are as they were before the call. -/
theorem output_unchanged_when_send_or_wait_fails (h : Header) (x : Exchange) (g : Globals)
    (inv : Invocation) (t : Trace) (ht : execute h x g inv = some t)
    (hfail : (∀ request, AdrasteaI_SendRequest x request = false)
      ∨ (AdrasteaI_WaitForConfirm x g
          (h.AdrasteaI_GetTimeout inv.command.sourceFile.timeoutClass)
          .AdrasteaI_CNFStatus_Success inv.captures).1 = false) :
    t.returned = false ∧ t.after = inv := by
  obtain ⟨h1, h2, h3⟩ := execute_normalForm h x g inv t ht
  rw [waitForConfirm_false_iff] at hfail
  cases hs : sentRequest h g inv.command with
  | error e =>
    cases e with
    | returnedFalse =>
      rw [h1 hs]
      exact ⟨rfl, rfl⟩
    | outOfBounds => exact absurd hs h2
  | ok request =>
    obtain ⟨ha, hb⟩ := h3 request hs
    by_cases hx : x.transmitted = true
    · rcases hfail with hsend | hwait
      · have := hsend request
        rw [AdrasteaI_SendRequest, hx] at this
        exact absurd this (by decide)
      · exact (hb hx).2.2 hwait
    · have hx2 : x.transmitted = false := by simpa using hx
      rw [ha hx2]
      exact ⟨rfl, rfl⟩

theorem output_unchanged_when_send_or_wait_fails_witness :
    execute sampleHeader ⟨true, fun _ => none⟩ ⟨[], 0⟩
        (.AdrasteaI_ATSMS_ReadMessageStorageUsage (some ⟨⟨1, 2, 3⟩, ⟨1, 4, 5⟩, ⟨3, 6, 7⟩⟩))
      = some ⟨false,
          .AdrasteaI_ATSMS_ReadMessageStorageUsage (some ⟨⟨1, 2, 3⟩, ⟨1, 4, 5⟩, ⟨3, 6, 7⟩⟩),
          [Call.SendRequest "AT+CPMS?\r\n".toList,
            Call.WaitForConfirm 1000 .AdrasteaI_CNFStatus_Success true]⟩
    ∧ (⟨false,
          .AdrasteaI_ATSMS_ReadMessageStorageUsage (some ⟨⟨1, 2, 3⟩, ⟨1, 4, 5⟩, ⟨3, 6, 7⟩⟩),
          [Call.SendRequest "AT+CPMS?\r\n".toList,
            Call.WaitForConfirm 1000 .AdrasteaI_CNFStatus_Success true]⟩ : Trace).after
        = .AdrasteaI_ATSMS_ReadMessageStorageUsage
            (some ⟨⟨1, 2, 3⟩, ⟨1, 4, 5⟩, ⟨3, 6, 7⟩⟩) :=
  ⟨by decide,
    (output_unchanged_when_send_or_wait_fails sampleHeader ⟨true, fun _ => none⟩ ⟨[], 0⟩
      (.AdrasteaI_ATSMS_ReadMessageStorageUsage (some ⟨⟨1, 2, 3⟩, ⟨1, 4, 5⟩, ⟨3, 6, 7⟩⟩))
      ⟨false,
        .AdrasteaI_ATSMS_ReadMessageStorageUsage (some ⟨⟨1, 2, 3⟩, ⟨1, 4, 5⟩, ⟨3, 6, 7⟩⟩),
        [Call.SendRequest "AT+CPMS?\r\n".toList,
          Call.WaitForConfirm 1000 .AdrasteaI_CNFStatus_Success true]⟩ (by decide)
      (Or.inr (by decide))).2⟩

/-- C18: when the composition of the request of a command function ends in a reported
failure (an argument append that would overflow the command buffer; also a `NULL` output
pointer or an unknown event state), the call returns false, `AdrasteaI_SendRequest` and
`AdrasteaI_WaitForConfirm` are not invoked, and the outputs are untouched. -/
theorem append_failure_returns_false_without_send (h : Header) (x : Exchange) (g : Globals)
    (inv : Invocation) (hfail : sentRequest h g inv.command = .error .returnedFalse) :
    execute h x g inv = some ⟨false, inv, []⟩ := by
  have hdef := execute_defined_of_returnedFalse h x g inv hfail
  obtain ⟨t, ht⟩ := Option.isSome_iff_exists.mp hdef
  rw [ht, (execute_normalForm h x g inv t ht).1 hfail]

theorem append_failure_returns_false_without_send_witness :
    ATCommand_AppendArgumentStringQuotationMarks { sampleHeader with commandBufferSize := 32 }
        "AT%CERTCMD=\"WRITE\",".toList "certificate.pem".toList ATCOMMAND_ARGUMENT_DELIM
      = .error .returnedFalse
    ∧ execute { sampleHeader with commandBufferSize := 32 }
        ⟨true, fun _ => some (.AdrasteaI_CNFStatus_Success, [])⟩ ⟨[], 0⟩
        (.AdrasteaI_ATProprietary_WriteCredential "certificate.pem".toList 0 "data".toList)
      = some ⟨false,
          .AdrasteaI_ATProprietary_WriteCredential "certificate.pem".toList 0 "data".toList,
          []⟩ :=
  ⟨by decide,
    append_failure_returns_false_without_send { sampleHeader with commandBufferSize := 32 }
      ⟨true, fun _ => some (.AdrasteaI_CNFStatus_Success, [])⟩ ⟨[], 0⟩
      (.AdrasteaI_ATProprietary_WriteCredential "certificate.pem".toList 0 "data".toList)
      (by decide)⟩

/-- C19: every `AdrasteaI_WaitForConfirm` that a defined call of a command function makes
has expected status success and, as its duration, the value `AdrasteaI_GetTimeout` gives
for `AdrasteaI_Timeout_Proprietary` when the function is one of ATProprietary.c and for
`AdrasteaI_Timeout_SMS` when it is one of ATSMS.c (`AdrasteaI_ATSMS_SendLargeMessage`
included), whatever the mapping from classes to durations is. -/
theorem wait_uses_timeout_of_source_file (h : Header) (x : Exchange) (g : Globals)
    (inv : Invocation) (t : Trace) (ht : execute h x g inv = some t)
    (maxTimeMs : Nat) (expectedStatus : AdrasteaI_CNFStatus_t) (capture : Bool)
    (hcall : Call.WaitForConfirm maxTimeMs expectedStatus capture ∈ t.calls) :
    expectedStatus = .AdrasteaI_CNFStatus_Success
      ∧ (inv.command.sourceFile = .ATProprietary_c →
          maxTimeMs = h.AdrasteaI_GetTimeout .AdrasteaI_Timeout_Proprietary)
      ∧ (inv.command.sourceFile = .ATSMS_c →
          maxTimeMs = h.AdrasteaI_GetTimeout .AdrasteaI_Timeout_SMS) := by
  obtain ⟨h1, h2, h3⟩ := execute_normalForm h x g inv t ht
  cases hs : sentRequest h g inv.command with
  | error e =>
    cases e with
    | returnedFalse =>
      rw [h1 hs] at hcall
      simp at hcall
    | outOfBounds => exact absurd hs h2
  | ok request =>
    obtain ⟨ha, hb⟩ := h3 request hs
    by_cases hx : x.transmitted = true
    · rw [(hb hx).1] at hcall
      simp only [List.mem_cons, reduceCtorEq, Call.WaitForConfirm.injEq, List.mem_singleton,
        List.not_mem_nil, or_false, false_or] at hcall
      obtain ⟨hm, hst, -⟩ := hcall
      refine ⟨hst, fun hf => ?_, fun hf => ?_⟩
      · rw [hm, hf, SourceFile.timeoutClass]
      · rw [hm, hf, SourceFile.timeoutClass]
    · have hx2 : x.transmitted = false := by simpa using hx
      rw [ha hx2] at hcall
      simp at hcall

theorem wait_uses_timeout_of_source_file_witness :
    (120000 : Nat)
      = ({ sampleHeader with AdrasteaI_GetTimeout := fun c =>
            match c with
            | .AdrasteaI_Timeout_Proprietary => 5000
            | .AdrasteaI_Timeout_SMS => 120000 } : Header).AdrasteaI_GetTimeout
          .AdrasteaI_Timeout_SMS :=
  ((wait_uses_timeout_of_source_file
    { sampleHeader with AdrasteaI_GetTimeout := fun c =>
        match c with
        | .AdrasteaI_Timeout_Proprietary => 5000
        | .AdrasteaI_Timeout_SMS => 120000 }
    ⟨true, fun _ => some (.AdrasteaI_CNFStatus_Success, " +CMGS: 12".toList)⟩ ⟨[], 0⟩
    (.AdrasteaI_ATSMS_SendLargeMessage "+4912345".toList 145 "hello".toList (some 0))
    ⟨true, .AdrasteaI_ATSMS_SendLargeMessage "+4912345".toList 145 "hello".toList (some 12),
      [Call.SendRequest "AT%CMGSC=\"+4912345\",145\rhello\x1a".toList,
        Call.WaitForConfirm 120000 .AdrasteaI_CNFStatus_Success true]⟩ (by decide)
    120000 .AdrasteaI_CNFStatus_Success true (by decide)).2.2 rfl)

/-! ## Network attachment state: encode and decode -/

set_option maxRecDepth 100000 in
theorem decimalValue_toDigits_byte :
    ∀ v, v < 256 → decimalValue (Nat.toDigits 10 v) = some v
      ∧ (Nat.toDigits 10 v).length ≤ 3 := by
  decide

/-- C13: for every v in 0..255, in a buffer with room for the text,
`AdrasteaI_ATProprietary_SetNetworkAttachmentState` appends for v exactly the unsigned decimal
digits of v (nothing after them for the terminator delimiter) and composes the request
`AT%CMATT=<digits>\r\n`; these digits are decoded back to v by the decode of
`AdrasteaI_ATProprietary_ReadNetworkAttachmentState` (8 bits, unsigned, up to the
terminator, after the one skipped character), and the read function returns true with
the state v, provided the integer decoder scans tokens of three characters. -/
theorem NetworkAttachmentState_roundtrip (h : Header) (hbound : 3 ≤ h.integerTokenMaxLength)
    (hcap : 14 < h.commandBufferSize)
    (v : Nat) (hv : v ≤ 255) (out : List Char) (hout : out.length + 3 < h.commandBufferSize)
    (lead : Char) (g : Globals) (state : Nat) :
    ATCommand_AppendArgumentInt h out v ATCOMMAND_STRING_TERMINATE
        = .ok (out ++ Nat.toDigits 10 v)
      ∧ AdrasteaI_ATProprietary_SetNetworkAttachmentState_request h g v
        = .ok { g with
            AT_commandBuffer := "AT%CMATT=".toList ++ Nat.toDigits 10 v ++ ATCOMMAND_CRLF }
      ∧ ATCommand_GetNextArgumentInt h (lead :: Nat.toDigits 10 v) 1 8
          ATCOMMAND_STRING_TERMINATE = some (v, 1 + (Nat.toDigits 10 v).length)
      ∧ (AdrasteaI_ATProprietary_ReadNetworkAttachmentState h
          ⟨true, fun _ => some (.AdrasteaI_CNFStatus_Success, lead :: Nat.toDigits 10 v)⟩ g
          (some state)).returned = true
      ∧ (AdrasteaI_ATProprietary_ReadNetworkAttachmentState h
          ⟨true, fun _ => some (.AdrasteaI_CNFStatus_Success, lead :: Nat.toDigits 10 v)⟩ g
          (some state)).output = some v := by
  obtain ⟨hval, hlen⟩ := decimalValue_toDigits_byte v (by omega)
  have hdec := getNextArgumentInt_last_eq h (lead :: Nat.toDigits 10 v) [lead]
    (Nat.toDigits 10 v) 1 v 8 rfl rfl hval
  rw [if_pos ⟨by omega, by norm_num; omega⟩] at hdec
  refine ⟨?_, ?_, hdec, ?_, ?_⟩
  · simp only [ATCommand_AppendArgumentInt, ATCommand_AppendArgumentString,
      delimiterText_terminate, List.append_nil]
    rw [if_pos (by rw [List.length_append]; omega)]
  · have c1 : ("AT%CMATT=".toList ++ Nat.toDigits 10 v).length < h.commandBufferSize := by
      rw [List.length_append]
      have : "AT%CMATT=".toList.length = 9 := rfl
      omega
    have c2 : ("AT%CMATT=".toList ++ Nat.toDigits 10 v ++ ATCOMMAND_CRLF).length
        < h.commandBufferSize := by
      rw [List.length_append, List.length_append]
      have : "AT%CMATT=".toList.length = 9 := rfl
      have : ATCOMMAND_CRLF.length = 2 := rfl
      omega
    simp only [AdrasteaI_ATProprietary_SetNetworkAttachmentState_request, bind, Except.bind,
      pure, Except.pure, ATCommand_AppendArgumentInt, ATCommand_AppendArgumentString,
      delimiterText_terminate, List.append_nil, if_pos c1, if_pos c2]
  · simp only [AdrasteaI_ATProprietary_ReadNetworkAttachmentState, sendAndWait_eq, if_true,
      decide_True, not_true_eq_false, if_false, Nat.zero_add, hdec]
  · simp only [AdrasteaI_ATProprietary_ReadNetworkAttachmentState, sendAndWait_eq, if_true,
      decide_True, not_true_eq_false, if_false, Nat.zero_add, hdec]

theorem NetworkAttachmentState_roundtrip_witness :
    AdrasteaI_ATProprietary_SetNetworkAttachmentState_request sampleHeader ⟨"old".toList, 2⟩ 255
        = .ok ⟨"AT%CMATT=255\r\n".toList, 2⟩
      ∧ ATCommand_GetNextArgumentInt sampleHeader " 255".toList 1 8
        ATCOMMAND_STRING_TERMINATE = some (255, 4) :=
  ⟨(NetworkAttachmentState_roundtrip sampleHeader (by decide) (by decide) 255 (by decide)
      "AT%CMATT=".toList (by decide) ' ' ⟨"old".toList, 2⟩ 0).2.1,
    (NetworkAttachmentState_roundtrip sampleHeader (by decide) (by decide) 255 (by decide)
      "AT%CMATT=".toList (by decide) ' ' ⟨"old".toList, 2⟩ 0).2.2.1⟩
/-! ## Event parsers: what the result depends on -/

/-- The result of each of the six event parsers does not depend on what the output object
held before the call: with the same argument string (and the same memory behind it), a
parser returns the same value for any two contents of the object, and when it returns
true it leaves the same object, every field being written on the way to true. -/
theorem event_parsers_ignore_old_output (h : Header)
    (pEventArguments : Option (List Char)) (behind : List Char) :
    (∀ d1 d2,
      (AdrasteaI_ATProprietary_ParseResolveDomainNameEvent h pEventArguments (some d1)).returned
        = (AdrasteaI_ATProprietary_ParseResolveDomainNameEvent h pEventArguments (some d2)).returned
      ∧ ((AdrasteaI_ATProprietary_ParseResolveDomainNameEvent h pEventArguments (some d1)).returned = true →
          (AdrasteaI_ATProprietary_ParseResolveDomainNameEvent h pEventArguments (some d1)).output
          = (AdrasteaI_ATProprietary_ParseResolveDomainNameEvent h pEventArguments (some d2)).output))
    ∧ (∀ d1 d2,
      (AdrasteaI_ATProprietary_ParsePingResultEvent h pEventArguments (some d1)).returned
        = (AdrasteaI_ATProprietary_ParsePingResultEvent h pEventArguments (some d2)).returned
      ∧ ((AdrasteaI_ATProprietary_ParsePingResultEvent h pEventArguments (some d1)).returned = true →
          (AdrasteaI_ATProprietary_ParsePingResultEvent h pEventArguments (some d1)).output
          = (AdrasteaI_ATProprietary_ParsePingResultEvent h pEventArguments (some d2)).output))
    ∧ (∀ d1 d2,
      (AdrasteaI_ATSMS_ParseReadMessageEvent h pEventArguments behind (some d1)).returned
        = (AdrasteaI_ATSMS_ParseReadMessageEvent h pEventArguments behind (some d2)).returned
      ∧ ((AdrasteaI_ATSMS_ParseReadMessageEvent h pEventArguments behind (some d1)).returned = true →
          (AdrasteaI_ATSMS_ParseReadMessageEvent h pEventArguments behind (some d1)).output
          = (AdrasteaI_ATSMS_ParseReadMessageEvent h pEventArguments behind (some d2)).output))
    ∧ (∀ d1 d2,
      (AdrasteaI_ATSMS_ParseListMessagesEvent h pEventArguments behind (some d1)).returned
        = (AdrasteaI_ATSMS_ParseListMessagesEvent h pEventArguments behind (some d2)).returned
      ∧ ((AdrasteaI_ATSMS_ParseListMessagesEvent h pEventArguments behind (some d1)).returned = true →
          (AdrasteaI_ATSMS_ParseListMessagesEvent h pEventArguments behind (some d1)).output
          = (AdrasteaI_ATSMS_ParseListMessagesEvent h pEventArguments behind (some d2)).output))
    ∧ (∀ d1 d2,
      (AdrasteaI_ATSMS_ParseMessageReceivedEvent h pEventArguments behind (some d1)).returned
        = (AdrasteaI_ATSMS_ParseMessageReceivedEvent h pEventArguments behind (some d2)).returned
      ∧ ((AdrasteaI_ATSMS_ParseMessageReceivedEvent h pEventArguments behind (some d1)).returned = true →
          (AdrasteaI_ATSMS_ParseMessageReceivedEvent h pEventArguments behind (some d1)).output
          = (AdrasteaI_ATSMS_ParseMessageReceivedEvent h pEventArguments behind (some d2)).output))
    ∧ (∀ d1 d2,
      (AdrasteaI_ATSMS_ParseSMSErrorEvent h pEventArguments behind (some d1)).returned
        = (AdrasteaI_ATSMS_ParseSMSErrorEvent h pEventArguments behind (some d2)).returned
      ∧ ((AdrasteaI_ATSMS_ParseSMSErrorEvent h pEventArguments behind (some d1)).returned = true →
          (AdrasteaI_ATSMS_ParseSMSErrorEvent h pEventArguments behind (some d1)).output
          = (AdrasteaI_ATSMS_ParseSMSErrorEvent h pEventArguments behind (some d2)).output)) := by
  refine ⟨?_, ?_, ?_, ?_, ?_, ?_⟩
  · intro d1 d2
    cases pEventArguments with
    | none => simp [AdrasteaI_ATProprietary_ParseResolveDomainNameEvent]
    | some text =>
      simp only [AdrasteaI_ATProprietary_ParseResolveDomainNameEvent]
      repeat' split
      all_goals simp_all
  · intro d1 d2
    cases pEventArguments with
    | none => simp [AdrasteaI_ATProprietary_ParsePingResultEvent]
    | some text =>
      simp only [AdrasteaI_ATProprietary_ParsePingResultEvent]
      repeat' split
      all_goals simp_all
  · intro d1 d2
    cases pEventArguments with
    | none => simp [AdrasteaI_ATSMS_ParseReadMessageEvent]
    | some text =>
      simp only [AdrasteaI_ATSMS_ParseReadMessageEvent]
      repeat' split
      all_goals simp_all
  · intro d1 d2
    cases pEventArguments with
    | none => simp [AdrasteaI_ATSMS_ParseListMessagesEvent]
    | some text =>
      simp only [AdrasteaI_ATSMS_ParseListMessagesEvent]
      repeat' split
      all_goals simp_all
  · intro d1 d2
    cases pEventArguments with
    | none => simp [AdrasteaI_ATSMS_ParseMessageReceivedEvent]
    | some text =>
      simp only [AdrasteaI_ATSMS_ParseMessageReceivedEvent]
      repeat' split
      all_goals simp_all
  · intro d1 d2
    cases pEventArguments with
    | none => simp [AdrasteaI_ATSMS_ParseSMSErrorEvent]
    | some text =>
      simp only [AdrasteaI_ATSMS_ParseSMSErrorEvent]
      repeat' split
      all_goals simp_all

/-- On a non-empty argument string the four SMS event parsers read nothing behind the
terminator: their result is the same whatever follows the string in memory. -/
theorem SMS_event_parsers_ignore_behind_nonempty (h : Header)
    (text behind1 behind2 : List Char) (hne : text ≠ []) :
    (∀ dataP,
      AdrasteaI_ATSMS_ParseReadMessageEvent h (some text) behind1 dataP
        = AdrasteaI_ATSMS_ParseReadMessageEvent h (some text) behind2 dataP)
    ∧ (∀ dataP,
      AdrasteaI_ATSMS_ParseListMessagesEvent h (some text) behind1 dataP
        = AdrasteaI_ATSMS_ParseListMessagesEvent h (some text) behind2 dataP)
    ∧ (∀ dataP,
      AdrasteaI_ATSMS_ParseMessageReceivedEvent h (some text) behind1 dataP
        = AdrasteaI_ATSMS_ParseMessageReceivedEvent h (some text) behind2 dataP)
    ∧ (∀ dataP,
      AdrasteaI_ATSMS_ParseSMSErrorEvent h (some text) behind1 dataP
        = AdrasteaI_ATSMS_ParseSMSErrorEvent h (some text) behind2 dataP) := by
  refine ⟨?_, ?_, ?_, ?_⟩
  all_goals
    intro dataP
    cases dataP with
    | none => rfl
    | some data =>
      simp only [AdrasteaI_ATSMS_ParseReadMessageEvent,
        AdrasteaI_ATSMS_ParseListMessagesEvent, AdrasteaI_ATSMS_ParseMessageReceivedEvent,
        AdrasteaI_ATSMS_ParseSMSErrorEvent, readableAfterSkip_of_ne_nil text behind1 hne,
        readableAfterSkip_of_ne_nil text behind2 hne]

/-- C21: on the empty argument string the result of each of the four SMS event parsers is
not a function of the argument string: after the unconditional skip the decoders read what
follows the terminator in memory, so the same (empty) argument string gives true with a
decoded object for one content of the memory behind it and false for another. -/
theorem SMS_event_parsers_read_behind_empty_string :
    (AdrasteaI_ATSMS_ParseSMSErrorEvent sampleHeader (some "".toList) "500".toList (some 0)
        = ⟨true, some 500⟩
      ∧ AdrasteaI_ATSMS_ParseSMSErrorEvent sampleHeader (some "".toList) "".toList (some 0)
        = ⟨false, some 0⟩)
    ∧ (AdrasteaI_ATSMS_ParseMessageReceivedEvent sampleHeader (some "".toList)
          "\"SM\",3".toList (some ⟨0, 0⟩)
        = ⟨true, some ⟨3, 3⟩⟩
      ∧ AdrasteaI_ATSMS_ParseMessageReceivedEvent sampleHeader (some "".toList)
          "".toList (some ⟨0, 0⟩)
        = ⟨false, some ⟨0, 0⟩⟩)
    ∧ (AdrasteaI_ATSMS_ParseReadMessageEvent sampleHeader (some "".toList)
          "\"REC READ\",\"+4912345\",hello".toList (some ⟨7, 0, [], []⟩)
        = ⟨true, some ⟨0, 1, "+4912345".toList, "hello".toList⟩⟩
      ∧ AdrasteaI_ATSMS_ParseReadMessageEvent sampleHeader (some "".toList)
          "".toList (some ⟨7, 0, [], []⟩)
        = ⟨false, some ⟨0, 0, [], []⟩⟩)
    ∧ (AdrasteaI_ATSMS_ParseListMessagesEvent sampleHeader (some "".toList)
          "3,\"REC READ\",\"+4912345\",hello".toList (some ⟨7, 0, [], []⟩)
        = ⟨true, some ⟨3, 1, "+4912345".toList, "hello".toList⟩⟩
      ∧ AdrasteaI_ATSMS_ParseListMessagesEvent sampleHeader (some "".toList)
          "".toList (some ⟨7, 0, [], []⟩)
        = ⟨false, some ⟨7, 0, [], []⟩⟩) := by
  decide

/-! ## Comma-separated responses -/

theorem commaSeparated_cons (token : List Char) (rest : List (List Char)) (hrest : rest ≠ []) :
    commaSeparated (token :: rest)
      = token ++ ATCOMMAND_ARGUMENT_DELIM :: commaSeparated rest := by
  cases rest with
  | nil => exact absurd rfl hrest
  | cons r rs => rfl

theorem commaSeparated_append_singleton (front : List (List Char)) (token last : List Char) :
    commaSeparated (token :: (front ++ [last]))
      = token ++ ATCOMMAND_ARGUMENT_DELIM :: commaSeparated (front ++ [last]) :=
  commaSeparated_cons token (front ++ [last]) (by simp)

theorem count_commaSeparated (tokens : List (List Char))
    (htokens : ∀ t ∈ tokens, ATCOMMAND_ARGUMENT_DELIM ∉ t) :
    (commaSeparated tokens).count ATCOMMAND_ARGUMENT_DELIM = tokens.length - 1 := by
  induction tokens with
  | nil => rfl
  | cons t ts ih =>
    have ht : List.count ATCOMMAND_ARGUMENT_DELIM t = 0 :=
      List.count_eq_zero.mpr (htokens t (by simp))
    cases ts with
    | nil => simpa [commaSeparated] using ht
    | cons r rs =>
      have ih2 := ih (fun u hu => htokens u (List.mem_cons_of_mem _ hu))
      rw [commaSeparated_cons t (r :: rs) (by simp), List.count_append, ht,
        List.count_cons_self, ih2]
      simp

theorem countArgs_commaSeparated (tokens : List (List Char))
    (htokens : ∀ t ∈ tokens, ATCOMMAND_ARGUMENT_DELIM ∉ t)
    (hne : commaSeparated tokens ≠ []) :
    ATCommand_CountArgs (commaSeparated tokens) 0 = tokens.length := by
  have hc := countArgs_suffix [] (commaSeparated tokens)
  simp only [List.nil_append, List.length_nil] at hc
  rw [hc, if_neg hne, count_commaSeparated tokens htokens]
  cases tokens with
  | nil => exact absurd rfl hne
  | cons t ts => simp

theorem ListCredentials_loop_tokens (h : Header) (last : List Char) :
    ∀ (front : List (List Char)) (pre : List Char) (acc : List (List Char)),
      (∀ t ∈ front, ATCOMMAND_ARGUMENT_DELIM ∉ t) →
      ∃ before, pre ++ commaSeparated (front ++ [last]) = before ++ last
        ∧ ((∀ t ∈ front, t.length < h.sizeof_File_Name) →
            AdrasteaI_ATProprietary_ListCredentials_loop h
                (pre ++ commaSeparated (front ++ [last])) front.length pre.length acc
              = (true, before.length, acc ++ front))
        ∧ ((¬ ∀ t ∈ front, t.length < h.sizeof_File_Name) →
            (AdrasteaI_ATProprietary_ListCredentials_loop h
                (pre ++ commaSeparated (front ++ [last])) front.length pre.length acc).1
              = false) := by
  intro front
  induction front with
  | nil =>
    intro pre acc _
    exact ⟨pre, rfl, fun _ => by simp [AdrasteaI_ATProprietary_ListCredentials_loop],
      fun hno => absurd (by simp) hno⟩
  | cons t ts ih =>
    intro pre acc htokens
    have ht : ATCOMMAND_ARGUMENT_DELIM ∉ t := htokens t (by simp)
    have hts : ∀ u ∈ ts, ATCOMMAND_ARGUMENT_DELIM ∉ u :=
      fun u hu => htokens u (List.mem_cons_of_mem _ hu)
    have htext : pre ++ commaSeparated (t :: ts ++ [last])
        = pre ++ t ++ ATCOMMAND_ARGUMENT_DELIM :: commaSeparated (ts ++ [last]) := by
      rw [List.cons_append, commaSeparated_append_singleton, List.append_assoc]
    have hnext : pre ++ t ++ ATCOMMAND_ARGUMENT_DELIM :: commaSeparated (ts ++ [last])
        = (pre ++ t ++ [ATCOMMAND_ARGUMENT_DELIM]) ++ commaSeparated (ts ++ [last]) := by
      simp
    have hdec := getNextArgumentString_delimited
      (pre ++ commaSeparated (t :: ts ++ [last])) pre t (commaSeparated (ts ++ [last]))
      pre.length ATCOMMAND_ARGUMENT_DELIM h.sizeof_File_Name htext rfl ht
    obtain ⟨before, hb, hyes, hno⟩ := ih (pre ++ t ++ [ATCOMMAND_ARGUMENT_DELIM])
      (acc ++ [t]) hts
    have hlen : (pre ++ t ++ [ATCOMMAND_ARGUMENT_DELIM]).length = pre.length + t.length + 1 := by
      simp only [List.length_append, List.length_singleton]
    rw [← hnext, ← htext, hlen] at hyes hno
    refine ⟨before, by rw [htext, hnext, hb], ?_, ?_⟩
    · intro hall
      have hfit : t.length < h.sizeof_File_Name := hall t (by simp)
      rw [if_pos hfit] at hdec
      rw [List.length_cons, AdrasteaI_ATProprietary_ListCredentials_loop, hdec]
      simp only
      rw [hyes (fun u hu => hall u (List.mem_cons_of_mem _ hu))]
      simp
    · intro hnot
      by_cases hfit : t.length < h.sizeof_File_Name
      · rw [if_pos hfit] at hdec
        rw [List.length_cons, AdrasteaI_ATProprietary_ListCredentials_loop, hdec]
        simp only
        apply hno
        intro hall
        apply hnot
        intro u hu
        rcases List.mem_cons.mp hu with rfl | hu2
        · exact hfit
        · exact hall u hu2
      · rw [if_neg hfit] at hdec
        rw [List.length_cons, AdrasteaI_ATProprietary_ListCredentials_loop, hdec]



/-- C22: when the request of `AdrasteaI_ATProprietary_ListCredentials` is sent and the
confirmation wait succeeds: on an empty captured response the function returns true with
count = 0 and filenames = NULL; on a non-empty response made of n comma-separated tokens
(n at most 255, the range of the loop variable), whenever the function returns true it has
set count = n and filenames to the n tokens in response order, the first n - 1 decoded up
to the argument delimiter and the last up to the string terminator, and it does return
true when `malloc` gives a block and every token fits a file name. -/
theorem ListCredentials_decodes_tokens (h : Header) (x : Exchange) (g : Globals)
    (list : AdrasteaI_ATProprietary_File_Names_List_t) (allocated : Bool)
    (response : List Char)
    (hsent : x.transmitted = true)
    (hconfirmed : x.confirmation (h.AdrasteaI_GetTimeout .AdrasteaI_Timeout_Proprietary)
      = some (.AdrasteaI_CNFStatus_Success, response)) :
    (response = [] →
      ∃ calls, AdrasteaI_ATProprietary_ListCredentials h x g (some list) allocated
        = some ⟨true, some ⟨none, 0⟩, calls⟩)
    ∧ (∀ tokens : List (List Char), response = commaSeparated tokens → response ≠ [] →
        (∀ t ∈ tokens, ATCOMMAND_ARGUMENT_DELIM ∉ t ∧ ATCOMMAND_STRING_TERMINATE ∉ t) →
        tokens.length ≤ 255 →
        (∀ r, AdrasteaI_ATProprietary_ListCredentials h x g (some list) allocated = some r →
          r.returned = true → r.output = some ⟨some tokens, tokens.length⟩)
        ∧ (allocated = true → (∀ t ∈ tokens, t.length < h.sizeof_File_Name) →
          ∃ calls, AdrasteaI_ATProprietary_ListCredentials h x g (some list) allocated
            = some ⟨true, some ⟨some tokens, tokens.length⟩, calls⟩)) := by
  constructor
  · intro hempty
    subst hempty
    simp only [AdrasteaI_ATProprietary_ListCredentials, sendAndWait_eq, hsent, if_true,
      hconfirmed, decide_True, not_true_eq_false, if_false, ATCommand_CountArgs,
      List.drop_nil, ne_eq, not_true_eq_false]
    exact ⟨_, rfl⟩
  · intro tokens hresponse hne htokens hcount
    subst hresponse
    have hnonempty : tokens ≠ [] := by
      intro hnil
      subst hnil
      exact hne rfl
    obtain ⟨front, last, rfl⟩ : ∃ front last, tokens = front ++ [last] :=
      ⟨tokens.dropLast, tokens.getLast hnonempty, (List.dropLast_append_getLast hnonempty).symm⟩
    have hcountArgs := countArgs_commaSeparated (front ++ [last])
      (fun t ht => (htokens t ht).1) hne
    have hfront : ∀ t ∈ front, ATCOMMAND_ARGUMENT_DELIM ∉ t :=
      fun t ht => (htokens t (List.mem_append_left _ ht)).1
    have hlast : ATCOMMAND_STRING_TERMINATE ∉ last := (htokens last (by simp)).2
    obtain ⟨before, hb, hyes, hno⟩ := ListCredentials_loop_tokens h last front [] [] hfront
    simp only [List.nil_append, List.length_nil] at hb hyes hno
    have hlen : (front ++ [last]).length - 1 = front.length := by simp
    have hdec := getNextArgumentString_last (commaSeparated (front ++ [last])) before last
      before.length ATCOMMAND_STRING_TERMINATE h.sizeof_File_Name hb rfl hlast
    have hnot255 : ¬ 255 < (front ++ [last]).length := by omega
    have hcount0 : (front ++ [last]).length ≠ 0 := by simp
    constructor
    · intro r hr hret
      simp only [AdrasteaI_ATProprietary_ListCredentials, sendAndWait_eq, hsent, if_true,
        hconfirmed, decide_True, not_true_eq_false, if_false, hcountArgs, ne_eq, hcount0,
        not_false_eq_true, hnot255, hlen] at hr
      by_cases hall : ∀ t ∈ front, t.length < h.sizeof_File_Name
      · rw [hyes hall] at hr
        by_cases hfit : last.length < h.sizeof_File_Name
        · rw [if_pos hfit] at hdec
          simp only [hdec] at hr
          split at hr
          · simp only [Option.some.injEq] at hr
            subst hr
            exact absurd hret (by simp)
          · simp only [Option.some.injEq] at hr
            subst hr
            rfl
        · rw [if_neg hfit] at hdec
          simp only [hdec] at hr
          split at hr
          all_goals
            simp only [Option.some.injEq] at hr
            subst hr
            exact absurd hret (by simp)
      · have hfalse := hno hall
        rcases hloop : AdrasteaI_ATProprietary_ListCredentials_loop h
            (commaSeparated (front ++ [last])) front.length 0 [] with ⟨ok, cursor, names⟩
        rw [hloop] at hr hfalse
        simp only at hfalse
        subst hfalse
        simp only at hr
        split at hr
        all_goals
          simp only [Option.some.injEq] at hr
          subst hr
          exact absurd hret (by simp)
    · intro halloc hall
      have hallf : ∀ t ∈ front, t.length < h.sizeof_File_Name :=
        fun t ht => hall t (List.mem_append_left _ ht)
      have hfit : last.length < h.sizeof_File_Name := hall last (by simp)
      rw [if_pos hfit] at hdec
      simp only [AdrasteaI_ATProprietary_ListCredentials, sendAndWait_eq, hsent, if_true,
        hconfirmed, decide_True, not_true_eq_false, if_false, hcountArgs, ne_eq, hcount0,
        not_false_eq_true, hnot255, hlen, halloc, hyes hallf, hdec, List.nil_append]
      exact ⟨_, rfl⟩

theorem ListCredentials_decodes_tokens_witness :
    ∃ calls, AdrasteaI_ATProprietary_ListCredentials sampleHeader
        ⟨true, fun _ => some (.AdrasteaI_CNFStatus_Success, "a.pem,b.pem".toList)⟩ ⟨[], 0⟩
        (some ⟨none, 0⟩) true
      = some ⟨true, some ⟨some ["a.pem".toList, "b.pem".toList], 2⟩, calls⟩ :=
  ((ListCredentials_decodes_tokens sampleHeader
      ⟨true, fun _ => some (.AdrasteaI_CNFStatus_Success, "a.pem,b.pem".toList)⟩ ⟨[], 0⟩
      ⟨none, 0⟩ true "a.pem,b.pem".toList rfl rfl).2
    ["a.pem".toList, "b.pem".toList] (by decide) (by decide) (by decide) (by decide)).2
    rfl (by decide)

/-! ## The list of TLS profile IDs -/

theorem ListTLSProfiles_loop_values (h : Header) (last : List Char) :
    ∀ (front : List (List Char)) (values : List Nat) (pre : List Char) (acc : List Nat),
      List.Forall₂ (fun t v => decimalValue t = some v ∧ v ≤ 255
        ∧ t.length ≤ h.integerTokenMaxLength) front values →
      ∃ before, pre ++ commaSeparated (front ++ [last]) = before ++ last
        ∧ AdrasteaI_ATProprietary_ListTLSProfiles_loop h
            (pre ++ commaSeparated (front ++ [last])) front.length pre.length acc
          = (true, before.length, acc ++ values) := by
  intro front
  induction front with
  | nil =>
    intro values pre acc hall
    cases hall
    exact ⟨pre, rfl, by simp [AdrasteaI_ATProprietary_ListTLSProfiles_loop]⟩
  | cons t ts ih =>
    intro values pre acc hall
    cases hall with
    | cons ht hrest =>
      rename_i v vs
      obtain ⟨hv, hv255, hvlen⟩ := ht
      have htext : pre ++ commaSeparated (t :: ts ++ [last])
          = pre ++ t ++ ATCOMMAND_ARGUMENT_DELIM :: commaSeparated (ts ++ [last]) := by
        rw [List.cons_append, commaSeparated_append_singleton, List.append_assoc]
      have hnext : pre ++ t ++ ATCOMMAND_ARGUMENT_DELIM :: commaSeparated (ts ++ [last])
          = (pre ++ t ++ [ATCOMMAND_ARGUMENT_DELIM]) ++ commaSeparated (ts ++ [last]) := by
        simp
      have hdec := getNextArgumentInt_delimited_eq h
        (pre ++ commaSeparated (t :: ts ++ [last])) pre t (commaSeparated (ts ++ [last]))
        pre.length v 8 htext rfl hv
      rw [if_pos ⟨hvlen, by norm_num; omega⟩] at hdec
      obtain ⟨before, hb, hyes⟩ := ih vs (pre ++ t ++ [ATCOMMAND_ARGUMENT_DELIM])
        (acc ++ [v]) hrest
      have hlen : (pre ++ t ++ [ATCOMMAND_ARGUMENT_DELIM]).length
          = pre.length + t.length + 1 := by
        simp only [List.length_append, List.length_singleton]
      rw [← hnext, ← htext, hlen] at hyes
      refine ⟨before, by rw [htext, hnext, hb], ?_⟩
      rw [List.length_cons, AdrasteaI_ATProprietary_ListTLSProfiles_loop, hdec]
      simp only
      rw [hyes]
      simp

theorem decimal_tokens_no_delimiter (h : Header) (tokens : List (List Char))
    (values : List Nat)
    (hall : List.Forall₂ (fun t v => decimalValue t = some v ∧ v ≤ 255
      ∧ t.length ≤ h.integerTokenMaxLength) tokens values) :
    ∀ t ∈ tokens, ATCOMMAND_ARGUMENT_DELIM ∉ t := by
  induction hall with
  | nil =>
    intro t ht
    simp at ht
  | cons hhead _ ih =>
    intro t ht hm
    rcases List.mem_cons.mp ht with rfl | ht2
    · exact absurd (decimalValue_isDigit _ _ hhead.1 _ hm) (by decide)
    · exact ih t ht2 hm

theorem commaSeparated_decimal_ne_nil (h : Header) (tokens : List (List Char))
    (values : List Nat) (hne : tokens ≠ [])
    (hall : List.Forall₂ (fun t v => decimalValue t = some v ∧ v ≤ 255
      ∧ t.length ≤ h.integerTokenMaxLength) tokens values) :
    commaSeparated tokens ≠ [] := by
  cases hall with
  | nil => exact absurd rfl hne
  | cons ht hrest =>
    rename_i t v ts vs
    have htne : t ≠ [] := by
      intro hnil
      have := ht.1
      rw [hnil] at this
      simp [decimalValue] at this
    cases ts with
    | nil => simpa [commaSeparated] using htne
    | cons r rs =>
      rw [commaSeparated_cons t (r :: rs) (by simp)]
      simp [htne]

theorem forall₂_append_singleton_left {α β : Type} (R : α → β → Prop) (last : α) :
    ∀ (front : List α) (values : List β), List.Forall₂ R (front ++ [last]) values →
      ∃ vfront vlast, List.Forall₂ R front vfront ∧ R last vlast
        ∧ values = vfront ++ [vlast] := by
  intro front
  induction front with
  | nil =>
    intro values hall
    cases hall with
    | cons hhead htail =>
      cases htail
      exact ⟨[], _, List.Forall₂.nil, hhead, rfl⟩
  | cons a front ih =>
    intro values hall
    cases hall with
    | cons hhead htail =>
      obtain ⟨vfront, vlast, hf, hl, rfl⟩ := ih _ htail
      exact ⟨_ :: vfront, vlast, List.Forall₂.cons hhead hf, hl, rfl⟩

/-- C23: when the request of `AdrasteaI_ATProprietary_ListTLSProfiles` is sent and the
confirmation wait succeeds: on an empty captured response the function returns true with
count = 0 and profileIDs = NULL; on a response made of one leading character and n
comma-separated decimal tokens of values at most 255 (n from 1 to 255, the tokens within
the scan bound of the integer decoder), with `malloc` giving a block, the function returns
true with count = n and profileIDs the n values in response order. -/
theorem ListTLSProfiles_decodes_values (h : Header) (x : Exchange) (g : Globals)
    (list : AdrasteaI_ATProprietary_TLS_Profile_ID_List_t) (allocated : Bool)
    (response : List Char)
    (hsent : x.transmitted = true)
    (hconfirmed : x.confirmation (h.AdrasteaI_GetTimeout .AdrasteaI_Timeout_Proprietary)
      = some (.AdrasteaI_CNFStatus_Success, response)) :
    (response = [] →
      ∃ calls, AdrasteaI_ATProprietary_ListTLSProfiles h x g (some list) allocated
        = some ⟨true, some ⟨none, 0⟩, calls⟩)
    ∧ (∀ (lead : Char) (tokens : List (List Char)) (values : List Nat),
        response = lead :: commaSeparated tokens → tokens ≠ [] →
        List.Forall₂ (fun t v => decimalValue t = some v ∧ v ≤ 255
          ∧ t.length ≤ h.integerTokenMaxLength) tokens values →
        tokens.length ≤ 255 → allocated = true →
        ∃ calls, AdrasteaI_ATProprietary_ListTLSProfiles h x g (some list) allocated
          = some ⟨true, some ⟨some values, tokens.length⟩, calls⟩) := by
  constructor
  · intro hempty
    subst hempty
    simp only [AdrasteaI_ATProprietary_ListTLSProfiles, AdrasteaI_SendRequest,
      AdrasteaI_WaitForConfirm, hsent, hconfirmed, decide_True, not_true_eq_false, if_false,
      if_true, ATCommand_CountArgs, List.drop_nil, ne_eq]
    exact ⟨_, rfl⟩
  · intro lead tokens values hresponse hnonempty hall hcount halloc
    subst hresponse
    have hne := commaSeparated_decimal_ne_nil h tokens values hnonempty hall
    have hdelim := decimal_tokens_no_delimiter h tokens values hall
    have hcount0 : ATCommand_CountArgs (lead :: commaSeparated tokens) 0 ≠ 0 := by
      simp [ATCommand_CountArgs]
    have hcount1 : ATCommand_CountArgs (lead :: commaSeparated tokens) (0 + 1)
        = tokens.length := by
      have h1 := countArgs_suffix [lead] (commaSeparated tokens)
      have h2 := count_commaSeparated tokens hdelim
      simp only [List.singleton_append, List.length_singleton] at h1
      rw [Nat.zero_add, h1, if_neg hne, h2]
      cases tokens with
      | nil => exact absurd rfl hnonempty
      | cons t ts => simp
    obtain ⟨front, last, rfl⟩ : ∃ front last, tokens = front ++ [last] :=
      ⟨tokens.dropLast, tokens.getLast hnonempty,
        (List.dropLast_append_getLast hnonempty).symm⟩
    obtain ⟨vfront, vl, hvf, hlastv, rfl⟩ := forall₂_append_singleton_left _ last front
      values hall
    obtain ⟨hv, hv255, hvlen⟩ := hlastv
    obtain ⟨before, hb, hloop⟩ := ListTLSProfiles_loop_values h last front vfront [lead] []
      hvf
    simp only [List.singleton_append, List.length_singleton, List.nil_append] at hb hloop
    have hdec := getNextArgumentInt_last_eq h (lead :: commaSeparated (front ++ [last]))
      before last before.length vl 8 hb rfl hv
    rw [if_pos ⟨hvlen, by norm_num; omega⟩] at hdec
    have hlen : (front ++ [last]).length - 1 = front.length := by simp
    have hnot255 : ¬ 255 < (front ++ [last]).length := by omega
    simp only [AdrasteaI_ATProprietary_ListTLSProfiles, AdrasteaI_SendRequest,
      AdrasteaI_WaitForConfirm, hsent, hconfirmed, decide_True, not_true_eq_false,
      if_false, if_true, ne_eq, hcount0, not_false_eq_true, hcount1, halloc, hnot255,
      hlen, Nat.zero_add, hloop, hdec]
    exact ⟨_, rfl⟩

theorem ListTLSProfiles_decodes_values_witness :
    ∃ calls, AdrasteaI_ATProprietary_ListTLSProfiles sampleHeader
        ⟨true, fun _ => some (.AdrasteaI_CNFStatus_Success, " 1,2,255".toList)⟩ ⟨[], 0⟩
        (some ⟨none, 0⟩) true
      = some ⟨true, some ⟨some [1, 2, 255], 3⟩, calls⟩ :=
  (ListTLSProfiles_decodes_values sampleHeader
      ⟨true, fun _ => some (.AdrasteaI_CNFStatus_Success, " 1,2,255".toList)⟩ ⟨[], 0⟩
      ⟨none, 0⟩ true " 1,2,255".toList rfl rfl).2
    ' ' ["1".toList, "2".toList, "255".toList] [1, 2, 255] (by decide) (by decide)
    (.cons (by decide) (.cons (by decide) (.cons (by decide) .nil))) (by decide) rfl

/-! ## Reading a credential -/

/-- C24: when the request of `AdrasteaI_ATProprietary_ReadCredential` is composed and sent
and the confirmation wait succeeds, the function returns false and leaves the destination
as it was whenever the captured response, as received and with its terminating NUL, does
not fit in `dataMaxBufferSize` bytes; when it fits, the function returns true and `dataP`
holds the whole captured response, decoded from index 0 up to the string terminator, with
its quotation marks stripped. -/
theorem ReadCredential_fits_or_fails (h : Header) (x : Exchange) (g g2 : Globals)
    (filename data response : List Char) (dataMaxBufferSize : Nat)
    (hcomposed : AdrasteaI_ATProprietary_ReadCredential_request h g filename = .ok g2)
    (hsent : x.transmitted = true)
    (hconfirmed : x.confirmation (h.AdrasteaI_GetTimeout .AdrasteaI_Timeout_Proprietary)
      = some (.AdrasteaI_CNFStatus_Success, response))
    (hnul : ATCOMMAND_STRING_TERMINATE ∉ response) :
    (dataMaxBufferSize ≤ response.length →
      ∃ calls, AdrasteaI_ATProprietary_ReadCredential h x g filename (some data)
        dataMaxBufferSize = some ⟨false, some data, calls⟩)
    ∧ (response.length < dataMaxBufferSize →
      ∃ calls, AdrasteaI_ATProprietary_ReadCredential h x g filename (some data)
        dataMaxBufferSize = some ⟨true, some (stripQuotationMarks response), calls⟩) := by
  have hdec := getNextArgumentString_last response [] response 0 ATCOMMAND_STRING_TERMINATE
    dataMaxBufferSize rfl rfl hnul
  constructor
  · intro hbig
    rw [if_neg (by omega)] at hdec
    simp only [AdrasteaI_ATProprietary_ReadCredential, hcomposed, sendAndWait_eq, hsent,
      if_true, hconfirmed, decide_True, not_true_eq_false, if_false,
      ATCommand_GetNextArgumentStringWithoutQuotationMarks, hdec]
    exact ⟨_, rfl⟩
  · intro hfits
    rw [if_pos hfits] at hdec
    simp only [AdrasteaI_ATProprietary_ReadCredential, hcomposed, sendAndWait_eq, hsent,
      if_true, hconfirmed, decide_True, not_true_eq_false, if_false,
      ATCommand_GetNextArgumentStringWithoutQuotationMarks, hdec]
    exact ⟨_, rfl⟩

theorem ReadCredential_fits_or_fails_witness :
    (∃ calls, AdrasteaI_ATProprietary_ReadCredential sampleHeader
        ⟨true, fun _ => some (.AdrasteaI_CNFStatus_Success, "\"-----BEGIN\"".toList)⟩
        ⟨[], 0⟩ "key.pem".toList (some "old".toList) 5
      = some ⟨false, some "old".toList, calls⟩)
    ∧ (∃ calls, AdrasteaI_ATProprietary_ReadCredential sampleHeader
        ⟨true, fun _ => some (.AdrasteaI_CNFStatus_Success, "\"-----BEGIN\"".toList)⟩
        ⟨[], 0⟩ "key.pem".toList (some "old".toList) 64
      = some ⟨true, some "-----BEGIN".toList, calls⟩) :=
  ⟨(ReadCredential_fits_or_fails sampleHeader
      ⟨true, fun _ => some (.AdrasteaI_CNFStatus_Success, "\"-----BEGIN\"".toList)⟩ ⟨[], 0⟩
      ⟨"AT%CERTCMD=\"READ\",\"key.pem\"\r\n".toList, 0⟩ "key.pem".toList "old".toList
      "\"-----BEGIN\"".toList 5 (by decide) rfl rfl (by decide)).1 (by decide),
    (ReadCredential_fits_or_fails sampleHeader
      ⟨true, fun _ => some (.AdrasteaI_CNFStatus_Success, "\"-----BEGIN\"".toList)⟩ ⟨[], 0⟩
      ⟨"AT%CERTCMD=\"READ\",\"key.pem\"\r\n".toList, 0⟩ "key.pem".toList "old".toList
      "\"-----BEGIN\"".toList 64 (by decide) rfl rfl (by decide)).2 (by decide)⟩

/-! ## The message reference of a sent message -/

theorem scanForPlus_step (c c2 : Char) (t : List Char)
    (hc : c ≠ ATCOMMAND_STRING_TERMINATE) (hc2 : c2 ≠ '+') :
    scanForPlus (c :: c2 :: t) = scanForPlus (c2 :: t) + 1 := by
  rw [scanForPlus, if_neg hc, if_neg (by simpa using hc2)]

theorem scanForPlus_stop (c : Char) (t : List Char) (hc : c ≠ ATCOMMAND_STRING_TERMINATE) :
    scanForPlus (c :: '+' :: t) = 0 := by
  rw [scanForPlus, if_neg hc, if_pos (by simp)]

theorem scanForPlus_before_plus (p rest : List Char) (hp : p ≠ [])
    (hplus : '+' ∉ p) (hnul : ATCOMMAND_STRING_TERMINATE ∉ p) :
    scanForPlus (p ++ '+' :: rest) + 1 = p.length := by
  induction p with
  | nil => exact absurd rfl hp
  | cons c p ih =>
    have hc : c ≠ ATCOMMAND_STRING_TERMINATE := fun hh => hnul (by simp [hh])
    cases p with
    | nil =>
      rw [List.singleton_append, scanForPlus_stop c rest hc]
      rfl
    | cons c2 p2 =>
      have hc2 : c2 ≠ '+' := fun hh => hplus (by simp [hh])
      have ih2 := ih (by simp) (fun hh => hplus (List.mem_cons_of_mem _ hh))
        (fun hh => hnul (List.mem_cons_of_mem _ hh))
      rw [List.cons_append, List.cons_append, scanForPlus_step c c2 _ hc hc2,
        ← List.cons_append, ih2]
      rfl

/-- C25: when the request is composed and sent, the confirmation wait succeeds and the
captured response is a non-empty p without `+` (and without NUL), then `+CMGS: `, then a
decimal token d of value at most 255 (within the scan bound of the integer decoder) that
runs to the end of the response, `AdrasteaI_ATSMS_SendMessage` returns true with the
message reference d: the scan stops one character in front of the `+` and the advance by
8 lands on the first character of d. -/
theorem SendMessage_decodes_reference (h : Header) (x : Exchange) (g g2 : Globals)
    (address : List Char) (addressType : Nat) (message : List Char) (messageReference : Nat)
    (p d : List Char) (value : Nat)
    (hcomposed : AdrasteaI_ATSMS_SendMessage_request h g address addressType message = .ok g2)
    (hsent : x.transmitted = true)
    (hconfirmed : x.confirmation (h.AdrasteaI_GetTimeout .AdrasteaI_Timeout_SMS)
      = some (.AdrasteaI_CNFStatus_Success, p ++ "+CMGS: ".toList ++ d))
    (hp : p ≠ []) (hplus : '+' ∉ p) (hnul : ATCOMMAND_STRING_TERMINATE ∉ p)
    (hd : decimalValue d = some value) (hvalue : value ≤ 255)
    (hlen : d.length ≤ h.integerTokenMaxLength) :
    scanForPlus (p ++ "+CMGS: ".toList ++ d) + 1 = p.length
      ∧ scanForPlus (p ++ "+CMGS: ".toList ++ d) + 8 = (p ++ "+CMGS: ".toList).length
      ∧ ∃ calls, AdrasteaI_ATSMS_SendMessage h x g address addressType message
          (some messageReference) = some ⟨true, some value, calls⟩ := by
  have hscan : scanForPlus (p ++ "+CMGS: ".toList ++ d) + 1 = p.length := by
    have := scanForPlus_before_plus p ("CMGS: ".toList ++ d) hp hplus hnul
    simpa using this
  have hcur : scanForPlus (p ++ "+CMGS: ".toList ++ d) + 8
      = (p ++ "+CMGS: ".toList).length := by
    simp only [List.length_append]
    have : "+CMGS: ".toList.length = 7 := by decide
    omega
  have hdec := getNextArgumentInt_last_eq h (p ++ "+CMGS: ".toList ++ d)
    (p ++ "+CMGS: ".toList) d (0 + scanForPlus (p ++ "+CMGS: ".toList ++ d) + 8) value 8 rfl
    (by rw [Nat.zero_add]; exact hcur) hd
  rw [if_pos ⟨hlen, by norm_num; omega⟩] at hdec
  refine ⟨hscan, hcur, ?_⟩
  simp only [AdrasteaI_ATSMS_SendMessage, hcomposed, sendAndWait_eq, hsent, if_true,
    hconfirmed, decide_True, not_true_eq_false, if_false, hdec]
  exact ⟨_, rfl⟩

theorem SendMessage_decodes_reference_witness :
    ∃ calls, AdrasteaI_ATSMS_SendMessage sampleHeader
        ⟨true, fun _ => some (.AdrasteaI_CNFStatus_Success, "\r\n+CMGS: 42".toList)⟩ ⟨[], 0⟩
        "+4912345".toList 145 "hello".toList (some 0) = some ⟨true, some 42, calls⟩ :=
  (SendMessage_decodes_reference sampleHeader
    ⟨true, fun _ => some (.AdrasteaI_CNFStatus_Success, "\r\n+CMGS: 42".toList)⟩ ⟨[], 0⟩
    ⟨"AT+CMGS=\"+4912345\",145\rhello\x1a".toList, 0⟩
    "+4912345".toList 145 "hello".toList 0 "\r\n".toList "42".toList 42 (by decide) rfl rfl
    (by decide) (by decide) (by decide) (by decide) (by decide) (by decide)).2.2

/-! ## AT%CERTCFG="ADD" without a pre-shared key -/

/-- C28: for every call of `AdrasteaI_ATProprietary_AddTLSProfile` in which pskID or pskKey
is empty (and whose text fits the command buffer), the composed request is
`AT%CERTCFG="ADD",` and the decimal profileID, then the positions CA, CAPath, deviceCert,
deviceKey up to and including the last present one (a `,` and the quoted value for a
present position, a bare `,` for an omitted earlier one), then CR LF, where CA is present
iff it is non-empty, CAPath iff CA and CAPath are non-empty, deviceCert and deviceKey iff
both are non-empty; with all four absent it is `AT%CERTCFG="ADD",` profileID CR LF. -/
theorem AddTLSProfile_text_without_psk (h : Header) (g : Globals) (profileID : Nat)
    (CA CAPath deviceCert deviceKey pskID pskKey : List Char)
    (hpsk : pskID = [] ∨ pskKey = [])
    (hcap : (Nat.toDigits 10 profileID).length + CA.length + CAPath.length
        + deviceCert.length + deviceKey.length + 33 < h.commandBufferSize) :
    sentRequest h g (.AdrasteaI_ATProprietary_AddTLSProfile profileID CA CAPath deviceCert
        deviceKey pskID pskKey)
      = .ok ("AT%CERTCFG=\"ADD\",".toList ++ Nat.toDigits 10 profileID
          ++ optionalPositionsText
            [ if CA ≠ [] then some (quoted CA) else none,
              if CA ≠ [] ∧ CAPath ≠ [] then some (quoted CAPath) else none,
              if deviceCert ≠ [] ∧ deviceKey ≠ [] then some (quoted deviceCert) else none,
              if deviceCert ≠ [] ∧ deviceKey ≠ [] then some (quoted deviceKey) else none ]
          ++ ATCOMMAND_CRLF)
    ∧ (CA = [] → (deviceCert = [] ∨ deviceKey = []) →
        sentRequest h g (.AdrasteaI_ATProprietary_AddTLSProfile profileID CA CAPath
            deviceCert deviceKey pskID pskKey)
          = .ok ("AT%CERTCFG=\"ADD\",".toList ++ Nat.toDigits 10 profileID
              ++ ATCOMMAND_CRLF)) := by
  have hno : ¬ (pskID ≠ [] ∧ pskKey ≠ []) := by
    rcases hpsk with hp | hp <;> simp [hp]
  have htext := AddTLSProfile_text_eq h g profileID CA CAPath deviceCert deviceKey pskID
    pskKey hcap
  rw [if_neg hno] at htext
  have hsent : sentRequest h g (.AdrasteaI_ATProprietary_AddTLSProfile profileID CA CAPath
      deviceCert deviceKey pskID pskKey)
      = Except.map Globals.AT_commandBuffer
        (AdrasteaI_ATProprietary_AddTLSProfile_request h g profileID CA CAPath deviceCert
          deviceKey pskID pskKey) := rfl
  rw [hsent, htext]
  refine ⟨rfl, fun hca hdev => ?_⟩
  have hd : ¬ (deviceCert ≠ [] ∧ deviceKey ≠ []) := by
    rcases hdev with hp | hp <;> simp [hp]
  simp [certcfgPositions, hca, hd, optionalPositionsText]

theorem AddTLSProfile_text_without_psk_witness :
    sentRequest sampleHeader ⟨[], 0⟩ (.AdrasteaI_ATProprietary_AddTLSProfile 7 []
        "path".toList "dev.crt".toList "dev.key".toList "id".toList [])
      = .ok "AT%CERTCFG=\"ADD\",7,,,\"dev.crt\",\"dev.key\"\r\n".toList :=
  (AddTLSProfile_text_without_psk sampleHeader ⟨[], 0⟩ 7 [] "path".toList "dev.crt".toList
    "dev.key".toList "id".toList [] (Or.inr rfl) (by decide)).1.trans (by decide)

/-! ## Unsolicited SMS notification events -/

/-- C26: `AdrasteaI_ATSMS_SetSMSUnsolicitedNotificationEvents` passes exactly
`AT+CNMI=2,1` CR LF to `AdrasteaI_SendRequest` for the event state Enable and exactly
`AT+CNMI=1,0` CR LF for Disable (two distinct case labels), and nothing else is sent; for
every other event state it returns false and calls neither `AdrasteaI_SendRequest` nor
`AdrasteaI_WaitForConfirm`. -/
theorem SetSMSUnsolicitedNotificationEvents_requests (h : Header) (x : Exchange)
    (g : Globals) (eventState : Nat)
    (hlabels : h.AdrasteaI_ATCommon_Event_State_Enable
      ≠ h.AdrasteaI_ATCommon_Event_State_Disable) :
    (eventState = h.AdrasteaI_ATCommon_Event_State_Enable →
      ∃ rest, (AdrasteaI_ATSMS_SetSMSUnsolicitedNotificationEvents h x g eventState).calls
          = Call.SendRequest "AT+CNMI=2,1\r\n".toList :: rest
        ∧ ∀ data, Call.SendRequest data ∉ rest)
    ∧ (eventState = h.AdrasteaI_ATCommon_Event_State_Disable →
      ∃ rest, (AdrasteaI_ATSMS_SetSMSUnsolicitedNotificationEvents h x g eventState).calls
          = Call.SendRequest "AT+CNMI=1,0\r\n".toList :: rest
        ∧ ∀ data, Call.SendRequest data ∉ rest)
    ∧ (eventState ≠ h.AdrasteaI_ATCommon_Event_State_Enable →
      eventState ≠ h.AdrasteaI_ATCommon_Event_State_Disable →
      (AdrasteaI_ATSMS_SetSMSUnsolicitedNotificationEvents h x g eventState).returned = false
        ∧ (AdrasteaI_ATSMS_SetSMSUnsolicitedNotificationEvents h x g eventState).calls
          = []) := by
  refine ⟨fun he => ?_, fun hd => ?_, fun he hd => ?_⟩
  · simp only [AdrasteaI_ATSMS_SetSMSUnsolicitedNotificationEvents,
      AdrasteaI_ATSMS_SetSMSUnsolicitedNotificationEvents_request, if_pos he, sendAndWait_eq]
    by_cases hx : x.transmitted = true
    · simp only [hx, if_true]
      cases hc : x.confirmation (h.AdrasteaI_GetTimeout .AdrasteaI_Timeout_SMS) with
      | none => exact ⟨_, rfl, by simp⟩
      | some sp => exact ⟨_, rfl, by simp⟩
    · simp only [hx, if_false]
      exact ⟨_, rfl, by simp⟩
  · have hne : eventState ≠ h.AdrasteaI_ATCommon_Event_State_Enable := by
      rw [hd]
      exact hlabels.symm
    simp only [AdrasteaI_ATSMS_SetSMSUnsolicitedNotificationEvents,
      AdrasteaI_ATSMS_SetSMSUnsolicitedNotificationEvents_request, if_neg hne, if_pos hd,
      sendAndWait_eq]
    by_cases hx : x.transmitted = true
    · simp only [hx, if_true]
      cases hc : x.confirmation (h.AdrasteaI_GetTimeout .AdrasteaI_Timeout_SMS) with
      | none => exact ⟨_, rfl, by simp⟩
      | some sp => exact ⟨_, rfl, by simp⟩
    · simp only [hx, if_false]
      exact ⟨_, rfl, by simp⟩
  · simp only [AdrasteaI_ATSMS_SetSMSUnsolicitedNotificationEvents,
      AdrasteaI_ATSMS_SetSMSUnsolicitedNotificationEvents_request, if_neg he, if_neg hd,
      and_self]

theorem SetSMSUnsolicitedNotificationEvents_requests_witness :
    (AdrasteaI_ATSMS_SetSMSUnsolicitedNotificationEvents sampleHeader
        ⟨true, fun _ => some (.AdrasteaI_CNFStatus_Success, [])⟩ ⟨[], 0⟩ 2).returned = false
      ∧ (AdrasteaI_ATSMS_SetSMSUnsolicitedNotificationEvents sampleHeader
        ⟨true, fun _ => some (.AdrasteaI_CNFStatus_Success, [])⟩ ⟨[], 0⟩ 2).calls = [] :=
  (SetSMSUnsolicitedNotificationEvents_requests sampleHeader
    ⟨true, fun _ => some (.AdrasteaI_CNFStatus_Success, [])⟩ ⟨[], 0⟩ 2 (by decide)).2.2
    (by decide) (by decide)

/-! ## The trailing delimiters at the truncation statement -/

theorem appendString_ok_iff (h : Header) (out arg r : List Char) (d : Char) :
    ATCommand_AppendArgumentString h out arg d = .ok r
      ↔ (out ++ arg ++ delimiterText d).length < h.commandBufferSize
        ∧ r = out ++ arg ++ delimiterText d := by
  simp only [ATCommand_AppendArgumentString]
  split
  · constructor
    · intro hr
      exact ⟨by assumption, (Except.ok.inj hr).symm⟩
    · intro hr
      rw [hr.2]
  · constructor
    · intro hr
      cases hr
    · intro hr
      exact absurd hr.1 (by assumption)

theorem appendStringQuotationMarks_ok_iff (h : Header) (out arg r : List Char) (d : Char) :
    ATCommand_AppendArgumentStringQuotationMarks h out arg d = .ok r
      ↔ (out ++ [ATCOMMAND_QUOTE] ++ arg ++ [ATCOMMAND_QUOTE] ++ delimiterText d).length
          < h.commandBufferSize
        ∧ r = out ++ [ATCOMMAND_QUOTE] ++ arg ++ [ATCOMMAND_QUOTE] ++ delimiterText d := by
  simp only [ATCommand_AppendArgumentStringQuotationMarks]
  split
  · constructor
    · intro hr
      exact ⟨by assumption, (Except.ok.inj hr).symm⟩
    · intro hr
      rw [hr.2]
  · constructor
    · intro hr
      cases hr
    · intro hr
      exact absurd hr.1 (by assumption)

theorem appendInt_ok_iff (h : Header) (out r : List Char) (value : Nat) (d : Char) :
    ATCommand_AppendArgumentInt h out value d = .ok r
      ↔ (out ++ Nat.toDigits 10 value ++ delimiterText d).length < h.commandBufferSize
        ∧ r = out ++ Nat.toDigits 10 value ++ delimiterText d :=
  appendString_ok_iff h out _ r d

theorem delimiterText_argument :
    delimiterText ATCOMMAND_ARGUMENT_DELIM = [ATCOMMAND_ARGUMENT_DELIM] := by decide

theorem trailing_delimiters_zero (a : List Char) :
    List.replicate 0 ATCOMMAND_ARGUMENT_DELIM <:+ a := List.nil_suffix

theorem trailing_delimiters_step (a : List Char) (k : Nat)
    (ha : List.replicate k ATCOMMAND_ARGUMENT_DELIM <:+ a) :
    List.replicate (k + 1) ATCOMMAND_ARGUMENT_DELIM <:+ a ++ [ATCOMMAND_ARGUMENT_DELIM] := by
  obtain ⟨s, hs⟩ := ha
  refine ⟨s, ?_⟩
  rw [← hs, List.replicate_succ', List.append_assoc]

theorem SwitchToRATWithoutFullReboot_trailing (h : Header) (g : Globals)
    (rat storage source : Nat) (text : List Char) (count : Nat)
    (hok : AdrasteaI_ATProprietary_SwitchToRATWithoutFullReboot_beforeTruncation h g rat storage source = .ok (text, count)) :
    List.replicate count ATCOMMAND_ARGUMENT_DELIM <:+ text := by
  simp only [AdrasteaI_ATProprietary_SwitchToRATWithoutFullReboot_beforeTruncation, bind, Except.bind,
    pure, Except.pure] at hok
  repeat' split at hok
  all_goals first
    | contradiction
    | (simp only [Except.ok.injEq, Prod.mk.injEq] at hok
       obtain ⟨rfl, rfl⟩ := hok
       simp only [appendString_ok_iff, appendStringQuotationMarks_ok_iff, appendInt_ok_iff,
         delimiterText_argument, delimiterText_terminate, ATCOMMAND_STRING_EMPTY,
         List.append_nil] at *
       casesm* _ ∧ _
       subst_vars
       repeat (first | exact trailing_delimiters_zero _ | apply trailing_delimiters_step))

theorem ResolveDomainName_trailing (h : Header) (g : Globals)
    (sessionid : Nat) (domain : List Char) (format : Nat) (text : List Char) (count : Nat)
    (hok : AdrasteaI_ATProprietary_ResolveDomainName_beforeTruncation h g sessionid domain format = .ok (text, count)) :
    List.replicate count ATCOMMAND_ARGUMENT_DELIM <:+ text := by
  simp only [AdrasteaI_ATProprietary_ResolveDomainName_beforeTruncation, bind, Except.bind,
    pure, Except.pure] at hok
  repeat' split at hok
  all_goals first
    | contradiction
    | (simp only [Except.ok.injEq, Prod.mk.injEq] at hok
       obtain ⟨rfl, rfl⟩ := hok
       simp only [appendString_ok_iff, appendStringQuotationMarks_ok_iff, appendInt_ok_iff,
         delimiterText_argument, delimiterText_terminate, ATCOMMAND_STRING_EMPTY,
         List.append_nil] at *
       casesm* _ ∧ _
       subst_vars
       repeat (first | exact trailing_delimiters_zero _ | apply trailing_delimiters_step))

theorem Ping_trailing (h : Header) (g : Globals)
    (format : Nat) (destaddr : List Char) (packetcount packetsize timeout : Nat) (text : List Char) (count : Nat)
    (hok : AdrasteaI_ATProprietary_Ping_beforeTruncation h g format destaddr packetcount packetsize timeout = .ok (text, count)) :
    List.replicate count ATCOMMAND_ARGUMENT_DELIM <:+ text := by
  simp only [AdrasteaI_ATProprietary_Ping_beforeTruncation, bind, Except.bind,
    pure, Except.pure] at hok
  repeat' split at hok
  all_goals first
    | contradiction
    | (simp only [Except.ok.injEq, Prod.mk.injEq] at hok
       obtain ⟨rfl, rfl⟩ := hok
       simp only [appendString_ok_iff, appendStringQuotationMarks_ok_iff, appendInt_ok_iff,
         delimiterText_argument, delimiterText_terminate, ATCOMMAND_STRING_EMPTY,
         List.append_nil] at *
       casesm* _ ∧ _
       subst_vars
       repeat (first | exact trailing_delimiters_zero _ | apply trailing_delimiters_step))

set_option maxHeartbeats 1000000 in
theorem AddTLSProfile_trailing (h : Header) (g : Globals)
    (profileID : Nat) (CA CAPath deviceCert deviceKey pskID pskKey : List Char) (text : List Char) (count : Nat)
    (hok : AdrasteaI_ATProprietary_AddTLSProfile_beforeTruncation h g profileID CA CAPath deviceCert deviceKey pskID pskKey = .ok (text, count)) :
    List.replicate count ATCOMMAND_ARGUMENT_DELIM <:+ text := by
  simp only [AdrasteaI_ATProprietary_AddTLSProfile_beforeTruncation, bind, Except.bind,
    pure, Except.pure] at hok
  repeat' split at hok
  all_goals first
    | contradiction
    | (simp only [Except.ok.injEq, Prod.mk.injEq] at hok
       obtain ⟨rfl, rfl⟩ := hok
       simp only [appendString_ok_iff, appendStringQuotationMarks_ok_iff, appendInt_ok_iff,
         delimiterText_argument, delimiterText_terminate, ATCOMMAND_STRING_EMPTY,
         List.append_nil] at *
       casesm* _ ∧ _
       subst_vars
       repeat (first | exact trailing_delimiters_zero _ | apply trailing_delimiters_step))

theorem SetPDNParameters_trailing (h : Header) (g : Globals)
    (parameters : AdrasteaI_ATProprietary_PDN_Parameters_t) (text : List Char) (count : Nat)
    (hok : AdrasteaI_ATProprietary_SetPDNParameters_beforeTruncation h g parameters = .ok (text, count)) :
    List.replicate count ATCOMMAND_ARGUMENT_DELIM <:+ text := by
  simp only [AdrasteaI_ATProprietary_SetPDNParameters_beforeTruncation, bind, Except.bind,
    pure, Except.pure] at hok
  repeat' split at hok
  all_goals first
    | contradiction
    | (simp only [Except.ok.injEq, Prod.mk.injEq] at hok
       obtain ⟨rfl, rfl⟩ := hok
       simp only [appendString_ok_iff, appendStringQuotationMarks_ok_iff, appendInt_ok_iff,
         delimiterText_argument, delimiterText_terminate, ATCOMMAND_STRING_EMPTY,
         List.append_nil] at *
       casesm* _ ∧ _
       subst_vars
       repeat (first | exact trailing_delimiters_zero _ | apply trailing_delimiters_step))

theorem SetMessageStorageLocations_trailing (h : Header) (g : Globals)
    (readDeleteStorage writeSendStorage receiveStorage : Nat) (text : List Char) (count : Nat)
    (hok : AdrasteaI_ATSMS_SetMessageStorageLocations_beforeTruncation h g readDeleteStorage writeSendStorage receiveStorage = .ok (text, count)) :
    List.replicate count ATCOMMAND_ARGUMENT_DELIM <:+ text := by
  simp only [AdrasteaI_ATSMS_SetMessageStorageLocations_beforeTruncation, bind, Except.bind,
    pure, Except.pure] at hok
  repeat' split at hok
  all_goals first
    | contradiction
    | (simp only [Except.ok.injEq, Prod.mk.injEq] at hok
       obtain ⟨rfl, rfl⟩ := hok
       simp only [appendString_ok_iff, appendStringQuotationMarks_ok_iff, appendInt_ok_iff,
         delimiterText_argument, delimiterText_terminate, ATCOMMAND_STRING_EMPTY,
         List.append_nil] at *
       casesm* _ ∧ _
       subst_vars
       repeat (first | exact trailing_delimiters_zero _ | apply trailing_delimiters_step))

theorem SetServiceCenterAddress_trailing (h : Header) (g : Globals)
    (serviceCenterAddress : AdrasteaI_ATSMS_Service_Center_Address_t) (text : List Char) (count : Nat)
    (hok : AdrasteaI_ATSMS_SetServiceCenterAddress_beforeTruncation h g serviceCenterAddress = .ok (text, count)) :
    List.replicate count ATCOMMAND_ARGUMENT_DELIM <:+ text := by
  simp only [AdrasteaI_ATSMS_SetServiceCenterAddress_beforeTruncation, bind, Except.bind,
    pure, Except.pure] at hok
  repeat' split at hok
  all_goals first
    | contradiction
    | (simp only [Except.ok.injEq, Prod.mk.injEq] at hok
       obtain ⟨rfl, rfl⟩ := hok
       simp only [appendString_ok_iff, appendStringQuotationMarks_ok_iff, appendInt_ok_iff,
         delimiterText_argument, delimiterText_terminate, ATCOMMAND_STRING_EMPTY,
         List.append_nil] at *
       casesm* _ ∧ _
       subst_vars
       repeat (first | exact trailing_delimiters_zero _ | apply trailing_delimiters_step))

theorem SendMessage_trailing (h : Header) (g : Globals)
    (address : List Char) (addressType : Nat) (text : List Char) (count : Nat)
    (hok : AdrasteaI_ATSMS_SendMessage_beforeTruncation h g address addressType = .ok (text, count)) :
    List.replicate count ATCOMMAND_ARGUMENT_DELIM <:+ text := by
  simp only [AdrasteaI_ATSMS_SendMessage_beforeTruncation, bind, Except.bind,
    pure, Except.pure] at hok
  repeat' split at hok
  all_goals first
    | contradiction
    | (simp only [Except.ok.injEq, Prod.mk.injEq] at hok
       obtain ⟨rfl, rfl⟩ := hok
       simp only [appendString_ok_iff, appendStringQuotationMarks_ok_iff, appendInt_ok_iff,
         delimiterText_argument, delimiterText_terminate, ATCOMMAND_STRING_EMPTY,
         List.append_nil] at *
       casesm* _ ∧ _
       subst_vars
       repeat (first | exact trailing_delimiters_zero _ | apply trailing_delimiters_step))

theorem SendLargeMessage_trailing (h : Header) (g : Globals)
    (address : List Char) (addressType : Nat) (text : List Char) (count : Nat)
    (hok : AdrasteaI_ATSMS_SendLargeMessage_beforeTruncation h g address addressType = .ok (text, count)) :
    List.replicate count ATCOMMAND_ARGUMENT_DELIM <:+ text := by
  simp only [AdrasteaI_ATSMS_SendLargeMessage_beforeTruncation, bind, Except.bind,
    pure, Except.pure] at hok
  repeat' split at hok
  all_goals first
    | contradiction
    | (simp only [Except.ok.injEq, Prod.mk.injEq] at hok
       obtain ⟨rfl, rfl⟩ := hok
       simp only [appendString_ok_iff, appendStringQuotationMarks_ok_iff, appendInt_ok_iff,
         delimiterText_argument, delimiterText_terminate, ATCOMMAND_STRING_EMPTY,
         List.append_nil] at *
       casesm* _ ∧ _
       subst_vars
       repeat (first | exact trailing_delimiters_zero _ | apply trailing_delimiters_step))

theorem WriteMessageToStorage_trailing (h : Header) (g : Globals)
    (address : List Char) (addressType : Nat) (text : List Char) (count : Nat)
    (hok : AdrasteaI_ATSMS_WriteMessageToStorage_beforeTruncation h g address addressType = .ok (text, count)) :
    List.replicate count ATCOMMAND_ARGUMENT_DELIM <:+ text := by
  simp only [AdrasteaI_ATSMS_WriteMessageToStorage_beforeTruncation, bind, Except.bind,
    pure, Except.pure] at hok
  repeat' split at hok
  all_goals first
    | contradiction
    | (simp only [Except.ok.injEq, Prod.mk.injEq] at hok
       obtain ⟨rfl, rfl⟩ := hok
       simp only [appendString_ok_iff, appendStringQuotationMarks_ok_iff, appendInt_ok_iff,
         delimiterText_argument, delimiterText_terminate, ATCOMMAND_STRING_EMPTY,
         List.append_nil] at *
       casesm* _ ∧ _
       subst_vars
       repeat (first | exact trailing_delimiters_zero _ | apply trailing_delimiters_step))


theorem trailing_delimiters (text : List Char) (count : Nat)
    (ht : List.replicate count ATCOMMAND_ARGUMENT_DELIM <:+ text) :
    count ≤ text.length
      ∧ text.drop (text.length - count) = List.replicate count ATCOMMAND_ARGUMENT_DELIM
      ∧ truncateAtCount text count = .ok (text.take (text.length - count)) := by
  obtain ⟨kept, rfl⟩ := ht
  refine ⟨by simp, by simp, ?_⟩
  rw [truncateAtCount, if_pos (by simp)]

theorem SwitchToRATWithoutFullReboot_request_eq (h : Header) (g : Globals)
    (rat storage source : Nat) :
    AdrasteaI_ATProprietary_SwitchToRATWithoutFullReboot_request h g rat storage source
      = (do
          let reached ← AdrasteaI_ATProprietary_SwitchToRATWithoutFullReboot_beforeTruncation h g
            rat storage source
          let kept ← truncateAtCount reached.1 reached.2
          let request ← ATCommand_AppendArgumentString h kept ATCOMMAND_CRLF
            ATCOMMAND_STRING_TERMINATE
          return { AT_commandBuffer := request,
                   AdrasteaI_optionalParamsDelimCount := reached.2 }) := by
  simp only [AdrasteaI_ATProprietary_SwitchToRATWithoutFullReboot_request,
    AdrasteaI_ATProprietary_SwitchToRATWithoutFullReboot_beforeTruncation, bind_assoc, pure_bind]
  split_ifs <;> simp only [bind_assoc, pure_bind]

theorem ResolveDomainName_request_eq (h : Header) (g : Globals)
    (sessionid : Nat) (domain : List Char) (format : Nat) :
    AdrasteaI_ATProprietary_ResolveDomainName_request h g sessionid domain format
      = (do
          let reached ← AdrasteaI_ATProprietary_ResolveDomainName_beforeTruncation h g
            sessionid domain format
          let kept ← truncateAtCount reached.1 reached.2
          let request ← ATCommand_AppendArgumentString h kept ATCOMMAND_CRLF
            ATCOMMAND_STRING_TERMINATE
          return { AT_commandBuffer := request,
                   AdrasteaI_optionalParamsDelimCount := reached.2 }) := by
  simp only [AdrasteaI_ATProprietary_ResolveDomainName_request,
    AdrasteaI_ATProprietary_ResolveDomainName_beforeTruncation, bind_assoc, pure_bind]
  split_ifs <;> simp only [bind_assoc, pure_bind]

theorem Ping_request_eq (h : Header) (g : Globals)
    (format : Nat) (destaddr : List Char) (packetcount packetsize timeout : Nat) :
    AdrasteaI_ATProprietary_Ping_request h g format destaddr packetcount packetsize timeout
      = (do
          let reached ← AdrasteaI_ATProprietary_Ping_beforeTruncation h g
            format destaddr packetcount packetsize timeout
          let kept ← truncateAtCount reached.1 reached.2
          let request ← ATCommand_AppendArgumentString h kept ATCOMMAND_CRLF
            ATCOMMAND_STRING_TERMINATE
          return { AT_commandBuffer := request,
                   AdrasteaI_optionalParamsDelimCount := reached.2 }) := by
  simp only [AdrasteaI_ATProprietary_Ping_request,
    AdrasteaI_ATProprietary_Ping_beforeTruncation, bind_assoc, pure_bind]
  split_ifs <;> simp only [bind_assoc, pure_bind]

theorem AddTLSProfile_request_eq (h : Header) (g : Globals)
    (profileID : Nat) (CA CAPath deviceCert deviceKey pskID pskKey : List Char) :
    AdrasteaI_ATProprietary_AddTLSProfile_request h g profileID CA CAPath deviceCert deviceKey pskID pskKey
      = (do
          let reached ← AdrasteaI_ATProprietary_AddTLSProfile_beforeTruncation h g
            profileID CA CAPath deviceCert deviceKey pskID pskKey
          let kept ← truncateAtCount reached.1 reached.2
          let request ← ATCommand_AppendArgumentString h kept ATCOMMAND_CRLF
            ATCOMMAND_STRING_TERMINATE
          return { AT_commandBuffer := request,
                   AdrasteaI_optionalParamsDelimCount := reached.2 }) := by
  simp only [AdrasteaI_ATProprietary_AddTLSProfile_request,
    AdrasteaI_ATProprietary_AddTLSProfile_beforeTruncation, bind_assoc, pure_bind]
  split_ifs <;> simp only [bind_assoc, pure_bind]

theorem SetPDNParameters_request_eq (h : Header) (g : Globals)
    (parameters : AdrasteaI_ATProprietary_PDN_Parameters_t) :
    AdrasteaI_ATProprietary_SetPDNParameters_request h g parameters
      = (do
          let reached ← AdrasteaI_ATProprietary_SetPDNParameters_beforeTruncation h g
            parameters
          let kept ← truncateAtCount reached.1 reached.2
          let request ← ATCommand_AppendArgumentString h kept ATCOMMAND_CRLF
            ATCOMMAND_STRING_TERMINATE
          return { AT_commandBuffer := request,
                   AdrasteaI_optionalParamsDelimCount := reached.2 }) := by
  simp only [AdrasteaI_ATProprietary_SetPDNParameters_request,
    AdrasteaI_ATProprietary_SetPDNParameters_beforeTruncation, bind_assoc, pure_bind]
  split_ifs <;> simp only [bind_assoc, pure_bind]

theorem SetMessageStorageLocations_request_eq (h : Header) (g : Globals)
    (readDeleteStorage writeSendStorage receiveStorage : Nat) :
    AdrasteaI_ATSMS_SetMessageStorageLocations_request h g readDeleteStorage writeSendStorage receiveStorage
      = (do
          let reached ← AdrasteaI_ATSMS_SetMessageStorageLocations_beforeTruncation h g
            readDeleteStorage writeSendStorage receiveStorage
          let kept ← truncateAtCount reached.1 reached.2
          let request ← ATCommand_AppendArgumentString h kept ATCOMMAND_CRLF
            ATCOMMAND_STRING_TERMINATE
          return { AT_commandBuffer := request,
                   AdrasteaI_optionalParamsDelimCount := reached.2 }) := by
  simp only [AdrasteaI_ATSMS_SetMessageStorageLocations_request,
    AdrasteaI_ATSMS_SetMessageStorageLocations_beforeTruncation, bind_assoc, pure_bind]
  split_ifs <;> simp only [bind_assoc, pure_bind]

theorem SetServiceCenterAddress_request_eq (h : Header) (g : Globals)
    (serviceCenterAddress : AdrasteaI_ATSMS_Service_Center_Address_t) :
    AdrasteaI_ATSMS_SetServiceCenterAddress_request h g serviceCenterAddress
      = (do
          let reached ← AdrasteaI_ATSMS_SetServiceCenterAddress_beforeTruncation h g
            serviceCenterAddress
          let kept ← truncateAtCount reached.1 reached.2
          let request ← ATCommand_AppendArgumentString h kept ATCOMMAND_CRLF
            ATCOMMAND_STRING_TERMINATE
          return { AT_commandBuffer := request,
                   AdrasteaI_optionalParamsDelimCount := reached.2 }) := by
  simp only [AdrasteaI_ATSMS_SetServiceCenterAddress_request,
    AdrasteaI_ATSMS_SetServiceCenterAddress_beforeTruncation, bind_assoc, pure_bind]
  split_ifs <;> simp only [bind_assoc, pure_bind]

theorem SendMessage_request_eq (h : Header) (g : Globals)
    (address : List Char) (addressType : Nat) (message : List Char) :
    AdrasteaI_ATSMS_SendMessage_request h g address addressType message
      = (do
          let reached ← AdrasteaI_ATSMS_SendMessage_beforeTruncation h g
            address addressType
          let kept ← truncateAtCount reached.1 reached.2
          let request ← ATCommand_AppendArgumentString h kept "\r".toList
            ATCOMMAND_STRING_TERMINATE
          let request ← ATCommand_AppendArgumentString h request message
            ATCOMMAND_STRING_TERMINATE
          let request ← ATCommand_AppendArgumentString h request "\x1A".toList
            ATCOMMAND_STRING_TERMINATE
          return { AT_commandBuffer := request,
                   AdrasteaI_optionalParamsDelimCount := reached.2 }) := by
  simp only [AdrasteaI_ATSMS_SendMessage_request,
    AdrasteaI_ATSMS_SendMessage_beforeTruncation, bind_assoc, pure_bind]
  split_ifs <;> simp only [bind_assoc, pure_bind]

theorem SendLargeMessage_request_eq (h : Header) (g : Globals)
    (address : List Char) (addressType : Nat) (message : List Char) :
    AdrasteaI_ATSMS_SendLargeMessage_request h g address addressType message
      = (do
          let reached ← AdrasteaI_ATSMS_SendLargeMessage_beforeTruncation h g
            address addressType
          let kept ← truncateAtCount reached.1 reached.2
          let request ← ATCommand_AppendArgumentString h kept "\r".toList
            ATCOMMAND_STRING_TERMINATE
          let request ← ATCommand_AppendArgumentString h request message
            ATCOMMAND_STRING_TERMINATE
          let request ← ATCommand_AppendArgumentString h request "\x1A".toList
            ATCOMMAND_STRING_TERMINATE
          return { AT_commandBuffer := request,
                   AdrasteaI_optionalParamsDelimCount := reached.2 }) := by
  simp only [AdrasteaI_ATSMS_SendLargeMessage_request,
    AdrasteaI_ATSMS_SendLargeMessage_beforeTruncation, bind_assoc, pure_bind]
  split_ifs <;> simp only [bind_assoc, pure_bind]

theorem WriteMessageToStorage_request_eq (h : Header) (g : Globals)
    (address : List Char) (addressType : Nat) (message : List Char) :
    AdrasteaI_ATSMS_WriteMessageToStorage_request h g address addressType message
      = (do
          let reached ← AdrasteaI_ATSMS_WriteMessageToStorage_beforeTruncation h g
            address addressType
          let kept ← truncateAtCount reached.1 reached.2
          let request ← ATCommand_AppendArgumentString h kept "\r".toList
            ATCOMMAND_STRING_TERMINATE
          let request ← ATCommand_AppendArgumentString h request message
            ATCOMMAND_STRING_TERMINATE
          let request ← ATCommand_AppendArgumentString h request "\x1A".toList
            ATCOMMAND_STRING_TERMINATE
          return { AT_commandBuffer := request,
                   AdrasteaI_optionalParamsDelimCount := reached.2 }) := by
  simp only [AdrasteaI_ATSMS_WriteMessageToStorage_request,
    AdrasteaI_ATSMS_WriteMessageToStorage_beforeTruncation, bind_assoc, pure_bind]
  split_ifs <;> simp only [bind_assoc, pure_bind]

/-- C27: in each of the ten composers that trim optional parameters, whenever the
truncation statement is reached, the value of `AdrasteaI_optionalParamsDelimCount` is at
most the length of the composed text (the index `strlen - count` does not underflow), the
`count` characters cut from the tail are all the argument delimiter `,`, and the
truncation keeps everything in front of them: no character of the command name or of a
supplied value is removed. -/
theorem truncation_removes_only_delimiters (h : Header) (g : Globals) :
    (∀ (rat storage source : Nat) (text : List Char) (count : Nat),
        AdrasteaI_ATProprietary_SwitchToRATWithoutFullReboot_beforeTruncation h g rat storage source
          = .ok (text, count) →
        count ≤ text.length
          ∧ text.drop (text.length - count) = List.replicate count ATCOMMAND_ARGUMENT_DELIM
          ∧ truncateAtCount text count = .ok (text.take (text.length - count)))
    ∧ (∀ (sessionid : Nat) (domain : List Char) (format : Nat) (text : List Char) (count : Nat),
        AdrasteaI_ATProprietary_ResolveDomainName_beforeTruncation h g sessionid domain format
          = .ok (text, count) →
        count ≤ text.length
          ∧ text.drop (text.length - count) = List.replicate count ATCOMMAND_ARGUMENT_DELIM
          ∧ truncateAtCount text count = .ok (text.take (text.length - count)))
    ∧ (∀ (format : Nat) (destaddr : List Char) (packetcount packetsize timeout : Nat) (text : List Char) (count : Nat),
        AdrasteaI_ATProprietary_Ping_beforeTruncation h g format destaddr packetcount packetsize timeout
          = .ok (text, count) →
        count ≤ text.length
          ∧ text.drop (text.length - count) = List.replicate count ATCOMMAND_ARGUMENT_DELIM
          ∧ truncateAtCount text count = .ok (text.take (text.length - count)))
    ∧ (∀ (profileID : Nat) (CA CAPath deviceCert deviceKey pskID pskKey : List Char) (text : List Char) (count : Nat),
        AdrasteaI_ATProprietary_AddTLSProfile_beforeTruncation h g profileID CA CAPath deviceCert deviceKey pskID pskKey
          = .ok (text, count) →
        count ≤ text.length
          ∧ text.drop (text.length - count) = List.replicate count ATCOMMAND_ARGUMENT_DELIM
          ∧ truncateAtCount text count = .ok (text.take (text.length - count)))
    ∧ (∀ (parameters : AdrasteaI_ATProprietary_PDN_Parameters_t) (text : List Char) (count : Nat),
        AdrasteaI_ATProprietary_SetPDNParameters_beforeTruncation h g parameters
          = .ok (text, count) →
        count ≤ text.length
          ∧ text.drop (text.length - count) = List.replicate count ATCOMMAND_ARGUMENT_DELIM
          ∧ truncateAtCount text count = .ok (text.take (text.length - count)))
    ∧ (∀ (readDeleteStorage writeSendStorage receiveStorage : Nat) (text : List Char) (count : Nat),
        AdrasteaI_ATSMS_SetMessageStorageLocations_beforeTruncation h g readDeleteStorage writeSendStorage receiveStorage
          = .ok (text, count) →
        count ≤ text.length
          ∧ text.drop (text.length - count) = List.replicate count ATCOMMAND_ARGUMENT_DELIM
          ∧ truncateAtCount text count = .ok (text.take (text.length - count)))
    ∧ (∀ (serviceCenterAddress : AdrasteaI_ATSMS_Service_Center_Address_t) (text : List Char) (count : Nat),
        AdrasteaI_ATSMS_SetServiceCenterAddress_beforeTruncation h g serviceCenterAddress
          = .ok (text, count) →
        count ≤ text.length
          ∧ text.drop (text.length - count) = List.replicate count ATCOMMAND_ARGUMENT_DELIM
          ∧ truncateAtCount text count = .ok (text.take (text.length - count)))
    ∧ (∀ (address : List Char) (addressType : Nat) (text : List Char) (count : Nat),
        AdrasteaI_ATSMS_SendMessage_beforeTruncation h g address addressType
          = .ok (text, count) →
        count ≤ text.length
          ∧ text.drop (text.length - count) = List.replicate count ATCOMMAND_ARGUMENT_DELIM
          ∧ truncateAtCount text count = .ok (text.take (text.length - count)))
    ∧ (∀ (address : List Char) (addressType : Nat) (text : List Char) (count : Nat),
        AdrasteaI_ATSMS_SendLargeMessage_beforeTruncation h g address addressType
          = .ok (text, count) →
        count ≤ text.length
          ∧ text.drop (text.length - count) = List.replicate count ATCOMMAND_ARGUMENT_DELIM
          ∧ truncateAtCount text count = .ok (text.take (text.length - count)))
    ∧ (∀ (address : List Char) (addressType : Nat) (text : List Char) (count : Nat),
        AdrasteaI_ATSMS_WriteMessageToStorage_beforeTruncation h g address addressType
          = .ok (text, count) →
        count ≤ text.length
          ∧ text.drop (text.length - count) = List.replicate count ATCOMMAND_ARGUMENT_DELIM
          ∧ truncateAtCount text count = .ok (text.take (text.length - count))) :=
  ⟨fun _ _ _ text count hok =>
      trailing_delimiters text count (SwitchToRATWithoutFullReboot_trailing h g _ _ _ text count hok),
    fun _ _ _ text count hok =>
      trailing_delimiters text count (ResolveDomainName_trailing h g _ _ _ text count hok),
    fun _ _ _ _ _ text count hok =>
      trailing_delimiters text count (Ping_trailing h g _ _ _ _ _ text count hok),
    fun _ _ _ _ _ _ _ text count hok =>
      trailing_delimiters text count (AddTLSProfile_trailing h g _ _ _ _ _ _ _ text count hok),
    fun _ text count hok =>
      trailing_delimiters text count (SetPDNParameters_trailing h g _ text count hok),
    fun _ _ _ text count hok =>
      trailing_delimiters text count (SetMessageStorageLocations_trailing h g _ _ _ text count hok),
    fun _ text count hok =>
      trailing_delimiters text count (SetServiceCenterAddress_trailing h g _ text count hok),
    fun _ _ text count hok =>
      trailing_delimiters text count (SendMessage_trailing h g _ _ text count hok),
    fun _ _ text count hok =>
      trailing_delimiters text count (SendLargeMessage_trailing h g _ _ text count hok),
    fun _ _ text count hok =>
      trailing_delimiters text count (WriteMessageToStorage_trailing h g _ _ text count hok)⟩

theorem truncation_removes_only_delimiters_witness :
    AdrasteaI_ATProprietary_Ping_beforeTruncation sampleHeader ⟨[], 0⟩ 1 "8.8.8.8".toList
        sampleHeader.AdrasteaI_ATProprietary_Ping_Packet_Count_Invalid
        sampleHeader.AdrasteaI_ATProprietary_Ping_Packet_Size_Invalid
        sampleHeader.AdrasteaI_ATProprietary_Ping_Timeout_Invalid
      = .ok ("AT%PINGCMD=1,\"8.8.8.8\",,,".toList, 3)
    ∧ 3 ≤ "AT%PINGCMD=1,\"8.8.8.8\",,,".toList.length
    ∧ "AT%PINGCMD=1,\"8.8.8.8\",,,".toList.drop
          ("AT%PINGCMD=1,\"8.8.8.8\",,,".toList.length - 3)
        = List.replicate 3 ATCOMMAND_ARGUMENT_DELIM
    ∧ truncateAtCount "AT%PINGCMD=1,\"8.8.8.8\",,,".toList 3
        = .ok ("AT%PINGCMD=1,\"8.8.8.8\",,,".toList.take
            ("AT%PINGCMD=1,\"8.8.8.8\",,,".toList.length - 3)) :=
  ⟨by decide,
    (truncation_removes_only_delimiters sampleHeader ⟨[], 0⟩).2.2.1 1 "8.8.8.8".toList
      sampleHeader.AdrasteaI_ATProprietary_Ping_Packet_Count_Invalid
      sampleHeader.AdrasteaI_ATProprietary_Ping_Packet_Size_Invalid
      sampleHeader.AdrasteaI_ATProprietary_Ping_Timeout_Invalid
      "AT%PINGCMD=1,\"8.8.8.8\",,,".toList 3 (by decide)⟩

/-! ## Cursors inside a non-empty event string -/

theorem cursorAfter_le (text : List Char) (cursor : Nat) (d : Char)
    (hc : cursor ≤ text.length) : cursorAfter text cursor d ≤ text.length := by
  have hlen : (tokenAt text cursor d).length ≤ text.length - cursor := by
    have := (List.takeWhile_prefix (fun c => decide (c ≠ d))
      (l := text.drop cursor)).length_le
    simpa [tokenAt] using this
  simp only [cursorAfter]
  split <;> omega

theorem getNextArgumentInt_some_iff (h : Header) (text : List Char) (c bits : Nat) (d : Char)
    (v c2 : Nat) :
    ATCommand_GetNextArgumentInt h text c bits d = some (v, c2)
      ↔ (tokenAt text c d).length ≤ h.integerTokenMaxLength
        ∧ decimalValue (tokenAt text c d) = some v ∧ v < 2 ^ bits
        ∧ c2 = cursorAfter text c d := by
  simp only [ATCommand_GetNextArgumentInt]
  constructor
  · intro hr
    repeat' split at hr
    all_goals simp_all
  · rintro ⟨h1, h2, h3, rfl⟩
    simp [h1, h2, h3]

theorem getNextArgumentString_some_iff (text : List Char) (c : Nat) (d : Char) (m : Nat)
    (tok : List Char) (c2 : Nat) :
    ATCommand_GetNextArgumentString text c d m = some (tok, c2)
      ↔ (tokenAt text c d).length < m ∧ tok = tokenAt text c d
        ∧ c2 = cursorAfter text c d := by
  simp only [ATCommand_GetNextArgumentString]
  constructor
  · intro hr
    split at hr
    · simp_all
    · simp at hr
  · rintro ⟨h1, rfl, rfl⟩
    simp [h1]

theorem getNextArgumentStringWithoutQuotationMarks_some_iff (text : List Char) (c : Nat)
    (d : Char) (m : Nat) (tok : List Char) (c2 : Nat) :
    ATCommand_GetNextArgumentStringWithoutQuotationMarks text c d m = some (tok, c2)
      ↔ (tokenAt text c d).length < m ∧ tok = stripQuotationMarks (tokenAt text c d)
        ∧ c2 = cursorAfter text c d := by
  simp only [ATCommand_GetNextArgumentStringWithoutQuotationMarks,
    ATCommand_GetNextArgumentString]
  constructor
  · intro hr
    repeat' split at hr
    all_goals simp_all
  · rintro ⟨h1, rfl, rfl⟩
    simp [h1]

theorem getNextArgumentEnumWithoutQuotationMarks_some_iff (text : List Char) (c : Nat)
    (table : List (List Char)) (m : Nat) (d : Char) (v c2 : Nat) :
    ATCommand_GetNextArgumentEnumWithoutQuotationMarks text c table m d = some (v, c2)
      ↔ (tokenAt text c d).length < m
        ∧ ATCommand_FindString table (stripQuotationMarks (tokenAt text c d)) = some v
        ∧ c2 = cursorAfter text c d := by
  by_cases hlen : (tokenAt text c d).length < m
  · have e := (getNextArgumentStringWithoutQuotationMarks_some_iff text c d m
      (stripQuotationMarks (tokenAt text c d)) (cursorAfter text c d)).mpr ⟨hlen, rfl, rfl⟩
    simp only [ATCommand_GetNextArgumentEnumWithoutQuotationMarks, e]
    cases ATCommand_FindString table (stripQuotationMarks (tokenAt text c d)) with
    | none => simp
    | some index =>
      simp only [Option.some.injEq, Prod.mk.injEq, hlen, true_and]
      exact ⟨fun hr => ⟨hr.1, hr.2.symm⟩, fun hr => ⟨hr.1, hr.2.symm⟩⟩
  · have e : ATCommand_GetNextArgumentStringWithoutQuotationMarks text c d m = none := by
      cases e2 : ATCommand_GetNextArgumentStringWithoutQuotationMarks text c d m with
      | none => rfl
      | some r =>
        exact absurd ((getNextArgumentStringWithoutQuotationMarks_some_iff text c d m
          r.1 r.2).mp e2).1 hlen
    simp only [ATCommand_GetNextArgumentEnumWithoutQuotationMarks, e]
    simp [hlen]

theorem SMS_event_parsers_cursors_in_bounds (h : Header) (text behind : List Char)
    (hne : text ≠ []) :
    (∀ c ∈ AdrasteaI_ATSMS_ParseReadMessageEvent_cursors h text behind, c ≤ text.length)
    ∧ (∀ c ∈ AdrasteaI_ATSMS_ParseListMessagesEvent_cursors h text behind, c ≤ text.length)
    ∧ (∀ c ∈ AdrasteaI_ATSMS_ParseMessageReceivedEvent_cursors h text behind, c ≤ text.length)
    ∧ (∀ c ∈ AdrasteaI_ATSMS_ParseSMSErrorEvent_cursors h text behind, c ≤ text.length) := by
  have h1 : 1 ≤ text.length := by
    cases text with
    | nil => exact absurd rfl hne
    | cons a t => simp
  refine ⟨?_, ?_, ?_, ?_⟩
  · intro c hc
    simp only [AdrasteaI_ATSMS_ParseReadMessageEvent_cursors,
      readableAfterSkip_of_ne_nil text behind hne] at hc
    repeat' split at hc
    all_goals
      simp only [getNextArgumentInt_some_iff, getNextArgumentString_some_iff,
        getNextArgumentStringWithoutQuotationMarks_some_iff,
        getNextArgumentEnumWithoutQuotationMarks_some_iff, List.mem_append, List.mem_cons,
        List.mem_singleton, List.not_mem_nil, or_false] at *
      try casesm* _ ∧ _
      try casesm* _ ∨ _
      all_goals subst_vars
      all_goals repeat (first | exact h1 | apply cursorAfter_le)
  · intro c hc
    simp only [AdrasteaI_ATSMS_ParseListMessagesEvent_cursors,
      readableAfterSkip_of_ne_nil text behind hne] at hc
    repeat' split at hc
    all_goals
      simp only [getNextArgumentInt_some_iff, getNextArgumentString_some_iff,
        getNextArgumentStringWithoutQuotationMarks_some_iff,
        getNextArgumentEnumWithoutQuotationMarks_some_iff, List.mem_append, List.mem_cons,
        List.mem_singleton, List.not_mem_nil, or_false] at *
      try casesm* _ ∧ _
      try casesm* _ ∨ _
      all_goals subst_vars
      all_goals repeat (first | exact h1 | apply cursorAfter_le)
  · intro c hc
    simp only [AdrasteaI_ATSMS_ParseMessageReceivedEvent_cursors,
      readableAfterSkip_of_ne_nil text behind hne] at hc
    repeat' split at hc
    all_goals
      simp only [getNextArgumentInt_some_iff, getNextArgumentString_some_iff,
        getNextArgumentStringWithoutQuotationMarks_some_iff,
        getNextArgumentEnumWithoutQuotationMarks_some_iff, List.mem_append, List.mem_cons,
        List.mem_singleton, List.not_mem_nil, or_false] at *
      try casesm* _ ∧ _
      try casesm* _ ∨ _
      all_goals subst_vars
      all_goals repeat (first | exact h1 | apply cursorAfter_le)
  · intro c hc
    simp only [AdrasteaI_ATSMS_ParseSMSErrorEvent_cursors,
      readableAfterSkip_of_ne_nil text behind hne] at hc
    repeat' split at hc
    all_goals
      simp only [getNextArgumentInt_some_iff, getNextArgumentString_some_iff,
        getNextArgumentStringWithoutQuotationMarks_some_iff,
        getNextArgumentEnumWithoutQuotationMarks_some_iff, List.mem_append, List.mem_cons,
        List.mem_singleton, List.not_mem_nil, or_false] at *
      try casesm* _ ∧ _
      try casesm* _ ∨ _
      all_goals subst_vars
      all_goals repeat (first | exact h1 | apply cursorAfter_le)

/-! ## Cursors beyond the terminator -/

/-- C29: on the empty event argument string the unconditional one-character skip at the
start of each of the four SMS event parsers puts the cursor at 1, beyond the terminator
at position 0; the first decode starts there. With a NUL behind the terminator the cursor
list is exactly `[1]`; whatever lies behind the terminator, the first cursor is 1. -/
theorem SMS_event_parsers_skip_past_empty_string :
    AdrasteaI_ATSMS_ParseReadMessageEvent_cursors sampleHeader "".toList "".toList = [1]
    ∧ AdrasteaI_ATSMS_ParseListMessagesEvent_cursors sampleHeader "".toList "".toList = [1]
    ∧ AdrasteaI_ATSMS_ParseMessageReceivedEvent_cursors sampleHeader "".toList "".toList = [1]
    ∧ AdrasteaI_ATSMS_ParseSMSErrorEvent_cursors sampleHeader "".toList "".toList = [1]
    ∧ "".toList.length < 1
    ∧ (∀ behind : List Char,
        (AdrasteaI_ATSMS_ParseReadMessageEvent_cursors sampleHeader "".toList behind).head?
            = some 1
          ∧ (AdrasteaI_ATSMS_ParseListMessagesEvent_cursors sampleHeader "".toList behind).head?
            = some 1
          ∧ (AdrasteaI_ATSMS_ParseMessageReceivedEvent_cursors sampleHeader "".toList
              behind).head? = some 1
          ∧ (AdrasteaI_ATSMS_ParseSMSErrorEvent_cursors sampleHeader "".toList behind).head?
            = some 1)
    ∧ AdrasteaI_ATSMS_ParseSMSErrorEvent_cursors sampleHeader "".toList "500".toList = [1, 4] := by
  refine ⟨by decide, by decide, by decide, by decide, by decide, ?_, by decide⟩
  intro behind
  refine ⟨?_, ?_, ?_, ?_⟩
  · simp only [AdrasteaI_ATSMS_ParseReadMessageEvent_cursors]
    repeat' split
    all_goals rfl
  · simp only [AdrasteaI_ATSMS_ParseListMessagesEvent_cursors]
    repeat' split
    all_goals rfl
  · simp only [AdrasteaI_ATSMS_ParseMessageReceivedEvent_cursors]
    repeat' split
    all_goals rfl
  · simp only [AdrasteaI_ATSMS_ParseSMSErrorEvent_cursors]
    repeat' split
    all_goals rfl

/-- C30: after the scan loop of the three sending functions and the advance by 8 the
cursor is beyond the terminator of the captured response when the response is empty, when
it holds no `+`, and when its only `+` is its first character. -/
theorem scanForPlus_advance_past_short_responses :
    "".toList.length < scanForPlus "".toList + 8
    ∧ "\r\nOK".toList.length < scanForPlus "\r\nOK".toList + 8
    ∧ "+CMGS: 5".toList.length < scanForPlus "+CMGS: 5".toList + 8 := by
  decide

/-! ## The recount of `AdrasteaI_ATProprietary_ListTLSProfiles` -/

theorem countArgs_after_skip_pos (text : List Char) (hlen : 2 ≤ text.length) :
    ATCommand_CountArgs text 0 ≠ 0 ∧ 1 ≤ ATCommand_CountArgs text (0 + 1) := by
  match text, hlen with
  | c :: d :: rest, _ => simp [ATCommand_CountArgs]

/-- C31: on a captured response of one character `AdrasteaI_ATProprietary_ListTLSProfiles`
enters its decoding branch (the argument count of the response is not 0) and the count
recomputed after the skip of that character is 0, so that `count - 1` is not an index of
the array of `count` elements; with the response `1` the function leaves count = 0 and an
allocated array without entries. -/
theorem ListTLSProfiles_recount_zero_on_one_character :
    (∀ c : Char, ATCommand_CountArgs [c] 0 ≠ 0 ∧ ATCommand_CountArgs [c] (0 + 1) = 0)
    ∧ (AdrasteaI_ATProprietary_ListTLSProfiles sampleHeader
          ⟨true, fun _ => some (.AdrasteaI_CNFStatus_Success, "1".toList)⟩ ⟨[], 0⟩
          (some ⟨none, 7⟩) true).map (fun r => (r.returned, r.output))
        = some (false, some ⟨some [], 0⟩) := by
  refine ⟨fun c => ?_, by decide⟩
  simp [ATCommand_CountArgs]

/-! ## The three sending functions -/

theorem tokenAt_cons_succ (c : Char) (rest : List Char) (k : Nat) (d : Char) :
    tokenAt (c :: rest) (k + 1) d = tokenAt rest k d := by
  simp [tokenAt]

theorem cursorAfter_cons_succ (c : Char) (rest : List Char) (k : Nat) (d : Char) :
    cursorAfter (c :: rest) (k + 1) d = cursorAfter rest k d + 1 := by
  simp only [cursorAfter, tokenAt_cons_succ, List.length_cons]
  split_ifs <;> omega

theorem getNextArgumentInt_cons_succ (h : Header) (c : Char) (rest : List Char)
    (k bits : Nat) (d : Char) :
    ATCommand_GetNextArgumentInt h (c :: rest) (k + 1) bits d
      = (ATCommand_GetNextArgumentInt h rest k bits d).map fun a => (a.1, a.2 + 1) := by
  simp only [ATCommand_GetNextArgumentInt, tokenAt_cons_succ, cursorAfter_cons_succ]
  repeat' split
  all_goals rfl

theorem getNextArgumentString_cons_succ (c : Char) (rest : List Char) (k : Nat) (d : Char)
    (m : Nat) :
    ATCommand_GetNextArgumentString (c :: rest) (k + 1) d m
      = (ATCommand_GetNextArgumentString rest k d m).map fun a => (a.1, a.2 + 1) := by
  simp only [ATCommand_GetNextArgumentString, tokenAt_cons_succ, cursorAfter_cons_succ]
  repeat' split
  all_goals rfl

theorem getNextArgumentStringWithoutQuotationMarks_cons_succ (c : Char) (rest : List Char)
    (k : Nat) (d : Char) (m : Nat) :
    ATCommand_GetNextArgumentStringWithoutQuotationMarks (c :: rest) (k + 1) d m
      = (ATCommand_GetNextArgumentStringWithoutQuotationMarks rest k d m).map
          fun a => (a.1, a.2 + 1) := by
  simp only [ATCommand_GetNextArgumentStringWithoutQuotationMarks,
    getNextArgumentString_cons_succ]
  cases ATCommand_GetNextArgumentString rest k d m <;> rfl

theorem getNextArgumentEnum_cons_succ (c : Char) (rest : List Char) (k : Nat)
    (table : List (List Char)) (m : Nat) (d : Char) :
    ATCommand_GetNextArgumentEnum (c :: rest) (k + 1) table m d
      = (ATCommand_GetNextArgumentEnum rest k table m d).map fun a => (a.1, a.2 + 1) := by
  simp only [ATCommand_GetNextArgumentEnum, getNextArgumentString_cons_succ]
  cases ATCommand_GetNextArgumentString rest k d m with
  | none => rfl
  | some r =>
    simp only [Option.map_some']
    cases ATCommand_FindString table r.1 <;> rfl

theorem getNextArgumentEnumWithoutQuotationMarks_cons_succ (c : Char) (rest : List Char)
    (k : Nat) (table : List (List Char)) (m : Nat) (d : Char) :
    ATCommand_GetNextArgumentEnumWithoutQuotationMarks (c :: rest) (k + 1) table m d
      = (ATCommand_GetNextArgumentEnumWithoutQuotationMarks rest k table m d).map
          fun a => (a.1, a.2 + 1) := by
  simp only [ATCommand_GetNextArgumentEnumWithoutQuotationMarks,
    getNextArgumentStringWithoutQuotationMarks_cons_succ]
  cases ATCommand_GetNextArgumentStringWithoutQuotationMarks rest k d m with
  | none => rfl
  | some r =>
    simp only [Option.map_some']
    cases ATCommand_FindString table r.1 <;> rfl

theorem countArgs_cons_succ (c : Char) (rest : List Char) (k : Nat) :
    ATCommand_CountArgs (c :: rest) (k + 1) = ATCommand_CountArgs rest k := by
  simp [ATCommand_CountArgs]

theorem tokenAt_append (pre suf : List Char) (k : Nat) (d : Char) :
    tokenAt (pre ++ suf) (k + pre.length) d = tokenAt suf k d := by
  induction pre with
  | nil => rfl
  | cons c pre ih =>
    rw [List.cons_append, List.length_cons, ← Nat.add_assoc, tokenAt_cons_succ, ih]

theorem cursorAfter_append (pre suf : List Char) (k : Nat) (d : Char) :
    cursorAfter (pre ++ suf) (k + pre.length) d = cursorAfter suf k d + pre.length := by
  induction pre with
  | nil => rfl
  | cons c pre ih =>
    rw [List.cons_append, List.length_cons, ← Nat.add_assoc, cursorAfter_cons_succ, ih,
      Nat.add_assoc]

theorem getNextArgumentInt_append (h : Header) (pre suf : List Char) (k bits : Nat)
    (d : Char) :
    ATCommand_GetNextArgumentInt h (pre ++ suf) (k + pre.length) bits d
      = (ATCommand_GetNextArgumentInt h suf k bits d).map
          fun a => (a.1, a.2 + pre.length) := by
  simp only [ATCommand_GetNextArgumentInt, tokenAt_append, cursorAfter_append]
  repeat' split
  all_goals rfl

theorem getNextArgumentString_append (pre suf : List Char) (k : Nat) (d : Char) (m : Nat) :
    ATCommand_GetNextArgumentString (pre ++ suf) (k + pre.length) d m
      = (ATCommand_GetNextArgumentString suf k d m).map
          fun a => (a.1, a.2 + pre.length) := by
  simp only [ATCommand_GetNextArgumentString, tokenAt_append, cursorAfter_append]
  repeat' split
  all_goals rfl

theorem getNextArgumentStringWithoutQuotationMarks_append (pre suf : List Char) (k : Nat)
    (d : Char) (m : Nat) :
    ATCommand_GetNextArgumentStringWithoutQuotationMarks (pre ++ suf) (k + pre.length) d m
      = (ATCommand_GetNextArgumentStringWithoutQuotationMarks suf k d m).map
          fun a => (a.1, a.2 + pre.length) := by
  simp only [ATCommand_GetNextArgumentStringWithoutQuotationMarks,
    getNextArgumentString_append]
  cases ATCommand_GetNextArgumentString suf k d m <;> rfl

theorem getNextArgumentEnumWithoutQuotationMarks_append (pre suf : List Char) (k : Nat)
    (table : List (List Char)) (m : Nat) (d : Char) :
    ATCommand_GetNextArgumentEnumWithoutQuotationMarks (pre ++ suf) (k + pre.length) table m d
      = (ATCommand_GetNextArgumentEnumWithoutQuotationMarks suf k table m d).map
          fun a => (a.1, a.2 + pre.length) := by
  simp only [ATCommand_GetNextArgumentEnumWithoutQuotationMarks,
    getNextArgumentStringWithoutQuotationMarks_append]
  cases ATCommand_GetNextArgumentStringWithoutQuotationMarks suf k d m with
  | none => rfl
  | some r =>
    simp only [Option.map_some']
    cases ATCommand_FindString table r.1 <;> rfl

theorem countArgs_append (pre suf : List Char) (k : Nat) :
    ATCommand_CountArgs (pre ++ suf) (k + pre.length) = ATCommand_CountArgs suf k := by
  induction pre with
  | nil => rfl
  | cons c pre ih =>
    rw [List.cons_append, List.length_cons, ← Nat.add_assoc, countArgs_cons_succ, ih]

/-! ## The list event as an index in front of the read event -/

/-- C33: for every character c, every token n without `,` and every string rest,
`AdrasteaI_ATSMS_ParseListMessagesEvent` on c n `,` rest returns true if and only if n
decodes as an unsigned 8-bit integer and `AdrasteaI_ATSMS_ParseReadMessageEvent` on c rest
returns true; and then the two parsers leave the same messageState, address and payload,
with messageIndex the value of n for the list parser and 0 for the read parser. -/
theorem ParseListMessagesEvent_index_then_ParseReadMessageEvent (h : Header) (c : Char)
    (n rest behindL behindR : List Char) (dL dR : AdrasteaI_ATSMS_Message_t)
    (hn : ATCOMMAND_ARGUMENT_DELIM ∉ n) :
    ((AdrasteaI_ATSMS_ParseListMessagesEvent h
          (some (c :: (n ++ ATCOMMAND_ARGUMENT_DELIM :: rest))) behindL (some dL)).returned = true
      ↔ (∃ v, decimalValue n = some v ∧ v < 2 ^ 8 ∧ n.length ≤ h.integerTokenMaxLength)
        ∧ (AdrasteaI_ATSMS_ParseReadMessageEvent h (some (c :: rest)) behindR
            (some dR)).returned = true)
    ∧ ((AdrasteaI_ATSMS_ParseListMessagesEvent h
          (some (c :: (n ++ ATCOMMAND_ARGUMENT_DELIM :: rest))) behindL (some dL)).returned = true →
        ∃ v mL mR, decimalValue n = some v
          ∧ (AdrasteaI_ATSMS_ParseListMessagesEvent h
              (some (c :: (n ++ ATCOMMAND_ARGUMENT_DELIM :: rest))) behindL (some dL)).output = some mL
          ∧ (AdrasteaI_ATSMS_ParseReadMessageEvent h (some (c :: rest)) behindR
              (some dR)).output
              = some mR
          ∧ mL.messageIndex = v ∧ mR.messageIndex = 0
          ∧ mL.messageState = mR.messageState ∧ mL.address = mR.address
          ∧ mL.payload = mR.payload) := by
  have htext : c :: (n ++ ATCOMMAND_ARGUMENT_DELIM :: rest)
      = (c :: (n ++ [ATCOMMAND_ARGUMENT_DELIM])) ++ rest := by simp
  have hlen : (c :: (n ++ [ATCOMMAND_ARGUMENT_DELIM])).length = n.length + 2 := by simp
  have htok := tokenAt_delimited (c :: (n ++ ATCOMMAND_ARGUMENT_DELIM :: rest)) [c] n rest 1
    ATCOMMAND_ARGUMENT_DELIM (by simp) rfl hn
  have hcur : 1 + n.length + 1 = 0 + (n.length + 2) := by omega
  rw [hcur] at htok
  have LE := fun k table m d => getNextArgumentEnumWithoutQuotationMarks_append
    (c :: (n ++ [ATCOMMAND_ARGUMENT_DELIM])) rest k table m d
  have LW := fun k d m => getNextArgumentStringWithoutQuotationMarks_append
    (c :: (n ++ [ATCOMMAND_ARGUMENT_DELIM])) rest k d m
  have LS := fun k d m => getNextArgumentString_append
    (c :: (n ++ [ATCOMMAND_ARGUMENT_DELIM])) rest k d m
  have LC := fun k => countArgs_append (c :: (n ++ [ATCOMMAND_ARGUMENT_DELIM])) rest k
  rw [← htext, hlen] at LE LW LS LC
  have RE := fun table m d => getNextArgumentEnumWithoutQuotationMarks_cons_succ c rest 0
    table m d
  simp only [Nat.zero_add] at RE
  have RW := fun k d m => getNextArgumentStringWithoutQuotationMarks_cons_succ c rest k d m
  have RS := fun k d m => getNextArgumentString_cons_succ c rest k d m
  have RC := fun k => countArgs_cons_succ c rest k
  by_cases hl : n.length ≤ h.integerTokenMaxLength
  swap
  · simp [AdrasteaI_ATSMS_ParseListMessagesEvent, readableAfterSkip_cons,
      ATCommand_GetNextArgumentInt, htok.1, hl]
  cases hv : decimalValue n with
  | none =>
    simp [AdrasteaI_ATSMS_ParseListMessagesEvent, readableAfterSkip_cons,
      ATCommand_GetNextArgumentInt, htok.1, hv]
  | some v =>
    by_cases hlt : v < 256
    swap
    · simp [AdrasteaI_ATSMS_ParseListMessagesEvent, readableAfterSkip_cons,
        ATCommand_GetNextArgumentInt, htok.1, hv, hlt]
    have hlt2 : v < 2 ^ 8 := by norm_num; exact hlt
    have hint : ATCommand_GetNextArgumentInt h (c :: (n ++ ATCOMMAND_ARGUMENT_DELIM :: rest))
        1 8 ATCOMMAND_ARGUMENT_DELIM = some (v, 0 + (n.length + 2)) := by
      simp only [ATCommand_GetNextArgumentInt, htok.1, htok.2, hl, hv, hlt2, if_true]
    cases d1 : ATCommand_GetNextArgumentEnumWithoutQuotationMarks rest 0
        AdrasteaI_ATSMS_Message_State_Strings 30 ATCOMMAND_ARGUMENT_DELIM with
    | none =>
      simp only [AdrasteaI_ATSMS_ParseListMessagesEvent, AdrasteaI_ATSMS_ParseReadMessageEvent,
        readableAfterSkip_cons, hint, LE, RE, d1]
      simp
    | some r1 =>
      obtain ⟨v1, p1⟩ := r1
      cases d2 : ATCommand_GetNextArgumentStringWithoutQuotationMarks rest p1
          ATCOMMAND_ARGUMENT_DELIM h.sizeof_Message_address with
      | none =>
        simp only [AdrasteaI_ATSMS_ParseListMessagesEvent,
          AdrasteaI_ATSMS_ParseReadMessageEvent, readableAfterSkip_cons, hint, LE, LW, LS, LC, RE, RW, RS, RC,
          Option.map_some', Option.map_none', d1, d2]
        simp [hv, hl, hlt]
      | some r2 =>
        obtain ⟨v2, p2⟩ := r2
        by_cases hcount : ATCommand_CountArgs rest p2 = 3
        · cases d3 : ATCommand_GetNextArgumentString rest p2 ATCOMMAND_ARGUMENT_DELIM 40 with
          | none =>
            simp only [AdrasteaI_ATSMS_ParseListMessagesEvent,
              AdrasteaI_ATSMS_ParseReadMessageEvent, readableAfterSkip_cons, hint, LE, LW, LS, LC, RE, RW, RS, RC,
              Option.map_some', Option.map_none', d1, d2, hcount, d3]
            simp [hv, hl, hlt]
          | some r3 =>
            obtain ⟨v3, p3⟩ := r3
            cases d4 : ATCommand_GetNextArgumentStringWithoutQuotationMarks rest p3
                ATCOMMAND_ARGUMENT_DELIM 40 with
            | none =>
              simp only [AdrasteaI_ATSMS_ParseListMessagesEvent,
                AdrasteaI_ATSMS_ParseReadMessageEvent, readableAfterSkip_cons, hint, LE, LW, LS, LC, RE, RW, RS, RC,
                Option.map_some', Option.map_none', d1, d2, hcount, d3, d4]
              simp [hv, hl, hlt]
            | some r4 =>
              obtain ⟨v4, p4⟩ := r4
              cases d5 : ATCommand_GetNextArgumentString rest p4 ATCOMMAND_STRING_TERMINATE
                  h.sizeof_Message_payload with
              | none =>
                simp only [AdrasteaI_ATSMS_ParseListMessagesEvent,
                  AdrasteaI_ATSMS_ParseReadMessageEvent, readableAfterSkip_cons, hint, LE, LW, LS, LC, RE, RW, RS, RC,
                  Option.map_some', Option.map_none', d1, d2, hcount, d3, d4, d5]
                simp [hv, hl, hlt]
              | some r5 =>
                simp only [AdrasteaI_ATSMS_ParseListMessagesEvent,
                  AdrasteaI_ATSMS_ParseReadMessageEvent, readableAfterSkip_cons, hint, LE, LW, LS, LC, RE, RW, RS, RC,
                  Option.map_some', Option.map_none', d1, d2, hcount, d3, d4, d5]
                simp [hv, hl, hlt]
        · cases d5 : ATCommand_GetNextArgumentString rest p2 ATCOMMAND_STRING_TERMINATE
              h.sizeof_Message_payload with
          | none =>
            simp only [AdrasteaI_ATSMS_ParseListMessagesEvent,
              AdrasteaI_ATSMS_ParseReadMessageEvent, readableAfterSkip_cons, hint, LE, LW, LS, LC, RE, RW, RS, RC,
              Option.map_some', Option.map_none', d1, d2, hcount, d5]
            simp [hv, hl, hlt]
          | some r5 =>
            simp only [AdrasteaI_ATSMS_ParseListMessagesEvent,
              AdrasteaI_ATSMS_ParseReadMessageEvent, readableAfterSkip_cons, hint, LE, LW, LS, LC, RE, RW, RS, RC,
              Option.map_some', Option.map_none', d1, d2, hcount, d5]
            simp [hv, hl, hlt]

theorem ParseListMessagesEvent_index_then_ParseReadMessageEvent_witness :
    (AdrasteaI_ATSMS_ParseListMessagesEvent sampleHeader
        (some " 3,\"REC READ\",\"+4912345\",hello".toList) [] (some ⟨7, 0, [], []⟩)).returned
      = true :=
  (ParseListMessagesEvent_index_then_ParseReadMessageEvent sampleHeader ' ' "3".toList
    "\"REC READ\",\"+4912345\",hello".toList [] [] ⟨7, 0, [], []⟩ ⟨7, 0, [], []⟩
    (by decide)).1.mpr ⟨⟨3, by decide, by decide, by decide⟩, by decide⟩

/-! ## The request text and the initial globals -/

theorem sentRequest_ignores_globals (h : Header) (command : Command) (g1 g2 : Globals) :
    sentRequest h g1 command = sentRequest h g2 command := by
  cases command
  all_goals first
    | rfl
    | (simp only [sentRequest, composedRequest,
        AdrasteaI_ATProprietary_SetNetworkAttachmentState_request,
        AdrasteaI_ATProprietary_SetBootDelay_request,
        AdrasteaI_ATProprietary_ReadCredential_request,
        AdrasteaI_ATProprietary_WriteCredential_request,
        AdrasteaI_ATProprietary_DeleteCredential_request,
        AdrasteaI_ATProprietary_DeleteTLSProfile_request,
        AdrasteaI_ATSMS_DeleteMessage_request,
        AdrasteaI_ATSMS_ListMessages_request,
        AdrasteaI_ATSMS_ReadMessage_request,
        AdrasteaI_ATSMS_SendMessageFromStorage_request,
        bind, Except.bind]
       repeat' split
       all_goals rfl)

/-- C34: the request text a command function passes to `AdrasteaI_SendRequest` is a
function of the arguments of the call only: from any two initial contents of
`AT_commandBuffer` and any two initial values of `AdrasteaI_optionalParamsDelimCount` the
same arguments give the same request text (or the same failure in front of the send), and
two defined calls with the same arguments against the same exchange make the same calls
to the engine, with the same request text. -/
theorem request_text_depends_on_arguments_only (h : Header) (g1 g2 : Globals) :
    (∀ command, sentRequest h g1 command = sentRequest h g2 command)
    ∧ (∀ x inv t1 t2, execute h x g1 inv = some t1 → execute h x g2 inv = some t2 →
        t1.calls = t2.calls) := by
  refine ⟨fun command => sentRequest_ignores_globals h command g1 g2, ?_⟩
  intro x inv t1 t2 h1 h2
  obtain ⟨a1, a2, a3⟩ := execute_normalForm h x g1 inv t1 h1
  obtain ⟨b1, _, b3⟩ := execute_normalForm h x g2 inv t2 h2
  rw [sentRequest_ignores_globals h inv.command g2 g1] at b1 b3
  cases hs : sentRequest h g1 inv.command with
  | error e =>
    cases e with
    | returnedFalse => rw [a1 hs, b1 hs]
    | outOfBounds => exact absurd hs a2
  | ok request =>
    obtain ⟨a4, a5⟩ := a3 request hs
    obtain ⟨b4, b5⟩ := b3 request hs
    by_cases hx : x.transmitted = true
    · rw [(a5 hx).1, (b5 hx).1]
    · have hx2 : x.transmitted = false := by simpa using hx
      rw [a4 hx2, b4 hx2]

theorem request_text_depends_on_arguments_only_witness :
    sentRequest sampleHeader ⟨"old text".toList, 5⟩
        (.AdrasteaI_ATProprietary_Ping 1 "8.8.8.8".toList 4 0 0)
      = sentRequest sampleHeader ⟨[], 0⟩
        (.AdrasteaI_ATProprietary_Ping 1 "8.8.8.8".toList 4 0 0)
    ∧ [Call.SendRequest "AT%SETBDELAY=5\r\n".toList]
      = [Call.SendRequest "AT%SETBDELAY=5\r\n".toList] :=
  ⟨(request_text_depends_on_arguments_only sampleHeader ⟨"old text".toList, 5⟩ ⟨[], 0⟩).1 _,
    (request_text_depends_on_arguments_only sampleHeader ⟨"old text".toList, 5⟩ ⟨[], 0⟩).2
      ⟨false, fun _ => none⟩ (.AdrasteaI_ATProprietary_SetBootDelay 5)
      ⟨false, .AdrasteaI_ATProprietary_SetBootDelay 5,
        [Call.SendRequest "AT%SETBDELAY=5\r\n".toList]⟩
      ⟨false, .AdrasteaI_ATProprietary_SetBootDelay 5,
        [Call.SendRequest "AT%SETBDELAY=5\r\n".toList]⟩ (by decide) (by decide)⟩

/-! ## The first character of the captured response -/

theorem ReadNetworkAttachmentState_ignores_first_character (h : Header) (x : Exchange) (g : Globals)
    (c1 c2 : Char) (stateP : Option Nat) :
    AdrasteaI_ATProprietary_ReadNetworkAttachmentState h (x.withLeadingCharacter c1) g stateP
      = AdrasteaI_ATProprietary_ReadNetworkAttachmentState h (x.withLeadingCharacter c2) g stateP := by
  cases stateP with
  | none => rfl
  | some o =>
    by_cases hx : x.transmitted = true
    swap
    · simp [AdrasteaI_ATProprietary_ReadNetworkAttachmentState, sendAndWait_eq,
        AdrasteaI_SendRequest, AdrasteaI_WaitForConfirm, Exchange.withLeadingCharacter, hx]
    cases hc : x.confirmation (h.AdrasteaI_GetTimeout .AdrasteaI_Timeout_Proprietary) with
    | none => simp [AdrasteaI_ATProprietary_ReadNetworkAttachmentState, sendAndWait_eq,
        AdrasteaI_SendRequest, AdrasteaI_WaitForConfirm, Exchange.withLeadingCharacter, hx, hc]
    | some r =>
      obtain ⟨status, rest⟩ := r
      have first := fun c => getNextArgumentInt_cons_succ h c rest 0
      simp only [Nat.zero_add] at first
      by_cases hs : status = .AdrasteaI_CNFStatus_Success
      swap
      · simp [AdrasteaI_ATProprietary_ReadNetworkAttachmentState, sendAndWait_eq,
          AdrasteaI_SendRequest, AdrasteaI_WaitForConfirm, Exchange.withLeadingCharacter, hx, hc,
          hs]
      cases d1 : ATCommand_GetNextArgumentInt h rest 0 8 ATCOMMAND_STRING_TERMINATE with
      | none =>
        simp [AdrasteaI_ATProprietary_ReadNetworkAttachmentState, sendAndWait_eq,
          AdrasteaI_SendRequest, AdrasteaI_WaitForConfirm, Exchange.withLeadingCharacter, hx, hc,
          hs, first, getNextArgumentInt_cons_succ, getNextArgumentString_cons_succ,
          getNextArgumentStringWithoutQuotationMarks_cons_succ, getNextArgumentEnum_cons_succ,
          getNextArgumentEnumWithoutQuotationMarks_cons_succ, d1]
      | some r1 =>
        obtain ⟨v1, p1⟩ := r1
        simp [AdrasteaI_ATProprietary_ReadNetworkAttachmentState, sendAndWait_eq,
          AdrasteaI_SendRequest, AdrasteaI_WaitForConfirm, Exchange.withLeadingCharacter, hx, hc,
          hs, first, getNextArgumentInt_cons_succ, getNextArgumentString_cons_succ,
          getNextArgumentStringWithoutQuotationMarks_cons_succ, getNextArgumentEnum_cons_succ,
          getNextArgumentEnumWithoutQuotationMarks_cons_succ, d1]

theorem ReadRemainingPINPUKAttempts_ignores_first_character (h : Header) (x : Exchange) (g : Globals)
    (c1 c2 : Char) (attemptsP : Option AdrasteaI_ATProprietary_PIN_PUK_Attempts_t) :
    (AdrasteaI_ATProprietary_ReadRemainingPINPUKAttempts h (x.withLeadingCharacter c1) g attemptsP).returned
        = (AdrasteaI_ATProprietary_ReadRemainingPINPUKAttempts h (x.withLeadingCharacter c2) g attemptsP).returned
      ∧ (AdrasteaI_ATProprietary_ReadRemainingPINPUKAttempts h (x.withLeadingCharacter c1) g attemptsP).output
        = (AdrasteaI_ATProprietary_ReadRemainingPINPUKAttempts h (x.withLeadingCharacter c2) g attemptsP).output
      ∧ (AdrasteaI_ATProprietary_ReadRemainingPINPUKAttempts h (x.withLeadingCharacter c1) g attemptsP).calls
        = (AdrasteaI_ATProprietary_ReadRemainingPINPUKAttempts h (x.withLeadingCharacter c2) g attemptsP).calls := by
  cases attemptsP with
  | none => exact ⟨rfl, rfl, rfl⟩
  | some o =>
    by_cases hx : x.transmitted = true
    swap
    · simp [AdrasteaI_ATProprietary_ReadRemainingPINPUKAttempts, sendAndWait_eq,
        AdrasteaI_SendRequest, AdrasteaI_WaitForConfirm, Exchange.withLeadingCharacter, hx]
    cases hc : x.confirmation (h.AdrasteaI_GetTimeout .AdrasteaI_Timeout_Proprietary) with
    | none => simp [AdrasteaI_ATProprietary_ReadRemainingPINPUKAttempts, sendAndWait_eq,
        AdrasteaI_SendRequest, AdrasteaI_WaitForConfirm, Exchange.withLeadingCharacter, hx, hc]
    | some r =>
      obtain ⟨status, rest⟩ := r
      have first := fun c => getNextArgumentInt_cons_succ h c rest 0
      simp only [Nat.zero_add] at first
      by_cases hs : status = .AdrasteaI_CNFStatus_Success
      swap
      · simp [AdrasteaI_ATProprietary_ReadRemainingPINPUKAttempts, sendAndWait_eq,
          AdrasteaI_SendRequest, AdrasteaI_WaitForConfirm, Exchange.withLeadingCharacter, hx, hc,
          hs]
      cases d1 : ATCommand_GetNextArgumentInt h rest 0 8 ATCOMMAND_ARGUMENT_DELIM with
      | none =>
        simp [AdrasteaI_ATProprietary_ReadRemainingPINPUKAttempts, sendAndWait_eq,
          AdrasteaI_SendRequest, AdrasteaI_WaitForConfirm, Exchange.withLeadingCharacter, hx, hc,
          hs, first, getNextArgumentInt_cons_succ, getNextArgumentString_cons_succ,
          getNextArgumentStringWithoutQuotationMarks_cons_succ, getNextArgumentEnum_cons_succ,
          getNextArgumentEnumWithoutQuotationMarks_cons_succ, d1]
      | some r1 =>
        obtain ⟨v1, p1⟩ := r1
        cases d2 : ATCommand_GetNextArgumentInt h rest p1 8 ATCOMMAND_ARGUMENT_DELIM with
        | none =>
          simp [AdrasteaI_ATProprietary_ReadRemainingPINPUKAttempts, sendAndWait_eq,
            AdrasteaI_SendRequest, AdrasteaI_WaitForConfirm, Exchange.withLeadingCharacter, hx,
            hc, hs, first, getNextArgumentInt_cons_succ, getNextArgumentString_cons_succ,
            getNextArgumentStringWithoutQuotationMarks_cons_succ, getNextArgumentEnum_cons_succ,
            getNextArgumentEnumWithoutQuotationMarks_cons_succ, d1, d2]
        | some r2 =>
          obtain ⟨v2, p2⟩ := r2
          cases d3 : ATCommand_GetNextArgumentInt h rest p2 8 ATCOMMAND_ARGUMENT_DELIM with
          | none =>
            simp [AdrasteaI_ATProprietary_ReadRemainingPINPUKAttempts, sendAndWait_eq,
              AdrasteaI_SendRequest, AdrasteaI_WaitForConfirm, Exchange.withLeadingCharacter, hx,
              hc, hs, first, getNextArgumentInt_cons_succ, getNextArgumentString_cons_succ,
              getNextArgumentStringWithoutQuotationMarks_cons_succ,
              getNextArgumentEnum_cons_succ, getNextArgumentEnumWithoutQuotationMarks_cons_succ,
              d1, d2, d3]
          | some r3 =>
            obtain ⟨v3, p3⟩ := r3
            cases d4 : ATCommand_GetNextArgumentInt h rest p3 8 ATCOMMAND_STRING_TERMINATE with
            | none =>
              simp [AdrasteaI_ATProprietary_ReadRemainingPINPUKAttempts, sendAndWait_eq,
                AdrasteaI_SendRequest, AdrasteaI_WaitForConfirm, Exchange.withLeadingCharacter,
                hx, hc, hs, first, getNextArgumentInt_cons_succ, getNextArgumentString_cons_succ,
                getNextArgumentStringWithoutQuotationMarks_cons_succ,
                getNextArgumentEnum_cons_succ,
                getNextArgumentEnumWithoutQuotationMarks_cons_succ, d1, d2, d3, d4]
            | some r4 =>
              obtain ⟨v4, p4⟩ := r4
              simp [AdrasteaI_ATProprietary_ReadRemainingPINPUKAttempts, sendAndWait_eq,
                AdrasteaI_SendRequest, AdrasteaI_WaitForConfirm, Exchange.withLeadingCharacter,
                hx, hc, hs, first, getNextArgumentInt_cons_succ, getNextArgumentString_cons_succ,
                getNextArgumentStringWithoutQuotationMarks_cons_succ,
                getNextArgumentEnum_cons_succ,
                getNextArgumentEnumWithoutQuotationMarks_cons_succ, d1, d2, d3, d4]

theorem ReadRATStatus_ignores_first_character (h : Header) (x : Exchange) (g : Globals)
    (c1 c2 : Char) (ratstatusP : Option AdrasteaI_ATProprietary_RAT_Status_t) :
    AdrasteaI_ATProprietary_ReadRATStatus h (x.withLeadingCharacter c1) g ratstatusP
      = AdrasteaI_ATProprietary_ReadRATStatus h (x.withLeadingCharacter c2) g ratstatusP := by
  cases ratstatusP with
  | none => rfl
  | some o =>
    by_cases hx : x.transmitted = true
    swap
    · simp [AdrasteaI_ATProprietary_ReadRATStatus, sendAndWait_eq, AdrasteaI_SendRequest,
        AdrasteaI_WaitForConfirm, Exchange.withLeadingCharacter, hx]
    cases hc : x.confirmation (h.AdrasteaI_GetTimeout .AdrasteaI_Timeout_Proprietary) with
    | none => simp [AdrasteaI_ATProprietary_ReadRATStatus, sendAndWait_eq, AdrasteaI_SendRequest,
        AdrasteaI_WaitForConfirm, Exchange.withLeadingCharacter, hx, hc]
    | some r =>
      obtain ⟨status, rest⟩ := r
      have first := fun c => getNextArgumentEnumWithoutQuotationMarks_cons_succ c rest 0
      simp only [Nat.zero_add] at first
      by_cases hs : status = .AdrasteaI_CNFStatus_Success
      swap
      · simp [AdrasteaI_ATProprietary_ReadRATStatus, sendAndWait_eq, AdrasteaI_SendRequest,
          AdrasteaI_WaitForConfirm, Exchange.withLeadingCharacter, hx, hc, hs]
      cases d1 : ATCommand_GetNextArgumentEnumWithoutQuotationMarks rest 0
          AdrasteaI_ATProprietary_RAT_Strings 30 ATCOMMAND_ARGUMENT_DELIM with
      | none =>
        simp [AdrasteaI_ATProprietary_ReadRATStatus, sendAndWait_eq, AdrasteaI_SendRequest,
          AdrasteaI_WaitForConfirm, Exchange.withLeadingCharacter, hx, hc, hs, first,
          getNextArgumentInt_cons_succ, getNextArgumentString_cons_succ,
          getNextArgumentStringWithoutQuotationMarks_cons_succ, getNextArgumentEnum_cons_succ,
          getNextArgumentEnumWithoutQuotationMarks_cons_succ, d1]
      | some r1 =>
        obtain ⟨v1, p1⟩ := r1
        cases d2 : ATCommand_GetNextArgumentInt h rest p1 8 ATCOMMAND_ARGUMENT_DELIM with
        | none =>
          simp [AdrasteaI_ATProprietary_ReadRATStatus, sendAndWait_eq, AdrasteaI_SendRequest,
            AdrasteaI_WaitForConfirm, Exchange.withLeadingCharacter, hx, hc, hs, first,
            getNextArgumentInt_cons_succ, getNextArgumentString_cons_succ,
            getNextArgumentStringWithoutQuotationMarks_cons_succ, getNextArgumentEnum_cons_succ,
            getNextArgumentEnumWithoutQuotationMarks_cons_succ, d1, d2]
        | some r2 =>
          obtain ⟨v2, p2⟩ := r2
          cases d3 : ATCommand_GetNextArgumentInt h rest p2 8 ATCOMMAND_STRING_TERMINATE with
          | none =>
            simp [AdrasteaI_ATProprietary_ReadRATStatus, sendAndWait_eq, AdrasteaI_SendRequest,
              AdrasteaI_WaitForConfirm, Exchange.withLeadingCharacter, hx, hc, hs, first,
              getNextArgumentInt_cons_succ, getNextArgumentString_cons_succ,
              getNextArgumentStringWithoutQuotationMarks_cons_succ,
              getNextArgumentEnum_cons_succ, getNextArgumentEnumWithoutQuotationMarks_cons_succ,
              d1, d2, d3]
          | some r3 =>
            obtain ⟨v3, p3⟩ := r3
            simp [AdrasteaI_ATProprietary_ReadRATStatus, sendAndWait_eq, AdrasteaI_SendRequest,
              AdrasteaI_WaitForConfirm, Exchange.withLeadingCharacter, hx, hc, hs, first,
              getNextArgumentInt_cons_succ, getNextArgumentString_cons_succ,
              getNextArgumentStringWithoutQuotationMarks_cons_succ,
              getNextArgumentEnum_cons_succ, getNextArgumentEnumWithoutQuotationMarks_cons_succ,
              d1, d2, d3]

theorem ReadPDNParameters_ignores_first_character (h : Header) (x : Exchange) (g : Globals)
    (c1 c2 : Char) (parametersP : Option AdrasteaI_ATProprietary_PDN_Parameters_t) :
    AdrasteaI_ATProprietary_ReadPDNParameters h (x.withLeadingCharacter c1) g parametersP
      = AdrasteaI_ATProprietary_ReadPDNParameters h (x.withLeadingCharacter c2) g parametersP := by
  cases parametersP with
  | none => rfl
  | some o =>
    by_cases hx : x.transmitted = true
    swap
    · simp [AdrasteaI_ATProprietary_ReadPDNParameters, sendAndWait_eq, AdrasteaI_SendRequest,
        AdrasteaI_WaitForConfirm, Exchange.withLeadingCharacter, hx]
    cases hc : x.confirmation (h.AdrasteaI_GetTimeout .AdrasteaI_Timeout_Proprietary) with
    | none => simp [AdrasteaI_ATProprietary_ReadPDNParameters, sendAndWait_eq,
        AdrasteaI_SendRequest, AdrasteaI_WaitForConfirm, Exchange.withLeadingCharacter, hx, hc]
    | some r =>
      obtain ⟨status, rest⟩ := r
      have first := fun c => getNextArgumentInt_cons_succ h c rest 0
      simp only [Nat.zero_add] at first
      by_cases hs : status = .AdrasteaI_CNFStatus_Success
      swap
      · simp [AdrasteaI_ATProprietary_ReadPDNParameters, sendAndWait_eq, AdrasteaI_SendRequest,
          AdrasteaI_WaitForConfirm, Exchange.withLeadingCharacter, hx, hc, hs]
      cases d1 : ATCommand_GetNextArgumentInt h rest 0 8 ATCOMMAND_ARGUMENT_DELIM with
      | none =>
        simp [AdrasteaI_ATProprietary_ReadPDNParameters, sendAndWait_eq, AdrasteaI_SendRequest,
          AdrasteaI_WaitForConfirm, Exchange.withLeadingCharacter, hx, hc, hs, first,
          getNextArgumentInt_cons_succ, getNextArgumentString_cons_succ,
          getNextArgumentStringWithoutQuotationMarks_cons_succ, getNextArgumentEnum_cons_succ,
          getNextArgumentEnumWithoutQuotationMarks_cons_succ, d1]
      | some r1 =>
        obtain ⟨v1, p1⟩ := r1
        cases d2 : ATCommand_GetNextArgumentString rest p1 ATCOMMAND_ARGUMENT_DELIM h.sizeof_APN_Name with
        | none =>
          simp [AdrasteaI_ATProprietary_ReadPDNParameters, sendAndWait_eq, AdrasteaI_SendRequest,
            AdrasteaI_WaitForConfirm, Exchange.withLeadingCharacter, hx, hc, hs, first,
            getNextArgumentInt_cons_succ, getNextArgumentString_cons_succ,
            getNextArgumentStringWithoutQuotationMarks_cons_succ, getNextArgumentEnum_cons_succ,
            getNextArgumentEnumWithoutQuotationMarks_cons_succ, d1, d2]
        | some r2 =>
          obtain ⟨v2, p2⟩ := r2
          cases d3 : ATCommand_GetNextArgumentEnum rest p2
              AdrasteaI_ATProprietary_IP_Addr_Format_Strings 30 ATCOMMAND_ARGUMENT_DELIM with
          | none =>
            simp [AdrasteaI_ATProprietary_ReadPDNParameters, sendAndWait_eq,
              AdrasteaI_SendRequest, AdrasteaI_WaitForConfirm, Exchange.withLeadingCharacter, hx,
              hc, hs, first, getNextArgumentInt_cons_succ, getNextArgumentString_cons_succ,
              getNextArgumentStringWithoutQuotationMarks_cons_succ,
              getNextArgumentEnum_cons_succ, getNextArgumentEnumWithoutQuotationMarks_cons_succ,
              d1, d2, d3]
          | some r3 =>
            obtain ⟨v3, p3⟩ := r3
            simp [AdrasteaI_ATProprietary_ReadPDNParameters, sendAndWait_eq,
              AdrasteaI_SendRequest, AdrasteaI_WaitForConfirm, Exchange.withLeadingCharacter, hx,
              hc, hs, first, getNextArgumentInt_cons_succ, getNextArgumentString_cons_succ,
              getNextArgumentStringWithoutQuotationMarks_cons_succ,
              getNextArgumentEnum_cons_succ, getNextArgumentEnumWithoutQuotationMarks_cons_succ,
              d1, d2, d3]

theorem ReadMessageStorageUsage_ignores_first_character (h : Header) (x : Exchange) (g : Globals)
    (c1 c2 : Char) (storageUsageP : Option AdrasteaI_ATSMS_Message_Storage_Usage_t) :
    AdrasteaI_ATSMS_ReadMessageStorageUsage h (x.withLeadingCharacter c1) g storageUsageP
      = AdrasteaI_ATSMS_ReadMessageStorageUsage h (x.withLeadingCharacter c2) g storageUsageP := by
  cases storageUsageP with
  | none => rfl
  | some o =>
    by_cases hx : x.transmitted = true
    swap
    · simp [AdrasteaI_ATSMS_ReadMessageStorageUsage, sendAndWait_eq, AdrasteaI_SendRequest,
        AdrasteaI_WaitForConfirm, Exchange.withLeadingCharacter, hx]
    cases hc : x.confirmation (h.AdrasteaI_GetTimeout .AdrasteaI_Timeout_SMS) with
    | none => simp [AdrasteaI_ATSMS_ReadMessageStorageUsage, sendAndWait_eq,
        AdrasteaI_SendRequest, AdrasteaI_WaitForConfirm, Exchange.withLeadingCharacter, hx, hc]
    | some r =>
      obtain ⟨status, rest⟩ := r
      have first := fun c => getNextArgumentEnumWithoutQuotationMarks_cons_succ c rest 0
      simp only [Nat.zero_add] at first
      by_cases hs : status = .AdrasteaI_CNFStatus_Success
      swap
      · simp [AdrasteaI_ATSMS_ReadMessageStorageUsage, sendAndWait_eq, AdrasteaI_SendRequest,
          AdrasteaI_WaitForConfirm, Exchange.withLeadingCharacter, hx, hc, hs]
      cases d1 : ATCommand_GetNextArgumentEnumWithoutQuotationMarks rest 0
          AdrasteaI_ATSMS_Storage_Location_Strings 30 ATCOMMAND_ARGUMENT_DELIM with
      | none =>
        simp [AdrasteaI_ATSMS_ReadMessageStorageUsage, sendAndWait_eq, AdrasteaI_SendRequest,
          AdrasteaI_WaitForConfirm, Exchange.withLeadingCharacter, hx, hc, hs, first,
          getNextArgumentInt_cons_succ, getNextArgumentString_cons_succ,
          getNextArgumentStringWithoutQuotationMarks_cons_succ, getNextArgumentEnum_cons_succ,
          getNextArgumentEnumWithoutQuotationMarks_cons_succ, d1]
      | some r1 =>
        obtain ⟨v1, p1⟩ := r1
        cases d2 : ATCommand_GetNextArgumentInt h rest p1 8 ATCOMMAND_ARGUMENT_DELIM with
        | none =>
          simp [AdrasteaI_ATSMS_ReadMessageStorageUsage, sendAndWait_eq, AdrasteaI_SendRequest,
            AdrasteaI_WaitForConfirm, Exchange.withLeadingCharacter, hx, hc, hs, first,
            getNextArgumentInt_cons_succ, getNextArgumentString_cons_succ,
            getNextArgumentStringWithoutQuotationMarks_cons_succ, getNextArgumentEnum_cons_succ,
            getNextArgumentEnumWithoutQuotationMarks_cons_succ, d1, d2]
        | some r2 =>
          obtain ⟨v2, p2⟩ := r2
          cases d3 : ATCommand_GetNextArgumentInt h rest p2 8 ATCOMMAND_ARGUMENT_DELIM with
          | none =>
            simp [AdrasteaI_ATSMS_ReadMessageStorageUsage, sendAndWait_eq, AdrasteaI_SendRequest,
              AdrasteaI_WaitForConfirm, Exchange.withLeadingCharacter, hx, hc, hs, first,
              getNextArgumentInt_cons_succ, getNextArgumentString_cons_succ,
              getNextArgumentStringWithoutQuotationMarks_cons_succ,
              getNextArgumentEnum_cons_succ, getNextArgumentEnumWithoutQuotationMarks_cons_succ,
              d1, d2, d3]
          | some r3 =>
            obtain ⟨v3, p3⟩ := r3
            cases d4 : ATCommand_GetNextArgumentEnumWithoutQuotationMarks rest p3
                AdrasteaI_ATSMS_Storage_Location_Strings 30 ATCOMMAND_ARGUMENT_DELIM with
            | none =>
              simp [AdrasteaI_ATSMS_ReadMessageStorageUsage, sendAndWait_eq,
                AdrasteaI_SendRequest, AdrasteaI_WaitForConfirm, Exchange.withLeadingCharacter,
                hx, hc, hs, first, getNextArgumentInt_cons_succ, getNextArgumentString_cons_succ,
                getNextArgumentStringWithoutQuotationMarks_cons_succ,
                getNextArgumentEnum_cons_succ,
                getNextArgumentEnumWithoutQuotationMarks_cons_succ, d1, d2, d3, d4]
            | some r4 =>
              obtain ⟨v4, p4⟩ := r4
              cases d5 : ATCommand_GetNextArgumentInt h rest p4 8 ATCOMMAND_ARGUMENT_DELIM with
              | none =>
                simp [AdrasteaI_ATSMS_ReadMessageStorageUsage, sendAndWait_eq,
                  AdrasteaI_SendRequest, AdrasteaI_WaitForConfirm, Exchange.withLeadingCharacter,
                  hx, hc, hs, first, getNextArgumentInt_cons_succ,
                  getNextArgumentString_cons_succ,
                  getNextArgumentStringWithoutQuotationMarks_cons_succ,
                  getNextArgumentEnum_cons_succ,
                  getNextArgumentEnumWithoutQuotationMarks_cons_succ, d1, d2, d3, d4, d5]
              | some r5 =>
                obtain ⟨v5, p5⟩ := r5
                cases d6 : ATCommand_GetNextArgumentInt h rest p5 8 ATCOMMAND_ARGUMENT_DELIM with
                | none =>
                  simp [AdrasteaI_ATSMS_ReadMessageStorageUsage, sendAndWait_eq,
                    AdrasteaI_SendRequest, AdrasteaI_WaitForConfirm,
                    Exchange.withLeadingCharacter, hx, hc, hs, first,
                    getNextArgumentInt_cons_succ, getNextArgumentString_cons_succ,
                    getNextArgumentStringWithoutQuotationMarks_cons_succ,
                    getNextArgumentEnum_cons_succ,
                    getNextArgumentEnumWithoutQuotationMarks_cons_succ, d1, d2, d3, d4, d5, d6]
                | some r6 =>
                  obtain ⟨v6, p6⟩ := r6
                  cases d7 : ATCommand_GetNextArgumentEnumWithoutQuotationMarks rest p6
                      AdrasteaI_ATSMS_Storage_Location_Strings 30 ATCOMMAND_ARGUMENT_DELIM with
                  | none =>
                    simp [AdrasteaI_ATSMS_ReadMessageStorageUsage, sendAndWait_eq,
                      AdrasteaI_SendRequest, AdrasteaI_WaitForConfirm,
                      Exchange.withLeadingCharacter, hx, hc, hs, first,
                      getNextArgumentInt_cons_succ, getNextArgumentString_cons_succ,
                      getNextArgumentStringWithoutQuotationMarks_cons_succ,
                      getNextArgumentEnum_cons_succ,
                      getNextArgumentEnumWithoutQuotationMarks_cons_succ, d1, d2, d3, d4, d5, d6,
                      d7]
                  | some r7 =>
                    obtain ⟨v7, p7⟩ := r7
                    cases d8 : ATCommand_GetNextArgumentInt h rest p7 8 ATCOMMAND_ARGUMENT_DELIM with
                    | none =>
                      simp [AdrasteaI_ATSMS_ReadMessageStorageUsage, sendAndWait_eq,
                        AdrasteaI_SendRequest, AdrasteaI_WaitForConfirm,
                        Exchange.withLeadingCharacter, hx, hc, hs, first,
                        getNextArgumentInt_cons_succ, getNextArgumentString_cons_succ,
                        getNextArgumentStringWithoutQuotationMarks_cons_succ,
                        getNextArgumentEnum_cons_succ,
                        getNextArgumentEnumWithoutQuotationMarks_cons_succ, d1, d2, d3, d4, d5,
                        d6, d7, d8]
                    | some r8 =>
                      obtain ⟨v8, p8⟩ := r8
                      cases d9 : ATCommand_GetNextArgumentInt h rest p8 8 ATCOMMAND_STRING_TERMINATE with
                      | none =>
                        simp [AdrasteaI_ATSMS_ReadMessageStorageUsage, sendAndWait_eq,
                          AdrasteaI_SendRequest, AdrasteaI_WaitForConfirm,
                          Exchange.withLeadingCharacter, hx, hc, hs, first,
                          getNextArgumentInt_cons_succ, getNextArgumentString_cons_succ,
                          getNextArgumentStringWithoutQuotationMarks_cons_succ,
                          getNextArgumentEnum_cons_succ,
                          getNextArgumentEnumWithoutQuotationMarks_cons_succ, d1, d2, d3, d4, d5,
                          d6, d7, d8, d9]
                      | some r9 =>
                        obtain ⟨v9, p9⟩ := r9
                        simp [AdrasteaI_ATSMS_ReadMessageStorageUsage, sendAndWait_eq,
                          AdrasteaI_SendRequest, AdrasteaI_WaitForConfirm,
                          Exchange.withLeadingCharacter, hx, hc, hs, first,
                          getNextArgumentInt_cons_succ, getNextArgumentString_cons_succ,
                          getNextArgumentStringWithoutQuotationMarks_cons_succ,
                          getNextArgumentEnum_cons_succ,
                          getNextArgumentEnumWithoutQuotationMarks_cons_succ, d1, d2, d3, d4, d5,
                          d6, d7, d8, d9]

theorem ReadServiceCenterAddress_ignores_first_character (h : Header) (x : Exchange) (g : Globals)
    (c1 c2 : Char) (serviceCenterAddressP : Option AdrasteaI_ATSMS_Service_Center_Address_t) :
    AdrasteaI_ATSMS_ReadServiceCenterAddress h (x.withLeadingCharacter c1) g serviceCenterAddressP
      = AdrasteaI_ATSMS_ReadServiceCenterAddress h (x.withLeadingCharacter c2) g serviceCenterAddressP := by
  cases serviceCenterAddressP with
  | none => rfl
  | some o =>
    by_cases hx : x.transmitted = true
    swap
    · simp [AdrasteaI_ATSMS_ReadServiceCenterAddress, sendAndWait_eq, AdrasteaI_SendRequest,
        AdrasteaI_WaitForConfirm, Exchange.withLeadingCharacter, hx]
    cases hc : x.confirmation (h.AdrasteaI_GetTimeout .AdrasteaI_Timeout_SMS) with
    | none => simp [AdrasteaI_ATSMS_ReadServiceCenterAddress, sendAndWait_eq,
        AdrasteaI_SendRequest, AdrasteaI_WaitForConfirm, Exchange.withLeadingCharacter, hx, hc]
    | some r =>
      obtain ⟨status, rest⟩ := r
      have first := fun c => getNextArgumentStringWithoutQuotationMarks_cons_succ c rest 0
      simp only [Nat.zero_add] at first
      by_cases hs : status = .AdrasteaI_CNFStatus_Success
      swap
      · simp [AdrasteaI_ATSMS_ReadServiceCenterAddress, sendAndWait_eq, AdrasteaI_SendRequest,
          AdrasteaI_WaitForConfirm, Exchange.withLeadingCharacter, hx, hc, hs]
      cases d1 : ATCommand_GetNextArgumentStringWithoutQuotationMarks rest 0 ATCOMMAND_ARGUMENT_DELIM
          h.sizeof_Service_Center_Address_address with
      | none =>
        simp [AdrasteaI_ATSMS_ReadServiceCenterAddress, sendAndWait_eq, AdrasteaI_SendRequest,
          AdrasteaI_WaitForConfirm, Exchange.withLeadingCharacter, hx, hc, hs, first,
          getNextArgumentInt_cons_succ, getNextArgumentString_cons_succ,
          getNextArgumentStringWithoutQuotationMarks_cons_succ, getNextArgumentEnum_cons_succ,
          getNextArgumentEnumWithoutQuotationMarks_cons_succ, d1]
      | some r1 =>
        obtain ⟨v1, p1⟩ := r1
        cases d2 : ATCommand_GetNextArgumentInt h rest p1 16 ATCOMMAND_STRING_TERMINATE with
        | none =>
          simp [AdrasteaI_ATSMS_ReadServiceCenterAddress, sendAndWait_eq, AdrasteaI_SendRequest,
            AdrasteaI_WaitForConfirm, Exchange.withLeadingCharacter, hx, hc, hs, first,
            getNextArgumentInt_cons_succ, getNextArgumentString_cons_succ,
            getNextArgumentStringWithoutQuotationMarks_cons_succ, getNextArgumentEnum_cons_succ,
            getNextArgumentEnumWithoutQuotationMarks_cons_succ, d1, d2]
        | some r2 =>
          obtain ⟨v2, p2⟩ := r2
          simp [AdrasteaI_ATSMS_ReadServiceCenterAddress, sendAndWait_eq, AdrasteaI_SendRequest,
            AdrasteaI_WaitForConfirm, Exchange.withLeadingCharacter, hx, hc, hs, first,
            getNextArgumentInt_cons_succ, getNextArgumentString_cons_succ,
            getNextArgumentStringWithoutQuotationMarks_cons_succ, getNextArgumentEnum_cons_succ,
            getNextArgumentEnumWithoutQuotationMarks_cons_succ, d1, d2]

theorem SendMessageFromStorage_ignores_first_character (h : Header) (x : Exchange) (g : Globals)
    (c1 c2 : Char) (index : Nat) (messageReferenceP : Option Nat) :
    (AdrasteaI_ATSMS_SendMessageFromStorage h (x.withLeadingCharacter c1) g index messageReferenceP).map
        (fun r => (r.returned, r.output, r.calls))
      = (AdrasteaI_ATSMS_SendMessageFromStorage h (x.withLeadingCharacter c2) g index messageReferenceP).map
        (fun r => (r.returned, r.output, r.calls)) := by
  cases messageReferenceP with
  | none => rfl
  | some o =>
    cases hq : AdrasteaI_ATSMS_SendMessageFromStorage_request h g index with
    | error e => cases e <;> simp [AdrasteaI_ATSMS_SendMessageFromStorage, hq]
    | ok g2 =>
      by_cases hx : x.transmitted = true
      swap
      · simp [AdrasteaI_ATSMS_SendMessageFromStorage, sendAndWait_eq, AdrasteaI_SendRequest,
          AdrasteaI_WaitForConfirm, Exchange.withLeadingCharacter, hq, hx]
      cases hc : x.confirmation (h.AdrasteaI_GetTimeout .AdrasteaI_Timeout_SMS) with
      | none => simp [AdrasteaI_ATSMS_SendMessageFromStorage, sendAndWait_eq,
          AdrasteaI_SendRequest, AdrasteaI_WaitForConfirm, Exchange.withLeadingCharacter, hq, hx,
          hc]
      | some r =>
        obtain ⟨status, rest⟩ := r
        have first := fun c => getNextArgumentInt_cons_succ h c rest 0
        simp only [Nat.zero_add] at first
        by_cases hs : status = .AdrasteaI_CNFStatus_Success
        swap
        · simp [AdrasteaI_ATSMS_SendMessageFromStorage, sendAndWait_eq, AdrasteaI_SendRequest,
            AdrasteaI_WaitForConfirm, Exchange.withLeadingCharacter, hq, hx, hc, hs]
        cases d1 : ATCommand_GetNextArgumentInt h rest 0 8 ATCOMMAND_STRING_TERMINATE with
        | none =>
          simp [AdrasteaI_ATSMS_SendMessageFromStorage, sendAndWait_eq, AdrasteaI_SendRequest,
            AdrasteaI_WaitForConfirm, Exchange.withLeadingCharacter, hq, hx, hc, hs, first,
            getNextArgumentInt_cons_succ, getNextArgumentString_cons_succ,
            getNextArgumentStringWithoutQuotationMarks_cons_succ, getNextArgumentEnum_cons_succ,
            getNextArgumentEnumWithoutQuotationMarks_cons_succ, d1]
        | some r1 =>
          obtain ⟨v1, p1⟩ := r1
          simp [AdrasteaI_ATSMS_SendMessageFromStorage, sendAndWait_eq, AdrasteaI_SendRequest,
            AdrasteaI_WaitForConfirm, Exchange.withLeadingCharacter, hq, hx, hc, hs, first,
            getNextArgumentInt_cons_succ, getNextArgumentString_cons_succ,
            getNextArgumentStringWithoutQuotationMarks_cons_succ, getNextArgumentEnum_cons_succ,
            getNextArgumentEnumWithoutQuotationMarks_cons_succ, d1]

/-- C35: for each of the seven functions that skip one character of the captured response
before the first decode, two exchanges that differ only in the first character of every
captured response (responses of length at least 1) give the same return value, the same
output object and the same calls to the engine: the first character of the response is
never part of a decoded token. -/
theorem response_decoders_ignore_first_character (h : Header) (x : Exchange) (g : Globals)
    (c1 c2 : Char) :
    (∀ stateP,
      AdrasteaI_ATProprietary_ReadNetworkAttachmentState h (x.withLeadingCharacter c1) g stateP
        = AdrasteaI_ATProprietary_ReadNetworkAttachmentState h (x.withLeadingCharacter c2) g
            stateP)
    ∧ (∀ attemptsP,
      (AdrasteaI_ATProprietary_ReadRemainingPINPUKAttempts h (x.withLeadingCharacter c1) g
          attemptsP).returned
        = (AdrasteaI_ATProprietary_ReadRemainingPINPUKAttempts h (x.withLeadingCharacter c2) g
          attemptsP).returned
      ∧ (AdrasteaI_ATProprietary_ReadRemainingPINPUKAttempts h (x.withLeadingCharacter c1) g
          attemptsP).output
        = (AdrasteaI_ATProprietary_ReadRemainingPINPUKAttempts h (x.withLeadingCharacter c2) g
          attemptsP).output
      ∧ (AdrasteaI_ATProprietary_ReadRemainingPINPUKAttempts h (x.withLeadingCharacter c1) g
          attemptsP).calls
        = (AdrasteaI_ATProprietary_ReadRemainingPINPUKAttempts h (x.withLeadingCharacter c2) g
          attemptsP).calls)
    ∧ (∀ ratstatusP,
      AdrasteaI_ATProprietary_ReadRATStatus h (x.withLeadingCharacter c1) g ratstatusP
        = AdrasteaI_ATProprietary_ReadRATStatus h (x.withLeadingCharacter c2) g ratstatusP)
    ∧ (∀ parametersP,
      AdrasteaI_ATProprietary_ReadPDNParameters h (x.withLeadingCharacter c1) g parametersP
        = AdrasteaI_ATProprietary_ReadPDNParameters h (x.withLeadingCharacter c2) g parametersP)
    ∧ (∀ storageUsageP,
      AdrasteaI_ATSMS_ReadMessageStorageUsage h (x.withLeadingCharacter c1) g storageUsageP
        = AdrasteaI_ATSMS_ReadMessageStorageUsage h (x.withLeadingCharacter c2) g storageUsageP)
    ∧ (∀ serviceCenterAddressP,
      AdrasteaI_ATSMS_ReadServiceCenterAddress h (x.withLeadingCharacter c1) g
          serviceCenterAddressP
        = AdrasteaI_ATSMS_ReadServiceCenterAddress h (x.withLeadingCharacter c2) g
          serviceCenterAddressP)
    ∧ (∀ index messageReferenceP,
      (AdrasteaI_ATSMS_SendMessageFromStorage h (x.withLeadingCharacter c1) g index
          messageReferenceP).map (fun r => (r.returned, r.output, r.calls))
        = (AdrasteaI_ATSMS_SendMessageFromStorage h (x.withLeadingCharacter c2) g index
          messageReferenceP).map (fun r => (r.returned, r.output, r.calls))) :=
  ⟨fun p => ReadNetworkAttachmentState_ignores_first_character h x g c1 c2 p,
    fun p => ReadRemainingPINPUKAttempts_ignores_first_character h x g c1 c2 p,
    fun p => ReadRATStatus_ignores_first_character h x g c1 c2 p,
    fun p => ReadPDNParameters_ignores_first_character h x g c1 c2 p,
    fun p => ReadMessageStorageUsage_ignores_first_character h x g c1 c2 p,
    fun p => ReadServiceCenterAddress_ignores_first_character h x g c1 c2 p,
    fun i p => SendMessageFromStorage_ignores_first_character h x g c1 c2 i p⟩


/-! ## The request of a call with valid arguments in a buffer with room -/

end Adrastea
